import Mathlib

/-!
# Collision and trigger systems of the arena shooter

A shallow embedding of `pkg/globals/collision.go` and `pkg/globals/trigger.go`, of the event
bus of `pkg/events`, of the entities of `pkg/entities`, of the scene builder of `pkg/scenes`
and of the world scene of `internal/scenes`.

Modelling conventions

* `float32` values are carried as rationals (`ℚ`), every finite `float32` being one.
  The functions of the main embedding compute with exact arithmetic; the theorems
  about them follow the control flow or compare values.  Where the result of an
  arithmetic operation matters (the box that `CheckMovement` tests, the sphere
  heuristic of `checkCollision`, the boxes of bullets and enemies) the functions of
  the namespace `Rounded` pass the result of every operation through a rounding
  function `fl`; `F32.round` rounds to the nearest `float32`, a tie going to the even
  significand.  Overflow, infinities and NaN are outside the model.
* The event bus is embedded twice: as a map from event types to lists of observers,
  and, for the snapshot taken by `Notify`, at the level of memory, with slices that
  share backing arrays and the read-write lock (`BusMemory`, `LockedBus`).
* Go interface values that hold pointers are compared by identity; an object is
  therefore represented by a reference `Ref`, and the mutable fields of all
  objects live in a heap of an arbitrary type `σ`.  The methods of the
  `Collidable` and `Triggerable` interfaces are given as a table of functions
  reading or updating that heap.
* Callbacks (`OnCollision`, `OnTriggerEnter`) are heap transformers; the
  registries of the two systems are not part of the heap, so a callback cannot
  register or unregister objects while `Update` runs (no callback of the
  repository does).
* `Update` returns the final heap together with the log of callback
  invocations it made, oldest first.
* The entities live in a heap `World β` that maps every pointer to the object
  behind it, tagged with its dynamic type; a type assertion is a match on that
  tag, and a panic is the result `none`.
* Console and log output, the camera and the renderer are not modelled.
-/

namespace Arpg

/-- Go `float32`: a finite value is a rational number.  The rounding of arithmetic results is
`F32.round`; the functions of the namespace `Rounded` apply it after every operation. -/
abbrev float32 : Type := ℚ

/-- Identity of an object behind an interface value (the pointer it holds). -/
abbrev Ref : Type := Nat

/-- `rl.Vector3`. -/
structure Vector3 where
  X : float32
  Y : float32
  Z : float32
  deriving DecidableEq

/-- `rl.BoundingBox`. -/
structure BoundingBox where
  Min : Vector3
  Max : Vector3
  deriving DecidableEq

/-- Modelled from the spec: `rl.CheckCollisionBoxes` is the raylib library's box-versus-box
test, the "AABB-vs-AABB intersection" of the specification; boxes whose faces merely touch
overlap (the comparisons are inclusive). -/
def CheckCollisionBoxes (box1 box2 : BoundingBox) : Bool :=
  if box1.Max.X ≥ box2.Min.X ∧ box1.Min.X ≤ box2.Max.X then
    (!decide (box1.Max.Y < box2.Min.Y ∨ box1.Min.Y > box2.Max.Y)) &&
      (!decide (box1.Max.Z < box2.Min.Z ∨ box1.Min.Z > box2.Max.Z))
  else
    false

/-- Squared distance, on one axis, from the coordinate `c` to the interval `[lo, hi]`. -/
def axisDistSq (c lo hi : float32) : float32 :=
  if c < lo then (c - lo) * (c - lo)
  else if c > hi then (c - hi) * (c - hi)
  else 0

/-- Modelled from the spec: `rl.CheckCollisionBoxSphere` is the raylib library's box-versus-sphere
test, the "box-vs-sphere intersection" of the specification: the squared distance from the
sphere's centre to the box is at most the squared radius. -/
def CheckCollisionBoxSphere (box : BoundingBox) (center : Vector3) (radius : float32) : Bool :=
  decide (axisDistSq center.X box.Min.X box.Max.X + axisDistSq center.Y box.Min.Y box.Max.Y
    + axisDistSq center.Z box.Min.Z box.Max.Z ≤ radius * radius)

/-- Go `slices.Contains` on a slice of strings. -/
def slices.Contains (s : List String) (v : String) : Bool :=
  s.any (fun x => x == v)

/-- Go `slices.Delete(s, i, j)`: removes `s[i:j]`; panics (`none`) unless `i ≤ j ≤ len(s)`. -/
def slices.Delete {α : Type} (s : List α) (i j : Nat) : Option (List α) :=
  if i ≤ j ∧ j ≤ s.length then some (s.take i ++ s.drop j) else none

/-- One callback invocation `receiver.OnCollision(argument)` or
`receiver.OnTriggerEnter(argument)`. -/
abbrev Call : Type := Ref × Ref

/-- The method table of the `Collidable` interface over a heap `σ`. -/
structure Collidable (σ : Type) where
  GetBoundingBox : σ → Ref → BoundingBox
  GetCollisionTags : σ → Ref → List String
  OnCollision : Ref → Ref → σ → σ
  IsActive : σ → Ref → Bool

/-- `CollisionSystem`: the registered collidables, in registration order. -/
structure CollisionSystem where
  collidables : List Ref
  deriving DecidableEq

namespace CollisionSystem

/-- `InitCollision`. -/
def Init : CollisionSystem := ⟨[]⟩

/-- `RegisterCollidable`. -/
def RegisterCollidable (cs : CollisionSystem) (obj : Ref) : CollisionSystem :=
  ⟨cs.collidables ++ [obj]⟩

/-- The `range` loop of the unregister functions: `all` is the whole slice, the last argument
its not yet visited part, which starts at index `i`. -/
def unregisterLoop (all : List Ref) (obj : Ref) : Nat → List Ref → Option (List Ref)
  | _, [] => some all
  | i, collidable :: rest =>
    if collidable = obj then slices.Delete all i (i + 1)
    else unregisterLoop all obj (i + 1) rest

/-- `UnregisterCollidable`; `none` stands for a panic. -/
def UnregisterCollidable (cs : CollisionSystem) (obj : Ref) : Option CollisionSystem :=
  (unregisterLoop cs.collidables obj 0 cs.collidables).map (fun l => ⟨l⟩)

/-- `ClearAll`. -/
def ClearAll (_cs : CollisionSystem) : CollisionSystem := ⟨[]⟩

/-- The `collisionRules` map literal of `shouldCollide`. -/
def collisionRules : List (String × List String) :=
  [("player", ["obstacle", "enemy", "health_pickup"]),
   ("bullet", ["obstacle", "enemy"]),
   ("enemy", ["player", "bullet", "obstacle"]),
   ("obstacle", ["player", "bullet", "enemy", "obstacle"]),
   ("health_pickup", ["player"])]

/-- `shouldCollide`. -/
def shouldCollide {σ : Type} (I : Collidable σ) (s : σ) (objA objB : Ref) : Bool :=
  if objA = objB then false
  else if (!I.IsActive s objA) || (!I.IsActive s objB) then false
  else
    let tagsA := I.GetCollisionTags s objA
    let tagsB := I.GetCollisionTags s objB
    tagsA.any (fun tagA =>
      match collisionRules.lookup tagA with
      | some allowedTags => tagsB.any (fun tagB => slices.Contains allowedTags tagB)
      | none => false)

/-- `isSpherelike`. -/
def isSpherelike (box : BoundingBox) : Bool :=
  let width := box.Max.X - box.Min.X
  let height := box.Max.Y - box.Min.Y
  let depth := box.Max.Z - box.Min.Z
  decide (width < 1) && decide (height < 1) && decide (depth < 1)

/-- The body of `checkCollision` on the two bounding boxes. -/
def checkCollisionBoxes (boxA boxB : BoundingBox) : Bool :=
  if isSpherelike boxA || isSpherelike boxB then
    if isSpherelike boxA then
      let center : Vector3 :=
        ⟨(boxA.Min.X + boxA.Max.X) / 2, (boxA.Min.Y + boxA.Max.Y) / 2,
          (boxA.Min.Z + boxA.Max.Z) / 2⟩
      let radius := (boxA.Max.X - boxA.Min.X) / 2
      CheckCollisionBoxSphere boxB center radius
    else
      let center : Vector3 :=
        ⟨(boxB.Min.X + boxB.Max.X) / 2, (boxB.Min.Y + boxB.Max.Y) / 2,
          (boxB.Min.Z + boxB.Max.Z) / 2⟩
      let radius := (boxB.Max.X - boxB.Min.X) / 2
      CheckCollisionBoxSphere boxA center radius
  else
    CheckCollisionBoxes boxA boxB

/-- `checkCollision`. -/
def checkCollision {σ : Type} (I : Collidable σ) (s : σ) (objA objB : Ref) : Bool :=
  checkCollisionBoxes (I.GetBoundingBox s objA) (I.GetBoundingBox s objB)

/-- `getPenetrationDepth`. -/
def getPenetrationDepth (min1 max1 min2 max2 : float32) : float32 :=
  if min1 > max2 ∨ max1 < min2 then 0
  else
    let overlapStart := max min1 min2
    let overlapEnd := min max1 max2
    overlapEnd - overlapStart

/-- `isMovementIncreasingPenetration`. -/
def isMovementIncreasingPenetration (originalBox newBox targetBox : BoundingBox) : Bool :=
  let originalPenetrationX :=
    getPenetrationDepth originalBox.Min.X originalBox.Max.X targetBox.Min.X targetBox.Max.X
  let originalPenetrationZ :=
    getPenetrationDepth originalBox.Min.Z originalBox.Max.Z targetBox.Min.Z targetBox.Max.Z
  let newPenetrationX :=
    getPenetrationDepth newBox.Min.X newBox.Max.X targetBox.Min.X targetBox.Max.X
  let newPenetrationZ :=
    getPenetrationDepth newBox.Min.Z newBox.Max.Z targetBox.Min.Z targetBox.Max.Z
  decide (newPenetrationX > originalPenetrationX) || decide (newPenetrationZ > originalPenetrationZ)

/-- The box `tempBox` that `CheckMovement` builds: `originalBox` moved by the offset from its
centre to `newPos`, in exact arithmetic; `Rounded.tempBox` is the same box with every operation
rounded. -/
def tempBox (originalBox : BoundingBox) (newPos : Vector3) : BoundingBox :=
  let offset : Vector3 :=
    ⟨newPos.X - (originalBox.Min.X + originalBox.Max.X) / 2,
     newPos.Y - (originalBox.Min.Y + originalBox.Max.Y) / 2,
     newPos.Z - (originalBox.Min.Z + originalBox.Max.Z) / 2⟩
  ⟨⟨originalBox.Min.X + offset.X, originalBox.Min.Y + offset.Y, originalBox.Min.Z + offset.Z⟩,
   ⟨originalBox.Max.X + offset.X, originalBox.Max.Y + offset.Y, originalBox.Max.Z + offset.Z⟩⟩

/-- The `range` loop of `CheckMovement` over the registered collidables. -/
def checkMovementLoop {σ : Type} (I : Collidable σ) (s : σ) (obj : Ref)
    (originalBox tmpBox : BoundingBox) : List Ref → Bool
  | [] => true
  | other :: rest =>
    if other = obj ∨ I.IsActive s other = false then
      checkMovementLoop I s obj originalBox tmpBox rest
    else if shouldCollide I s obj other then
      let otherBox := I.GetBoundingBox s other
      if CheckCollisionBoxes tmpBox otherBox then
        let otherTags := I.GetCollisionTags s other
        let isEnemy := slices.Contains otherTags "enemy"
        if isEnemy && CheckCollisionBoxes originalBox otherBox then
          if !isMovementIncreasingPenetration originalBox tmpBox otherBox then
            checkMovementLoop I s obj originalBox tmpBox rest
          else false
        else false
      else checkMovementLoop I s obj originalBox tmpBox rest
    else checkMovementLoop I s obj originalBox tmpBox rest

/-- `CheckMovement`. -/
def CheckMovement {σ : Type} (I : Collidable σ) (cs : CollisionSystem) (s : σ) (obj : Ref)
    (newPos : Vector3) : Bool :=
  let originalBox := I.GetBoundingBox s obj
  checkMovementLoop I s obj originalBox (tempBox originalBox newPos) cs.collidables

/-- The body of the inner loop of `Update` on the objects `objA`, `objB` found at the indices
`i < j`. -/
def updatePair {σ : Type} (I : Collidable σ) (objA objB : Ref) (st : σ × List Call) :
    σ × List Call :=
  if I.IsActive st.1 objB = false then st
  else if shouldCollide I st.1 objA objB then
    if checkCollision I st.1 objA objB then
      (I.OnCollision objB objA (I.OnCollision objA objB st.1), st.2 ++ [(objA, objB), (objB, objA)])
    else st
  else st

/-- The body of the outer loop of `Update` at index `i`: the inner loop runs `j` from `i + 1`
up to the length of the registry. -/
def updateRow {σ : Type} (I : Collidable σ) (cs : CollisionSystem) (st : σ × List Call)
    (i : Nat) : σ × List Call :=
  let objA := cs.collidables.getD i 0
  if I.IsActive st.1 objA = false then st
  else
    (List.range' (i + 1) (cs.collidables.length - (i + 1))).foldl
      (fun st j => updatePair I objA (cs.collidables.getD j 0) st) st

/-- `Update`: the final heap and the callbacks invoked, in order. -/
def Update {σ : Type} (I : Collidable σ) (cs : CollisionSystem) (s : σ) : σ × List Call :=
  (List.range cs.collidables.length).foldl (updateRow I cs) (s, [])

end CollisionSystem

/-- The method table of the `Triggerable` interface over a heap `σ`. -/
structure Triggerable (σ : Type) where
  GetTriggerBounds : σ → Ref → BoundingBox
  GetTriggerTags : σ → Ref → List String
  OnTriggerEnter : Ref → Ref → σ → σ
  IsActive : σ → Ref → Bool

/-- `TriggerSystem`: the registered triggers and the collidables they can sense. -/
structure TriggerSystem where
  triggers : List Ref
  collidables : List Ref
  deriving DecidableEq

namespace TriggerSystem

/-- `InitTriggers`. -/
def Init : TriggerSystem := ⟨[], []⟩

/-- `RegisterTrigger`. -/
def RegisterTrigger (ts : TriggerSystem) (trigger : Ref) : TriggerSystem :=
  { ts with triggers := ts.triggers ++ [trigger] }

/-- `UnregisterTrigger`; `none` stands for a panic. -/
def UnregisterTrigger (ts : TriggerSystem) (trigger : Ref) : Option TriggerSystem :=
  (CollisionSystem.unregisterLoop ts.triggers trigger 0 ts.triggers).map
    (fun l => { ts with triggers := l })

/-- `RegisterCollidable` of the trigger system. -/
def RegisterCollidable (ts : TriggerSystem) (collidable : Ref) : TriggerSystem :=
  { ts with collidables := ts.collidables ++ [collidable] }

/-- `UnregisterCollidable` of the trigger system; `none` stands for a panic. -/
def UnregisterCollidable (ts : TriggerSystem) (collidable : Ref) : Option TriggerSystem :=
  (CollisionSystem.unregisterLoop ts.collidables collidable 0 ts.collidables).map
    (fun l => { ts with collidables := l })

/-- `ClearAll` of the trigger system. -/
def ClearAll (_ts : TriggerSystem) : TriggerSystem := ⟨[], []⟩

/-- The `triggerRules` map literal of `shouldTrigger`. -/
def triggerRules : List (String × List String) :=
  [("health_pickup", ["player"])]

/-- `shouldTrigger`. -/
def shouldTrigger {σ : Type} (T : Triggerable σ) (C : Collidable σ) (s : σ)
    (trigger collidable : Ref) : Bool :=
  let triggerTags := T.GetTriggerTags s trigger
  let collidableTags := C.GetCollisionTags s collidable
  triggerTags.any (fun triggerTag =>
    match triggerRules.lookup triggerTag with
    | some allowedTags =>
      collidableTags.any (fun collidableTag => slices.Contains allowedTags collidableTag)
    | none => false)

/-- `checkTriggerCollision`. -/
def checkTriggerCollision (triggerBounds collidableBounds : BoundingBox) : Bool :=
  CheckCollisionBoxes triggerBounds collidableBounds

/-- The body of the inner loop of `Update`; `triggerBounds` was read before the loop. -/
def updateSense {σ : Type} (T : Triggerable σ) (C : Collidable σ) (trigger : Ref)
    (triggerBounds : BoundingBox) (st : σ × List Call) (collidable : Ref) : σ × List Call :=
  if C.IsActive st.1 collidable = false then st
  else if shouldTrigger T C st.1 trigger collidable then
    if checkTriggerCollision triggerBounds (C.GetBoundingBox st.1 collidable) then
      (T.OnTriggerEnter trigger collidable st.1, st.2 ++ [(trigger, collidable)])
    else st
  else st

/-- The body of the outer loop of `Update` for one trigger. -/
def updateTrigger {σ : Type} (T : Triggerable σ) (C : Collidable σ) (ts : TriggerSystem)
    (st : σ × List Call) (trigger : Ref) : σ × List Call :=
  if T.IsActive st.1 trigger = false then st
  else
    let triggerBounds := T.GetTriggerBounds st.1 trigger
    ts.collidables.foldl (updateSense T C trigger triggerBounds) st

/-- `Update` of the trigger system: the final heap and the `OnTriggerEnter` calls made, in
order. -/
def Update {σ : Type} (T : Triggerable σ) (C : Collidable σ) (ts : TriggerSystem) (s : σ) :
    σ × List Call :=
  ts.triggers.foldl (updateTrigger T C ts) (s, [])

end TriggerSystem

/-! ## The mock objects of the test files, as a concrete heap -/

/-- `MockCollidable` of `collision_test.go`. -/
structure MockCollidable where
  BoundingBox : BoundingBox
  CollisionTags : List String
  ActiveState : Bool
  CallbackCalled : Bool
  CallbackOther : Option Ref

/-- `MockTriggerable` of `trigger_test.go`. -/
structure MockTriggerable where
  TriggerBounds : BoundingBox
  TriggerTags : List String
  ActiveState : Bool
  CallbackCalled : Bool
  CallbackOther : Option Ref
  CallbackCount : Int

/-- A heap of mock objects: the collidable and the triggerable behind each reference. -/
structure MockHeap where
  collidable : Ref → MockCollidable
  triggerable : Ref → MockTriggerable

/-- The methods of `MockCollidable`: `OnCollision` records that it ran and with whom. -/
def mockCollidable : Collidable MockHeap where
  GetBoundingBox := fun s r => (s.collidable r).BoundingBox
  GetCollisionTags := fun s r => (s.collidable r).CollisionTags
  OnCollision := fun self other s =>
    let m := s.collidable self
    { s with collidable := Function.update s.collidable self
              ({ m with CallbackCalled := true, CallbackOther := some other }) }
  IsActive := fun s r => (s.collidable r).ActiveState

/-- The methods of `MockTriggerable`: `OnTriggerEnter` records that it ran, with whom, and
counts the calls. -/
def mockTriggerable : Triggerable MockHeap where
  GetTriggerBounds := fun s r => (s.triggerable r).TriggerBounds
  GetTriggerTags := fun s r => (s.triggerable r).TriggerTags
  OnTriggerEnter := fun self other s =>
    let m := s.triggerable self
    { s with triggerable := Function.update s.triggerable self
              ({ m with CallbackCalled := true, CallbackOther := some other,
                        CallbackCount := m.CallbackCount + 1 }) }
  IsActive := fun s r => (s.triggerable r).ActiveState

/-- A fresh `MockCollidable` with the given corners, tags and active flag. -/
def newMock (lo hi : Vector3) (tags : List String) (active : Bool) : MockCollidable :=
  ⟨⟨lo, hi⟩, tags, active, false, none⟩

/-- A fresh `MockTriggerable` with the given corners, tags and active flag. -/
def newMockTrigger (lo hi : Vector3) (tags : List String) (active : Bool) : MockTriggerable :=
  ⟨⟨lo, hi⟩, tags, active, false, none, 0⟩

/-- A heap holding the listed mock collidables at the references `0, 1, ...` and the listed
mock triggerables at `0, 1, ...`; every other reference holds an inactive object. -/
def mockHeap (cs : List MockCollidable) (ts : List MockTriggerable) : MockHeap where
  collidable := fun r => cs.getD r (newMock ⟨0, 0, 0⟩ ⟨0, 0, 0⟩ [] false)
  triggerable := fun r => ts.getD r (newMockTrigger ⟨0, 0, 0⟩ ⟨0, 0, 0⟩ [] false)

/-- The multi-tagged object and the enemy of `TestCollisionSystemEdgeCases` at references 0 and
1, a health pickup at reference 2 and an inactive enemy at reference 3. -/
def edgeCaseHeap : MockHeap :=
  mockHeap [newMock ⟨0, 0, 0⟩ ⟨1, 1, 1⟩ ["player", "test"] true,
            newMock ⟨1 / 2, 0, 0⟩ ⟨3 / 2, 1, 1⟩ ["enemy"] true,
            newMock ⟨0, 0, 0⟩ ⟨1 / 2, 1 / 2, 1 / 2⟩ ["health_pickup"] true,
            newMock ⟨0, 0, 0⟩ ⟨1, 1, 1⟩ ["enemy"] false] []

/-- A health-pickup trigger at reference 0 and an inactive one at reference 1, with the player
at reference 0, an enemy at reference 1 and a far-away player at reference 2, all collidables
overlapping the triggers except the last. -/
def pickupHeap : MockHeap :=
  mockHeap [newMock ⟨0, 0, 0⟩ ⟨1, 1, 1⟩ ["player"] true,
            newMock ⟨0, 0, 0⟩ ⟨1, 1, 1⟩ ["enemy"] true,
            newMock ⟨5, 0, 0⟩ ⟨6, 1, 1⟩ ["player"] true]
           [newMockTrigger ⟨1 / 2, 0, 0⟩ ⟨3 / 2, 1, 1⟩ ["health_pickup"] true,
            newMockTrigger ⟨1 / 2, 0, 0⟩ ⟨3 / 2, 1, 1⟩ ["health_pickup"] false]

/-! ## Notions used to state the properties -/

/-- The pairs of tags that the rule table of `shouldCollide` lists: `b` is allowed for `a`. -/
def RuleAllows (a b : String) : Prop :=
  (a = "player" ∧ b ∈ ["obstacle", "enemy", "health_pickup"]) ∨
  (a = "bullet" ∧ b ∈ ["obstacle", "enemy"]) ∨
  (a = "enemy" ∧ b ∈ ["player", "bullet", "obstacle"]) ∨
  (a = "obstacle" ∧ b ∈ ["player", "bullet", "enemy", "obstacle"]) ∨
  (a = "health_pickup" ∧ b ∈ ["player"])

/-- The heaps `s` and `t` show the same active flag, bounding box and tags for every object. -/
def Collidable.SameView {σ : Type} (I : Collidable σ) (s t : σ) : Prop :=
  ∀ r, I.IsActive s r = I.IsActive t r ∧ I.GetBoundingBox s r = I.GetBoundingBox t r ∧
    I.GetCollisionTags s r = I.GetCollisionTags t r

/-- Every `OnCollision` callback leaves the active flag, bounding box and tags of every object
as they were. -/
def Collidable.Passive {σ : Type} (I : Collidable σ) : Prop :=
  ∀ (self other : Ref) (t : σ), I.SameView (I.OnCollision self other t) t

/-- The index pairs `(i, j)` with `i < j < n`, in lexicographic order. -/
def indexPairs (n : Nat) : List (Nat × Nat) :=
  ((List.range n).product (List.range n)).filter (fun p => decide (p.1 < p.2))

/-- The heaps `s` and `t` show the same active flag, bounds and tags for every trigger. -/
def Triggerable.SameView {σ : Type} (T : Triggerable σ) (s t : σ) : Prop :=
  ∀ r, T.IsActive s r = T.IsActive t r ∧ T.GetTriggerBounds s r = T.GetTriggerBounds t r ∧
    T.GetTriggerTags s r = T.GetTriggerTags t r

/-- Every `OnTriggerEnter` callback leaves the active flag, box and tags of every trigger and
of every collidable as they were. -/
def Triggerable.Passive {σ : Type} (T : Triggerable σ) (C : Collidable σ) : Prop :=
  ∀ (self other : Ref) (t : σ),
    T.SameView (T.OnTriggerEnter self other t) t ∧ C.SameView (T.OnTriggerEnter self other t) t

/-- The `n` consecutive calls `Update(); ...; Update()` of the trigger system, each starting from
the heap the previous one left; the `OnTriggerEnter` calls of all rounds, in order. -/
def TriggerSystem.UpdateTimes {σ : Type} (T : Triggerable σ) (C : Collidable σ)
    (ts : TriggerSystem) : Nat → σ → σ × List Call
  | 0, s => (s, [])
  | n + 1, s =>
    let r := TriggerSystem.UpdateTimes T C ts n s
    let r2 := TriggerSystem.Update T C ts r.1
    (r2.1, r.2 ++ r2.2)

/-- The heaps `s` and `u` show the same active flag, bounds and tags for the trigger `t` and the
same active flag, box and tags for the collidable `c`. -/
def SamePair {σ : Type} (T : Triggerable σ) (C : Collidable σ) (t c : Ref) (s u : σ) : Prop :=
  T.IsActive s t = T.IsActive u t ∧ T.GetTriggerBounds s t = T.GetTriggerBounds u t ∧
  T.GetTriggerTags s t = T.GetTriggerTags u t ∧ C.IsActive s c = C.IsActive u c ∧
  C.GetBoundingBox s c = C.GetBoundingBox u c ∧ C.GetCollisionTags s c = C.GetCollisionTags u c

/-- No `OnTriggerEnter` callback changes the trigger `t` or the collidable `c`. -/
def KeepsPair {σ : Type} (T : Triggerable σ) (C : Collidable σ) (t c : Ref) : Prop :=
  ∀ (self other : Ref) (u : σ), SamePair T C t c (T.OnTriggerEnter self other u) u

/-- The objects of `TestTriggerMultipleUpdates`: a health-pickup trigger at reference 0 and an
overlapping player at reference 0. -/
def multiUpdateHeap : MockHeap :=
  mockHeap [newMock ⟨1 / 2, 0, 0⟩ ⟨3 / 2, 1, 1⟩ ["player"] true]
           [newMockTrigger ⟨0, 0, 0⟩ ⟨1, 1, 1⟩ ["health_pickup"] true]

/-- The objects of `TestTriggerRules`: a health-pickup trigger at reference 0 and a trigger with an
unknown tag at reference 1; a player at reference 0 and an enemy at reference 1. -/
def triggerRulesHeap : MockHeap :=
  mockHeap [newMock ⟨0, 0, 0⟩ ⟨0, 0, 0⟩ ["player"] true,
            newMock ⟨0, 0, 0⟩ ⟨0, 0, 0⟩ ["enemy"] true]
           [newMockTrigger ⟨0, 0, 0⟩ ⟨0, 0, 0⟩ ["health_pickup"] true,
            newMockTrigger ⟨0, 0, 0⟩ ⟨0, 0, 0⟩ ["unknown_trigger"] true]

/-! ## The event bus (`pkg/events`) -/

/-- Go `error`: `nil` is `none`, an error is `some` of its message. -/
abbrev error : Type := Option String

/-- `BulletSpawnEvent`. -/
structure BulletSpawnEvent where
  Position : Vector3
  Direction : Vector3
  Speed : float32
  Lifetime : float32
  Damage : float32
  deriving DecidableEq

/-- `EnemyKilledEvent`. -/
structure EnemyKilledEvent where
  EnemyId : String
  Position : Vector3
  Killer : String
  deriving DecidableEq

/-- `PlayerDamagedEvent`. -/
structure PlayerDamagedEvent where
  Damage : float32
  Source : String
  NewHealth : float32
  Position : Vector3
  deriving DecidableEq

/-- `HealthPickupEvent`. -/
structure HealthPickupEvent where
  HealAmount : float32
  PickupId : String
  Position : Vector3
  NewHealth : float32
  deriving DecidableEq

/-- `GameOverEvent`. -/
structure GameOverEvent where
  Reason : String
  FinalScore : Int
  Playtime : float32
  deriving DecidableEq

/-- `VictoryEvent`. -/
structure VictoryEvent where
  EnemiesKilled : Int
  TimeElapsed : float32
  Score : Int
  deriving DecidableEq

/-- The values an `Event.Data` of type `interface{}` holds: one of the payload structs of
`game_events.go`, a string (as in the tests), or `nil`. -/
inductive EventData where
  | bulletSpawn (d : BulletSpawnEvent)
  | enemyKilled (d : EnemyKilledEvent)
  | playerDamaged (d : PlayerDamagedEvent)
  | healthPickup (d : HealthPickupEvent)
  | gameOver (d : GameOverEvent)
  | victory (d : VictoryEvent)
  | text (d : String)
  | null
  deriving DecidableEq

/-- `Event`; the field `Type` of the source is written `Type_`. -/
structure Event where
  Type_ : String
  Data : EventData
  deriving DecidableEq

/-- `EventTypeBulletSpawn`. -/
def EventTypeBulletSpawn : String := "bullet_spawn"

/-- `EventTypeEnemyKilled`. -/
def EventTypeEnemyKilled : String := "enemy_killed"

/-- `EventTypePlayerDamaged`. -/
def EventTypePlayerDamaged : String := "player_damaged"

/-- `EventTypeHealthPickup`. -/
def EventTypeHealthPickup : String := "health_pickup"

/-- `EventTypeGameOver`. -/
def EventTypeGameOver : String := "game_over"

/-- `EventTypeVictory`. -/
def EventTypeVictory : String := "victory"

/-- `NewBulletSpawnEvent`. -/
def NewBulletSpawnEvent (pos dir : Vector3) (speed lifetime damage : float32) : Event :=
  ⟨EventTypeBulletSpawn, .bulletSpawn ⟨pos, dir, speed, lifetime, damage⟩⟩

/-- `NewPlayerDamagedEvent`. -/
def NewPlayerDamagedEvent (damage : float32) (source : String) (newHealth : float32)
    (pos : Vector3) : Event :=
  ⟨EventTypePlayerDamaged, .playerDamaged ⟨damage, source, newHealth, pos⟩⟩

/-- `NewGameOverEvent`. -/
def NewGameOverEvent (reason : String) (finalScore : Int) (playtime : float32) : Event :=
  ⟨EventTypeGameOver, .gameOver ⟨reason, finalScore, playtime⟩⟩

/-- The method table of the `Observer` interface over a heap `σ`: `OnNotify` of the observer
behind a reference may change the heap in any way and returns an error or `nil`. -/
structure Observer (σ : Type) where
  OnNotify : Ref → Event → σ → σ × error

/-- `EventBus`: the map from event type to the observers subscribed to it, in subscription
order.  Only `Subscribe` stores observers and it rejects `nil`, so the stored entries are
references.  The mutex is not modelled. -/
structure EventBus where
  observers : AList (fun _ : String => List Ref)

/-- `NewEventBus`. -/
def NewEventBus : EventBus := ⟨∅⟩

/-- What one `Notify` call did: the heap it left, every `OnNotify` call it made with the value
that call returned, in order, and the error it returned itself. -/
structure NotifyResult (σ : Type) where
  heap : σ
  delivered : List (Ref × error)
  err : error

namespace EventBus

/-- The slice `eb.observers[eventType]`: empty when the map has no such key. -/
def observersOf (eb : EventBus) (eventType : String) : List Ref :=
  (eb.observers.lookup eventType).getD []

/-- `Subscribe`: the bus afterwards and the returned error. -/
def Subscribe (eb : EventBus) (eventType : String) (observer : Option Ref) : EventBus × error :=
  match observer with
  | none => (eb, some "cannot subscribe nil observer")
  | some o => (⟨eb.observers.insert eventType (eb.observersOf eventType ++ [o])⟩, none)

/-- The `range` loop of `Unsubscribe` over `observers`: at the first index `i` whose entry is
`observer` it yields `append(observers[:i], observers[i+1:]...)`, the slice to store; `none` when
the loop ends without a match. -/
def unsubscribeLoop (observers : List Ref) (observer : Option Ref) :
    Nat → List Ref → Option (List Ref)
  | _, [] => none
  | i, obs :: rest =>
    if some obs = observer then some (observers.take i ++ observers.drop (i + 1))
    else unsubscribeLoop observers observer (i + 1) rest

/-- `Unsubscribe`: the bus afterwards and the returned error. -/
def Unsubscribe (eb : EventBus) (eventType : String) (observer : Option Ref) :
    EventBus × error :=
  match eb.observers.lookup eventType with
  | none => (eb, none)
  | some observers =>
    let eb1 : EventBus :=
      match unsubscribeLoop observers observer 0 observers with
      | some l => ⟨eb.observers.insert eventType l⟩
      | none => eb
    if (eb1.observersOf eventType).length = 0 then
      (⟨eb1.observers.erase eventType⟩, none)
    else (eb1, none)

/-- The body of the delivery loop of `Notify`: the heap, the calls made so far and the errors
collected so far. -/
def notifyStep {σ : Type} (O : Observer σ) (event : Event)
    (st : σ × List (Ref × error) × List String) (observer : Ref) :
    σ × List (Ref × error) × List String :=
  let r := O.OnNotify observer event st.1
  match r.2 with
  | some err => (r.1, st.2.1 ++ [(observer, r.2)],
      st.2.2 ++ ["observer notification failed: " ++ err])
  | none => (r.1, st.2.1 ++ [(observer, r.2)], st.2.2)

/-- `Notify`, called when the bus holds `eb` and the heap is `s`.  The observers run on the heap
and may, through it, change the bus; `Notify` itself reads the bus once, before the loop. -/
def Notify {σ : Type} (O : Observer σ) (eb : EventBus) (event : Event) (s : σ) :
    NotifyResult σ :=
  match eb.observers.lookup event.Type_ with
  | none => ⟨s, [], none⟩
  | some observers =>
    let observersCopy := observers
    let r := observersCopy.foldl (notifyStep O event) (s, [], [])
    if r.2.2.length > 0 then
      ⟨r.1, r.2.1, some ("notification errors occurred: [" ++ " ".intercalate r.2.2 ++ "]")⟩
    else ⟨r.1, r.2.1, none⟩

/-- `GetObserverCount`. -/
def GetObserverCount (eb : EventBus) (eventType : String) : Nat :=
  (eb.observersOf eventType).length

/-- `Clear`. -/
def Clear (_eb : EventBus) : EventBus := ⟨∅⟩

/-- `GetEventTypes`; the order of a Go map iteration is unspecified. -/
def GetEventTypes (eb : EventBus) : List String :=
  eb.observers.keys

end EventBus

/-- No event type is stored with an empty observer list. -/
def EventBus.NoEmpty (eb : EventBus) : Prop :=
  ∀ (t : String) (l : List Ref), eb.observers.lookup t = some l → l ≠ []

/-- Calling `OnNotify(event)` on each observer of a list in turn, each on the heap the previous
call left, whatever the calls return: the final heap and the calls with their returned values. -/
def deliverAll {σ : Type} (O : Observer σ) (event : Event) : List Ref → σ → σ × List (Ref × error)
  | [], s => (s, [])
  | o :: rest, s =>
    let r := O.OnNotify o event s
    let r2 := deliverAll O event rest r.1
    (r2.1, (o, r.2) :: r2.2)

/-- `MockObserver` of `observer_test.go` (without its mutex). -/
structure MockObserver where
  receivedEvents : List Event
  shouldError : Bool

/-- The methods of `MockObserver` over a heap of mock observers: `OnNotify` records the event and
fails when `shouldError` is set. -/
def mockObserver : Observer (Ref → MockObserver) where
  OnNotify := fun self event s =>
    let m := s self
    (Function.update s self ({ m with receivedEvents := m.receivedEvents ++ [event] }),
      if m.shouldError then some "mock observer error" else none)

/-- The observers of `TestEventBusNotificationWithErrors`: the failing observer at reference 0,
normal observers elsewhere. -/
def errorObserverHeap : Ref → MockObserver :=
  fun r => ⟨[], decide (r = 0)⟩

/-- The bus of `TestEventBusNotificationWithErrors`: the failing observer, then the normal one. -/
def errorTestBus : EventBus :=
  ((NewEventBus.Subscribe "test_event" (some 0)).1.Subscribe "test_event" (some 1)).1

/-- The event of the notification tests. -/
def testEvent : Event := ⟨"test_event", .text "test_data"⟩

/-- What a scripted observer does when notified, besides counting the event: nothing more,
subscribe another observer to the type of the event, unsubscribe itself from it, or clear the
bus. -/
inductive Script where
  | record
  | subscribe (o : Ref)
  | unsubscribeSelf
  | clear

/-- A heap that holds the bus itself next to the observers, so that an observer can call back
into the bus while it is being notified. -/
structure BusWorld where
  bus : EventBus
  script : Ref → Script
  received : Ref → Nat

/-- Observers that call back into the bus they are notified by. -/
def scriptedObserver : Observer BusWorld where
  OnNotify := fun self event w =>
    let w1 : BusWorld := { w with received := Function.update w.received self (w.received self + 1) }
    match w.script self with
    | .record => (w1, none)
    | .subscribe o => ({ w1 with bus := (w1.bus.Subscribe event.Type_ (some o)).1 }, none)
    | .unsubscribeSelf => ({ w1 with bus := (w1.bus.Unsubscribe event.Type_ (some self)).1 }, none)
    | .clear => ({ w1 with bus := w1.bus.Clear }, none)

/-! ## The player (`pkg/entities/player.go`) -/

/-- The method table of the `Subject` interface over a heap `σ`; the first argument is the
receiver. -/
structure Subject (σ : Type) where
  Subscribe : Ref → String → Option Ref → σ → σ × error
  Unsubscribe : Ref → String → Option Ref → σ → σ × error
  Notify : Ref → Event → σ → σ × error

/-- A pointer to a value of type `α` kept in the heap `σ`: reading it and writing through it. -/
structure Ptr (σ α : Type) where
  get : σ → α
  set : α → σ → σ

/-- `Player`; `eventBus` is `nil` or the bus injected into the player. -/
structure Player where
  Position : Vector3
  Rotation : float32
  Speed : float32
  Radius : float32
  Height : float32
  Health : float32
  MaxHealth : float32
  eventBus : Option Ref
  deriving DecidableEq

/-- `NewPlayer`. -/
def NewPlayer (speed : float32) (eventBus : Option Ref) : Player :=
  { Position := ⟨0, 0, 0⟩, Rotation := 0, Speed := speed, Radius := 1 / 2, Height := 1,
    Health := 100, MaxHealth := 100, eventBus := eventBus }

/-- `Player.IsAlive`. -/
def Player.IsAlive (p : Player) : Bool :=
  decide (p.Health > 0)

/-- The health update at the start of `Player.TakeDamage`: `p.Health -= damage`, then
`p.Health = 0` when it fell below 0. -/
def Player.reduceHealth {σ : Type} (p : Ptr σ Player) (damage : float32) (s : σ) : σ :=
  let s1 := p.set { p.get s with Health := (p.get s).Health - damage } s
  if (p.get s1).Health < 0 then p.set { p.get s1 with Health := 0 } s1 else s1

/-- `Player.TakeDamage` on the player behind `p`: the heap afterwards and the events passed to
`p.eventBus.Notify`, in order.  The fields of the player are read again after each `Notify`, as
the source does; `none` stands for the panic of calling `Notify` on a `nil` bus.  The console
output is not modelled. -/
def Player.TakeDamage {σ : Type} (B : Subject σ) (p : Ptr σ Player) (damage : float32) (s : σ) :
    Option (σ × List Event) :=
  let oldHealth := (p.get s).Health
  let s2 := Player.reduceHealth p damage s
  match (p.get s2).eventBus with
  | none => some (s2, [])
  | some bus =>
    let damageEvent :=
      NewPlayerDamagedEvent damage "enemy" (p.get s2).Health (p.get s2).Position
    let s3 := (B.Notify bus damageEvent s2).1
    if oldHealth > 0 ∧ (p.get s3).Health ≤ 0 then
      let gameOverEvent := NewGameOverEvent "player_died" 0 0
      match (p.get s3).eventBus with
      | none => none
      | some bus2 => some ((B.Notify bus2 gameOverEvent s3).1, [damageEvent, gameOverEvent])
    else some (s3, [damageEvent])

/-- The heap of `player_test.go`: the player and the `events` slice of the `MockEventBus`
injected into it. -/
structure PlayerWorld where
  player : Player
  events : List Event

/-- The methods of `MockEventBus`: `Notify` records the event and returns `nil`. -/
def mockEventBus : Subject PlayerWorld where
  Subscribe := fun _ _ _ w => (w, none)
  Unsubscribe := fun _ _ _ w => (w, none)
  Notify := fun _ event w => ({ w with events := w.events ++ [event] }, none)

/-- The pointer to the player of a `PlayerWorld`. -/
def playerPtr : Ptr PlayerWorld Player where
  get := fun w => w.player
  set := fun x w => { w with player := x }

/-- The world of `TestPlayerTakeDamageEmitsEvents` and `TestPlayerDeathEmitsGameOverEvent`: a new
player with the given health, of 100, and a mock bus that has recorded nothing. -/
def playerWorld (health : float32) : PlayerWorld :=
  ⟨{ NewPlayer 5 (some 0) with Health := health, MaxHealth := 100 }, []⟩

/-! ## The entities (`pkg/entities`) and the heap that holds them -/

/-- `Player.Heal` on the player behind `p`. -/
def Player.Heal {σ : Type} (p : Ptr σ Player) (amount : float32) (s : σ) : σ :=
  let s1 := p.set { p.get s with Health := (p.get s).Health + amount } s
  if (p.get s1).Health > (p.get s1).MaxHealth then
    p.set { p.get s1 with Health := (p.get s1).MaxHealth } s1
  else s1

/-- `Player.GetBoundingBox`. -/
def Player.GetBoundingBox (p : Player) : BoundingBox :=
  ⟨⟨p.Position.X - p.Radius, p.Position.Y, p.Position.Z - p.Radius⟩,
   ⟨p.Position.X + p.Radius, p.Position.Y + p.Height, p.Position.Z + p.Radius⟩⟩

/-- `Player.GetCollisionTags`. -/
def Player.GetCollisionTags (_p : Player) : List String := ["player"]

/-- `Player.IsActive`. -/
def Player.IsActive (p : Player) : Bool := p.IsAlive

/-- `Enemy`; `Target` is `nil` or a pointer to a player. -/
structure Enemy where
  Position : Vector3
  Health : float32
  MaxHealth : float32
  Radius : float32
  Height : float32
  Speed : float32
  Active : Bool
  Target : Option Ref
  AttackCooldown : float32
  deriving DecidableEq

/-- `NewEnemy`. -/
def NewEnemy (pos : Vector3) (health speed : float32) : Enemy :=
  { Position := pos, Health := health, MaxHealth := health, Radius := 3 / 5, Height := 3 / 2,
    Speed := speed, Active := true, Target := none, AttackCooldown := 0 }

/-- `Enemy.GetBoundingBox`, in exact arithmetic (`Rounded.Enemy.GetBoundingBox` rounds). -/
def Enemy.GetBoundingBox (e : Enemy) : BoundingBox :=
  ⟨⟨e.Position.X - e.Radius, e.Position.Y, e.Position.Z - e.Radius⟩,
   ⟨e.Position.X + e.Radius, e.Position.Y + e.Height, e.Position.Z + e.Radius⟩⟩

/-- `Enemy.TakeDamage` on the enemy behind `e`. -/
def Enemy.TakeDamage {σ : Type} (e : Ptr σ Enemy) (damage : float32) (s : σ) : σ :=
  let s1 := e.set { e.get s with Health := (e.get s).Health - damage } s
  if (e.get s1).Health ≤ 0 then e.set { e.get s1 with Health := 0, Active := false } s1
  else s1

/-- `Enemy.IsAlive`. -/
def Enemy.IsAlive (e : Enemy) : Bool := e.Active && decide (e.Health > 0)

/-- `Enemy.GetCollisionTags`. -/
def Enemy.GetCollisionTags (_e : Enemy) : List String := ["enemy"]

/-- `Enemy.IsActive`. -/
def Enemy.IsActive (e : Enemy) : Bool := e.IsAlive

/-- `Bullet`. -/
structure Bullet where
  Position : Vector3
  Velocity : Vector3
  Lifetime : float32
  Speed : float32
  Radius : float32
  Damage : float32
  Active : Bool
  deriving DecidableEq

/-- `NewBullet`. -/
def NewBullet (pos vel : Vector3) (speed lifetime damage : float32) : Bullet :=
  { Position := pos, Velocity := vel, Lifetime := lifetime, Speed := speed, Radius := 1 / 10,
    Damage := damage, Active := true }

/-- `Bullet.IsExpired`. -/
def Bullet.IsExpired (b : Bullet) : Bool := !b.Active || decide (b.Lifetime ≤ 0)

/-- `Bullet.Deactivate` on the bullet behind `b`. -/
def Bullet.Deactivate {σ : Type} (b : Ptr σ Bullet) (s : σ) : σ :=
  b.set { b.get s with Active := false } s

/-- `Bullet.GetBoundingBox`, in exact arithmetic (`Rounded.Bullet.GetBoundingBox` rounds). -/
def Bullet.GetBoundingBox (b : Bullet) : BoundingBox :=
  ⟨⟨b.Position.X - b.Radius, b.Position.Y - b.Radius, b.Position.Z - b.Radius⟩,
   ⟨b.Position.X + b.Radius, b.Position.Y + b.Radius, b.Position.Z + b.Radius⟩⟩

/-- `Bullet.GetCollisionTags`. -/
def Bullet.GetCollisionTags (_b : Bullet) : List String := ["bullet"]

/-- `Bullet.IsActive`. -/
def Bullet.IsActive (b : Bullet) : Bool := b.Active

/-- `ObstacleType`, a Go `int`. -/
abbrev ObstacleType : Type := Int

/-- `ObstacleTypeBox`. -/
def ObstacleTypeBox : ObstacleType := 0

/-- `ObstacleTypeCylinder`. -/
def ObstacleTypeCylinder : ObstacleType := 1

/-- `rl.Color`. -/
structure Color where
  R : Nat
  G : Nat
  B : Nat
  A : Nat
  deriving DecidableEq

/-- `Obstacle`; the field `Type` of the source is written `Type_`. -/
structure Obstacle where
  Position : Vector3
  Size : Vector3
  Radius : float32
  Height : float32
  Type_ : ObstacleType
  Color : Color
  Active : Bool
  deriving DecidableEq

/-- `NewBoxObstacle`. -/
def NewBoxObstacle (pos size : Vector3) (color : Color) : Obstacle :=
  { Position := pos, Size := size, Radius := 0, Height := 0, Type_ := ObstacleTypeBox,
    Color := color, Active := true }

/-- `NewCylinderObstacle`. -/
def NewCylinderObstacle (pos : Vector3) (radius height : float32) (color : Color) : Obstacle :=
  { Position := pos, Size := ⟨0, 0, 0⟩, Radius := radius, Height := height,
    Type_ := ObstacleTypeCylinder, Color := color, Active := true }

/-- `Obstacle.GetBoundingBox`. -/
def Obstacle.GetBoundingBox (o : Obstacle) : BoundingBox :=
  if o.Type_ = ObstacleTypeBox then
    ⟨⟨o.Position.X - o.Size.X / 2, o.Position.Y - o.Size.Y / 2, o.Position.Z - o.Size.Z / 2⟩,
     ⟨o.Position.X + o.Size.X / 2, o.Position.Y + o.Size.Y / 2, o.Position.Z + o.Size.Z / 2⟩⟩
  else if o.Type_ = ObstacleTypeCylinder then
    ⟨⟨o.Position.X - o.Radius, o.Position.Y, o.Position.Z - o.Radius⟩,
     ⟨o.Position.X + o.Radius, o.Position.Y + o.Height, o.Position.Z + o.Radius⟩⟩
  else ⟨⟨0, 0, 0⟩, ⟨0, 0, 0⟩⟩

/-- `Obstacle.GetCollisionTags`. -/
def Obstacle.GetCollisionTags (_o : Obstacle) : List String := ["obstacle"]

/-- `Obstacle.IsActive`. -/
def Obstacle.IsActive (o : Obstacle) : Bool := o.Active

/-- `HealthPickup`. -/
structure HealthPickup where
  Position : Vector3
  HealAmount : float32
  Radius : float32
  Active : Bool
  deriving DecidableEq

/-- `NewHealthPickup`. -/
def NewHealthPickup (pos : Vector3) : HealthPickup :=
  { Position := pos, HealAmount := 25, Radius := 3 / 10, Active := true }

/-- `HealthPickup.GetBoundingBox`. -/
def HealthPickup.GetBoundingBox (h : HealthPickup) : BoundingBox :=
  ⟨⟨h.Position.X - h.Radius, h.Position.Y - h.Radius, h.Position.Z - h.Radius⟩,
   ⟨h.Position.X + h.Radius, h.Position.Y + h.Radius, h.Position.Z + h.Radius⟩⟩

/-- `HealthPickup.GetCollisionTags`. -/
def HealthPickup.GetCollisionTags (_h : HealthPickup) : List String := ["health_pickup"]

/-- `HealthPickup.IsActive`. -/
def HealthPickup.IsActive (h : HealthPickup) : Bool := h.Active

/-- The object behind a pointer, with its dynamic type: one of the five entity types of the
repository, or an object of another collidable type, which shows the box, tags and active flag
recorded in a `MockCollidable`. -/
inductive Entity where
  | player (p : Player)
  | enemy (e : Enemy)
  | bullet (b : Bullet)
  | obstacle (o : Obstacle)
  | healthPickup (h : HealthPickup)
  | foreign (m : MockCollidable)

/-- `GetBoundingBox` through the `Collidable` interface. -/
def Entity.GetBoundingBox : Entity → BoundingBox
  | .player p => p.GetBoundingBox
  | .enemy e => e.GetBoundingBox
  | .bullet b => b.GetBoundingBox
  | .obstacle o => o.GetBoundingBox
  | .healthPickup h => h.GetBoundingBox
  | .foreign m => m.BoundingBox

/-- `GetCollisionTags` through the `Collidable` interface. -/
def Entity.GetCollisionTags : Entity → List String
  | .player p => p.GetCollisionTags
  | .enemy e => e.GetCollisionTags
  | .bullet b => b.GetCollisionTags
  | .obstacle o => o.GetCollisionTags
  | .healthPickup h => h.GetCollisionTags
  | .foreign m => m.CollisionTags

/-- `IsActive` through the `Collidable` and `Triggerable` interfaces. -/
def Entity.IsActive : Entity → Bool
  | .player p => p.IsActive
  | .enemy e => e.IsActive
  | .bullet b => b.IsActive
  | .obstacle o => o.IsActive
  | .healthPickup h => h.IsActive
  | .foreign m => m.ActiveState

/-- The heap of the game: the object behind every pointer, the next pointer that `new` hands
out, and whatever else the program keeps (the state behind the `Subject` injected into the
player, for instance). -/
structure World (β : Type) where
  objects : Ref → Entity
  next : Ref
  ext : β

/-- The zero value of `Player`. -/
def Player.zero : Player :=
  { Position := ⟨0, 0, 0⟩, Rotation := 0, Speed := 0, Radius := 0, Height := 0, Health := 0,
    MaxHealth := 0, eventBus := none }

/-- The zero value of `Enemy`. -/
def Enemy.zero : Enemy :=
  { Position := ⟨0, 0, 0⟩, Health := 0, MaxHealth := 0, Radius := 0, Height := 0, Speed := 0,
    Active := false, Target := none, AttackCooldown := 0 }

/-- The zero value of `Bullet`. -/
def Bullet.zero : Bullet :=
  { Position := ⟨0, 0, 0⟩, Velocity := ⟨0, 0, 0⟩, Lifetime := 0, Speed := 0, Radius := 0,
    Damage := 0, Active := false }

/-- The zero value of `Obstacle`. -/
def Obstacle.zero : Obstacle :=
  { Position := ⟨0, 0, 0⟩, Size := ⟨0, 0, 0⟩, Radius := 0, Height := 0, Type_ := 0,
    Color := ⟨0, 0, 0, 0⟩, Active := false }

/-- The zero value of `HealthPickup`. -/
def HealthPickup.zero : HealthPickup :=
  { Position := ⟨0, 0, 0⟩, HealAmount := 0, Radius := 0, Active := false }

namespace World

/-- The pointer `r` used as a `*Player`; it reads the zero value where no player is stored. -/
def playerAt {β : Type} (r : Ref) : Ptr (World β) Player where
  get := fun w =>
    match w.objects r with
    | .player p => p
    | _ => Player.zero
  set := fun x w => { w with objects := Function.update w.objects r (.player x) }

/-- The pointer `r` used as an `*Enemy`. -/
def enemyAt {β : Type} (r : Ref) : Ptr (World β) Enemy where
  get := fun w =>
    match w.objects r with
    | .enemy e => e
    | _ => Enemy.zero
  set := fun x w => { w with objects := Function.update w.objects r (.enemy x) }

/-- The pointer `r` used as a `*Bullet`. -/
def bulletAt {β : Type} (r : Ref) : Ptr (World β) Bullet where
  get := fun w =>
    match w.objects r with
    | .bullet b => b
    | _ => Bullet.zero
  set := fun x w => { w with objects := Function.update w.objects r (.bullet x) }

/-- The pointer `r` used as an `*Obstacle`. -/
def obstacleAt {β : Type} (r : Ref) : Ptr (World β) Obstacle where
  get := fun w =>
    match w.objects r with
    | .obstacle o => o
    | _ => Obstacle.zero
  set := fun x w => { w with objects := Function.update w.objects r (.obstacle x) }

/-- The pointer `r` used as a `*HealthPickup`. -/
def pickupAt {β : Type} (r : Ref) : Ptr (World β) HealthPickup where
  get := fun w =>
    match w.objects r with
    | .healthPickup h => h
    | _ => HealthPickup.zero
  set := fun x w => { w with objects := Function.update w.objects r (.healthPickup x) }

/-- `other.GetCollisionTags()` for the object behind `r`. -/
def tagsOf {β : Type} (w : World β) (r : Ref) : List String :=
  (w.objects r).GetCollisionTags

/-- Go `new`: stores the object at the next unused pointer and returns that pointer. -/
def alloc {β : Type} (e : Entity) (w : World β) : Ref × World β :=
  (w.next, { w with objects := Function.update w.objects w.next e, next := w.next + 1 })

end World

/-- The `Collidable` interface over the heap of the game: the getters dispatch on the dynamic
type of the object; the `OnCollision` callbacks are given by `cb`. -/
def entityCollidable {β : Type} (cb : Ref → Ref → World β → World β) : Collidable (World β) where
  GetBoundingBox := fun w r => (w.objects r).GetBoundingBox
  GetCollisionTags := fun w r => (w.objects r).GetCollisionTags
  OnCollision := cb
  IsActive := fun w r => (w.objects r).IsActive

/-- The calls `p.TakeDamage(d)` for the entries `d` of the list, one after the other on the same
player: the heap afterwards and the events published by all the calls, in order. -/
def Player.TakeDamageAll {σ : Type} (B : Subject σ) (p : Ptr σ Player) :
    List float32 → σ → Option (σ × List Event)
  | [], s => some (s, [])
  | d :: ds, s =>
    match Player.TakeDamage B p d s with
    | none => none
    | some r1 =>
      match Player.TakeDamageAll B p ds r1.1 with
      | none => none
      | some r2 => some (r2.1, r1.2 ++ r2.2)

/-- The number of game_over events in a list of published events. -/
def gameOverCount (evs : List Event) : Nat :=
  evs.countP (fun ev => ev.Type_ == EventTypeGameOver)

/-- The body of the `range tags` loop of `Enemy.OnCollision` for one tag: the heap and the events
published so far go in and come out; `none` stands for the panic of the type assertion
`other.(*Player)` or of `TakeDamage`. -/
def Enemy.onCollisionTag {β : Type} (B : Subject (World β)) (e other : Ref)
    (acc : World β × List Event) (tag : String) : Option (World β × List Event) :=
  if tag = "player" then
    if ((World.enemyAt e).get acc.1).AttackCooldown ≤ 0 then
      match acc.1.objects other with
      | .player _ =>
        match Player.TakeDamage B (World.playerAt other) 10 acc.1 with
        | none => none
        | some r =>
          some ((World.enemyAt e).set
            { (World.enemyAt e).get r.1 with AttackCooldown := 1 } r.1, acc.2 ++ r.2)
      | _ => none
    else some acc
  else some acc

/-- `Enemy.OnCollision` of the enemy behind `e`: the heap afterwards and the events published on
the bus of the player, in order. -/
def Enemy.OnCollision {β : Type} (B : Subject (World β)) (e other : Ref) (w : World β) :
    Option (World β × List Event) :=
  (w.tagsOf other).foldlM (Enemy.onCollisionTag B e other) (w, [])

/-- The body of the `range tags` loop of `Bullet.OnCollision` for one tag; `none` stands for the
panic "Bullet collided with non-enemy entity". -/
def Bullet.onCollisionTag {β : Type} (b other : Ref) (w : World β) (tag : String) :
    Option (World β) :=
  if tag = "enemy" then
    match w.objects other with
    | .enemy _ =>
      some (Bullet.Deactivate (World.bulletAt b)
        (Enemy.TakeDamage (World.enemyAt other) ((World.bulletAt b).get w).Damage w))
    | _ => none
  else if tag = "obstacle" then some (Bullet.Deactivate (World.bulletAt b) w)
  else some w

/-- `Bullet.OnCollision` of the bullet behind `b`. -/
def Bullet.OnCollision {β : Type} (b other : Ref) (w : World β) : Option (World β) :=
  (w.tagsOf other).foldlM (Bullet.onCollisionTag b other) w

/-- `Obstacle.OnCollision` of the obstacle behind `o`; the console output is not modelled. -/
def Obstacle.OnCollision {β : Type} (o other : Ref) (w : World β) : World β :=
  if slices.Contains (w.tagsOf other) "player" then
    (World.obstacleAt o).set { (World.obstacleAt o).get w with Active := false } w
  else w

/-- The readings of `globals.InputSystem` that `Player.updateMovement` takes. -/
structure MoveInput where
  IsUpDown : Bool
  IsDownDown : Bool
  IsLeftDown : Bool
  IsRightDown : Bool
  deriving DecidableEq

/-- One of the four blocks of `Player.updateMovement`: `newPos` is validated by
`globals.Collision.CheckMovement(p, newPos)` and committed when that returns true. -/
def Player.tryMove {β : Type} (I : Collidable (World β)) (cs : CollisionSystem) (p : Ref)
    (newPos : Vector3) (w : World β) : World β :=
  if cs.CheckMovement I w p newPos then
    (World.playerAt p).set { (World.playerAt p).get w with Position := newPos } w
  else w

/-- `Player.updateMovement` of the player behind `p`, with the collision system `cs` as
`globals.Collision` and the readings `input` of `globals.InputSystem`. -/
def Player.updateMovement {β : Type} (I : Collidable (World β)) (cs : CollisionSystem)
    (input : MoveInput) (p : Ref) (deltaTime : float32) (_obstacles : List Ref) (w : World β) :
    World β :=
  let moveSpeed := ((World.playerAt p).get w).Speed * deltaTime
  let w1 :=
    if input.IsUpDown then
      let pos := ((World.playerAt p).get w).Position
      Player.tryMove I cs p { pos with Z := pos.Z - moveSpeed } w
    else w
  let w2 :=
    if input.IsDownDown then
      let pos := ((World.playerAt p).get w1).Position
      Player.tryMove I cs p { pos with Z := pos.Z + moveSpeed } w1
    else w1
  let w3 :=
    if input.IsLeftDown then
      let pos := ((World.playerAt p).get w2).Position
      Player.tryMove I cs p { pos with X := pos.X - moveSpeed } w2
    else w2
  if input.IsRightDown then
    let pos := ((World.playerAt p).get w3).Position
    Player.tryMove I cs p { pos with X := pos.X + moveSpeed } w3
  else w3

/-- A heap of the game holding the listed objects at the pointers `0, 1, ...`; every other
pointer holds an inactive object without tags. -/
def World.ofList {β : Type} (es : List Entity) (ext : β) : World β where
  objects := fun r => es.getD r (.foreign (newMock ⟨0, 0, 0⟩ ⟨0, 0, 0⟩ [] false))
  next := es.length
  ext := ext

/-- The methods of `MockEventBus` over a heap of the game that keeps the `events` slice of the
mock: `Notify` records the event and returns `nil`. -/
def worldEventBus : Subject (World (List Event)) where
  Subscribe := fun _ _ _ w => (w, none)
  Unsubscribe := fun _ _ _ w => (w, none)
  Notify := fun _ event w => ({ w with ext := w.ext ++ [event] }, none)

/-- The player of the tests in `collision_integration_test.go`, with the given health. -/
def integrationPlayer (health : float32) : Player :=
  { NewPlayer 5 (some 2) with Position := ⟨0, 0, 0⟩, Health := health }

/-- The enemy of the tests in `collision_integration_test.go`, with the given cooldown. -/
def integrationEnemy (cooldown : float32) : Enemy :=
  { NewEnemy ⟨0, 0, 0⟩ 50 2 with AttackCooldown := cooldown }

/-- The heap of the tests in `collision_integration_test.go`: the player at pointer 0, the enemy
at pointer 1, and a mock bus that has recorded nothing. -/
def integrationWorld (health cooldown : float32) : World (List Event) :=
  World.ofList [.player (integrationPlayer health), .enemy (integrationEnemy cooldown)] []

/-- A heap with a bullet of damage 20 at pointer 0, an enemy of health 50 at pointer 1, an enemy
of health 15 at pointer 2, a box obstacle at pointer 3 and a player at pointer 4. -/
def bulletWorld : World Unit :=
  World.ofList
    [.bullet (NewBullet ⟨0, 0, 0⟩ ⟨1, 0, 0⟩ 10 2 20),
     .enemy (NewEnemy ⟨0, 0, 0⟩ 50 2),
     .enemy (NewEnemy ⟨0, 0, 0⟩ 15 2),
     .obstacle (NewBoxObstacle ⟨0, 0, 0⟩ ⟨1, 1, 1⟩ ⟨127, 106, 79, 255⟩),
     .player (NewPlayer 5 none)] ()

/-! ## The scene data and the scene builder (`pkg/scenes`) -/

/-- `Vector3Data`. -/
structure Vector3Data where
  X : float32
  Y : float32
  Z : float32

/-- `Vector3Data.ToVector3`. -/
def Vector3Data.ToVector3 (v : Vector3Data) : Vector3 := ⟨v.X, v.Y, v.Z⟩

/-- `PlayerData`. -/
structure PlayerData where
  SpawnPoint : Vector3Data
  Speed : float32
  Health : float32
  MaxHealth : float32

/-- `EnemyData`. -/
structure EnemyData where
  ID : String
  Position : Vector3Data
  Health : float32
  Speed : float32

/-- `ObstacleData`; the field `Type` of the source is written `Type_`. -/
structure ObstacleData where
  ID : String
  Type_ : String
  Position : Vector3Data
  Size : Vector3Data
  Radius : float32
  Height : float32
  Color : String

/-- `HealthPickupData`. -/
structure HealthPickupData where
  ID : String
  Position : Vector3Data
  HealAmount : float32
  Radius : float32

/-- The anonymous struct `SceneData.Metadata`. -/
structure SceneMetadata where
  Name : String
  Version : String
  Description : String

/-- The anonymous struct `SceneData.Entities`. -/
structure SceneEntities where
  Enemies : List EnemyData
  Obstacles : List ObstacleData
  HealthPickups : List HealthPickupData

/-- `SceneData`. -/
structure SceneData where
  Metadata : SceneMetadata
  Player : PlayerData
  Entities : SceneEntities

/-- The colour constants of raylib that `ParseColor` returns. -/
structure Palette where
  Brown : Color
  Green : Color
  DarkGreen : Color
  Red : Color
  Blue : Color
  Yellow : Color
  White : Color
  Gray : Color
  Black : Color

/-- `ParseColor`, with the colour constants of raylib given by `rl`. -/
def ParseColor (rl : Palette) (colorStr : String) : Color :=
  if colorStr = "brown" then rl.Brown
  else if colorStr = "green" then rl.Green
  else if colorStr = "darkgreen" then rl.DarkGreen
  else if colorStr = "red" then rl.Red
  else if colorStr = "blue" then rl.Blue
  else if colorStr = "yellow" then rl.Yellow
  else if colorStr = "white" then rl.White
  else if colorStr = "gray" then rl.Gray
  else if colorStr = "black" then rl.Black
  else rl.Gray

namespace SceneBuilder

/-- `BuildPlayer`: the pointer to the new player and the heap that holds it. -/
def BuildPlayer {β : Type} (data : PlayerData) (eventBus : Option Ref) (w : World β) :
    Ref × World β :=
  let player := NewPlayer data.Speed eventBus
  World.alloc (.player { player with Position := data.SpawnPoint.ToVector3,
                                     Health := data.Health, MaxHealth := data.MaxHealth }) w

/-- `BuildEnemies`: the slice of new enemies and the heap that holds them. -/
def BuildEnemies {β : Type} (data : List EnemyData) (w : World β) : List Ref × World β :=
  data.foldl (fun acc enemyData =>
    let r := World.alloc
      (.enemy (NewEnemy enemyData.Position.ToVector3 enemyData.Health enemyData.Speed)) acc.2
    (acc.1 ++ [r.1], r.2)) ([], w)

/-- `BuildObstacles`; an entry of unknown type is skipped. -/
def BuildObstacles {β : Type} (rl : Palette) (data : List ObstacleData) (w : World β) :
    List Ref × World β :=
  data.foldl (fun acc obstacleData =>
    let color := ParseColor rl obstacleData.Color
    if obstacleData.Type_ = "box" then
      let r := World.alloc (.obstacle (NewBoxObstacle obstacleData.Position.ToVector3
        obstacleData.Size.ToVector3 color)) acc.2
      (acc.1 ++ [r.1], r.2)
    else if obstacleData.Type_ = "cylinder" then
      let r := World.alloc (.obstacle (NewCylinderObstacle obstacleData.Position.ToVector3
        obstacleData.Radius obstacleData.Height color)) acc.2
      (acc.1 ++ [r.1], r.2)
    else acc) ([], w)

/-- `BuildHealthPickups`. -/
def BuildHealthPickups {β : Type} (data : List HealthPickupData) (w : World β) :
    List Ref × World β :=
  data.foldl (fun acc pickupData =>
    let pickup := NewHealthPickup pickupData.Position.ToVector3
    let r := World.alloc (.healthPickup { pickup with HealAmount := pickupData.HealAmount,
                                                      Radius := pickupData.Radius }) acc.2
    (acc.1 ++ [r.1], r.2)) ([], w)

/-- A `range` loop whose body returns from the function with the first error it finds. -/
def firstError {α : Type} (body : α → error) : List α → error
  | [] => none
  | x :: xs =>
    match body x with
    | some err => some err
    | none => firstError body xs

/-- The body of the loop over the enemies in `ValidateSceneData`.  Here and below an error is
represented by the format string of its `fmt.Errorf`; the arguments are not rendered. -/
def validateEnemy (enemy : EnemyData) : error :=
  if enemy.ID = "" then some "enemy %d: ID cannot be empty"
  else if enemy.Health ≤ 0 then some "enemy %s: health must be positive, got %f"
  else if enemy.Speed ≤ 0 then some "enemy %s: speed must be positive, got %f"
  else none

/-- The body of the loop over the obstacles in `ValidateSceneData`. -/
def validateObstacle (obstacle : ObstacleData) : error :=
  if obstacle.ID = "" then some "obstacle %d: ID cannot be empty"
  else if obstacle.Type_ ≠ "box" ∧ obstacle.Type_ ≠ "cylinder" then
    some "obstacle %s: type must be 'box' or 'cylinder', got %s"
  else if obstacle.Type_ = "box" ∧
      (obstacle.Size.X ≤ 0 ∨ obstacle.Size.Y ≤ 0 ∨ obstacle.Size.Z ≤ 0) then
    some "obstacle %s: box size must be positive, got (%f, %f, %f)"
  else if obstacle.Type_ = "cylinder" ∧ obstacle.Radius ≤ 0 then
    some "obstacle %s: cylinder radius must be positive, got %f"
  else if obstacle.Type_ = "cylinder" ∧ obstacle.Height ≤ 0 then
    some "obstacle %s: cylinder height must be positive, got %f"
  else none

/-- The body of the loop over the health pickups in `ValidateSceneData`. -/
def validatePickup (pickup : HealthPickupData) : error :=
  if pickup.ID = "" then some "health pickup %d: ID cannot be empty"
  else if pickup.HealAmount ≤ 0 then some "health pickup %s: heal amount must be positive, got %f"
  else if pickup.Radius ≤ 0 then some "health pickup %s: radius must be positive, got %f"
  else none

/-- `ValidateSceneData`. -/
def ValidateSceneData (data : SceneData) : error :=
  if data.Player.Speed ≤ 0 then some "player speed must be positive, got %f"
  else if data.Player.Health ≤ 0 then some "player health must be positive, got %f"
  else if data.Player.MaxHealth ≤ 0 then some "player max health must be positive, got %f"
  else if data.Player.Health > data.Player.MaxHealth then
    some "player health (%f) cannot exceed max health (%f)"
  else
    match firstError validateEnemy data.Entities.Enemies with
    | some err => some err
    | none =>
      match firstError validateObstacle data.Entities.Obstacles with
      | some err => some err
      | none => firstError validatePickup data.Entities.HealthPickups

/-- One of the three loops of `CheckIDUniqueness` over the IDs of a kind of entity: `ids` holds
the keys of the map `ids`; the result is the map after the loop, or the error. -/
def checkIDs (ids : List String) : List String → Except String (List String)
  | [] => .ok ids
  | id :: rest =>
    if id ∈ ids then .error "duplicate ID found: %s" else checkIDs (id :: ids) rest

/-- `CheckIDUniqueness`. -/
def CheckIDUniqueness (data : SceneData) : error :=
  match checkIDs [] (data.Entities.Enemies.map (fun enemy => enemy.ID)) with
  | .error err => some err
  | .ok ids1 =>
    match checkIDs ids1 (data.Entities.Obstacles.map (fun obstacle => obstacle.ID)) with
    | .error err => some err
    | .ok ids2 =>
      match checkIDs ids2 (data.Entities.HealthPickups.map (fun pickup => pickup.ID)) with
      | .error err => some err
      | .ok _ => none

end SceneBuilder

/-! ## The world scene (`internal/scenes/world_scene.go`) -/

/-- `WorldScene`: the pointers and flags it keeps; the config, the camera and the scene builder
(an empty struct) are not modelled. -/
structure WorldScene where
  eventBus : Option Ref
  player : Option Ref
  enemies : List Ref
  bullets : List Ref
  obstacles : List Ref
  healthPickups : List Ref
  shouldTransition : Bool
  nextScene : String
  paused : Bool

/-- The state that the methods of a `WorldScene` read and write: the scene `gs`, the globals
`globals.Collision` and `globals.Triggers`, and the heap. -/
structure SceneState (β : Type) where
  gs : WorldScene
  Collision : CollisionSystem
  Triggers : TriggerSystem
  world : World β

/-- `NewGameScene`, with `eventBus` the pointer to the new event bus. -/
def NewGameScene {β : Type} (eventBus : Ref) (w : World β) : SceneState β where
  gs :=
    { eventBus := some eventBus, player := none, enemies := [], bullets := [], obstacles := [],
      healthPickups := [], shouldTransition := false, nextScene := "", paused := false }
  Collision := CollisionSystem.Init
  Triggers := TriggerSystem.Init
  world := w

namespace WorldScene

/-- `InitializeFromJSON`: the state afterwards and the returned error.  `files` gives the outcome
of `LoadSceneFromJSON` for each file name (reading and decoding are done by `os` and
`encoding/json`); the camera and the log output are not modelled. -/
def InitializeFromJSON {β : Type} (rl : Palette) (files : String → Except String SceneData)
    (jsonFile : String) (g : SceneState β) : SceneState β × error :=
  let g1 : SceneState β :=
    { g with Collision := g.Collision.ClearAll, Triggers := g.Triggers.ClearAll }
  match files jsonFile with
  | .error err => (g1, some err)
  | .ok sceneData =>
    match SceneBuilder.ValidateSceneData sceneData with
    | some err => (g1, some err)
    | none =>
      match SceneBuilder.CheckIDUniqueness sceneData with
      | some err => (g1, some err)
      | none =>
        let player := SceneBuilder.BuildPlayer sceneData.Player g1.gs.eventBus g1.world
        let enemies := SceneBuilder.BuildEnemies sceneData.Entities.Enemies player.2
        let obstacles := SceneBuilder.BuildObstacles rl sceneData.Entities.Obstacles enemies.2
        let healthPickups :=
          SceneBuilder.BuildHealthPickups sceneData.Entities.HealthPickups obstacles.2
        let collision1 := g1.Collision.RegisterCollidable player.1
        let triggers1 := g1.Triggers.RegisterCollidable player.1
        let collision2 := enemies.1.foldl CollisionSystem.RegisterCollidable collision1
        let collision3 := obstacles.1.foldl CollisionSystem.RegisterCollidable collision2
        let triggers2 := healthPickups.1.foldl TriggerSystem.RegisterTrigger triggers1
        ({ gs :=
             { g1.gs with player := some player.1, enemies := enemies.1,
                          obstacles := obstacles.1, healthPickups := healthPickups.1,
                          bullets := [], shouldTransition := false, nextScene := "",
                          paused := false },
           Collision := collision3, Triggers := triggers2, world := healthPickups.2 }, none)

/-- `Cleanup`. -/
def Cleanup {β : Type} (g : SceneState β) : SceneState β × error :=
  ({ g with gs := { g.gs with enemies := [], bullets := [], obstacles := [], player := none } },
   none)

/-- One of the three loops of `cleanupEntities`: `keep` is the test of the `if`, `unregister`
the call made for an element that fails it.  The state of the loop is the slice of the active
elements, the registry, and the elements `unregister` was called for, oldest first; `none`
stands for a panic of `unregister`. -/
def cleanupLoop {ρ : Type} (keep : Ref → Bool) (unregister : ρ → Ref → Option ρ) :
    List Ref → List Ref × ρ × List Ref → Option (List Ref × ρ × List Ref)
  | [], acc => some acc
  | x :: xs, acc =>
    if keep x then cleanupLoop keep unregister xs (acc.1 ++ [x], acc.2.1, acc.2.2)
    else
      match unregister acc.2.1 x with
      | none => none
      | some registry => cleanupLoop keep unregister xs (acc.1, registry, acc.2.2 ++ [x])

/-- `cleanupEntities`: the state afterwards, the arguments of the calls of
`globals.Collision.UnregisterCollidable` and those of `globals.Triggers.UnregisterTrigger`, in
order. -/
def cleanupEntities {β : Type} (g : SceneState β) :
    Option (SceneState β × List Ref × List Ref) :=
  match cleanupLoop (fun bullet => !((World.bulletAt bullet).get g.world).IsExpired)
      CollisionSystem.UnregisterCollidable g.gs.bullets ([], g.Collision, []) with
  | none => none
  | some r1 =>
    match cleanupLoop (fun enemy => ((World.enemyAt enemy).get g.world).IsAlive)
        CollisionSystem.UnregisterCollidable g.gs.enemies ([], r1.2.1, r1.2.2) with
    | none => none
    | some r2 =>
      match cleanupLoop (fun pickup => ((World.pickupAt pickup).get g.world).IsActive)
          TriggerSystem.UnregisterTrigger g.gs.healthPickups ([], g.Triggers, []) with
      | none => none
      | some r3 =>
        some ({ g with gs := { g.gs with bullets := r1.1, enemies := r2.1,
                                         healthPickups := r3.1 },
                       Collision := r2.2.1, Triggers := r3.2.1 }, r2.2.2, r3.2.2)

/-- The agreement of the live lists of the scene with the registries: the collision registry
holds exactly the player, the enemies, the obstacles and the bullets of the scene, and the
trigger list of the trigger registry exactly its health pickups. -/
def InSync {β : Type} (g : SceneState β) : Prop :=
  List.Perm g.Collision.collidables
    (g.gs.player.toList ++ g.gs.enemies ++ g.gs.obstacles ++ g.gs.bullets) ∧
  List.Perm g.Triggers.triggers g.gs.healthPickups

end WorldScene

/-- The colour constants of raylib. -/
def raylibPalette : Palette :=
  { Brown := ⟨127, 106, 79, 255⟩, Green := ⟨0, 228, 48, 255⟩, DarkGreen := ⟨0, 117, 44, 255⟩,
    Red := ⟨230, 41, 55, 255⟩, Blue := ⟨0, 121, 241, 255⟩, Yellow := ⟨253, 249, 0, 255⟩,
    White := ⟨255, 255, 255, 255⟩, Gray := ⟨130, 130, 130, 255⟩, Black := ⟨0, 0, 0, 255⟩ }

/-- A scene with one enemy, one box obstacle and one health pickup. -/
def smallScene : SceneData :=
  { Metadata := ⟨"small", "1.0", ""⟩,
    Player := ⟨⟨0, 0, 0⟩, 5, 100, 100⟩,
    Entities :=
      ⟨[⟨"enemy_1", ⟨3, 0, 0⟩, 50, 2⟩],
       [⟨"obstacle_1", "box", ⟨5, 1 / 2, 0⟩, ⟨1, 1, 1⟩, 0, 0, "brown"⟩],
       [⟨"pickup_1", ⟨0, 0, 4⟩, 25, 3 / 10⟩]⟩ }

/-- The scene `smallScene` with a player speed of 0, which `ValidateSceneData` rejects. -/
def rejectedScene : SceneData :=
  { smallScene with Player := ⟨⟨0, 0, 0⟩, 0, 100, 100⟩ }

/-- A file system with two scene files that decode, `smallScene` and `rejectedScene`; no other
file exists. -/
def sceneFiles (jsonFile : String) : Except String SceneData :=
  if jsonFile = "scenes/game_scene.json" then .ok smallScene
  else if jsonFile = "scenes/rejected.json" then .ok rejectedScene
  else .error "open: no such file or directory"

/-- The state after `NewGameScene` on an empty heap, with the event bus at pointer 100. -/
def newSceneState : SceneState Unit :=
  NewGameScene 100 (World.ofList [] ())

/-- A heap with a new player at pointer 0, standing at the origin, and at pointer 1 a box
obstacle of size `1 × 1/4 × 1` centred at `(21/20, 7/8, 0)`: it spans `11/20 ≤ X ≤ 31/20`,
`3/4 ≤ Y ≤ 1` and `-1/2 ≤ Z ≤ 1/2`, at head height just right of the player. -/
def overhangWorld : World Unit :=
  World.ofList
    [.player (NewPlayer 5 none),
     .obstacle (NewBoxObstacle ⟨21 / 20, 7 / 8, 0⟩ ⟨1, 1 / 4, 1⟩ ⟨127, 106, 79, 255⟩)] ()

/-! ## Per-frame updates and trigger callbacks of the entities -/

/-- `Bullet.Update` on the bullet behind `b`. -/
def Bullet.Update {σ : Type} (b : Ptr σ Bullet) (deltaTime : float32) (s : σ) : σ :=
  if !(b.get s).Active then s
  else
    let s1 := b.set { b.get s with Lifetime := (b.get s).Lifetime - deltaTime } s
    if (b.get s1).Lifetime ≤ 0 then b.set { b.get s1 with Active := false } s1
    else
      let p1 := (b.get s1).Position
      let s2 := b.set { b.get s1 with
        Position := ⟨p1.X + (b.get s1).Velocity.X * (b.get s1).Speed * deltaTime, p1.Y, p1.Z⟩ } s1
      let p2 := (b.get s2).Position
      b.set { b.get s2 with
        Position := ⟨p2.X, p2.Y, p2.Z + (b.get s2).Velocity.Z * (b.get s2).Speed * deltaTime⟩ } s2

/-- A heap holding one bullet, at pointer 0, with velocity `(0, 1, 0)`, speed 10, lifetime 2
and damage 20. -/
def risingBulletWorld : World Unit :=
  World.ofList [.bullet (NewBullet ⟨0, 0, 0⟩ ⟨0, 1, 0⟩ 10 2 20)] ()

/-- A call on the event bus. -/
inductive BusCall where
  | subscribe (eventType : String) (observer : Option Ref)
  | unsubscribe (eventType : String) (observer : Option Ref)
  | notify (event : Event)
  | clear

/-- The calls of a list made one after the other on the bus kept in the heap `w`; the observers
notified are scripted ones, which may call back into the bus while `Notify` runs. -/
def BusWorld.run (w : BusWorld) : List BusCall → BusWorld
  | [] => w
  | .subscribe eventType observer :: rest =>
    BusWorld.run { w with bus := (w.bus.Subscribe eventType observer).1 } rest
  | .unsubscribe eventType observer :: rest =>
    BusWorld.run { w with bus := (w.bus.Unsubscribe eventType observer).1 } rest
  | .notify event :: rest =>
    BusWorld.run (w.bus.Notify scriptedObserver event w).heap rest
  | .clear :: rest => BusWorld.run { w with bus := w.bus.Clear } rest

/-- `Player.OnCollision`: the body is empty. -/
def Player.OnCollision {β : Type} (_p _other : Ref) (w : World β) : World β := w

/-- `HealthPickup.Update`: the body is empty. -/
def HealthPickup.Update {β : Type} (_h : Ref) (_deltaTime : float32) (w : World β) : World β := w

/-- `HealthPickup.GetTriggerBounds`. -/
def HealthPickup.GetTriggerBounds (h : HealthPickup) : BoundingBox := h.GetBoundingBox

/-- `HealthPickup.GetTriggerTags`. -/
def HealthPickup.GetTriggerTags (_h : HealthPickup) : List String := ["health_pickup"]

/-- The body of the `range tags` loop of `HealthPickup.OnTriggerEnter` for one tag; the type
assertion `other.(*Player)` is of the comma-ok form and cannot panic. -/
def HealthPickup.onTriggerTag {β : Type} (h other : Ref) (w : World β) (tag : String) :
    World β :=
  if tag = "player" then
    match w.objects other with
    | .player _ =>
      let w1 := Player.Heal (World.playerAt other) ((World.pickupAt h).get w).HealAmount w
      (World.pickupAt h).set { (World.pickupAt h).get w1 with Active := false } w1
    | _ => w
  else w

/-- `HealthPickup.OnTriggerEnter` of the pickup behind `h`; the console output is not
modelled. -/
def HealthPickup.OnTriggerEnter {β : Type} (h other : Ref) (w : World β) : World β :=
  if !((World.pickupAt h).get w).Active then w
  else (w.tagsOf other).foldl (HealthPickup.onTriggerTag h other) w

/-- The calls `h.OnTriggerEnter(other)` for the entries `other` of the list, one after the
other on the same pickup. -/
def HealthPickup.OnTriggerEnterAll {β : Type} (h : Ref) (others : List Ref) (w : World β) :
    World β :=
  others.foldl (fun u other => HealthPickup.OnTriggerEnter h other u) w

/-- The object is a `*Player`. -/
def Entity.isPlayer : Entity → Bool
  | .player _ => true
  | _ => false

/-- The object is of none of the five entity types of the repository. -/
def Entity.isForeign : Entity → Bool
  | .foreign _ => true
  | _ => false

/-- The `Triggerable` interface over the heap of the game.  `HealthPickup` is the only entity
type that implements it; a pointer to an object of another type, which Go does not accept as a
trigger, is given an inactive view without tags. -/
def entityTriggerable {β : Type} : Triggerable (World β) where
  GetTriggerBounds := fun w r =>
    match w.objects r with
    | .healthPickup h => h.GetTriggerBounds
    | _ => ⟨⟨0, 0, 0⟩, ⟨0, 0, 0⟩⟩
  GetTriggerTags := fun w r =>
    match w.objects r with
    | .healthPickup h => h.GetTriggerTags
    | _ => []
  OnTriggerEnter := fun trigger other w =>
    match w.objects trigger with
    | .healthPickup _ => HealthPickup.OnTriggerEnter trigger other w
    | _ => w
  IsActive := fun w r =>
    match w.objects r with
    | .healthPickup h => h.IsActive
    | _ => false

/-- A heap with a health pickup at pointer 0 (heal amount 25), a player with health 50 of 100 at
pointer 1 that stands on it, an enemy at pointer 2, and at pointer 3 an object of another type
that carries the tag player. -/
def pickupWorld : World Unit :=
  World.ofList
    [.healthPickup (NewHealthPickup ⟨0, 0, 0⟩),
     .player { NewPlayer 5 none with Health := 50 },
     .enemy (NewEnemy ⟨0, 0, 0⟩ 50 2),
     .foreign (newMock ⟨-1, -1, -1⟩ ⟨1, 1, 1⟩ ["player"] true)] ()

/-- `Enemy.Update(deltaTime, player)` of the enemy behind `e`; `math.Sqrt`, with the conversions
to and from `float64` around it, is given by `sqrt`. -/
def Enemy.Update {β : Type} (sqrt : float32 → float32) (e : Ref) (deltaTime : float32)
    (player : Option Ref) (w : World β) : World β :=
  match player with
  | none => w
  | some p =>
    if !((World.enemyAt e).get w).Active then w
    else
      let w1 :=
        if ((World.enemyAt e).get w).AttackCooldown > 0 then
          (World.enemyAt e).set { (World.enemyAt e).get w with
            AttackCooldown := ((World.enemyAt e).get w).AttackCooldown - deltaTime } w
        else w
      let deltaX := ((World.playerAt p).get w1).Position.X - ((World.enemyAt e).get w1).Position.X
      let deltaZ := ((World.playerAt p).get w1).Position.Z - ((World.enemyAt e).get w1).Position.Z
      let distance := sqrt (deltaX * deltaX + deltaZ * deltaZ)
      if distance > 1 then
        let dirX := deltaX / distance
        let dirZ := deltaZ / distance
        let e1 := (World.enemyAt e).get w1
        let w2 := (World.enemyAt e).set { e1 with
          Position := ⟨e1.Position.X + dirX * e1.Speed * deltaTime, e1.Position.Y,
            e1.Position.Z⟩ } w1
        let e2 := (World.enemyAt e).get w2
        (World.enemyAt e).set { e2 with
          Position := ⟨e2.Position.X, e2.Position.Y,
            e2.Position.Z + dirZ * e2.Speed * deltaTime⟩ } w2
      else w1

/-- The call `self.OnCollision(other)` through the `Collidable` interface: the method of the
dynamic type of the object behind `self` runs; `none` stands for a panic.  The events that
`Enemy.OnCollision` publishes are left with the bus.  `HealthPickup` declares no `OnCollision`
and cannot be registered as a collidable; an object of another type records the call as a
`MockCollidable` does. -/
def World.dispatchOnCollision {β : Type} (B : Subject (World β)) (self other : Ref)
    (w : World β) : Option (World β) :=
  match w.objects self with
  | .player _ => some (Player.OnCollision self other w)
  | .enemy _ => (Enemy.OnCollision B self other w).map Prod.fst
  | .bullet _ => Bullet.OnCollision self other w
  | .obstacle _ => some (Obstacle.OnCollision self other w)
  | .healthPickup _ => some w
  | .foreign m =>
    some { w with objects := (Function.update w.objects self
      (.foreign { m with CallbackCalled := true, CallbackOther := some other })) }

/-- The `Collidable` interface over the heap of the game with the callbacks of the entities.
The heap `none` is the state after a panic: nothing is active in it and nothing runs. -/
def gameCollidable {β : Type} (B : Subject (World β)) : Collidable (Option (World β)) where
  GetBoundingBox := fun s r =>
    match s with
    | some w => (w.objects r).GetBoundingBox
    | none => ⟨⟨0, 0, 0⟩, ⟨0, 0, 0⟩⟩
  GetCollisionTags := fun s r =>
    match s with
    | some w => (w.objects r).GetCollisionTags
    | none => []
  OnCollision := fun self other s => s.bind (World.dispatchOnCollision B self other)
  IsActive := fun s r =>
    match s with
    | some w => (w.objects r).IsActive
    | none => false

namespace WorldScene

/-- `updateEntities`.  `Player.Update` (rotation towards the mouse, movement, shooting, which
reaches the scene through the event bus) is given by `playerUpdate`; it runs only for a player
that is alive.  `none` stands for a panic. -/
def updateEntities {β : Type} (sqrt : float32 → float32)
    (playerUpdate : Ref → float32 → SceneState β → Option (SceneState β))
    (deltaTime : float32) (g : SceneState β) : Option (SceneState β) :=
  let w1 := g.gs.enemies.foldl (fun w enemy => Enemy.Update sqrt enemy deltaTime g.gs.player w)
    g.world
  let w2 := g.gs.bullets.foldl (fun w bullet => Bullet.Update (World.bulletAt bullet) deltaTime w)
    w1
  let w3 := g.gs.healthPickups.foldl (fun w pickup => HealthPickup.Update pickup deltaTime w) w2
  match g.gs.player with
  | none => none
  | some p =>
    if ((World.playerAt p).get w3).IsAlive then playerUpdate p deltaTime { g with world := w3 }
    else some { g with world := w3 }

/-- `Update`: one frame of the scene.  The camera is not modelled. -/
def Update {β : Type} (B : Subject (World β)) (sqrt : float32 → float32)
    (playerUpdate : Ref → float32 → SceneState β → Option (SceneState β))
    (deltaTime : float32) (g : SceneState β) : Option (SceneState β) :=
  if g.gs.paused then some g
  else
    match updateEntities sqrt playerUpdate deltaTime g with
    | none => none
    | some g1 =>
      match (CollisionSystem.Update (gameCollidable B) g1.Collision (some g1.world)).1 with
      | none => none
      | some w2 =>
        let w3 := (TriggerSystem.Update entityTriggerable (entityCollidable (fun _ _ u => u))
          g1.Triggers w2).1
        match cleanupEntities { g1 with world := w3 } with
        | none => none
        | some r => some r.1

end WorldScene

/-- The dynamic type of the object, as a number. -/
def Entity.kind : Entity → Nat
  | .player _ => 0
  | .enemy _ => 1
  | .bullet _ => 2
  | .obstacle _ => 3
  | .healthPickup _ => 4
  | .foreign _ => 5

/-- The heap `w2` differs from `w` only in objects behind the pointers of `rs`, every object
has kept its type, and no bullet that was inactive is active. -/
def World.Evolves {β : Type} (rs : List Ref) (w w2 : World β) : Prop :=
  (∀ r, (w2.objects r).kind = (w.objects r).kind) ∧
  (∀ r, r ∉ rs → w2.objects r = w.objects r) ∧
  (∀ r bl, w.objects r = .bullet bl → bl.Active = false → (w2.objects r).IsActive = false)

/-- The calls of the log whose receiver is `b`. -/
def callsOf (b : Ref) (log : List Call) : List Call :=
  log.filter (fun c => c.1 = b)

/-- The life of the bullet behind `b` over the frames of the list: in each frame
`Bullet.Update(deltaTime)` runs on it and then `CollisionSystem.Update` on the registry of that
frame.  The result is the final heap and the collision callbacks of all frames, in order. -/
def bulletFrames {β : Type} (B : Subject (World β)) (b : Ref) :
    List (float32 × CollisionSystem) → Option (World β) → Option (World β) × List Call
  | [], s => (s, [])
  | frame :: rest, s =>
    let r1 := CollisionSystem.Update (gameCollidable B) frame.2
      (s.map (Bullet.Update (World.bulletAt b) frame.1))
    let r2 := bulletFrames B b rest r1.1
    (r2.1, r1.2 ++ r2.2)

/-- A heap with a bullet of damage 20 at pointer 0 and, at the pointers 1 and 2, two enemies
that it overlaps, and a mock bus that has recorded nothing. -/
def volleyWorld : World (List Event) :=
  World.ofList
    [.bullet (NewBullet ⟨0, 0, 0⟩ ⟨1, 0, 0⟩ 10 2 20),
     .enemy (NewEnemy ⟨0, 0, 0⟩ 50 2),
     .enemy (NewEnemy ⟨0, 0, 0⟩ 15 2)] []

/-- A running scene over the heap of `collision_integration_test.go` in which the player, at
pointer 0, has health 0 and the enemy at pointer 1, which stands on the player, is ready to
attack; both are registered with the collision system and the player with the trigger
system. -/
def deadPlayerScene : SceneState (List Event) where
  gs := ⟨none, some 0, [1], [], [], [], false, "", false⟩
  Collision := ⟨[0, 1]⟩
  Triggers := ⟨[], [0]⟩
  world := integrationWorld 0 0

/-! ## Rounding to `float32` -/

/-- Rounding of a rational number to the nearest integer, a tie going to the even one. -/
def roundHalfEven (x : ℚ) : ℤ :=
  if x - ⌊x⌋ < 1 / 2 then ⌊x⌋
  else if 1 / 2 < x - ⌊x⌋ then ⌊x⌋ + 1
  else if ⌊x⌋ % 2 = 0 then ⌊x⌋
  else ⌊x⌋ + 1

namespace F32

/-- The exponent of the unit in the last place of the binary32 numbers around `q`: 23 below
the exponent of `q`, and `-149` for the subnormal numbers. -/
def ulpExp (q : ℚ) : ℤ := max (Int.log 2 |q|) (-126) - 23

/-- The binary32 number nearest to `q`, ties to even: what a `float32` operation of Go (IEEE 754
single precision) stores when its exact result is `q`.  Overflow to infinity and NaN are left
out, so the result is meant for `|q| < 2 ^ 128`. -/
def round (q : ℚ) : ℚ := (roundHalfEven (q / 2 ^ ulpExp q) : ℚ) * 2 ^ ulpExp q

end F32

/-! ## `CheckMovement` and `checkCollision` with rounded arithmetic

The functions of `collision.go` that compute with `float32` values, with the result of every
addition, subtraction, multiplication and division passed through a rounding function `fl`:
`fl = F32.round` is the arithmetic of the machine, `fl = id` the exact arithmetic of the
definitions above.  Comparisons, `max` and `min` do not round. -/

namespace Rounded

/-- The box `tempBox` that `CheckMovement` builds from `originalBox` and `newPos`. -/
def tempBox (fl : float32 → float32) (originalBox : BoundingBox) (newPos : Vector3) :
    BoundingBox :=
  let offset : Vector3 :=
    ⟨fl (newPos.X - fl (fl (originalBox.Min.X + originalBox.Max.X) / 2)),
     fl (newPos.Y - fl (fl (originalBox.Min.Y + originalBox.Max.Y) / 2)),
     fl (newPos.Z - fl (fl (originalBox.Min.Z + originalBox.Max.Z) / 2))⟩
  ⟨⟨fl (originalBox.Min.X + offset.X), fl (originalBox.Min.Y + offset.Y),
      fl (originalBox.Min.Z + offset.Z)⟩,
   ⟨fl (originalBox.Max.X + offset.X), fl (originalBox.Max.Y + offset.Y),
      fl (originalBox.Max.Z + offset.Z)⟩⟩

/-- `getPenetrationDepth`. -/
def getPenetrationDepth (fl : float32 → float32) (min1 max1 min2 max2 : float32) : float32 :=
  if min1 > max2 ∨ max1 < min2 then 0
  else
    let overlapStart := max min1 min2
    let overlapEnd := min max1 max2
    fl (overlapEnd - overlapStart)

/-- `isMovementIncreasingPenetration`. -/
def isMovementIncreasingPenetration (fl : float32 → float32)
    (originalBox newBox targetBox : BoundingBox) : Bool :=
  let originalPenetrationX :=
    getPenetrationDepth fl originalBox.Min.X originalBox.Max.X targetBox.Min.X targetBox.Max.X
  let originalPenetrationZ :=
    getPenetrationDepth fl originalBox.Min.Z originalBox.Max.Z targetBox.Min.Z targetBox.Max.Z
  let newPenetrationX :=
    getPenetrationDepth fl newBox.Min.X newBox.Max.X targetBox.Min.X targetBox.Max.X
  let newPenetrationZ :=
    getPenetrationDepth fl newBox.Min.Z newBox.Max.Z targetBox.Min.Z targetBox.Max.Z
  decide (newPenetrationX > originalPenetrationX) || decide (newPenetrationZ > originalPenetrationZ)

/-- The `range` loop of `CheckMovement` over the registered collidables. -/
def checkMovementLoop {σ : Type} (fl : float32 → float32) (I : Collidable σ) (s : σ) (obj : Ref)
    (originalBox tmpBox : BoundingBox) : List Ref → Bool
  | [] => true
  | other :: rest =>
    if other = obj ∨ I.IsActive s other = false then
      checkMovementLoop fl I s obj originalBox tmpBox rest
    else if CollisionSystem.shouldCollide I s obj other then
      let otherBox := I.GetBoundingBox s other
      if CheckCollisionBoxes tmpBox otherBox then
        let otherTags := I.GetCollisionTags s other
        let isEnemy := slices.Contains otherTags "enemy"
        if isEnemy && CheckCollisionBoxes originalBox otherBox then
          if !isMovementIncreasingPenetration fl originalBox tmpBox otherBox then
            checkMovementLoop fl I s obj originalBox tmpBox rest
          else false
        else false
      else checkMovementLoop fl I s obj originalBox tmpBox rest
    else checkMovementLoop fl I s obj originalBox tmpBox rest

/-- `CheckMovement`. -/
def CheckMovement {σ : Type} (fl : float32 → float32) (I : Collidable σ) (cs : CollisionSystem)
    (s : σ) (obj : Ref) (newPos : Vector3) : Bool :=
  let originalBox := I.GetBoundingBox s obj
  checkMovementLoop fl I s obj originalBox (tempBox fl originalBox newPos) cs.collidables

/-- `isSpherelike`. -/
def isSpherelike (fl : float32 → float32) (box : BoundingBox) : Bool :=
  let width := fl (box.Max.X - box.Min.X)
  let height := fl (box.Max.Y - box.Min.Y)
  let depth := fl (box.Max.Z - box.Min.Z)
  decide (width < 1) && decide (height < 1) && decide (depth < 1)

/-- One of the three steps of `rl.CheckCollisionBoxSphere` on `dmin`: when the coordinate `c`
of the centre lies outside `[lo, hi]`, the square of its distance to the interval is added. -/
def addAxisDistSq (fl : float32 → float32) (dmin c lo hi : float32) : float32 :=
  if c < lo then fl (dmin + fl (fl (c - lo) * fl (c - lo)))
  else if c > hi then fl (dmin + fl (fl (c - hi) * fl (c - hi)))
  else dmin

/-- Modelled from the spec: `rl.CheckCollisionBoxSphere` is the raylib library's box-versus-sphere
test, the "box-vs-sphere intersection" of the specification.  The library accumulates in `dmin`,
in single precision and in the order X, Y, Z, the squared distance from the centre to the
box and compares it with `radius * radius`; its `powf(d, 2)` is taken as the rounded
product `d * d`. -/
def CheckCollisionBoxSphere (fl : float32 → float32) (box : BoundingBox) (center : Vector3)
    (radius : float32) : Bool :=
  let dminX := addAxisDistSq fl 0 center.X box.Min.X box.Max.X
  let dminY := addAxisDistSq fl dminX center.Y box.Min.Y box.Max.Y
  let dminZ := addAxisDistSq fl dminY center.Z box.Min.Z box.Max.Z
  decide (dminZ ≤ fl (radius * radius))

/-- The body of `checkCollision` on the two bounding boxes. -/
def checkCollisionBoxes (fl : float32 → float32) (boxA boxB : BoundingBox) : Bool :=
  if isSpherelike fl boxA || isSpherelike fl boxB then
    if isSpherelike fl boxA then
      let center : Vector3 :=
        ⟨fl (fl (boxA.Min.X + boxA.Max.X) / 2), fl (fl (boxA.Min.Y + boxA.Max.Y) / 2),
          fl (fl (boxA.Min.Z + boxA.Max.Z) / 2)⟩
      let radius := fl (fl (boxA.Max.X - boxA.Min.X) / 2)
      CheckCollisionBoxSphere fl boxB center radius
    else
      let center : Vector3 :=
        ⟨fl (fl (boxB.Min.X + boxB.Max.X) / 2), fl (fl (boxB.Min.Y + boxB.Max.Y) / 2),
          fl (fl (boxB.Min.Z + boxB.Max.Z) / 2)⟩
      let radius := fl (fl (boxB.Max.X - boxB.Min.X) / 2)
      CheckCollisionBoxSphere fl boxA center radius
  else
    CheckCollisionBoxes boxA boxB

/-- `Bullet.GetBoundingBox`. -/
def Bullet.GetBoundingBox (fl : float32 → float32) (b : Bullet) : BoundingBox :=
  ⟨⟨fl (b.Position.X - b.Radius), fl (b.Position.Y - b.Radius), fl (b.Position.Z - b.Radius)⟩,
   ⟨fl (b.Position.X + b.Radius), fl (b.Position.Y + b.Radius), fl (b.Position.Z + b.Radius)⟩⟩

/-- `Enemy.GetBoundingBox`. -/
def Enemy.GetBoundingBox (fl : float32 → float32) (e : Enemy) : BoundingBox :=
  ⟨⟨fl (e.Position.X - e.Radius), e.Position.Y, fl (e.Position.Z - e.Radius)⟩,
   ⟨fl (e.Position.X + e.Radius), fl (e.Position.Y + e.Height), fl (e.Position.Z + e.Radius)⟩⟩

end Rounded

namespace Rounded

end Rounded

/-- A Go slice `[]Observer` that begins at the first element of its backing array: the
identity of the array, the length and the capacity. -/
structure ObserverSlice where
  array : Nat
  len : Nat
  cap : Nat
  deriving DecidableEq

/-- Go `sync.RWMutex`, as far as one goroutine can tell: the number of read locks held and
whether the write lock is held. -/
structure RWMutex where
  readers : Nat
  writer : Bool
  deriving DecidableEq

namespace RWMutex

/-- `Lock`; `none` when the lock is held, in which case the call never returns. -/
def Lock (mu : RWMutex) : Option RWMutex :=
  if mu.writer = true ∨ 0 < mu.readers then none else some { mu with writer := true }

/-- `Unlock`; `none` is the fatal error of unlocking a mutex that is not locked. -/
def Unlock (mu : RWMutex) : Option RWMutex :=
  if mu.writer = true then some { mu with writer := false } else none

/-- `RLock`; `none` when the write lock is held, in which case the call never returns. -/
def RLock (mu : RWMutex) : Option RWMutex :=
  if mu.writer = true then none else some { mu with readers := mu.readers + 1 }

/-- `RUnlock`; `none` is the fatal error of unlocking a mutex that is not read-locked. -/
def RUnlock (mu : RWMutex) : Option RWMutex :=
  if 0 < mu.readers then some { mu with readers := mu.readers - 1 } else none

end RWMutex

/-- The memory behind an `EventBus`: the map `observers` from event type to slice header, and
the backing arrays by identity, `next` being the identity of the array allocated next.  An
array element is an interface value: `none` is `nil`. -/
structure BusMemory where
  observers : String → Option ObserverSlice
  arrays : Nat → List (Option Ref)
  next : Nat

namespace BusMemory

/-- The `nil` slice, which `eb.observers[eventType]` yields for a key that is not in the map. -/
def nilSlice : ObserverSlice := ⟨0, 0, 0⟩

/-- Go `append(s, xs...)`, with the elements `xs` read before anything is written: in place
when the capacity of `s` allows it, into a new array otherwise.  The capacity of a new array is
chosen by the runtime, here `grow`, and is at least the length needed. -/
def append (grow : Nat → Nat → Nat) (m : BusMemory) (s : ObserverSlice)
    (xs : List (Option Ref)) : BusMemory × ObserverSlice :=
  if s.len + xs.length ≤ s.cap then
    ({ m with arrays := (Function.update m.arrays s.array
        ((m.arrays s.array).take s.len ++ xs ++ (m.arrays s.array).drop (s.len + xs.length))) },
     { s with len := s.len + xs.length })
  else
    ({ m with
        arrays := (Function.update m.arrays m.next
          ((m.arrays s.array).take s.len ++ xs ++
            List.replicate (max (s.len + xs.length) (grow s.cap (s.len + xs.length)) -
              (s.len + xs.length)) none)),
        next := m.next + 1 },
     ⟨m.next, s.len + xs.length, max (s.len + xs.length) (grow s.cap (s.len + xs.length))⟩)

/-- The body of `Subscribe`, between `Lock` and `Unlock`. -/
def subscribeLocked (grow : Nat → Nat → Nat) (m : BusMemory) (eventType : String)
    (observer : Option Ref) : BusMemory × error :=
  match observer with
  | none => (m, some "cannot subscribe nil observer")
  | some o =>
    let r := m.append grow ((m.observers eventType).getD nilSlice) [some o]
    ({ r.1 with observers := Function.update r.1.observers eventType (some r.2) }, none)

/-- The `range` loop of `Unsubscribe` over the elements of `observers`, from index `i` on: the
first index whose element is `observer`. -/
def scan (observer : Option Ref) : Nat → List (Option Ref) → Option Nat
  | _, [] => none
  | i, obs :: rest => if obs = observer then some i else scan observer (i + 1) rest

/-- The assignment in the loop of `Unsubscribe` at the index `i` of the match:
`eb.observers[eventType] = append(observers[:i], observers[i+1:]...)`. -/
def removeAt (grow : Nat → Nat → Nat) (m : BusMemory) (eventType : String)
    (observers : ObserverSlice) (i : Nat) : BusMemory :=
  { (m.append grow { observers with len := i }
        (((m.arrays observers.array).take observers.len).drop (i + 1))).1 with
    observers := (Function.update
      (m.append grow { observers with len := i }
        (((m.arrays observers.array).take observers.len).drop (i + 1))).1.observers eventType
      (some (m.append grow { observers with len := i }
        (((m.arrays observers.array).take observers.len).drop (i + 1))).2)) }

/-- The clean-up at the end of `Unsubscribe`: the key of an empty slice is deleted. -/
def dropEmpty (m : BusMemory) (eventType : String) : BusMemory :=
  if ((m.observers eventType).getD nilSlice).len = 0 then
    { m with observers := (Function.update m.observers eventType none) }
  else m

/-- The body of `Unsubscribe`, between `Lock` and `Unlock`. -/
def unsubscribeLocked (grow : Nat → Nat → Nat) (m : BusMemory) (eventType : String)
    (observer : Option Ref) : BusMemory × error :=
  match m.observers eventType with
  | none => (m, none)
  | some observers =>
    match scan observer 0 ((m.arrays observers.array).take observers.len) with
    | some i => (dropEmpty (removeAt grow m eventType observers i) eventType, none)
    | none => (dropEmpty m eventType, none)

/-- The body of `Clear`, between `Lock` and `Unlock`. -/
def clearLocked (m : BusMemory) : BusMemory :=
  { m with observers := fun _ => none }

/-- The elements of the slice `eb.observers[eventType]`. -/
def observersOf (m : BusMemory) (eventType : String) : List (Option Ref) :=
  match m.observers eventType with
  | none => []
  | some s => (m.arrays s.array).take s.len

end BusMemory

/-- `EventBus` as it lies in memory: the map with the arrays behind it, and the mutex. -/
structure LockedBus where
  mem : BusMemory
  mutex : RWMutex

namespace LockedBus

/-- `NewEventBus`. -/
def New : LockedBus := ⟨⟨fun _ => none, fun _ => [], 0⟩, ⟨0, false⟩⟩

/-- `Subscribe`; `none` when the call does not return. -/
def Subscribe (grow : Nat → Nat → Nat) (eb : LockedBus) (eventType : String)
    (observer : Option Ref) : Option (LockedBus × error) :=
  match eb.mutex.Lock with
  | none => none
  | some mu1 =>
    let r := eb.mem.subscribeLocked grow eventType observer
    match mu1.Unlock with
    | none => none
    | some mu2 => some (⟨r.1, mu2⟩, r.2)

/-- `Unsubscribe`; `none` when the call does not return. -/
def Unsubscribe (grow : Nat → Nat → Nat) (eb : LockedBus) (eventType : String)
    (observer : Option Ref) : Option (LockedBus × error) :=
  match eb.mutex.Lock with
  | none => none
  | some mu1 =>
    let r := eb.mem.unsubscribeLocked grow eventType observer
    match mu1.Unlock with
    | none => none
    | some mu2 => some (⟨r.1, mu2⟩, r.2)

/-- `Clear`; `none` when the call does not return. -/
def Clear (eb : LockedBus) : Option LockedBus :=
  match eb.mutex.Lock with
  | none => none
  | some mu1 =>
    match mu1.Unlock with
    | none => none
    | some mu2 => some ⟨eb.mem.clearLocked, mu2⟩

end LockedBus

/-- A call that an observer makes on the bus while it handles an event. -/
inductive BusAction where
  | subscribe (eventType : String) (observer : Option Ref)
  | unsubscribe (eventType : String) (observer : Option Ref)
  | clear
  deriving DecidableEq

/-- A heap with the bus in memory and observers that call back into it: `script` lists the
calls that each observer makes when it is notified, `fails` tells whether its `OnNotify` returns
an error, and `received` is what it has been sent. -/
structure MemWorld where
  bus : LockedBus
  script : Ref → List BusAction
  fails : Ref → Bool
  received : Ref → List Event

namespace MemWorld

/-- One call of an observer on the bus; the value the call returns is dropped. -/
def act (grow : Nat → Nat → Nat) (w : MemWorld) : BusAction → Option MemWorld
  | .subscribe eventType observer =>
    (w.bus.Subscribe grow eventType observer).map (fun r => { w with bus := r.1 })
  | .unsubscribe eventType observer =>
    (w.bus.Unsubscribe grow eventType observer).map (fun r => { w with bus := r.1 })
  | .clear => w.bus.Clear.map (fun b => { w with bus := b })

/-- `OnNotify` of the observer behind `self`: it records the event and makes the calls of its
script, in order. -/
def OnNotify (grow : Nat → Nat → Nat) (self : Ref) (event : Event) (w : MemWorld) :
    Option (MemWorld × error) :=
  ((w.script self).foldlM (act grow)
      { w with received := Function.update w.received self (w.received self ++ [event]) }).map
    (fun w2 => (w2, if w.fails self then some "observer error" else none))

/-- Go `copy(dst, src)` on the elements of the two slices: the elements of `dst` afterwards. -/
def goCopy (dst src : List (Option Ref)) : List (Option Ref) :=
  src.take (min dst.length src.length) ++ dst.drop (min dst.length src.length)

/-- The body of the delivery loop of `Notify` at index `i` of `observersCopy`: the element is
read from the array of the copy as it is now; calling `OnNotify` on `nil` panics. -/
def deliverStep (grow : Nat → Nat → Nat) (event : Event) (observersCopy : ObserverSlice)
    (st : MemWorld × List (Ref × error) × List String) (i : Nat) :
    Option (MemWorld × List (Ref × error) × List String) :=
  match (st.1.bus.mem.arrays observersCopy.array).getD i none with
  | none => none
  | some observer =>
    match OnNotify grow observer event st.1 with
    | none => none
    | some r =>
      match r.2 with
      | some err => some (r.1, st.2.1 ++ [(observer, r.2)],
          st.2.2 ++ ["observer notification failed: " ++ err])
      | none => some (r.1, st.2.1 ++ [(observer, r.2)], st.2.2)

/-- `Notify`: the heap afterwards, every `OnNotify` call made with the value it returned, in
order, and the returned error; `none` when the call does not return. -/
def Notify (grow : Nat → Nat → Nat) (event : Event) (w : MemWorld) :
    Option (MemWorld × List (Ref × error) × error) :=
  match w.bus.mutex.RLock with
  | none => none
  | some mu1 =>
    match mu1.RUnlock with
    | none => none
    | some mu2 =>
      match w.bus.mem.observers event.Type_ with
      | none => some ({ w with bus := { w.bus with mutex := mu2 } }, [], none)
      | some observers =>
        let observersCopy : ObserverSlice := ⟨w.bus.mem.next, observers.len, observers.len⟩
        let mem1 : BusMemory :=
          { w.bus.mem with
            arrays := (Function.update w.bus.mem.arrays w.bus.mem.next
              (goCopy (List.replicate observers.len none)
                ((w.bus.mem.arrays observers.array).take observers.len))),
            next := w.bus.mem.next + 1 }
        match (List.range observersCopy.len).foldlM (deliverStep grow event observersCopy)
            ({ w with bus := ⟨mem1, mu2⟩ }, [], []) with
        | none => none
        | some r =>
          if r.2.2.length > 0 then
            some (r.1, r.2.1,
              some ("notification errors occurred: [" ++ " ".intercalate r.2.2 ++ "]"))
          else some (r.1, r.2.1, none)

end MemWorld

/-- The memory of a bus is well formed: every stored slice is non-empty, lies within its array,
which has been allocated, holds no `nil`, and no two event types share an array. -/
def BusMemory.WF (m : BusMemory) : Prop :=
  (∀ t s, m.observers t = some s →
    0 < s.len ∧ s.len ≤ s.cap ∧ s.cap = (m.arrays s.array).length ∧ s.array < m.next ∧
      ∀ x ∈ (m.arrays s.array).take s.len, x ≠ none) ∧
  (∀ t1 t2 s1 s2, m.observers t1 = some s1 → m.observers t2 = some s2 →
    s1.array = s2.array → t1 = t2)

/-- What a call of an observer does to the lists of observers, seen as lists: `Subscribe`
appends unless the observer is `nil`, `Unsubscribe` removes the first entry identical to the
observer, `Clear` empties every list. -/
def BusAction.effect : BusAction → (String → List (Option Ref)) → String → List (Option Ref)
  | .subscribe eventType observer, f =>
    if observer = none then f else Function.update f eventType (f eventType ++ [observer])
  | .unsubscribe eventType observer, f =>
    Function.update f eventType ((f eventType).erase observer)
  | .clear, _ => fun _ => []

/-- The array `a` has been allocated and no slice of the map lies in it. -/
def BusMemory.Private (m : BusMemory) (a : Nat) : Prop :=
  a < m.next ∧ ∀ t s, m.observers t = some s → s.array ≠ a

/-- The memory `m2` is well formed, its lists of observers are `lists`, and it has left alone
every array that was private in `m`, which is private still. -/
def BusMemory.Step (m m2 : BusMemory) (lists : String → List (Option Ref)) : Prop :=
  m2.WF ∧ m2.observersOf = lists ∧ m.next ≤ m2.next ∧
    ∀ a, m.Private a → m2.Private a ∧ m2.arrays a = m.arrays a

/-- The capacity that `append` gives a new array: twice the old capacity, as the Go runtime
does for small slices. -/
def doubling (cap _needed : Nat) : Nat := 2 * cap

/-- A bus in memory to which the observers 0, 1 and 2 have subscribed, in this order, for the
test event, and observers that call back into the bus when they are notified: observer 0
unsubscribes itself, observer 1 subscribes observer 7, observer 2 unsubscribes observer 1 and
every other observer only records the event. -/
def reentrantMemory : MemWorld where
  bus := ⟨(((LockedBus.New.mem.subscribeLocked doubling "test_event" (some 0)).1.subscribeLocked
    doubling "test_event" (some 1)).1.subscribeLocked doubling "test_event" (some 2)).1,
    ⟨0, false⟩⟩
  script := fun r =>
    if r = 0 then [.unsubscribe "test_event" (some 0)]
    else if r = 1 then [.subscribe "test_event" (some 7)]
    else if r = 2 then [.unsubscribe "test_event" (some 1)]
    else []
  fails := fun _ => false
  received := fun _ => []

/-! ## Tag compatibility -/

theorem slices.Contains_iff (s : List String) (v : String) :
    slices.Contains s v = true ↔ v ∈ s := by
  unfold slices.Contains
  rw [List.any_eq_true]
  constructor
  · rintro ⟨x, hx, hxv⟩
    have : x = v := by simpa using hxv
    exact this ▸ hx
  · intro h
    exact ⟨v, h, by simp⟩

theorem collisionRules_row (a : String) (tagsB : List String) :
    (match CollisionSystem.collisionRules.lookup a with
      | some allowedTags => tagsB.any (fun tagB => slices.Contains allowedTags tagB)
      | none => false) = true ↔ ∃ b ∈ tagsB, RuleAllows a b := by
  unfold RuleAllows
  by_cases h1 : a = "player"
  · subst h1; simp [CollisionSystem.collisionRules, List.lookup, slices.Contains_iff]
  by_cases h2 : a = "bullet"
  · subst h2; simp [CollisionSystem.collisionRules, List.lookup, slices.Contains_iff]
  by_cases h3 : a = "enemy"
  · subst h3; simp [CollisionSystem.collisionRules, List.lookup, slices.Contains_iff]
  by_cases h4 : a = "obstacle"
  · subst h4; simp [CollisionSystem.collisionRules, List.lookup, slices.Contains_iff]
  by_cases h5 : a = "health_pickup"
  · subst h5; simp [CollisionSystem.collisionRules, List.lookup, slices.Contains_iff]
  have e1 : (a == "player") = false := by simpa using h1
  have e2 : (a == "bullet") = false := by simpa using h2
  have e3 : (a == "enemy") = false := by simpa using h3
  have e4 : (a == "obstacle") = false := by simpa using h4
  have e5 : (a == "health_pickup") = false := by simpa using h5
  simp [CollisionSystem.collisionRules, List.lookup, e1, e2, e3, e4, e5, h1, h2, h3, h4, h5]

theorem RuleAllows_symm {a b : String} (h : RuleAllows a b) : RuleAllows b a := by
  unfold RuleAllows at h ⊢
  rcases h with ⟨rfl, h⟩ | ⟨rfl, h⟩ | ⟨rfl, h⟩ | ⟨rfl, h⟩ | ⟨rfl, h⟩ <;>
    simp only [List.mem_cons, List.mem_singleton, List.not_mem_nil, or_false] at h <;>
    rcases h with rfl | rfl | rfl | rfl <;> simp

theorem shouldCollide_eq_true_iff {σ : Type} (I : Collidable σ) (s : σ) (objA objB : Ref) :
    CollisionSystem.shouldCollide I s objA objB = true ↔
      objA ≠ objB ∧ I.IsActive s objA = true ∧ I.IsActive s objB = true ∧
      ∃ a ∈ I.GetCollisionTags s objA, ∃ b ∈ I.GetCollisionTags s objB, RuleAllows a b := by
  unfold CollisionSystem.shouldCollide
  by_cases hab : objA = objB
  · simp [hab]
  by_cases hA : I.IsActive s objA = true
  · by_cases hB : I.IsActive s objB = true
    · simp only [hab, hA, hB, if_false, Bool.not_true, Bool.or_self, Bool.false_eq_true,
        ne_eq, not_false_eq_true, true_and, List.any_eq_true]
      constructor
      · rintro ⟨a, ha, hrow⟩
        exact ⟨a, ha, (collisionRules_row a _).1 hrow⟩
      · rintro ⟨a, ha, hrow⟩
        exact ⟨a, ha, (collisionRules_row a _).2 hrow⟩
    · simp [hab, hA, hB]
  · simp [hab, hA]

/-- C5: `shouldCollide(A, B)` holds exactly when `A` and `B` are distinct objects, both are
active, and some tag `a` of `A` and some tag `b` of `B` are paired by the rule table
player -> obstacle, enemy, health_pickup; bullet -> obstacle, enemy; enemy -> player, bullet,
obstacle; obstacle -> player, bullet, enemy, obstacle; health_pickup -> player.  In particular
an object tagged only enemy is not eligible against one tagged only health_pickup, and a
distinct active pair tagged player, test and enemy is eligible. -/
theorem shouldCollide_iff_rule_table {σ : Type} (I : Collidable σ) (s : σ) (A B : Ref) :
    (CollisionSystem.shouldCollide I s A B = true ↔
      A ≠ B ∧ I.IsActive s A = true ∧ I.IsActive s B = true ∧
      ∃ a ∈ I.GetCollisionTags s A, ∃ b ∈ I.GetCollisionTags s B,
        (a = "player" ∧ b ∈ ["obstacle", "enemy", "health_pickup"]) ∨
        (a = "bullet" ∧ b ∈ ["obstacle", "enemy"]) ∨
        (a = "enemy" ∧ b ∈ ["player", "bullet", "obstacle"]) ∨
        (a = "obstacle" ∧ b ∈ ["player", "bullet", "enemy", "obstacle"]) ∨
        (a = "health_pickup" ∧ b ∈ ["player"])) ∧
    (I.GetCollisionTags s A = ["enemy"] → I.GetCollisionTags s B = ["health_pickup"] →
      CollisionSystem.shouldCollide I s A B = false) ∧
    (A ≠ B → I.IsActive s A = true → I.IsActive s B = true →
      I.GetCollisionTags s A = ["player", "test"] → I.GetCollisionTags s B = ["enemy"] →
      CollisionSystem.shouldCollide I s A B = true) := by
  refine ⟨shouldCollide_eq_true_iff I s A B, ?_, ?_⟩
  · intro hA hB
    rw [← Bool.not_eq_true, shouldCollide_eq_true_iff, hA, hB]
    simp [RuleAllows]
  · intro hne hA hB htA htB
    rw [shouldCollide_eq_true_iff, htA, htB]
    exact ⟨hne, hA, hB, by simp [RuleAllows]⟩

/-- C6: eligibility is symmetric: `shouldCollide(A, B) = shouldCollide(B, A)` for objects with
arbitrary tag lists, so testing a pair from the side of either object gives the same answer. -/
theorem shouldCollide_symm {σ : Type} (I : Collidable σ) (s : σ) (A B : Ref) :
    CollisionSystem.shouldCollide I s A B = CollisionSystem.shouldCollide I s B A := by
  rw [Bool.eq_iff_iff, shouldCollide_eq_true_iff, shouldCollide_eq_true_iff]
  constructor
  · rintro ⟨hne, hA, hB, a, ha, b, hb, hr⟩
    exact ⟨Ne.symm hne, hB, hA, b, hb, a, ha, RuleAllows_symm hr⟩
  · rintro ⟨hne, hA, hB, a, ha, b, hb, hr⟩
    exact ⟨Ne.symm hne, hB, hA, b, hb, a, ha, RuleAllows_symm hr⟩

theorem unregisterLoop_eq (obj : Ref) (rest pre : List Ref) (hpre : obj ∉ pre) :
    CollisionSystem.unregisterLoop (pre ++ rest) obj pre.length rest =
      some (pre ++ rest.erase obj) := by
  induction rest generalizing pre with
  | nil => simp [CollisionSystem.unregisterLoop]
  | cons x rest ih =>
    unfold CollisionSystem.unregisterLoop
    by_cases hx : x = obj
    · subst hx
      simp [slices.Delete, List.take_append_eq_append_take, List.drop_append_eq_append_drop]
    · have hpre2 : obj ∉ pre ++ [x] := by
        simp [hpre, Ne.symm hx]
      have h := ih (pre ++ [x]) hpre2
      simp only [List.append_assoc, List.singleton_append, List.length_append,
        List.length_singleton] at h
      rw [if_neg hx, h, List.erase_cons_tail (by simpa using hx)]

theorem unregisterLoop_erase (l : List Ref) (obj : Ref) :
    CollisionSystem.unregisterLoop l obj 0 l = some (l.erase obj) := by
  simpa using unregisterLoop_eq obj l [] (by simp)

theorem erase_first_occurrence (pre post : List Ref) (obj : Ref) (hpre : obj ∉ pre) :
    (pre ++ obj :: post).erase obj = pre ++ post := by
  rw [List.erase_append_right _ hpre, List.erase_cons_head]

/-- C9: `UnregisterCollidable` of the collision system, and `UnregisterTrigger` and
`UnregisterCollidable` of the trigger system, never panic and leave the list with exactly its
first entry identical to `obj` removed, the other entries (and the other list of the trigger
system) kept in order; when `obj` is not in the list, nothing changes. -/
theorem unregister_removes_first_match (cs : CollisionSystem) (ts : TriggerSystem) (obj : Ref) :
    (∀ pre post : List Ref, obj ∉ pre →
      (cs.collidables = pre ++ obj :: post →
        cs.UnregisterCollidable obj = some ⟨pre ++ post⟩) ∧
      (ts.triggers = pre ++ obj :: post →
        ts.UnregisterTrigger obj = some ⟨pre ++ post, ts.collidables⟩) ∧
      (ts.collidables = pre ++ obj :: post →
        ts.UnregisterCollidable obj = some ⟨ts.triggers, pre ++ post⟩)) ∧
    (obj ∉ cs.collidables → cs.UnregisterCollidable obj = some cs) ∧
    (obj ∉ ts.triggers → ts.UnregisterTrigger obj = some ts) ∧
    (obj ∉ ts.collidables → ts.UnregisterCollidable obj = some ts) ∧
    cs.UnregisterCollidable obj = some ⟨cs.collidables.erase obj⟩ ∧
    ts.UnregisterTrigger obj = some ⟨ts.triggers.erase obj, ts.collidables⟩ ∧
    ts.UnregisterCollidable obj = some ⟨ts.triggers, ts.collidables.erase obj⟩ := by
  have hc : cs.UnregisterCollidable obj = some ⟨cs.collidables.erase obj⟩ := by
    simp [CollisionSystem.UnregisterCollidable, unregisterLoop_erase]
  have ht : ts.UnregisterTrigger obj = some ⟨ts.triggers.erase obj, ts.collidables⟩ := by
    simp [TriggerSystem.UnregisterTrigger, unregisterLoop_erase]
  have htc : ts.UnregisterCollidable obj = some ⟨ts.triggers, ts.collidables.erase obj⟩ := by
    simp [TriggerSystem.UnregisterCollidable, unregisterLoop_erase]
  refine ⟨?_, ?_, ?_, ?_, hc, ht, htc⟩
  · intro pre post hpre
    refine ⟨?_, ?_, ?_⟩
    · intro h
      rw [hc, h, erase_first_occurrence pre post obj hpre]
    · intro h
      rw [ht, h, erase_first_occurrence pre post obj hpre]
    · intro h
      rw [htc, h, erase_first_occurrence pre post obj hpre]
  · intro h
    rw [hc, List.erase_of_not_mem h]
  · intro h
    rw [ht, List.erase_of_not_mem h]
  · intro h
    rw [htc, List.erase_of_not_mem h]

/-! ## Movement validation -/

theorem filter_lt_range (n i : Nat) :
    (List.range n).filter (fun j => decide (i < j)) = List.range' (i + 1) (n - (i + 1)) := by
  induction n with
  | zero => simp
  | succ n ih =>
    rw [List.range_succ, List.filter_append, ih]
    by_cases h : i < n
    · have hlen : n + 1 - (i + 1) = (n - (i + 1)) + 1 := by omega
      rw [hlen, List.range'_concat]
      simp [h]
      omega
    · have h1 : n + 1 - (i + 1) = 0 := by omega
      have h2 : n - (i + 1) = 0 := by omega
      simp [h, h1, h2]

theorem indexPairs_eq (n : Nat) :
    indexPairs n =
      (List.range n).flatMap (fun i =>
        (List.range' (i + 1) (n - (i + 1))).map (fun j => (i, j))) := by
  unfold indexPairs
  rw [List.product.eq_1, List.filter_flatMap]
  congr 1
  funext i
  rw [List.filter_map, ← filter_lt_range]
  rfl

theorem mem_indexPairs (n i j : Nat) : (i, j) ∈ indexPairs n ↔ i < j ∧ j < n := by
  unfold indexPairs
  rw [List.mem_filter, List.pair_mem_product]
  simp only [List.mem_range, decide_eq_true_eq]
  omega

theorem indexPairs_sorted (n : Nat) :
    (indexPairs n).Pairwise (fun p q => p.1 < q.1 ∨ (p.1 = q.1 ∧ p.2 < q.2)) := by
  unfold indexPairs
  apply List.Pairwise.filter
  rw [List.product.eq_1, List.pairwise_flatMap]
  constructor
  · intro a _
    rw [List.pairwise_map]
    exact (List.pairwise_lt_range n).imp (fun h => Or.inr ⟨rfl, h⟩)
  · refine (List.pairwise_lt_range n).imp ?_
    intro a b hab x hx y hy
    rw [List.mem_map] at hx hy
    obtain ⟨_, _, rfl⟩ := hx
    obtain ⟨_, _, rfl⟩ := hy
    exact Or.inl hab

theorem collidable_sameView_trans {σ : Type} {I : Collidable σ} {s t u : σ}
    (h1 : I.SameView s t) (h2 : I.SameView t u) : I.SameView s u := by
  intro r
  exact ⟨(h1 r).1.trans (h2 r).1, (h1 r).2.1.trans (h2 r).2.1, (h1 r).2.2.trans (h2 r).2.2⟩

theorem shouldCollide_congr {σ : Type} {I : Collidable σ} {s t : σ} (h : I.SameView s t)
    (a b : Ref) :
    CollisionSystem.shouldCollide I s a b = CollisionSystem.shouldCollide I t a b := by
  unfold CollisionSystem.shouldCollide
  rw [(h a).1, (h b).1, (h a).2.2, (h b).2.2]

theorem checkCollision_congr {σ : Type} {I : Collidable σ} {s t : σ} (h : I.SameView s t)
    (a b : Ref) :
    CollisionSystem.checkCollision I s a b = CollisionSystem.checkCollision I t a b := by
  unfold CollisionSystem.checkCollision
  rw [(h a).2.1, (h b).2.1]

/-- The callbacks that one pair contributes, judged on the heap `s`. -/
theorem updatePair_passive {σ : Type} {I : Collidable σ} (hp : I.Passive) (s0 : σ)
    (a b : Ref) (st : σ × List Call) (hv : I.SameView st.1 s0) :
    I.SameView (CollisionSystem.updatePair I a b st).1 s0 ∧
    (CollisionSystem.updatePair I a b st).2 =
      st.2 ++ (if (I.IsActive s0 b && CollisionSystem.shouldCollide I s0 a b &&
          CollisionSystem.checkCollision I s0 a b) = true
        then [(a, b), (b, a)] else []) := by
  unfold CollisionSystem.updatePair
  rw [shouldCollide_congr hv, checkCollision_congr hv, (hv b).1]
  cases hb : I.IsActive s0 b
  · simp [hv]
  · cases hsc : CollisionSystem.shouldCollide I s0 a b
    · simp [hv]
    · cases hcc : CollisionSystem.checkCollision I s0 a b
      · simp [hv]
      · simp only [Bool.true_eq_false, if_false, if_true, Bool.and_self]
        exact ⟨collidable_sameView_trans (collidable_sameView_trans (hp b a _) (hp a b _)) hv, trivial⟩

theorem inner_fold_passive {σ : Type} {I : Collidable σ} (hp : I.Passive) (s0 : σ)
    (a : Ref) (f : Nat → Ref) (js : List Nat) (st : σ × List Call) (hv : I.SameView st.1 s0) :
    I.SameView (js.foldl (fun st j => CollisionSystem.updatePair I a (f j) st) st).1 s0 ∧
    (js.foldl (fun st j => CollisionSystem.updatePair I a (f j) st) st).2 =
      st.2 ++ js.flatMap (fun j =>
        if (I.IsActive s0 (f j) && CollisionSystem.shouldCollide I s0 a (f j) &&
          CollisionSystem.checkCollision I s0 a (f j)) = true
        then [(a, f j), (f j, a)] else []) := by
  induction js generalizing st with
  | nil => simp [hv]
  | cons j js ih =>
    have h1 := updatePair_passive hp s0 a (f j) st hv
    have h2 := ih (CollisionSystem.updatePair I a (f j) st) h1.1
    rw [List.foldl_cons, List.flatMap_cons]
    refine ⟨h2.1, ?_⟩
    rw [h2.2, h1.2, List.append_assoc]

theorem updateRow_passive {σ : Type} {I : Collidable σ} (hp : I.Passive) (s0 : σ)
    (cs : CollisionSystem) (i : Nat) (st : σ × List Call) (hv : I.SameView st.1 s0) :
    I.SameView (CollisionSystem.updateRow I cs st i).1 s0 ∧
    (CollisionSystem.updateRow I cs st i).2 =
      st.2 ++ ((List.range' (i + 1) (cs.collidables.length - (i + 1))).map
        (fun j => (i, j))).flatMap (fun p =>
          if (I.IsActive s0 (cs.collidables.getD p.1 0) &&
              I.IsActive s0 (cs.collidables.getD p.2 0) &&
              CollisionSystem.shouldCollide I s0 (cs.collidables.getD p.1 0)
                (cs.collidables.getD p.2 0) &&
              CollisionSystem.checkCollision I s0 (cs.collidables.getD p.1 0)
                (cs.collidables.getD p.2 0)) = true
          then [(cs.collidables.getD p.1 0, cs.collidables.getD p.2 0),
                (cs.collidables.getD p.2 0, cs.collidables.getD p.1 0)] else []) := by
  unfold CollisionSystem.updateRow
  dsimp only
  rw [(hv (cs.collidables.getD i 0)).1, List.flatMap_map]
  cases ha : I.IsActive s0 (cs.collidables.getD i 0)
  · simp only [ha, Bool.false_and, Bool.false_eq_true, if_false, if_true]
    exact ⟨hv, by simp⟩
  · simp only [ha, Bool.true_and, Bool.true_eq_false, if_false]
    exact inner_fold_passive hp s0 (cs.collidables.getD i 0)
      (fun j => cs.collidables.getD j 0) (List.range' (i + 1) (cs.collidables.length - (i + 1)))
      st hv

theorem outer_fold_passive {σ : Type} {I : Collidable σ} (hp : I.Passive) (s0 : σ)
    (cs : CollisionSystem) (is : List Nat) (st : σ × List Call) (hv : I.SameView st.1 s0) :
    I.SameView (is.foldl (CollisionSystem.updateRow I cs) st).1 s0 ∧
    (is.foldl (CollisionSystem.updateRow I cs) st).2 =
      st.2 ++ (is.flatMap (fun i =>
        (List.range' (i + 1) (cs.collidables.length - (i + 1))).map (fun j => (i, j)))).flatMap
        (fun p =>
          if (I.IsActive s0 (cs.collidables.getD p.1 0) &&
              I.IsActive s0 (cs.collidables.getD p.2 0) &&
              CollisionSystem.shouldCollide I s0 (cs.collidables.getD p.1 0)
                (cs.collidables.getD p.2 0) &&
              CollisionSystem.checkCollision I s0 (cs.collidables.getD p.1 0)
                (cs.collidables.getD p.2 0)) = true
          then [(cs.collidables.getD p.1 0, cs.collidables.getD p.2 0),
                (cs.collidables.getD p.2 0, cs.collidables.getD p.1 0)] else []) := by
  induction is generalizing st with
  | nil => simp [hv]
  | cons i is ih =>
    have h1 := updateRow_passive hp s0 cs i st hv
    have h2 := ih (CollisionSystem.updateRow I cs st i) h1.1
    rw [List.foldl_cons, List.flatMap_cons, List.flatMap_append]
    refine ⟨h2.1, ?_⟩
    rw [h2.2, h1.2, List.append_assoc]

theorem foldl_invariant {α β : Type} (P : β → Prop) (f : β → α → β) (l : List α) (b : β)
    (hb : P b) (hf : ∀ b a, P b → P (f b a)) : P (l.foldl f b) := by
  induction l generalizing b with
  | nil => exact hb
  | cons a l ih => exact ih (f b a) (hf b a hb)

theorem updatePair_distinct {σ : Type} (I : Collidable σ) (a b : Ref) (st : σ × List Call)
    (h : ∀ c ∈ st.2, c.1 ≠ c.2) : ∀ c ∈ (CollisionSystem.updatePair I a b st).2, c.1 ≠ c.2 := by
  unfold CollisionSystem.updatePair
  by_cases h1 : I.IsActive st.1 b = false
  · rw [if_pos h1]; exact h
  · rw [if_neg h1]
    by_cases h2 : CollisionSystem.shouldCollide I st.1 a b = true
    · rw [if_pos h2]
      by_cases h3 : CollisionSystem.checkCollision I st.1 a b = true
      · rw [if_pos h3]
        have hne : a ≠ b := ((shouldCollide_eq_true_iff I st.1 a b).1 h2).1
        intro c hc
        simp only [List.mem_append, List.mem_cons, List.mem_singleton, List.not_mem_nil,
          or_false] at hc
        rcases hc with hc | rfl | rfl
        · exact h c hc
        · exact hne
        · exact Ne.symm hne
      · rw [if_neg h3]; exact h
    · rw [if_neg h2]; exact h

theorem updateRow_distinct {σ : Type} (I : Collidable σ) (cs : CollisionSystem) (i : Nat)
    (st : σ × List Call) (h : ∀ c ∈ st.2, c.1 ≠ c.2) :
    ∀ c ∈ (CollisionSystem.updateRow I cs st i).2, c.1 ≠ c.2 := by
  unfold CollisionSystem.updateRow
  dsimp only
  by_cases h1 : I.IsActive st.1 (cs.collidables.getD i 0) = false
  · rw [if_pos h1]; exact h
  · rw [if_neg h1]
    exact foldl_invariant (fun st : σ × List Call => ∀ c ∈ st.2, c.1 ≠ c.2) _ _ st h
      (fun st j hst => updatePair_distinct I _ _ st hst)

/-- C1: when the callbacks leave the active flag, bounding box and tags of every object
unchanged, the callbacks that `Update` invokes are, for the index pairs `i < j` in lexicographic
order whose objects are both active, eligible and colliding, `obj_i.OnCollision(obj_j)` followed
at once by `obj_j.OnCollision(obj_i)`, and nothing else; each index pair occurs once in that
order, and no callback is invoked on or receives an inactive object. -/
theorem Update_calls_exact {σ : Type} (I : Collidable σ) (cs : CollisionSystem) (s : σ)
    (hp : I.Passive) :
    (CollisionSystem.Update I cs s).2 =
      (indexPairs cs.collidables.length).flatMap (fun p =>
        if (I.IsActive s (cs.collidables.getD p.1 0) &&
            I.IsActive s (cs.collidables.getD p.2 0) &&
            CollisionSystem.shouldCollide I s (cs.collidables.getD p.1 0)
              (cs.collidables.getD p.2 0) &&
            CollisionSystem.checkCollision I s (cs.collidables.getD p.1 0)
              (cs.collidables.getD p.2 0)) = true
        then [(cs.collidables.getD p.1 0, cs.collidables.getD p.2 0),
              (cs.collidables.getD p.2 0, cs.collidables.getD p.1 0)] else []) ∧
    (∀ i j, (i, j) ∈ indexPairs cs.collidables.length ↔ i < j ∧ j < cs.collidables.length) ∧
    (indexPairs cs.collidables.length).Pairwise
      (fun p q => p.1 < q.1 ∨ (p.1 = q.1 ∧ p.2 < q.2)) ∧
    (∀ c ∈ (CollisionSystem.Update I cs s).2,
      I.IsActive s c.1 = true ∧ I.IsActive s c.2 = true) := by
  have hv : I.SameView s s := fun _ => ⟨rfl, rfl, rfl⟩
  have key := (outer_fold_passive hp s cs (List.range cs.collidables.length) (s, []) hv).2
  rw [← indexPairs_eq, List.nil_append] at key
  have key2 : (CollisionSystem.Update I cs s).2 = _ := key
  refine ⟨key2, mem_indexPairs _, indexPairs_sorted _, ?_⟩
  intro c hc
  rw [key2, List.mem_flatMap] at hc
  obtain ⟨p, _, hc⟩ := hc
  split at hc
  · rename_i hcond
    simp only [Bool.and_eq_true] at hcond
    simp only [List.mem_cons, List.mem_singleton, List.not_mem_nil, or_false] at hc
    rcases hc with rfl | rfl
    · exact ⟨hcond.1.1.1, hcond.1.1.2⟩
    · exact ⟨hcond.1.1.2, hcond.1.1.1⟩
  · simp at hc

/-- C7: whatever the callbacks do to the objects, and whatever the registry holds (the same
object may be registered several times), `Update` never invokes `x.OnCollision(x)`; on a
registry holding a single object it invokes no callback and leaves the heap as it was. -/
theorem Update_never_self {σ : Type} (I : Collidable σ) (cs : CollisionSystem) (s : σ) :
    (∀ c ∈ (CollisionSystem.Update I cs s).2, c.1 ≠ c.2) ∧
    (∀ x : Ref, CollisionSystem.Update I ⟨[x]⟩ s = (s, [])) := by
  constructor
  · unfold CollisionSystem.Update
    exact foldl_invariant (fun st : σ × List Call => ∀ c ∈ st.2, c.1 ≠ c.2) _ _ (s, [])
      (by simp) (fun st i hst => updateRow_distinct I cs i st hst)
  · intro x
    simp [CollisionSystem.Update, CollisionSystem.updateRow, List.range_succ]

/-! ## Trigger resolution -/

theorem triggerable_sameView_trans {σ : Type} {T : Triggerable σ} {s t u : σ}
    (h1 : T.SameView s t) (h2 : T.SameView t u) : T.SameView s u := by
  intro r
  exact ⟨(h1 r).1.trans (h2 r).1, (h1 r).2.1.trans (h2 r).2.1, (h1 r).2.2.trans (h2 r).2.2⟩

theorem shouldTrigger_congr {σ : Type} {T : Triggerable σ} {C : Collidable σ} {s t : σ}
    (hT : T.SameView s t) (hC : C.SameView s t) (a b : Ref) :
    TriggerSystem.shouldTrigger T C s a b = TriggerSystem.shouldTrigger T C t a b := by
  unfold TriggerSystem.shouldTrigger
  rw [(hT a).2.2, (hC b).2.2]

/-- The condition under which `Update` of the trigger system calls
`trigger.OnTriggerEnter(collidable)`, judged on the heap `s`. -/
theorem updateSense_passive {σ : Type} {T : Triggerable σ} {C : Collidable σ}
    (hp : T.Passive C) (s0 : σ) (t c : Ref) (st : σ × List Call)
    (hT : T.SameView st.1 s0) (hC : C.SameView st.1 s0) :
    (T.SameView (TriggerSystem.updateSense T C t (T.GetTriggerBounds s0 t) st c).1 s0 ∧
     C.SameView (TriggerSystem.updateSense T C t (T.GetTriggerBounds s0 t) st c).1 s0) ∧
    (TriggerSystem.updateSense T C t (T.GetTriggerBounds s0 t) st c).2 =
      st.2 ++ (if (C.IsActive s0 c && TriggerSystem.shouldTrigger T C s0 t c &&
          CheckCollisionBoxes (T.GetTriggerBounds s0 t) (C.GetBoundingBox s0 c)) = true
        then [(t, c)] else []) := by
  unfold TriggerSystem.updateSense TriggerSystem.checkTriggerCollision
  rw [shouldTrigger_congr hT hC, (hC c).1, (hC c).2.1]
  cases hb : C.IsActive s0 c
  · simp [hT, hC]
  · cases hsc : TriggerSystem.shouldTrigger T C s0 t c
    · simp [hT, hC]
    · cases hcc : CheckCollisionBoxes (T.GetTriggerBounds s0 t) (C.GetBoundingBox s0 c)
      · simp [hT, hC]
      · simp only [Bool.true_eq_false, if_false, if_true, Bool.and_self]
        exact ⟨⟨triggerable_sameView_trans (hp t c _).1 hT,
          collidable_sameView_trans (hp t c _).2 hC⟩, trivial⟩

theorem sense_fold_passive {σ : Type} {T : Triggerable σ} {C : Collidable σ}
    (hp : T.Passive C) (s0 : σ) (t : Ref) (cl : List Ref) (st : σ × List Call)
    (hT : T.SameView st.1 s0) (hC : C.SameView st.1 s0) :
    (T.SameView (cl.foldl (TriggerSystem.updateSense T C t (T.GetTriggerBounds s0 t)) st).1 s0 ∧
     C.SameView (cl.foldl (TriggerSystem.updateSense T C t (T.GetTriggerBounds s0 t)) st).1 s0) ∧
    (cl.foldl (TriggerSystem.updateSense T C t (T.GetTriggerBounds s0 t)) st).2 =
      st.2 ++ cl.flatMap (fun c =>
        if (C.IsActive s0 c && TriggerSystem.shouldTrigger T C s0 t c &&
          CheckCollisionBoxes (T.GetTriggerBounds s0 t) (C.GetBoundingBox s0 c)) = true
        then [(t, c)] else []) := by
  induction cl generalizing st with
  | nil => simp [hT, hC]
  | cons c cl ih =>
    have h1 := updateSense_passive hp s0 t c st hT hC
    have h2 := ih (TriggerSystem.updateSense T C t (T.GetTriggerBounds s0 t) st c) h1.1.1 h1.1.2
    rw [List.foldl_cons, List.flatMap_cons]
    refine ⟨h2.1, ?_⟩
    rw [h2.2, h1.2, List.append_assoc]

theorem filter_eq_flatMap {α : Type} (p : α → Bool) (l : List α) :
    l.filter p = l.flatMap (fun a => if p a = true then [a] else []) := by
  induction l with
  | nil => rfl
  | cons a l ih =>
    rw [List.flatMap_cons, List.filter_cons, ih]
    by_cases h : p a = true <;> simp [h]

theorem updateTrigger_passive {σ : Type} {T : Triggerable σ} {C : Collidable σ}
    (hp : T.Passive C) (s0 : σ) (ts : TriggerSystem) (t : Ref) (st : σ × List Call)
    (hT : T.SameView st.1 s0) (hC : C.SameView st.1 s0) :
    (T.SameView (TriggerSystem.updateTrigger T C ts st t).1 s0 ∧
     C.SameView (TriggerSystem.updateTrigger T C ts st t).1 s0) ∧
    (TriggerSystem.updateTrigger T C ts st t).2 =
      st.2 ++ (ts.collidables.map (Prod.mk t)).flatMap (fun p =>
        if (T.IsActive s0 p.1 && C.IsActive s0 p.2 &&
            TriggerSystem.shouldTrigger T C s0 p.1 p.2 &&
            CheckCollisionBoxes (T.GetTriggerBounds s0 p.1) (C.GetBoundingBox s0 p.2)) = true
        then [p] else []) := by
  unfold TriggerSystem.updateTrigger
  dsimp only
  rw [(hT t).1, (hT t).2.1, List.flatMap_map]
  cases ha : T.IsActive s0 t
  · simp only [ha, Bool.false_and, Bool.false_eq_true, if_false, if_true]
    exact ⟨⟨hT, hC⟩, by simp⟩
  · simp only [ha, Bool.true_and, Bool.true_eq_false, if_false]
    exact sense_fold_passive hp s0 t ts.collidables st hT hC

theorem trigger_fold_passive {σ : Type} {T : Triggerable σ} {C : Collidable σ}
    (hp : T.Passive C) (s0 : σ) (ts : TriggerSystem) (tl : List Ref) (st : σ × List Call)
    (hT : T.SameView st.1 s0) (hC : C.SameView st.1 s0) :
    (T.SameView (tl.foldl (TriggerSystem.updateTrigger T C ts) st).1 s0 ∧
     C.SameView (tl.foldl (TriggerSystem.updateTrigger T C ts) st).1 s0) ∧
    (tl.foldl (TriggerSystem.updateTrigger T C ts) st).2 =
      st.2 ++ (tl.product ts.collidables).flatMap (fun p =>
        if (T.IsActive s0 p.1 && C.IsActive s0 p.2 &&
            TriggerSystem.shouldTrigger T C s0 p.1 p.2 &&
            CheckCollisionBoxes (T.GetTriggerBounds s0 p.1) (C.GetBoundingBox s0 p.2)) = true
        then [p] else []) := by
  induction tl generalizing st with
  | nil => simp [hT, hC, List.product.eq_1]
  | cons t tl ih =>
    have h1 := updateTrigger_passive hp s0 ts t st hT hC
    have h2 := ih (TriggerSystem.updateTrigger T C ts st t) h1.1.1 h1.1.2
    rw [List.foldl_cons]
    refine ⟨h2.1, ?_⟩
    rw [h2.2, h1.2, List.append_assoc, List.product.eq_1, List.product.eq_1, List.flatMap_cons,
      List.flatMap_append]

/-- C10: when the callbacks leave the active flag, box and tags of every trigger and every
collidable unchanged, the calls that `Update` of the trigger system makes are exactly, for each
active trigger in registration order and each active collidable of the trigger system's own
list in registration order that is eligible and whose box overlaps the trigger's bounds, one
call `trigger.OnTriggerEnter(collidable)`.  No call involves an inactive trigger or collidable,
and an object that is only in the collision system's registry is never passed to a trigger. -/
theorem TriggerSystem_senses_exact {σ : Type} (T : Triggerable σ) (C : Collidable σ)
    (ts : TriggerSystem) (s : σ) (hp : T.Passive C) :
    (TriggerSystem.Update T C ts s).2 =
      (ts.triggers.product ts.collidables).filter (fun p =>
        T.IsActive s p.1 && C.IsActive s p.2 && TriggerSystem.shouldTrigger T C s p.1 p.2 &&
          CheckCollisionBoxes (T.GetTriggerBounds s p.1) (C.GetBoundingBox s p.2)) ∧
    (∀ c ∈ (TriggerSystem.Update T C ts s).2,
      T.IsActive s c.1 = true ∧ C.IsActive s c.2 = true ∧
      c.1 ∈ ts.triggers ∧ c.2 ∈ ts.collidables) ∧
    (∀ (cs : CollisionSystem) (x : Ref), x ∈ cs.collidables → x ∉ ts.collidables →
      ∀ c ∈ (TriggerSystem.Update T C ts s).2, c.2 ≠ x) := by
  have hT : T.SameView s s := fun _ => ⟨rfl, rfl, rfl⟩
  have hC : C.SameView s s := fun _ => ⟨rfl, rfl, rfl⟩
  have key := (trigger_fold_passive hp s ts ts.triggers (s, []) hT hC).2
  rw [List.nil_append, ← filter_eq_flatMap] at key
  have key2 : (TriggerSystem.Update T C ts s).2 = _ := key
  have hmem : ∀ c ∈ (TriggerSystem.Update T C ts s).2,
      T.IsActive s c.1 = true ∧ C.IsActive s c.2 = true ∧
      c.1 ∈ ts.triggers ∧ c.2 ∈ ts.collidables := by
    intro c hc
    rw [key2, List.mem_filter] at hc
    obtain ⟨hprod, hcond⟩ := hc
    simp only [Bool.and_eq_true] at hcond
    have hpm : (c.1, c.2) ∈ ts.triggers.product ts.collidables := hprod
    rw [List.pair_mem_product] at hpm
    exact ⟨hcond.1.1.1, hcond.1.1.2, hpm.1, hpm.2⟩
  refine ⟨key2, hmem, ?_⟩
  intro cs x _ hx c hc hcx
  exact hx (hcx ▸ (hmem c hc).2.2.2)

/-! ## The properties on the mock objects of the tests -/

theorem mockCollidable_passive : mockCollidable.Passive := by
  intro self other t r
  by_cases h : r = self
  · subst h
    simp [mockCollidable]
  · simp [mockCollidable, Function.update_noteq h]

theorem mockTriggerable_passive : mockTriggerable.Passive mockCollidable := by
  intro self other t
  constructor
  · intro r
    by_cases h : r = self
    · subst h
      simp [mockTriggerable]
    · simp [mockTriggerable, Function.update_noteq h]
  · intro r
    simp [mockTriggerable, mockCollidable]

theorem Update_calls_exact_witness :
    mockCollidable.Passive ∧
    (CollisionSystem.Update mockCollidable ⟨[0, 1, 3, 2]⟩ edgeCaseHeap).2 =
      [(0, 1), (1, 0), (0, 2), (2, 0)] := by
  refine ⟨mockCollidable_passive, ?_⟩
  rw [(Update_calls_exact mockCollidable ⟨[0, 1, 3, 2]⟩ edgeCaseHeap mockCollidable_passive).1]
  have hpairs : indexPairs 4 = [(0, 1), (0, 2), (0, 3), (1, 2), (1, 3), (2, 3)] := by decide
  simp only [List.length_cons, List.length_nil, Nat.zero_add, Nat.reduceAdd, hpairs]
  simp [CollisionSystem.shouldCollide, CollisionSystem.checkCollision,
    CollisionSystem.checkCollisionBoxes, CollisionSystem.isSpherelike, CheckCollisionBoxes,
    CheckCollisionBoxSphere, axisDistSq, mockCollidable, edgeCaseHeap, mockHeap, newMock,
    CollisionSystem.collisionRules, List.lookup, slices.Contains]
  norm_num

theorem shouldCollide_iff_rule_table_witness :
    CollisionSystem.shouldCollide mockCollidable edgeCaseHeap 1 2 = false ∧
    CollisionSystem.shouldCollide mockCollidable edgeCaseHeap 0 1 = true :=
  ⟨(shouldCollide_iff_rule_table mockCollidable edgeCaseHeap 1 2).2.1 rfl rfl,
   (shouldCollide_iff_rule_table mockCollidable edgeCaseHeap 0 1).2.2 (by decide) rfl rfl rfl rfl⟩

theorem unregister_removes_first_match_witness :
    CollisionSystem.UnregisterCollidable ⟨[7, 4, 9, 4]⟩ 4 = some ⟨[7, 9, 4]⟩ ∧
    TriggerSystem.UnregisterTrigger ⟨[4, 7, 4], [4]⟩ 4 = some ⟨[7, 4], [4]⟩ ∧
    TriggerSystem.UnregisterCollidable ⟨[4], [7, 4]⟩ 4 = some ⟨[4], [7]⟩ ∧
    CollisionSystem.UnregisterCollidable ⟨[7, 9]⟩ 4 = some ⟨[7, 9]⟩ :=
  ⟨((unregister_removes_first_match ⟨[7, 4, 9, 4]⟩ ⟨[], []⟩ 4).1 [7] [9, 4] (by decide)).1 rfl,
   ((unregister_removes_first_match ⟨[]⟩ ⟨[4, 7, 4], [4]⟩ 4).1 [] [7, 4] (by decide)).2.1 rfl,
   ((unregister_removes_first_match ⟨[]⟩ ⟨[4], [7, 4]⟩ 4).1 [7] [] (by decide)).2.2 rfl,
   (unregister_removes_first_match ⟨[7, 9]⟩ ⟨[], []⟩ 4).2.1 (by decide)⟩

theorem TriggerSystem_senses_exact_witness :
    mockTriggerable.Passive mockCollidable ∧
    (TriggerSystem.Update mockTriggerable mockCollidable ⟨[0, 1], [0, 1, 2]⟩ pickupHeap).2 =
      [(0, 0)] := by
  refine ⟨mockTriggerable_passive, ?_⟩
  rw [(TriggerSystem_senses_exact mockTriggerable mockCollidable ⟨[0, 1], [0, 1, 2]⟩
    pickupHeap mockTriggerable_passive).1]
  have t0 : pickupHeap.triggerable 0 =
      newMockTrigger ⟨1 / 2, 0, 0⟩ ⟨3 / 2, 1, 1⟩ ["health_pickup"] true := rfl
  have t1 : pickupHeap.triggerable 1 =
      newMockTrigger ⟨1 / 2, 0, 0⟩ ⟨3 / 2, 1, 1⟩ ["health_pickup"] false := rfl
  have c0 : pickupHeap.collidable 0 = newMock ⟨0, 0, 0⟩ ⟨1, 1, 1⟩ ["player"] true := rfl
  have c1 : pickupHeap.collidable 1 = newMock ⟨0, 0, 0⟩ ⟨1, 1, 1⟩ ["enemy"] true := rfl
  have c2 : pickupHeap.collidable 2 = newMock ⟨5, 0, 0⟩ ⟨6, 1, 1⟩ ["player"] true := rfl
  simp [List.product.eq_1, List.filter_cons, TriggerSystem.shouldTrigger, CheckCollisionBoxes,
    mockTriggerable, mockCollidable, t0, t1, c0, c1, c2, newMock, newMockTrigger,
    TriggerSystem.triggerRules, List.lookup, slices.Contains]
  norm_num

/-! ## Trigger rules and level triggering -/

theorem shouldTrigger_eq_true_iff {σ : Type} (T : Triggerable σ) (C : Collidable σ) (s : σ)
    (trigger collidable : Ref) :
    TriggerSystem.shouldTrigger T C s trigger collidable = true ↔
      "health_pickup" ∈ T.GetTriggerTags s trigger ∧
      "player" ∈ C.GetCollisionTags s collidable := by
  unfold TriggerSystem.shouldTrigger
  simp only [List.any_eq_true]
  constructor
  · rintro ⟨a, ha, hrow⟩
    by_cases h : a = "health_pickup"
    · subst h
      refine ⟨ha, ?_⟩
      simp only [TriggerSystem.triggerRules, List.lookup, beq_self_eq_true,
        List.any_eq_true] at hrow
      obtain ⟨b, hb, hc⟩ := hrow
      have hb2 : b ∈ ["player"] := (slices.Contains_iff _ _).1 hc
      simp only [List.mem_singleton] at hb2
      exact hb2 ▸ hb
    · have e : (a == "health_pickup") = false := by simpa using h
      simp [TriggerSystem.triggerRules, List.lookup, e] at hrow
  · rintro ⟨ht, hc⟩
    refine ⟨"health_pickup", ht, ?_⟩
    simp only [TriggerSystem.triggerRules, List.lookup, beq_self_eq_true, List.any_eq_true]
    exact ⟨"player", hc, (slices.Contains_iff _ _).2 (by simp)⟩

/-- C12: `shouldTrigger(trigger, collidable)` holds exactly when the tags of the trigger contain
health_pickup and the tags of the collidable contain player; a collidable tagged only enemy is
never sensed, and a trigger none of whose tags is in the table (none is health_pickup) never
fires on anything. -/
theorem shouldTrigger_iff_health_pickup_player {σ : Type} (T : Triggerable σ) (C : Collidable σ)
    (s : σ) (trigger collidable : Ref) :
    (TriggerSystem.shouldTrigger T C s trigger collidable = true ↔
      "health_pickup" ∈ T.GetTriggerTags s trigger ∧
      "player" ∈ C.GetCollisionTags s collidable) ∧
    (C.GetCollisionTags s collidable = ["enemy"] →
      TriggerSystem.shouldTrigger T C s trigger collidable = false) ∧
    ((∀ tag ∈ T.GetTriggerTags s trigger, TriggerSystem.triggerRules.lookup tag = none) →
      TriggerSystem.shouldTrigger T C s trigger collidable = false) := by
  refine ⟨shouldTrigger_eq_true_iff T C s trigger collidable, ?_, ?_⟩
  · intro h
    rw [← Bool.not_eq_true, shouldTrigger_eq_true_iff, h]
    simp
  · intro h
    rw [← Bool.not_eq_true, shouldTrigger_eq_true_iff]
    rintro ⟨ht, _⟩
    have := h _ ht
    simp [TriggerSystem.triggerRules, List.lookup] at this

theorem shouldTrigger_iff_health_pickup_player_witness :
    TriggerSystem.shouldTrigger mockTriggerable mockCollidable triggerRulesHeap 0 0 = true ∧
    TriggerSystem.shouldTrigger mockTriggerable mockCollidable triggerRulesHeap 0 1 = false ∧
    TriggerSystem.shouldTrigger mockTriggerable mockCollidable triggerRulesHeap 1 0 = false := by
  refine ⟨?_, ?_, ?_⟩
  · rw [(shouldTrigger_iff_health_pickup_player mockTriggerable mockCollidable
      triggerRulesHeap 0 0).1]
    exact ⟨by simp [mockTriggerable, triggerRulesHeap, mockHeap, newMockTrigger],
      by simp [mockCollidable, triggerRulesHeap, mockHeap, newMock]⟩
  · exact (shouldTrigger_iff_health_pickup_player mockTriggerable mockCollidable
      triggerRulesHeap 0 1).2.1 rfl
  · apply (shouldTrigger_iff_health_pickup_player mockTriggerable mockCollidable
      triggerRulesHeap 1 0).2.2
    intro tag htag
    have h : tag = "unknown_trigger" := by
      simpa [mockTriggerable, triggerRulesHeap, mockHeap, newMockTrigger] using htag
    subst h
    decide

theorem samePair_trans {σ : Type} {T : Triggerable σ} {C : Collidable σ} {t c : Ref}
    {s u v : σ} (h1 : SamePair T C t c s u) (h2 : SamePair T C t c u v) :
    SamePair T C t c s v :=
  ⟨h1.1.trans h2.1, h1.2.1.trans h2.2.1, h1.2.2.1.trans h2.2.2.1,
    h1.2.2.2.1.trans h2.2.2.2.1, h1.2.2.2.2.1.trans h2.2.2.2.2.1,
    h1.2.2.2.2.2.trans h2.2.2.2.2.2⟩

theorem shouldTrigger_samePair {σ : Type} {T : Triggerable σ} {C : Collidable σ} {t c : Ref}
    {s u : σ} (h : SamePair T C t c s u) :
    TriggerSystem.shouldTrigger T C s t c = TriggerSystem.shouldTrigger T C u t c := by
  unfold TriggerSystem.shouldTrigger
  rw [h.2.2.1, h.2.2.2.2.2]

/-- One step of the inner loop adds one call of the pair `(t, c)` to the log exactly when it is
run for the trigger `t`, with its bounds, on the collidable `c`. -/
theorem updateSense_count {σ : Type} {T : Triggerable σ} {C : Collidable σ} {t c : Ref}
    (hkeep : KeepsPair T C t c) (s0 : σ)
    (htact : T.IsActive s0 t = true) (hcact : C.IsActive s0 c = true)
    (hcompat : TriggerSystem.shouldTrigger T C s0 t c = true)
    (hov : CheckCollisionBoxes (T.GetTriggerBounds s0 t) (C.GetBoundingBox s0 c) = true)
    (t1 c1 : Ref) (tb : BoundingBox) (htb : t1 = t → tb = T.GetTriggerBounds s0 t)
    (st : σ × List Call) (hv : SamePair T C t c st.1 s0) :
    SamePair T C t c (TriggerSystem.updateSense T C t1 tb st c1).1 s0 ∧
    (TriggerSystem.updateSense T C t1 tb st c1).2.count (t, c) =
      st.2.count (t, c) + (if t1 = t ∧ c1 = c then 1 else 0) := by
  unfold TriggerSystem.updateSense TriggerSystem.checkTriggerCollision
  by_cases hpair : t1 = t ∧ c1 = c
  · obtain ⟨rfl, rfl⟩ := hpair
    have h1 : C.IsActive st.1 c1 = true := hv.2.2.2.1.trans hcact
    have h2 : TriggerSystem.shouldTrigger T C st.1 t1 c1 = true :=
      (shouldTrigger_samePair hv).trans hcompat
    have h3 : CheckCollisionBoxes tb (C.GetBoundingBox st.1 c1) = true := by
      rw [htb rfl, hv.2.2.2.2.1]; exact hov
    simp only [h1, h2, h3, Bool.true_eq_false, if_false, if_true, and_self]
    refine ⟨samePair_trans (hkeep t1 c1 st.1) hv, ?_⟩
    rw [List.count_append, List.count_singleton_self]
  · rw [if_neg hpair, Nat.add_zero]
    by_cases h1 : C.IsActive st.1 c1 = false
    · rw [if_pos h1]; exact ⟨hv, rfl⟩
    · rw [if_neg h1]
      by_cases h2 : TriggerSystem.shouldTrigger T C st.1 t1 c1 = true
      · rw [if_pos h2]
        by_cases h3 : CheckCollisionBoxes tb (C.GetBoundingBox st.1 c1) = true
        · rw [if_pos h3]
          refine ⟨samePair_trans (hkeep t1 c1 st.1) hv, ?_⟩
          have hne : (t1, c1) ≠ (t, c) := by
            intro h
            exact hpair ⟨congrArg Prod.fst h, congrArg Prod.snd h⟩
          rw [List.count_append, List.count_singleton, if_neg (by simpa using hne)]
          rfl
        · rw [if_neg h3]; exact ⟨hv, rfl⟩
      · rw [if_neg h2]; exact ⟨hv, rfl⟩

theorem sense_fold_count {σ : Type} {T : Triggerable σ} {C : Collidable σ} {t c : Ref}
    (hkeep : KeepsPair T C t c) (s0 : σ)
    (htact : T.IsActive s0 t = true) (hcact : C.IsActive s0 c = true)
    (hcompat : TriggerSystem.shouldTrigger T C s0 t c = true)
    (hov : CheckCollisionBoxes (T.GetTriggerBounds s0 t) (C.GetBoundingBox s0 c) = true)
    (t1 : Ref) (tb : BoundingBox) (htb : t1 = t → tb = T.GetTriggerBounds s0 t)
    (cl : List Ref) (st : σ × List Call) (hv : SamePair T C t c st.1 s0) :
    SamePair T C t c (cl.foldl (TriggerSystem.updateSense T C t1 tb) st).1 s0 ∧
    (cl.foldl (TriggerSystem.updateSense T C t1 tb) st).2.count (t, c) =
      st.2.count (t, c) + (if t1 = t then cl.count c else 0) := by
  induction cl generalizing st with
  | nil => simp [hv]
  | cons c1 cl ih =>
    have h1 := updateSense_count hkeep s0 htact hcact hcompat hov t1 c1 tb htb st hv
    have h2 := ih (TriggerSystem.updateSense T C t1 tb st c1) h1.1
    rw [List.foldl_cons]
    refine ⟨h2.1, ?_⟩
    rw [h2.2, h1.2, List.count_cons]
    by_cases ht : t1 = t
    · by_cases hc : c1 = c
      · simp [ht, hc]; omega
      · simp [ht, hc]
    · simp [ht]

theorem updateTrigger_count {σ : Type} {T : Triggerable σ} {C : Collidable σ} {t c : Ref}
    (hkeep : KeepsPair T C t c) (s0 : σ)
    (htact : T.IsActive s0 t = true) (hcact : C.IsActive s0 c = true)
    (hcompat : TriggerSystem.shouldTrigger T C s0 t c = true)
    (hov : CheckCollisionBoxes (T.GetTriggerBounds s0 t) (C.GetBoundingBox s0 c) = true)
    (ts : TriggerSystem) (t1 : Ref) (st : σ × List Call) (hv : SamePair T C t c st.1 s0) :
    SamePair T C t c (TriggerSystem.updateTrigger T C ts st t1).1 s0 ∧
    (TriggerSystem.updateTrigger T C ts st t1).2.count (t, c) =
      st.2.count (t, c) + (if t1 = t then ts.collidables.count c else 0) := by
  unfold TriggerSystem.updateTrigger
  dsimp only
  by_cases hact : T.IsActive st.1 t1 = false
  · rw [if_pos hact]
    refine ⟨hv, ?_⟩
    have hne : t1 ≠ t := by
      rintro rfl
      rw [hv.1, htact] at hact
      exact absurd hact (by decide)
    rw [if_neg hne, Nat.add_zero]
  · rw [if_neg hact]
    exact sense_fold_count hkeep s0 htact hcact hcompat hov t1 _
      (fun h => by rw [h, hv.2.1]) ts.collidables st hv

theorem trigger_fold_count {σ : Type} {T : Triggerable σ} {C : Collidable σ} {t c : Ref}
    (hkeep : KeepsPair T C t c) (s0 : σ)
    (htact : T.IsActive s0 t = true) (hcact : C.IsActive s0 c = true)
    (hcompat : TriggerSystem.shouldTrigger T C s0 t c = true)
    (hov : CheckCollisionBoxes (T.GetTriggerBounds s0 t) (C.GetBoundingBox s0 c) = true)
    (ts : TriggerSystem) (tl : List Ref) (st : σ × List Call)
    (hv : SamePair T C t c st.1 s0) :
    SamePair T C t c (tl.foldl (TriggerSystem.updateTrigger T C ts) st).1 s0 ∧
    (tl.foldl (TriggerSystem.updateTrigger T C ts) st).2.count (t, c) =
      st.2.count (t, c) + tl.count t * ts.collidables.count c := by
  induction tl generalizing st with
  | nil => simp [hv]
  | cons t1 tl ih =>
    have h1 := updateTrigger_count hkeep s0 htact hcact hcompat hov ts t1 st hv
    have h2 := ih (TriggerSystem.updateTrigger T C ts st t1) h1.1
    rw [List.foldl_cons]
    refine ⟨h2.1, ?_⟩
    rw [h2.2, h1.2, List.count_cons]
    by_cases ht : t1 = t
    · simp [ht, Nat.add_mul]; omega
    · simp [ht]

theorem updateTimes_count {σ : Type} {T : Triggerable σ} {C : Collidable σ} {t c : Ref}
    (hkeep : KeepsPair T C t c) (s : σ)
    (htact : T.IsActive s t = true) (hcact : C.IsActive s c = true)
    (hcompat : TriggerSystem.shouldTrigger T C s t c = true)
    (hov : CheckCollisionBoxes (T.GetTriggerBounds s t) (C.GetBoundingBox s c) = true)
    (ts : TriggerSystem) (n : Nat) :
    SamePair T C t c (TriggerSystem.UpdateTimes T C ts n s).1 s ∧
    (TriggerSystem.UpdateTimes T C ts n s).2.count (t, c) =
      n * (ts.triggers.count t * ts.collidables.count c) := by
  induction n with
  | zero =>
    simp only [TriggerSystem.UpdateTimes, List.count_nil, Nat.zero_mul, and_true]
    exact ⟨rfl, rfl, rfl, rfl, rfl, rfl⟩
  | succ n ih =>
    have h := trigger_fold_count hkeep s htact hcact hcompat hov ts ts.triggers
      ((TriggerSystem.UpdateTimes T C ts n s).1, []) ih.1
    simp only [TriggerSystem.UpdateTimes, TriggerSystem.Update]
    refine ⟨h.1, ?_⟩
    rw [List.count_append, ih.2, h.2, List.count_nil, Nat.zero_add, Nat.succ_mul]

/-- C11: trigger resolution is level-triggered.  If an active trigger `t` and an active collidable
`c` are compatible and overlap, and no callback changes either of them, then `n` consecutive
calls of `Update` make `t.OnTriggerEnter(c)` once per round for every registration of `t` and of
`c`; registered once each, that is exactly `n` calls. -/
theorem trigger_level_triggered {σ : Type} (T : Triggerable σ) (C : Collidable σ)
    (ts : TriggerSystem) (s : σ) (t c : Ref) (n : Nat)
    (hkeep : KeepsPair T C t c)
    (htact : T.IsActive s t = true) (hcact : C.IsActive s c = true)
    (hcompat : TriggerSystem.shouldTrigger T C s t c = true)
    (hov : TriggerSystem.checkTriggerCollision (T.GetTriggerBounds s t)
      (C.GetBoundingBox s c) = true) :
    (TriggerSystem.UpdateTimes T C ts n s).2.count (t, c) =
        n * (ts.triggers.count t * ts.collidables.count c) ∧
    (ts.triggers.count t = 1 → ts.collidables.count c = 1 →
      (TriggerSystem.UpdateTimes T C ts n s).2.count (t, c) = n) := by
  have h := (updateTimes_count hkeep s htact hcact hcompat hov ts n).2
  refine ⟨h, ?_⟩
  intro h1 h2
  rw [h, h1, h2]
  simp

theorem keepsPair_of_passive {σ : Type} {T : Triggerable σ} {C : Collidable σ}
    (hp : T.Passive C) (t c : Ref) : KeepsPair T C t c := by
  intro self other u
  have h := hp self other u
  exact ⟨(h.1 t).1, (h.1 t).2.1, (h.1 t).2.2, (h.2 c).1, (h.2 c).2.1, (h.2 c).2.2⟩

theorem trigger_level_triggered_witness :
    KeepsPair mockTriggerable mockCollidable 0 0 ∧
    TriggerSystem.checkTriggerCollision (mockTriggerable.GetTriggerBounds multiUpdateHeap 0)
      (mockCollidable.GetBoundingBox multiUpdateHeap 0) = true ∧
    (TriggerSystem.UpdateTimes mockTriggerable mockCollidable ⟨[0], [0]⟩ 3
      multiUpdateHeap).2.count (0, 0) = 3 := by
  have hk := keepsPair_of_passive mockTriggerable_passive 0 0
  have hov : TriggerSystem.checkTriggerCollision
      (mockTriggerable.GetTriggerBounds multiUpdateHeap 0)
      (mockCollidable.GetBoundingBox multiUpdateHeap 0) = true := by
    simp [TriggerSystem.checkTriggerCollision, CheckCollisionBoxes, mockTriggerable,
      mockCollidable, multiUpdateHeap, mockHeap, newMock, newMockTrigger]
    norm_num
  have hcompat : TriggerSystem.shouldTrigger mockTriggerable mockCollidable
      multiUpdateHeap 0 0 = true := by
    rw [shouldTrigger_eq_true_iff]
    exact ⟨by simp [mockTriggerable, multiUpdateHeap, mockHeap, newMockTrigger],
      by simp [mockCollidable, multiUpdateHeap, mockHeap, newMock]⟩
  exact ⟨hk, hov, (trigger_level_triggered mockTriggerable mockCollidable ⟨[0], [0]⟩
    multiUpdateHeap 0 0 3 hk rfl rfl hcompat hov).2 (by decide) (by decide)⟩

/-! ## The event bus -/

theorem observersOf_insert_self (m : AList (fun _ : String => List Ref)) (t : String)
    (l : List Ref) : (EventBus.mk (m.insert t l)).observersOf t = l := by
  simp [EventBus.observersOf]

theorem lookup_subscribe_other (eb : EventBus) (eventType t : String) (observer : Option Ref)
    (h : t ≠ eventType) :
    (eb.Subscribe eventType observer).1.observers.lookup t = eb.observers.lookup t := by
  cases observer with
  | none => rfl
  | some o => simp [EventBus.Subscribe, AList.lookup_insert_ne h]

/-- C13: `Subscribe` returns an error exactly when the observer is `nil`, and then leaves the bus
as it was (every count unchanged).  Otherwise it appends the observer at the end of the list of
that event type, whether or not it is already there, the count of that type grows by one, and
the lists of all other types are unchanged. -/
theorem Subscribe_spec (eb : EventBus) (eventType : String) (observer : Option Ref) :
    ((eb.Subscribe eventType observer).2 ≠ none ↔ observer = none) ∧
    (observer = none →
      (eb.Subscribe eventType observer).1 = eb ∧
      ∀ t, (eb.Subscribe eventType observer).1.GetObserverCount t = eb.GetObserverCount t) ∧
    (∀ o : Ref, observer = some o →
      (eb.Subscribe eventType observer).1.observersOf eventType =
        eb.observersOf eventType ++ [o] ∧
      (eb.Subscribe eventType observer).1.GetObserverCount eventType =
        eb.GetObserverCount eventType + 1) ∧
    (∀ t, t ≠ eventType →
      (eb.Subscribe eventType observer).1.observers.lookup t = eb.observers.lookup t ∧
      (eb.Subscribe eventType observer).1.observersOf t = eb.observersOf t) := by
  refine ⟨?_, ?_, ?_, ?_⟩
  · cases observer <;> simp [EventBus.Subscribe]
  · rintro rfl
    exact ⟨rfl, fun _ => rfl⟩
  · rintro o rfl
    have h : (eb.Subscribe eventType (some o)).1.observersOf eventType =
        eb.observersOf eventType ++ [o] := by
      simp only [EventBus.Subscribe]
      exact observersOf_insert_self _ _ _
    refine ⟨h, ?_⟩
    unfold EventBus.GetObserverCount
    rw [h, List.length_append, List.length_singleton]
  · intro t ht
    have h := lookup_subscribe_other eb eventType t observer ht
    refine ⟨h, ?_⟩
    unfold EventBus.observersOf
    rw [h]

theorem Subscribe_spec_witness :
    (NewEventBus.Subscribe "test_event" none).2 ≠ none ∧
    (NewEventBus.Subscribe "test_event" none).1.GetObserverCount "test_event" = 0 ∧
    (((NewEventBus.Subscribe "test_event" (some 1)).1.Subscribe "test_event" (some 2)).1.Subscribe
      "test_event" (some 1)).1.observersOf "test_event" = [1, 2, 1] := by
  refine ⟨(Subscribe_spec NewEventBus "test_event" none).1.2 rfl, ?_, ?_⟩
  · rw [((Subscribe_spec NewEventBus "test_event" none).2.1 rfl).2]
    rfl
  · rw [((Subscribe_spec _ "test_event" (some 1)).2.2.1 1 rfl).1,
      ((Subscribe_spec _ "test_event" (some 2)).2.2.1 2 rfl).1,
      ((Subscribe_spec _ "test_event" (some 1)).2.2.1 1 rfl).1]
    rfl

theorem notifyStep_delivered {σ : Type} (O : Observer σ) (event : Event)
    (st : σ × List (Ref × error) × List String) (observer : Ref) :
    (EventBus.notifyStep O event st observer).2.1.map Prod.fst =
      st.2.1.map Prod.fst ++ [observer] := by
  unfold EventBus.notifyStep
  dsimp only
  split <;> simp

theorem notifyStep_errors {σ : Type} (O : Observer σ) (event : Event)
    (st : σ × List (Ref × error) × List String) (observer : Ref)
    (h : st.2.2 ≠ [] ↔ ∃ d ∈ st.2.1, d.2 ≠ none) :
    (EventBus.notifyStep O event st observer).2.2 ≠ [] ↔
      ∃ d ∈ (EventBus.notifyStep O event st observer).2.1, d.2 ≠ none := by
  unfold EventBus.notifyStep
  dsimp only
  split
  · rename_i err herr
    simp only [ne_eq, List.append_eq_nil, List.cons_ne_self, and_false, not_false_eq_true,
      List.mem_append, List.mem_singleton, true_iff]
    exact ⟨_, Or.inr rfl, by simp [herr]⟩
  · rename_i herr
    rw [h]
    constructor
    · rintro ⟨d, hd, hne⟩
      exact ⟨d, List.mem_append_left _ hd, hne⟩
    · rintro ⟨d, hd, hne⟩
      rw [List.mem_append, List.mem_singleton] at hd
      rcases hd with hd | rfl
      · exact ⟨d, hd, hne⟩
      · exact absurd herr hne

theorem notify_fold {σ : Type} (O : Observer σ) (event : Event) (l : List Ref)
    (st : σ × List (Ref × error) × List String)
    (h : st.2.2 ≠ [] ↔ ∃ d ∈ st.2.1, d.2 ≠ none) :
    (l.foldl (EventBus.notifyStep O event) st).2.1.map Prod.fst = st.2.1.map Prod.fst ++ l ∧
    ((l.foldl (EventBus.notifyStep O event) st).2.2 ≠ [] ↔
      ∃ d ∈ (l.foldl (EventBus.notifyStep O event) st).2.1, d.2 ≠ none) := by
  induction l generalizing st with
  | nil => simpa using h
  | cons o l ih =>
    have h2 := ih (EventBus.notifyStep O event st o) (notifyStep_errors O event st o h)
    rw [List.foldl_cons]
    refine ⟨?_, h2.2⟩
    rw [h2.1, notifyStep_delivered, List.append_assoc, List.singleton_append]

theorem Notify_delivered {σ : Type} (O : Observer σ) (eb : EventBus) (event : Event) (s : σ) :
    (eb.Notify O event s).delivered.map Prod.fst = eb.observersOf event.Type_ := by
  unfold EventBus.Notify EventBus.observersOf
  cases hl : eb.observers.lookup event.Type_ with
  | none => rfl
  | some l =>
    have h := (notify_fold O event l (s, [], []) (by simp)).1
    dsimp only
    split <;> simpa using h

theorem Notify_err {σ : Type} (O : Observer σ) (eb : EventBus) (event : Event) (s : σ) :
    (eb.Notify O event s).err ≠ none ↔ ∃ d ∈ (eb.Notify O event s).delivered, d.2 ≠ none := by
  unfold EventBus.Notify
  cases hl : eb.observers.lookup event.Type_ with
  | none => simp
  | some l =>
    have h := (notify_fold O event l (s, [], []) (by simp)).2
    dsimp only
    split
    · rename_i hlen
      have hne : (l.foldl (EventBus.notifyStep O event) (s, [], [])).2.2 ≠ [] := by
        intro h0
        rw [h0] at hlen
        simp at hlen
      simpa using h.1 hne
    · rename_i hlen
      have he : (l.foldl (EventBus.notifyStep O event) (s, [], [])).2.2 = [] := by
        cases hx : (l.foldl (EventBus.notifyStep O event) (s, [], [])).2.2 with
        | nil => rfl
        | cons a b => rw [hx] at hlen; simp at hlen
      have h3 := not_congr h
      simp only [he, ne_eq, not_true_eq_false, not_false_eq_true, true_iff] at h3
      simp only [ne_eq, not_true_eq_false, false_iff]
      exact h3

theorem Notify_no_subscribers {σ : Type} (O : Observer σ) (eb : EventBus) (event : Event)
    (s : σ) (h : eb.GetObserverCount event.Type_ = 0) :
    eb.Notify O event s = ⟨s, [], none⟩ := by
  unfold EventBus.GetObserverCount EventBus.observersOf at h
  unfold EventBus.Notify
  cases hl : eb.observers.lookup event.Type_ with
  | none => rfl
  | some l =>
    rw [hl] at h
    have hnil : l = [] := List.length_eq_zero.1 h
    subst hnil
    rfl

theorem notify_fold_deliverAll {σ : Type} (O : Observer σ) (event : Event) (l : List Ref)
    (st : σ × List (Ref × error) × List String) :
    ((l.foldl (EventBus.notifyStep O event) st).1,
      (l.foldl (EventBus.notifyStep O event) st).2.1) =
      ((deliverAll O event l st.1).1, st.2.1 ++ (deliverAll O event l st.1).2) := by
  induction l generalizing st with
  | nil => simp [deliverAll]
  | cons o l ih =>
    rw [List.foldl_cons, ih]
    have h1 : (EventBus.notifyStep O event st o).1 = (O.OnNotify o event st.1).1 := by
      unfold EventBus.notifyStep
      dsimp only
      split <;> rfl
    have h2 : (EventBus.notifyStep O event st o).2.1 =
        st.2.1 ++ [(o, (O.OnNotify o event st.1).2)] := by
      unfold EventBus.notifyStep
      dsimp only
      split <;> rfl
    rw [h1, h2]
    simp [deliverAll]

theorem Notify_deliverAll {σ : Type} (O : Observer σ) (eb : EventBus) (event : Event) (s : σ) :
    ((eb.Notify O event s).heap, (eb.Notify O event s).delivered) =
      deliverAll O event (eb.observersOf event.Type_) s := by
  unfold EventBus.Notify EventBus.observersOf
  cases hl : eb.observers.lookup event.Type_ with
  | none => rfl
  | some l =>
    have h := notify_fold_deliverAll O event l (s, [], [])
    dsimp only
    split <;> simpa using h

/-- C14: `Notify(event)` calls `OnNotify(event)` once for every entry of the observer list of the
event's type, in subscription order, each on the heap the previous call left and whatever the
earlier calls returned; an observer that is not in that list is not called. -/
theorem Notify_delivers_in_order {σ : Type} (O : Observer σ) (eb : EventBus) (event : Event)
    (s : σ) :
    (eb.Notify O event s).delivered.map Prod.fst = eb.observersOf event.Type_ ∧
    ((eb.Notify O event s).heap, (eb.Notify O event s).delivered) =
      deliverAll O event (eb.observersOf event.Type_) s ∧
    (∀ o : Ref, o ∉ eb.observersOf event.Type_ →
      ∀ d ∈ (eb.Notify O event s).delivered, d.1 ≠ o) := by
  refine ⟨Notify_delivered O eb event s, Notify_deliverAll O eb event s, ?_⟩
  intro o ho d hd hdo
  apply ho
  rw [← Notify_delivered O eb event s, ← hdo]
  exact List.mem_map_of_mem _ hd

theorem Notify_delivers_in_order_witness :
    (errorTestBus.Notify mockObserver testEvent errorObserverHeap).delivered =
      [(0, some "mock observer error"), (1, none)] ∧
    ((errorTestBus.Notify mockObserver testEvent errorObserverHeap).heap 1).receivedEvents =
      [testEvent] := by
  have h := (Notify_delivers_in_order mockObserver errorTestBus testEvent errorObserverHeap).2.1
  have hl : errorTestBus.observersOf testEvent.Type_ = [0, 1] := by decide
  rw [hl] at h
  have h1 := congrArg Prod.fst h
  have h2 := congrArg Prod.snd h
  simp only at h1 h2
  rw [h1, h2]
  constructor <;> rfl

/-- C15: `Notify(event)` returns an error exactly when at least one of the `OnNotify` calls it
made returned an error; when no observer is subscribed to the event's type it returns `nil`,
calls no observer and leaves the heap, and so the bus, as it was. -/
theorem Notify_error_iff {σ : Type} (O : Observer σ) (eb : EventBus) (event : Event) (s : σ) :
    ((eb.Notify O event s).err ≠ none ↔
      ∃ d ∈ (eb.Notify O event s).delivered, d.2 ≠ none) ∧
    (eb.GetObserverCount event.Type_ = 0 → eb.Notify O event s = ⟨s, [], none⟩) :=
  ⟨Notify_err O eb event s, Notify_no_subscribers O eb event s⟩

theorem Notify_error_iff_witness :
    (errorTestBus.Notify mockObserver testEvent errorObserverHeap).err ≠ none ∧
    (NewEventBus.Notify mockObserver testEvent errorObserverHeap).err = none ∧
    (NewEventBus.Notify mockObserver testEvent errorObserverHeap).delivered = [] := by
  refine ⟨?_, ?_, ?_⟩
  · rw [(Notify_error_iff mockObserver errorTestBus testEvent errorObserverHeap).1]
    exact ⟨(0, some "mock observer error"), by decide, by simp⟩
  · rw [(Notify_error_iff mockObserver NewEventBus testEvent errorObserverHeap).2 rfl]
  · rw [(Notify_error_iff mockObserver NewEventBus testEvent errorObserverHeap).2 rfl]

theorem unsubscribeLoop_eq (o : Ref) (rest pre : List Ref) :
    EventBus.unsubscribeLoop (pre ++ rest) (some o) pre.length rest =
      if o ∈ rest then some (pre ++ rest.erase o) else none := by
  induction rest generalizing pre with
  | nil => simp [EventBus.unsubscribeLoop]
  | cons x rest ih =>
    unfold EventBus.unsubscribeLoop
    by_cases hx : x = o
    · subst hx
      simp [List.take_append_eq_append_take, List.drop_append_eq_append_drop]
    · have h := ih (pre ++ [x])
      simp only [List.append_assoc, List.singleton_append, List.length_append,
        List.length_singleton] at h
      have hx2 : ¬ (some x = some o) := fun h => hx (Option.some.inj h)
      rw [if_neg hx2, h, List.erase_cons_tail (by simpa using hx)]
      have hmem : o ∈ x :: rest ↔ o ∈ rest := by
        simp [Ne.symm hx]
      by_cases ho : o ∈ rest
      · rw [if_pos ho, if_pos (hmem.2 ho)]
      · rw [if_neg ho, if_neg (fun h => ho (hmem.1 h))]

theorem unsubscribeLoop_some (l : List Ref) (o : Ref) :
    EventBus.unsubscribeLoop l (some o) 0 l = if o ∈ l then some (l.erase o) else none := by
  simpa using unsubscribeLoop_eq o l []

theorem unsubscribeLoop_nil_observer (all rest : List Ref) (i : Nat) :
    EventBus.unsubscribeLoop all none i rest = none := by
  induction rest generalizing i with
  | nil => rfl
  | cons x rest ih =>
    unfold EventBus.unsubscribeLoop
    rw [if_neg (by simp), ih]

theorem Unsubscribe_absent_type (eb : EventBus) (eventType : String) (observer : Option Ref)
    (h : eb.observers.lookup eventType = none) :
    eb.Unsubscribe eventType observer = (eb, none) := by
  unfold EventBus.Unsubscribe
  rw [h]

theorem Unsubscribe_err (eb : EventBus) (eventType : String) (observer : Option Ref) :
    (eb.Unsubscribe eventType observer).2 = none := by
  unfold EventBus.Unsubscribe
  cases eb.observers.lookup eventType with
  | none => rfl
  | some l =>
    dsimp only
    split <;> rfl

theorem Unsubscribe_lookup_other (eb : EventBus) (eventType t : String)
    (observer : Option Ref) (ht : t ≠ eventType) :
    (eb.Unsubscribe eventType observer).1.observers.lookup t = eb.observers.lookup t := by
  unfold EventBus.Unsubscribe
  cases eb.observers.lookup eventType with
  | none => rfl
  | some l =>
    dsimp only
    have h1 : ∀ eb1 : EventBus,
        eb1 = (match EventBus.unsubscribeLoop l observer 0 l with
          | some l2 => (⟨eb.observers.insert eventType l2⟩ : EventBus)
          | none => eb) →
        eb1.observers.lookup t = eb.observers.lookup t := by
      intro eb1 h
      cases hloop : EventBus.unsubscribeLoop l observer 0 l with
      | none => rw [hloop] at h; rw [h]
      | some l2 => rw [hloop] at h; rw [h]; exact AList.lookup_insert_ne ht
    split
    · simp only [AList.lookup_erase_ne ht]
      exact h1 _ rfl
    · exact h1 _ rfl

theorem Unsubscribe_lookup_self (eb : EventBus) (eventType : String) (observer : Option Ref)
    (l : List Ref) (h : eb.observers.lookup eventType = some l) :
    (eb.Unsubscribe eventType observer).1.observers.lookup eventType =
      (match observer with
        | some o => if l.erase o = [] then none else some (l.erase o)
        | none => if l = [] then none else some l) := by
  unfold EventBus.Unsubscribe
  rw [h]
  dsimp only
  cases observer with
  | none =>
    rw [unsubscribeLoop_nil_observer]
    dsimp only
    unfold EventBus.observersOf
    rw [h]
    by_cases hl : l = []
    · subst hl
      simp
    · have hlen : ¬ (l.length = 0) := fun h0 => hl (List.length_eq_zero.1 h0)
      simp [hl, hlen, h]
  | some o =>
    rw [unsubscribeLoop_some]
    by_cases ho : o ∈ l
    · rw [if_pos ho]
      dsimp only
      rw [observersOf_insert_self]
      by_cases hl : l.erase o = []
      · simp [hl]
      · have hlen : ¬ ((l.erase o).length = 0) := fun h0 => hl (List.length_eq_zero.1 h0)
        simp [hl, hlen]
    · rw [if_neg ho]
      dsimp only
      unfold EventBus.observersOf
      rw [h, List.erase_of_not_mem ho]
      by_cases hl : l = []
      · subst hl
        simp
      · have hlen : ¬ (l.length = 0) := fun h0 => hl (List.length_eq_zero.1 h0)
        simp [hl, hlen, h]

theorem Unsubscribe_observersOf (eb : EventBus) (eventType : String) (observer : Option Ref) :
    (eb.Unsubscribe eventType observer).1.observersOf eventType =
      (match observer with
        | some o => (eb.observersOf eventType).erase o
        | none => eb.observersOf eventType) := by
  cases h : eb.observers.lookup eventType with
  | none =>
    rw [Unsubscribe_absent_type eb eventType observer h]
    unfold EventBus.observersOf
    rw [h]
    cases observer <;> simp
  | some l =>
    unfold EventBus.observersOf
    rw [Unsubscribe_lookup_self eb eventType observer l h, h]
    cases observer with
    | none =>
      by_cases hl : l = []
      · simp [hl]
      · simp [hl]
    | some o =>
      by_cases hl : l.erase o = []
      · simp [hl]
      · simp [hl]

theorem Unsubscribe_keys (eb : EventBus) (eventType : String) (observer : Option Ref) :
    eventType ∈ (eb.Unsubscribe eventType observer).1.GetEventTypes ↔
      (eb.Unsubscribe eventType observer).1.observersOf eventType ≠ [] := by
  unfold EventBus.GetEventTypes
  rw [← AList.mem_keys, ← AList.lookup_isSome]
  cases h : eb.observers.lookup eventType with
  | none =>
    rw [Unsubscribe_absent_type eb eventType observer h]
    unfold EventBus.observersOf
    simp [h]
  | some l =>
    unfold EventBus.observersOf
    rw [Unsubscribe_lookup_self eb eventType observer l h]
    cases observer with
    | none =>
      by_cases hl : l = []
      · simp [hl]
      · simp [hl]
    | some o =>
      by_cases hl : l.erase o = []
      · simp [hl]
      · simp [hl]

theorem Unsubscribe_absent_observer (eb : EventBus) (eventType : String)
    (observer : Option Ref) (hne : eb.NoEmpty)
    (habs : ∀ o, observer = some o → o ∉ eb.observersOf eventType) :
    (eb.Unsubscribe eventType observer).1 = eb := by
  cases h : eb.observers.lookup eventType with
  | none => rw [Unsubscribe_absent_type eb eventType observer h]
  | some l =>
    have hl : l ≠ [] := hne eventType l h
    have hlen : ¬ (l.length = 0) := fun h0 => hl (List.length_eq_zero.1 h0)
    have hloop : EventBus.unsubscribeLoop l observer 0 l = none := by
      cases observer with
      | none => exact unsubscribeLoop_nil_observer l l 0
      | some o =>
        have ho : o ∉ l := by
          have := habs o rfl
          unfold EventBus.observersOf at this
          rw [h] at this
          exact this
        rw [unsubscribeLoop_some, if_neg ho]
    unfold EventBus.Unsubscribe
    rw [h]
    dsimp only
    rw [hloop]
    dsimp only
    unfold EventBus.observersOf
    rw [h]
    simp [hlen]

theorem NoEmpty_NewEventBus : NewEventBus.NoEmpty := by
  intro t l h
  simp [NewEventBus] at h

theorem NoEmpty_Clear (eb : EventBus) : eb.Clear.NoEmpty := by
  intro t l h
  simp [EventBus.Clear] at h

theorem NoEmpty_Subscribe (eb : EventBus) (eventType : String) (observer : Option Ref)
    (h : eb.NoEmpty) : (eb.Subscribe eventType observer).1.NoEmpty := by
  intro t l hl
  by_cases ht : t = eventType
  · subst ht
    cases observer with
    | none => exact h t l hl
    | some o =>
      simp only [EventBus.Subscribe, AList.lookup_insert, Option.some.injEq] at hl
      rw [← hl]
      simp
  · rw [lookup_subscribe_other eb eventType t observer ht] at hl
    exact h t l hl

theorem NoEmpty_Unsubscribe (eb : EventBus) (eventType : String) (observer : Option Ref)
    (h : eb.NoEmpty) : (eb.Unsubscribe eventType observer).1.NoEmpty := by
  intro t l hl
  by_cases ht : t = eventType
  · subst ht
    cases hlook : eb.observers.lookup t with
    | none =>
      rw [Unsubscribe_absent_type eb t observer hlook, hlook] at hl
      exact absurd hl (by simp)
    | some l0 =>
      rw [Unsubscribe_lookup_self eb t observer l0 hlook] at hl
      cases observer with
      | none =>
        by_cases h0 : l0 = []
        · simp [h0] at hl
        · simp only [h0, if_false, Option.some.injEq] at hl
          exact hl ▸ h0
      | some o =>
        by_cases h0 : l0.erase o = []
        · simp [h0] at hl
        · simp only [h0, if_false, Option.some.injEq] at hl
          exact hl ▸ h0
  · rw [Unsubscribe_lookup_other eb eventType t observer ht] at hl
    exact h t l hl

/-- C16: `Unsubscribe` always returns `nil`.  It removes from the list of the event type exactly
the first entry identical to the observer and keeps the others in order, and leaves the lists of
all other types alone.  When the type has no entry, or the observer is not in its list, nothing
changes.  Afterwards the type is listed by `GetEventTypes` only if its list is not empty; when
the list became empty its count is 0. -/
theorem Unsubscribe_spec (eb : EventBus) (eventType : String) (observer : Option Ref) :
    (eb.Unsubscribe eventType observer).2 = none ∧
    (∀ (o : Ref) (pre post : List Ref), observer = some o → o ∉ pre →
      eb.observersOf eventType = pre ++ o :: post →
      (eb.Unsubscribe eventType observer).1.observersOf eventType = pre ++ post) ∧
    (∀ t, t ≠ eventType →
      (eb.Unsubscribe eventType observer).1.observers.lookup t = eb.observers.lookup t) ∧
    (eb.observers.lookup eventType = none → (eb.Unsubscribe eventType observer).1 = eb) ∧
    ((∀ o, observer = some o → o ∉ eb.observersOf eventType) →
      (∀ t, (eb.Unsubscribe eventType observer).1.observersOf t = eb.observersOf t) ∧
      (eb.NoEmpty → (eb.Unsubscribe eventType observer).1 = eb)) ∧
    (eventType ∈ (eb.Unsubscribe eventType observer).1.GetEventTypes ↔
      (eb.Unsubscribe eventType observer).1.observersOf eventType ≠ []) ∧
    ((eb.Unsubscribe eventType observer).1.observersOf eventType = [] →
      (eb.Unsubscribe eventType observer).1.GetObserverCount eventType = 0) := by
  refine ⟨Unsubscribe_err eb eventType observer, ?_, ?_, ?_, ?_,
    Unsubscribe_keys eb eventType observer, ?_⟩
  · rintro o pre post rfl hpre hl
    rw [Unsubscribe_observersOf, hl]
    exact erase_first_occurrence pre post o hpre
  · exact fun t ht => Unsubscribe_lookup_other eb eventType t observer ht
  · intro h
    rw [Unsubscribe_absent_type eb eventType observer h]
  · intro habs
    refine ⟨?_, fun hne => Unsubscribe_absent_observer eb eventType observer hne habs⟩
    intro t
    by_cases ht : t = eventType
    · subst ht
      rw [Unsubscribe_observersOf]
      cases observer with
      | none => rfl
      | some o => exact List.erase_of_not_mem (habs o rfl)
    · unfold EventBus.observersOf
      rw [Unsubscribe_lookup_other eb eventType t observer ht]
  · intro h
    unfold EventBus.GetObserverCount
    rw [h]
    rfl

theorem Unsubscribe_spec_witness :
    ((errorTestBus.Subscribe "test_event" (some 0)).1.Unsubscribe "test_event"
      (some 0)).1.observersOf "test_event" = [1, 0] ∧
    (errorTestBus.Unsubscribe "test_event" (some 5)).1 = errorTestBus ∧
    (errorTestBus.Unsubscribe "other_event" (some 0)).1 = errorTestBus ∧
    "test_event" ∉ ((errorTestBus.Unsubscribe "test_event" (some 0)).1.Unsubscribe "test_event"
      (some 1)).1.GetEventTypes := by
  refine ⟨?_, ?_, ?_, ?_⟩
  · exact (Unsubscribe_spec (errorTestBus.Subscribe "test_event" (some 0)).1 "test_event"
      (some 0)).2.1 0 [] [1, 0] rfl (by simp) (by decide)
  · refine ((Unsubscribe_spec errorTestBus "test_event" (some 5)).2.2.2.2.1 ?_).2 ?_
    · intro o ho
      cases ho
      decide
    · exact NoEmpty_Subscribe _ _ _ (NoEmpty_Subscribe _ _ _ NoEmpty_NewEventBus)
  · exact (Unsubscribe_spec errorTestBus "other_event" (some 0)).2.2.2.1 (by decide)
  · rw [(Unsubscribe_spec (errorTestBus.Unsubscribe "test_event" (some 0)).1 "test_event"
      (some 1)).2.2.2.2.2.1]
    decide

/-- C18: after `Clear` the count of every event type is 0 and `GetEventTypes` is empty, whatever
was subscribed before; a `Notify` of any event then calls no observer, leaves the heap as it was
and returns `nil`. -/
theorem Clear_spec {σ : Type} (O : Observer σ) (eb : EventBus) (event : Event) (s : σ) :
    (∀ t, eb.Clear.GetObserverCount t = 0) ∧
    eb.Clear.GetEventTypes = [] ∧
    eb.Clear.Notify O event s = ⟨s, [], none⟩ := by
  refine ⟨fun t => ?_, rfl, ?_⟩
  · simp [EventBus.Clear, EventBus.GetObserverCount, EventBus.observersOf]
  · apply Notify_no_subscribers
    simp [EventBus.Clear, EventBus.GetObserverCount, EventBus.observersOf]

/-! ## Player damage -/

theorem reduceHealth_get {σ : Type} (p : Ptr σ Player) (d : float32) (s : σ)
    (hptr : ∀ x u, p.get (p.set x u) = x) :
    p.get (Player.reduceHealth p d s) =
      { p.get s with Health := if (p.get s).Health - d < 0 then 0 else (p.get s).Health - d } := by
  unfold Player.reduceHealth
  by_cases h : (p.get s).Health - d < 0
  · simp [hptr, h]
  · simp [hptr, h]

/-- C19: for a player with an event bus and health `h`, and a damage `d < h` (in particular for
`h > 0` and `0 ≤ d < h`), `TakeDamage(d)` publishes exactly one event, player_damaged with
damage `d`, source enemy, new health `h - d` and the position of the player, and leaves the
health at `h - d`; no game_over event is published.  The bus is assumed to leave the player as
it is when it is notified. -/
theorem TakeDamage_nonfatal {σ : Type} (B : Subject σ) (p : Ptr σ Player) (s : σ) (bus : Ref)
    (d : float32)
    (hptr : ∀ x u, p.get (p.set x u) = x)
    (hquiet : ∀ b e u, p.get (B.Notify b e u).1 = p.get u)
    (hbus : (p.get s).eventBus = some bus)
    (hd : d < (p.get s).Health) :
    (Player.TakeDamage B p d s).map Prod.snd =
      some [⟨"player_damaged",
        .playerDamaged ⟨d, "enemy", (p.get s).Health - d, (p.get s).Position⟩⟩] ∧
    (Player.TakeDamage B p d s).map (fun r => (p.get r.1).Health) =
      some ((p.get s).Health - d) := by
  have hnn : ¬ ((p.get s).Health - d < 0) := by linarith
  have hpos : ¬ ((p.get s).Health - d ≤ 0) := by linarith
  have hc := reduceHealth_get p d s hptr
  simp only [hnn, if_false] at hc
  unfold Player.TakeDamage
  simp only [hc, hbus, hquiet, hpos, and_false, if_false, Option.map_some',
    NewPlayerDamagedEvent, EventTypePlayerDamaged]
  exact ⟨trivial, trivial⟩

theorem TakeDamage_nonfatal_witness :
    (25 : float32) < (playerPtr.get (playerWorld 100)).Health ∧
    (Player.TakeDamage mockEventBus playerPtr 25 (playerWorld 100)).map Prod.snd =
      some [⟨"player_damaged", .playerDamaged ⟨25, "enemy", 75, ⟨0, 0, 0⟩⟩⟩] ∧
    (Player.TakeDamage mockEventBus playerPtr 25 (playerWorld 100)).map
      (fun r => (r.1.events, r.1.player.Health)) =
      some ([⟨"player_damaged", .playerDamaged ⟨25, "enemy", 75, ⟨0, 0, 0⟩⟩⟩], 75) := by
  have hd : (25 : float32) < (playerPtr.get (playerWorld 100)).Health := by
    simp [playerPtr, playerWorld, NewPlayer]
    norm_num
  have h := TakeDamage_nonfatal mockEventBus playerPtr (playerWorld 100) 0 25
    (fun _ _ => rfl) (fun _ _ _ => rfl) rfl hd
  refine ⟨hd, ?_, ?_⟩
  · rw [h.1]
    simp [playerPtr, playerWorld, NewPlayer]
    norm_num
  · simp [Player.TakeDamage, Player.reduceHealth, mockEventBus, playerPtr, playerWorld,
      NewPlayer, NewPlayerDamagedEvent, EventTypePlayerDamaged]
    norm_num

/-- C20: for a player with an event bus and health `h > 0`, and a damage `d ≥ h`,
`TakeDamage(d)` leaves the health at exactly 0 and the player not alive, and publishes exactly
two events in this order: player_damaged with damage `d` and new health 0, then game_over with
reason player_died.  The bus is assumed to leave the player as it is when it is notified. -/
theorem TakeDamage_fatal {σ : Type} (B : Subject σ) (p : Ptr σ Player) (s : σ) (bus : Ref)
    (d : float32)
    (hptr : ∀ x u, p.get (p.set x u) = x)
    (hquiet : ∀ b e u, p.get (B.Notify b e u).1 = p.get u)
    (hbus : (p.get s).eventBus = some bus)
    (hh : 0 < (p.get s).Health) (hd : (p.get s).Health ≤ d) :
    (Player.TakeDamage B p d s).map Prod.snd =
      some [⟨"player_damaged", .playerDamaged ⟨d, "enemy", 0, (p.get s).Position⟩⟩,
            ⟨"game_over", .gameOver ⟨"player_died", 0, 0⟩⟩] ∧
    (Player.TakeDamage B p d s).map (fun r => (p.get r.1).Health) = some 0 ∧
    (Player.TakeDamage B p d s).map (fun r => (p.get r.1).IsAlive) = some false := by
  have hc := reduceHealth_get p d s hptr
  have hz : (if (p.get s).Health - d < 0 then (0 : float32) else (p.get s).Health - d) = 0 := by
    by_cases h : (p.get s).Health - d < 0
    · rw [if_pos h]
    · rw [if_neg h]; linarith
  rw [hz] at hc
  unfold Player.TakeDamage
  simp only [hc, hbus, hquiet, hh, gt_iff_lt, le_refl, and_self, if_true, Option.map_some',
    NewPlayerDamagedEvent, EventTypePlayerDamaged, NewGameOverEvent, EventTypeGameOver,
    Player.IsAlive]
  refine ⟨trivial, trivial, ?_⟩
  simp

theorem TakeDamage_fatal_witness :
    (0 : float32) < (playerPtr.get (playerWorld 10)).Health ∧
    (playerPtr.get (playerWorld 10)).Health ≤ 15 ∧
    (Player.TakeDamage mockEventBus playerPtr 15 (playerWorld 10)).map Prod.snd =
      some [⟨"player_damaged", .playerDamaged ⟨15, "enemy", 0, ⟨0, 0, 0⟩⟩⟩,
            ⟨"game_over", .gameOver ⟨"player_died", 0, 0⟩⟩] ∧
    (Player.TakeDamage mockEventBus playerPtr 15 (playerWorld 10)).map
      (fun r => (r.1.player.Health, r.1.player.IsAlive)) = some (0, false) := by
  have hh : (0 : float32) < (playerPtr.get (playerWorld 10)).Health := by
    simp [playerPtr, playerWorld, NewPlayer]
  have hd : (playerPtr.get (playerWorld 10)).Health ≤ 15 := by
    simp [playerPtr, playerWorld, NewPlayer]
    norm_num
  have h := TakeDamage_fatal mockEventBus playerPtr (playerWorld 10) 0 15
    (fun _ _ => rfl) (fun _ _ _ => rfl) rfl hh hd
  refine ⟨hh, hd, ?_, ?_⟩
  · rw [h.1]
    simp [playerPtr, playerWorld, NewPlayer]
  · have h2 := h.2.1
    have h3 := h.2.2
    cases hr : Player.TakeDamage mockEventBus playerPtr 15 (playerWorld 10) with
    | none => rw [hr] at h2; simp at h2
    | some r =>
      rw [hr] at h2 h3
      simp only [Option.map_some', Option.some.injEq, playerPtr] at h2 h3
      simp [h2, h3]

/-! ## The dead player -/

theorem TakeDamage_quiet {σ : Type} (B : Subject σ) (p : Ptr σ Player) (d : float32) (s : σ)
    (hptr : ∀ x u, p.get (p.set x u) = x)
    (hquiet : ∀ b e u, p.get (B.Notify b e u).1 = p.get u) :
    ∃ r, Player.TakeDamage B p d s = some r ∧
      p.get r.1 = { p.get s with Health := max 0 ((p.get s).Health - d) } ∧
      r.2 = match (p.get s).eventBus with
        | none => []
        | some _ =>
          NewPlayerDamagedEvent d "enemy" (max 0 ((p.get s).Health - d)) (p.get s).Position ::
            (if 0 < (p.get s).Health ∧ (p.get s).Health - d ≤ 0 then
              [NewGameOverEvent "player_died" 0 0] else []) := by
  have hc := reduceHealth_get p d s hptr
  have hm : (if (p.get s).Health - d < 0 then (0 : float32) else (p.get s).Health - d) =
      max 0 ((p.get s).Health - d) := by
    by_cases h : (p.get s).Health - d < 0
    · rw [if_pos h, max_eq_left (le_of_lt h)]
    · rw [if_neg h, max_eq_right (not_lt.mp h)]
  rw [hm] at hc
  unfold Player.TakeDamage
  cases hb : (p.get s).eventBus with
  | none =>
    refine ⟨(Player.reduceHealth p d s, []), ?_, hc, rfl⟩
    simp only [hc, hb]
  | some bus =>
    by_cases hf : 0 < (p.get s).Health ∧ (p.get s).Health - d ≤ 0
    · have hz : max 0 ((p.get s).Health - d) = 0 := max_eq_left hf.2
      simp only [hc, hb, hquiet, hz, hf, gt_iff_lt, le_refl, and_self, if_true]
      exact ⟨_, rfl, by simp [hquiet, hc, hz, hb], by simp [hb]⟩
    · have hf2 : ¬ ((p.get s).Health > 0 ∧ max 0 ((p.get s).Health - d) ≤ 0) := by
        intro h
        apply hf
        refine ⟨h.1, ?_⟩
        exact le_trans (le_max_right _ _) h.2
      simp only [hc, hb, hquiet, hf, hf2, if_false]
      exact ⟨_, rfl, by simp [hquiet, hc, hb], by simp [hb]⟩

theorem gameOverCount_append (a b : List Event) :
    gameOverCount (a ++ b) = gameOverCount a + gameOverCount b := by
  simp [gameOverCount]

theorem TakeDamageAll_gameOver {σ : Type} (B : Subject σ) (p : Ptr σ Player)
    (hptr : ∀ x u, p.get (p.set x u) = x)
    (hquiet : ∀ b e u, p.get (B.Notify b e u).1 = p.get u)
    (ds : List float32) (hds : ∀ d ∈ ds, 0 ≤ d) (s : σ) :
    ∃ r, Player.TakeDamageAll B p ds s = some r ∧
      gameOverCount r.2 ≤ (if 0 < (p.get s).Health then 1 else 0) := by
  induction ds generalizing s with
  | nil => exact ⟨(s, []), rfl, by simp [gameOverCount]⟩
  | cons d ds ih =>
    obtain ⟨r1, h1, hp1, he1⟩ := TakeDamage_quiet B p d s hptr hquiet
    obtain ⟨r2, h2, hc2⟩ := ih (fun x hx => hds x (List.mem_cons_of_mem _ hx)) r1.1
    have hd : 0 ≤ d := hds d (List.mem_cons_self _ _)
    refine ⟨(r2.1, r1.2 ++ r2.2), ?_, ?_⟩
    · simp only [Player.TakeDamageAll, h1, h2]
    · rw [gameOverCount_append]
      simp only [hp1] at hc2
      by_cases hh : 0 < (p.get s).Health
      · rw [if_pos hh]
        by_cases hfat : (p.get s).Health - d ≤ 0
        · have hz : ¬ (0 < max 0 ((p.get s).Health - d)) := by
            rw [max_eq_left hfat]; exact lt_irrefl _
          rw [if_neg hz] at hc2
          have h1c : gameOverCount r1.2 ≤ 1 := by
            rw [he1]
            cases (p.get s).eventBus with
            | none => simp [gameOverCount]
            | some bus =>
              simp [gameOverCount, hh, hfat, NewPlayerDamagedEvent, NewGameOverEvent,
                EventTypePlayerDamaged, EventTypeGameOver]
          omega
        · have h1c : gameOverCount r1.2 = 0 := by
            rw [he1]
            cases (p.get s).eventBus with
            | none => simp [gameOverCount]
            | some bus =>
              simp [gameOverCount, hfat, NewPlayerDamagedEvent,
                EventTypePlayerDamaged, EventTypeGameOver]
          have : gameOverCount r2.2 ≤ 1 := by
            refine le_trans hc2 ?_
            split <;> simp
          omega
      · rw [if_neg hh]
        have hz : ¬ (0 < max 0 ((p.get s).Health - d)) := by
          have : (p.get s).Health - d ≤ 0 := by linarith [not_lt.mp hh]
          rw [max_eq_left this]; exact lt_irrefl _
        rw [if_neg hz] at hc2
        have h1c : gameOverCount r1.2 = 0 := by
          rw [he1]
          cases (p.get s).eventBus with
          | none => simp [gameOverCount]
          | some bus =>
            simp [gameOverCount, hh, NewPlayerDamagedEvent,
              EventTypePlayerDamaged, EventTypeGameOver]
        omega

/-- C21: for a player whose health is 0 (or below) before the call, `TakeDamage(d)` returns and
publishes no game_over event, for every `d` and whatever the bus does; and over any sequence of
`TakeDamage` calls with non-negative damage on a player whose bus leaves the player as it is,
all calls return and game_over is published at most once (not at all when the player starts
dead). -/
theorem TakeDamage_dead_no_game_over {σ : Type} (B : Subject σ) (p : Ptr σ Player) :
    (∀ (s : σ) (d : float32), (p.get s).Health ≤ 0 →
      ∃ r, Player.TakeDamage B p d s = some r ∧ gameOverCount r.2 = 0 ∧
        ∀ ev ∈ r.2, ev.Type_ ≠ EventTypeGameOver) ∧
    ((∀ x u, p.get (p.set x u) = x) → (∀ b e u, p.get (B.Notify b e u).1 = p.get u) →
      ∀ (ds : List float32), (∀ d ∈ ds, 0 ≤ d) → ∀ s : σ,
        ∃ r, Player.TakeDamageAll B p ds s = some r ∧ gameOverCount r.2 ≤ 1 ∧
          ((p.get s).Health ≤ 0 → gameOverCount r.2 = 0)) := by
  constructor
  · intro s d hdead
    have hold : ¬ ((p.get s).Health > 0) := not_lt.mpr hdead
    unfold Player.TakeDamage
    dsimp only
    cases hb : (p.get (Player.reduceHealth p d s)).eventBus with
    | none => exact ⟨_, rfl, by simp [gameOverCount], by simp⟩
    | some bus =>
      simp only [hold, false_and, if_false]
      refine ⟨_, rfl, ?_, ?_⟩
      · simp [gameOverCount, NewPlayerDamagedEvent, EventTypePlayerDamaged, EventTypeGameOver]
      · intro ev hev
        simp only [List.mem_singleton] at hev
        subst hev
        simp [NewPlayerDamagedEvent, EventTypePlayerDamaged, EventTypeGameOver]
  · intro hptr hquiet ds hds s
    obtain ⟨r, hr, hc⟩ := TakeDamageAll_gameOver B p hptr hquiet ds hds s
    refine ⟨r, hr, ?_, ?_⟩
    · refine le_trans hc ?_
      split <;> simp
    · intro hdead
      rw [if_neg (not_lt.mpr hdead)] at hc
      omega

theorem TakeDamage_dead_no_game_over_witness :
    ∃ r, Player.TakeDamageAll mockEventBus playerPtr [15, 5] (playerWorld 10) = some r ∧
      gameOverCount r.2 ≤ 1 ∧
      ((playerPtr.get (playerWorld 10)).Health ≤ 0 → gameOverCount r.2 = 0) :=
  (TakeDamage_dead_no_game_over mockEventBus playerPtr).2 (fun _ _ => rfl) (fun _ _ _ => rfl)
    [15, 5] (by intro d hd; simp at hd; rcases hd with rfl | rfl <;> norm_num) (playerWorld 10)

theorem Heal_get {σ : Type} (p : Ptr σ Player) (a : float32) (s : σ)
    (hptr : ∀ x u, p.get (p.set x u) = x) :
    p.get (Player.Heal p a s) =
      { p.get s with Health := min (p.get s).MaxHealth ((p.get s).Health + a) } := by
  unfold Player.Heal
  by_cases h : (p.get s).Health + a > (p.get s).MaxHealth
  · simp [hptr, h, min_eq_left (le_of_lt h)]
  · simp [hptr, h, min_eq_right (not_lt.mp h)]

theorem TakeDamageAll_dead {σ : Type} (B : Subject σ) (p : Ptr σ Player)
    (hptr : ∀ x u, p.get (p.set x u) = x)
    (hquiet : ∀ b e u, p.get (B.Notify b e u).1 = p.get u)
    (ds : List float32) (hds : ∀ d ∈ ds, 0 ≤ d) (s : σ) (hdead : (p.get s).Health ≤ 0) :
    ∃ r, Player.TakeDamageAll B p ds s = some r ∧ (p.get r.1).Health ≤ 0 := by
  induction ds generalizing s with
  | nil => exact ⟨(s, []), rfl, hdead⟩
  | cons d ds ih =>
    obtain ⟨r1, h1, hp1, _⟩ := TakeDamage_quiet B p d s hptr hquiet
    have hd : 0 ≤ d := hds d (List.mem_cons_self _ _)
    have h1d : (p.get r1.1).Health ≤ 0 := by
      rw [hp1]
      show max 0 ((p.get s).Health - d) ≤ 0
      rw [max_eq_left (by linarith)]
    obtain ⟨r2, h2, hc2⟩ := ih (fun x hx => hds x (List.mem_cons_of_mem _ hx)) r1.1 h1d
    exact ⟨(r2.1, r1.2 ++ r2.2), by simp only [Player.TakeDamageAll, h1, h2], hc2⟩

/-- C22, counterexample: the player of the tests with health 10 takes 15 damage and is dead
(health 0, `IsAlive` false); `Heal(25)` on that player sets the health to 25 and `IsAlive` is
true again. -/
theorem Heal_revives_dead_player :
    (Player.TakeDamage mockEventBus playerPtr 15 (playerWorld 10)).map
      (fun r => ((playerPtr.get r.1).Health, (playerPtr.get r.1).IsAlive,
        (playerPtr.get (Player.Heal playerPtr 25 r.1)).Health,
        (playerPtr.get (Player.Heal playerPtr 25 r.1)).IsAlive)) =
      some (0, false, 25, true) := by
  simp [Player.TakeDamage, Player.reduceHealth, Player.Heal, Player.IsAlive, mockEventBus,
    playerPtr, playerWorld, NewPlayer, NewPlayerDamagedEvent, NewGameOverEvent]
  norm_num

/-- C22, amended: once a player is dead (`IsAlive` false), every sequence of `TakeDamage` calls
with non-negative damage returns and leaves it dead, the bus being assumed to leave the player
as it is; `Heal(a)` has no liveness guard: it changes only the health, to
`min(MaxHealth, Health + a)`, so it makes the dead player alive again exactly when
`Health + a > 0` and `MaxHealth > 0`, and leaves it dead for `a ≤ 0`. -/
theorem dead_player_one_way_under_damage {σ : Type} (B : Subject σ) (p : Ptr σ Player) (s : σ)
    (hptr : ∀ x u, p.get (p.set x u) = x)
    (hquiet : ∀ b e u, p.get (B.Notify b e u).1 = p.get u)
    (hdead : (p.get s).IsAlive = false) :
    (∀ ds : List float32, (∀ d ∈ ds, 0 ≤ d) →
      ∃ r, Player.TakeDamageAll B p ds s = some r ∧ (p.get r.1).IsAlive = false) ∧
    (∀ a : float32,
      p.get (Player.Heal p a s) =
        { p.get s with Health := min (p.get s).MaxHealth ((p.get s).Health + a) } ∧
      ((p.get (Player.Heal p a s)).IsAlive = true ↔
        0 < (p.get s).Health + a ∧ 0 < (p.get s).MaxHealth) ∧
      (a ≤ 0 → (p.get (Player.Heal p a s)).IsAlive = false)) := by
  have hd : (p.get s).Health ≤ 0 := by
    simpa [Player.IsAlive] using hdead
  constructor
  · intro ds hds
    obtain ⟨r, hr, hc⟩ := TakeDamageAll_dead B p hptr hquiet ds hds s hd
    exact ⟨r, hr, by simpa [Player.IsAlive] using hc⟩
  · intro a
    have hg := Heal_get p a s hptr
    have hiff : (p.get (Player.Heal p a s)).IsAlive = true ↔
        0 < (p.get s).Health + a ∧ 0 < (p.get s).MaxHealth := by
      rw [hg]
      simp only [Player.IsAlive, gt_iff_lt, decide_eq_true_eq, lt_min_iff]
      exact and_comm
    refine ⟨hg, hiff, ?_⟩
    intro ha
    cases hal : (p.get (Player.Heal p a s)).IsAlive with
    | false => rfl
    | true =>
      have := (hiff.mp hal).1
      linarith

theorem dead_player_one_way_under_damage_witness :
    (playerPtr.get (playerWorld 0)).IsAlive = false ∧
    (∃ r, Player.TakeDamageAll mockEventBus playerPtr [10, 0, 3] (playerWorld 0) = some r ∧
      (playerPtr.get r.1).IsAlive = false) ∧
    ((playerPtr.get (Player.Heal playerPtr 25 (playerWorld 0))).IsAlive = true ↔
      0 < (playerPtr.get (playerWorld 0)).Health + 25 ∧
        0 < (playerPtr.get (playerWorld 0)).MaxHealth) := by
  have hdead : (playerPtr.get (playerWorld 0)).IsAlive = false := by
    simp [Player.IsAlive, playerPtr, playerWorld, NewPlayer]
  have h := dead_player_one_way_under_damage mockEventBus playerPtr (playerWorld 0)
    (fun _ _ => rfl) (fun _ _ _ => rfl) hdead
  refine ⟨hdead, h.1 [10, 0, 3] ?_, (h.2 25).2.1⟩
  intro d hd
  simp at hd
  rcases hd with rfl | rfl | rfl <;> norm_num

/-! ## Collision callbacks of the entities -/

theorem playerAt_get_set {β : Type} (r : Ref) (x : Player) (u : World β) :
    (World.playerAt r).get ((World.playerAt r).set x u) = x := by
  simp [World.playerAt]

theorem playerAt_get_of_objects {β : Type} (r : Ref) (u v : World β)
    (h : u.objects = v.objects) : (World.playerAt r).get u = (World.playerAt r).get v := by
  simp [World.playerAt, h]

theorem reduceHealth_objects {β : Type} (r : Ref) (d : float32) (w : World β) (pl : Player)
    (hr : w.objects r = .player pl) :
    (Player.reduceHealth (World.playerAt r) d w).objects =
      Function.update w.objects r (.player { pl with Health := max 0 (pl.Health - d) }) := by
  unfold Player.reduceHealth
  by_cases h : pl.Health - d < 0
  · simp [World.playerAt, hr, h, max_eq_left (le_of_lt h)]
  · simp [World.playerAt, hr, h, max_eq_right (not_lt.mp h)]

theorem TakeDamage_objects {β : Type} (B : Subject (World β)) (r : Ref) (d : float32)
    (w : World β) (pl : Player) (hr : w.objects r = .player pl)
    (hquiet : ∀ b ev u, (B.Notify b ev u).1.objects = u.objects) :
    ∃ res, Player.TakeDamage B (World.playerAt r) d w = some res ∧
      res.1.objects =
        Function.update w.objects r (.player { pl with Health := max 0 (pl.Health - d) }) ∧
      res.2 = match pl.eventBus with
        | none => []
        | some _ =>
          NewPlayerDamagedEvent d "enemy" (max 0 (pl.Health - d)) pl.Position ::
            (if 0 < pl.Health ∧ pl.Health - d ≤ 0 then
              [NewGameOverEvent "player_died" 0 0] else []) := by
  have hget : (World.playerAt r).get w = pl := by simp [World.playerAt, hr]
  obtain ⟨res, h1, _, h3⟩ := TakeDamage_quiet B (World.playerAt r) d w (playerAt_get_set r)
    (fun b e u => playerAt_get_of_objects r _ _ (hquiet b e u))
  rw [hget] at h3
  refine ⟨res, h1, ?_, h3⟩
  have ho := reduceHealth_objects r d w pl hr
  unfold Player.TakeDamage at h1
  dsimp only at h1
  split at h1
  · simp only [Option.some.injEq] at h1
    rw [← h1]
    exact ho
  · split at h1
    · split at h1
      · exact absurd h1 (by simp)
      · simp only [Option.some.injEq] at h1
        rw [← h1]
        simp only [hquiet]
        exact ho
    · simp only [Option.some.injEq] at h1
      rw [← h1]
      simp only [hquiet]
      exact ho

theorem foldlM_some_id {α γ : Type} (f : α → γ → Option α) (l : List γ) (a : α)
    (h : ∀ x ∈ l, f a x = some a) : l.foldlM f a = some a := by
  induction l with
  | nil => rfl
  | cons x xs ih =>
    rw [List.foldlM_cons, h x (List.mem_cons_self _ _)]
    exact ih (fun y hy => h y (List.mem_cons_of_mem _ hy))

/-- C23: when the enemy behind `e` has attack cooldown `≤ 0` and `other` is a player with health
`h`, `Enemy.OnCollision` is one `TakeDamage(10)` on that player followed by the write of 1 to
the cooldown; with a bus that leaves the objects as they are it returns, the
player ends with health `max(0, h - 10)` and nothing else changed, the events are those of
that one `TakeDamage` (player_damaged with new health `max(0, h - 10)`, then game_over when
the hit was fatal; none for a player without bus), the enemy ends with cooldown exactly 1 and
nothing else changed, every other object is untouched, and a second `OnCollision` right
after it changes nothing and publishes nothing. -/
theorem Enemy_OnCollision_attacks {β : Type} (B : Subject (World β)) (e other : Ref)
    (w : World β) (en : Enemy) (pl : Player)
    (he : w.objects e = .enemy en) (ho : w.objects other = .player pl)
    (hcd : en.AttackCooldown ≤ 0)
    (hquiet : ∀ b ev u, (B.Notify b ev u).1.objects = u.objects) :
    Enemy.OnCollision B e other w =
      (Player.TakeDamage B (World.playerAt other) 10 w).map (fun r =>
        ((World.enemyAt e).set { (World.enemyAt e).get r.1 with AttackCooldown := 1 } r.1,
          r.2)) ∧
    ∃ r, Enemy.OnCollision B e other w = some r ∧
      r.1.objects other = .player { pl with Health := max 0 (pl.Health - 10) } ∧
      r.1.objects e = .enemy { en with AttackCooldown := 1 } ∧
      (∀ x, x ≠ e → x ≠ other → r.1.objects x = w.objects x) ∧
      r.2 = (match pl.eventBus with
        | none => []
        | some _ =>
          NewPlayerDamagedEvent 10 "enemy" (max 0 (pl.Health - 10)) pl.Position ::
            (if 0 < pl.Health ∧ pl.Health - 10 ≤ 0 then
              [NewGameOverEvent "player_died" 0 0] else [])) ∧
      Enemy.OnCollision B e other r.1 = some (r.1, []) := by
  have hne : e ≠ other := by
    intro h
    rw [h, ho] at he
    exact Entity.noConfusion he
  have hstep : Enemy.OnCollision B e other w =
      (Player.TakeDamage B (World.playerAt other) 10 w).map (fun r =>
        ((World.enemyAt e).set { (World.enemyAt e).get r.1 with AttackCooldown := 1 } r.1,
          r.2)) := by
    have hc : ((World.enemyAt e).get w).AttackCooldown ≤ 0 := by
      simpa [World.enemyAt, he] using hcd
    simp only [Enemy.OnCollision, World.tagsOf, ho, Entity.GetCollisionTags,
      Player.GetCollisionTags, List.foldlM_cons, List.foldlM_nil, Enemy.onCollisionTag,
      if_true, hc]
    cases Player.TakeDamage B (World.playerAt other) 10 w with
    | none => rfl
    | some r => simp
  refine ⟨hstep, ?_⟩
  obtain ⟨res, h1, h2, h3⟩ := TakeDamage_objects B other 10 w pl ho hquiet
  rw [h1] at hstep
  simp only [Option.map_some'] at hstep
  have hobj_e : res.1.objects e = .enemy en := by
    rw [h2, Function.update_noteq hne, he]
  have hget : (World.enemyAt e).get res.1 = en := by
    simp [World.enemyAt, hobj_e]
  rw [hget] at hstep
  refine ⟨_, hstep, ?_, ?_, ?_, h3, ?_⟩
  · simp [World.enemyAt, h2, Function.update_noteq (Ne.symm hne)]
  · simp [World.enemyAt]
  · intro x hxe hxo
    simp [World.enemyAt, h2, Function.update_noteq hxe, Function.update_noteq hxo]
  · unfold Enemy.OnCollision
    apply foldlM_some_id
    intro tag _
    unfold Enemy.onCollisionTag
    have hc1 : ¬ (((World.enemyAt e).get
        ((World.enemyAt e).set { en with AttackCooldown := 1 } res.1)).AttackCooldown ≤ 0) := by
      simp [World.enemyAt]
    by_cases ht : tag = "player"
    · rw [if_pos ht, if_neg hc1]
    · rw [if_neg ht]

/-- C24: when the enemy behind `e` has attack cooldown `> 0`, `Enemy.OnCollision` returns with
the heap exactly as it was (the health of the player, the cooldown of the enemy and everything
else) and publishes no event, whatever `other` is. -/
theorem Enemy_OnCollision_on_cooldown {β : Type} (B : Subject (World β)) (e other : Ref)
    (w : World β) (hcd : 0 < ((World.enemyAt e).get w).AttackCooldown) :
    Enemy.OnCollision B e other w = some (w, []) := by
  unfold Enemy.OnCollision
  apply foldlM_some_id
  intro tag _
  unfold Enemy.onCollisionTag
  by_cases ht : tag = "player"
  · rw [if_pos ht, if_neg (not_le.mpr hcd)]
  · rw [if_neg ht]

theorem Enemy_OnCollision_attacks_witness :
    ∃ r, Enemy.OnCollision worldEventBus 1 0 (integrationWorld 100 0) = some r ∧
      r.1.objects 0 = .player (integrationPlayer 90) ∧
      r.1.objects 1 = .enemy (integrationEnemy 1) ∧
      r.2 = [⟨"player_damaged", .playerDamaged ⟨10, "enemy", 90, ⟨0, 0, 0⟩⟩⟩] ∧
      Enemy.OnCollision worldEventBus 1 0 r.1 = some (r.1, []) := by
  have hcd : (integrationEnemy 0).AttackCooldown ≤ 0 := by
    simp [integrationEnemy]
  obtain ⟨r, h1, h2, h3, _, h5, h6⟩ :=
    (Enemy_OnCollision_attacks worldEventBus 1 0 (integrationWorld 100 0)
      (integrationEnemy 0) (integrationPlayer 100) rfl rfl hcd (fun _ _ _ => rfl)).2
  refine ⟨r, h1, ?_, ?_, ?_, h6⟩
  · rw [h2]
    simp [integrationPlayer, NewPlayer]
    norm_num
  · rw [h3]
    simp [integrationEnemy]
  · rw [h5]
    simp [integrationPlayer, NewPlayer, NewPlayerDamagedEvent, EventTypePlayerDamaged]
    norm_num

theorem Enemy_OnCollision_on_cooldown_witness :
    Enemy.OnCollision worldEventBus 1 0 (integrationWorld 100 (1 / 2)) =
      some (integrationWorld 100 (1 / 2), []) :=
  Enemy_OnCollision_on_cooldown worldEventBus 1 0 (integrationWorld 100 (1 / 2))
    (by
      have h : (World.enemyAt 1).get (integrationWorld 100 (1 / 2)) = integrationEnemy (1 / 2) :=
        rfl
      rw [h]
      simp [integrationEnemy])

theorem Enemy_TakeDamage_objects {β : Type} (r : Ref) (d : float32) (w : World β) (en : Enemy)
    (hr : w.objects r = .enemy en) :
    Enemy.TakeDamage (World.enemyAt r) d w =
      { w with objects := (Function.update w.objects r
          (.enemy (if en.Health - d ≤ 0 then { en with Health := 0, Active := false }
            else { en with Health := en.Health - d }))) } := by
  unfold Enemy.TakeDamage
  by_cases h : en.Health - d ≤ 0
  · simp [World.enemyAt, hr, h]
  · simp [World.enemyAt, hr, h]

theorem Bullet_Deactivate_objects {β : Type} (b : Ref) (w : World β) (bl : Bullet)
    (hb : w.objects b = .bullet bl) :
    Bullet.Deactivate (World.bulletAt b) w =
      { w with objects :=
          (Function.update w.objects b (.bullet { bl with Active := false })) } := by
  simp [Bullet.Deactivate, World.bulletAt, hb]

theorem onCollisionTag_enemy {β : Type} (b other : Ref) (w : World β) (bl : Bullet)
    (en : Enemy) (hb : w.objects b = .bullet bl) (ho : w.objects other = .enemy en) :
    Bullet.onCollisionTag b other w "enemy" = some { w with objects :=
      (Function.update
        (Function.update w.objects other
          (.enemy (if en.Health - bl.Damage ≤ 0 then { en with Health := 0, Active := false }
            else { en with Health := en.Health - bl.Damage })))
        b (.bullet { bl with Active := false })) } := by
  have hne : b ≠ other := by
    intro h
    rw [h, ho] at hb
    exact Entity.noConfusion hb
  have hget : (World.bulletAt b).get w = bl := by simp [World.bulletAt, hb]
  have hb1 : ({ w with objects := (Function.update w.objects other
      (.enemy (if en.Health - bl.Damage ≤ 0 then { en with Health := 0, Active := false }
        else { en with Health := en.Health - bl.Damage }))) } : World β).objects b =
      .bullet bl := by
    simp [Function.update_noteq hne, hb]
  simp only [Bullet.onCollisionTag, if_true, ho, hget,
    Enemy_TakeDamage_objects other bl.Damage w en ho, Bullet_Deactivate_objects b _ bl hb1]

theorem onCollisionTag_obstacle {β : Type} (b other : Ref) (w : World β) (bl : Bullet)
    (hb : w.objects b = .bullet bl) :
    Bullet.onCollisionTag b other w "obstacle" = some { w with objects :=
      (Function.update w.objects b (.bullet { bl with Active := false })) } := by
  simp [Bullet.onCollisionTag, Bullet_Deactivate_objects b w bl hb]

theorem onCollisionTag_other {β : Type} (b other : Ref) (w : World β) (t : String)
    (h1 : t ≠ "enemy") (h2 : t ≠ "obstacle") :
    Bullet.onCollisionTag b other w t = some w := by
  simp [Bullet.onCollisionTag, h1, h2]

theorem onCollisionTag_enemy_ex {β : Type} (b other : Ref) (w : World β) (bl : Bullet)
    (en : Enemy) (hb : w.objects b = .bullet bl) (ho : w.objects other = .enemy en) :
    ∃ w1, Bullet.onCollisionTag b other w "enemy" = some w1 ∧
      w1.objects b = .bullet { bl with Active := false } ∧
      ∃ en1, w1.objects other = .enemy en1 := by
  have hne : b ≠ other := by
    intro h
    rw [h, ho] at hb
    exact Entity.noConfusion hb
  refine ⟨_, onCollisionTag_enemy b other w bl en hb ho, by simp,
    ⟨if en.Health - bl.Damage ≤ 0 then { en with Health := 0, Active := false }
      else { en with Health := en.Health - bl.Damage }, ?_⟩⟩
  simp only [Function.update_noteq (Ne.symm hne), Function.update_same]

theorem onCollisionTag_obstacle_ex {β : Type} (b other : Ref) (w : World β) (bl : Bullet)
    (hb : w.objects b = .bullet bl) :
    ∃ w1, Bullet.onCollisionTag b other w "obstacle" = some w1 ∧
      w1.objects b = .bullet { bl with Active := false } ∧
      ∀ en, w.objects other = .enemy en → w1.objects other = .enemy en := by
  refine ⟨_, onCollisionTag_obstacle b other w bl hb, by simp, ?_⟩
  intro en ho
  have hne : other ≠ b := by
    intro h
    rw [h, hb] at ho
    exact Entity.noConfusion ho
  simp only [Function.update_noteq hne, ho]

theorem bullet_fold {β : Type} (b other : Ref) (tags : List String) (w : World β) (bl : Bullet)
    (hb : w.objects b = .bullet bl)
    (hen : "enemy" ∈ tags → ∃ en, w.objects other = .enemy en) :
    ∃ w2, tags.foldlM (Bullet.onCollisionTag b other) w = some w2 ∧
      w2.objects b = .bullet { bl with
        Active := bl.Active && !(decide ("enemy" ∈ tags ∨ "obstacle" ∈ tags)) } := by
  induction tags generalizing w bl with
  | nil => exact ⟨w, rfl, by simp [hb]⟩
  | cons t ts ih =>
    rw [List.foldlM_cons]
    by_cases hte : t = "enemy"
    · obtain ⟨en, ho⟩ := hen (by simp [hte])
      obtain ⟨w1, hs, hb1, ho1⟩ := onCollisionTag_enemy_ex b other w bl en hb ho
      rw [hte, hs]
      obtain ⟨w2, h2, h3⟩ := ih w1 { bl with Active := false } hb1 (fun _ => ho1)
      exact ⟨w2, h2, by rw [h3]; simp⟩
    · by_cases hto : t = "obstacle"
      · obtain ⟨w1, hs, hb1, ho1⟩ := onCollisionTag_obstacle_ex b other w bl hb
        rw [hto, hs]
        obtain ⟨w2, h2, h3⟩ := ih w1 { bl with Active := false } hb1 (by
          intro hmem
          obtain ⟨en, ho⟩ := hen (List.mem_cons_of_mem _ hmem)
          exact ⟨en, ho1 en ho⟩)
        exact ⟨w2, h2, by rw [h3]; simp⟩
      · rw [onCollisionTag_other b other w t hte hto]
        obtain ⟨w2, h2, h3⟩ := ih w bl hb (by
          intro hmem
          exact hen (List.mem_cons_of_mem _ hmem))
        refine ⟨w2, h2, ?_⟩
        rw [h3]
        have e1 : ("enemy" ∈ t :: ts) = ("enemy" ∈ ts) := by
          simp [Ne.symm hte]
        have e2 : ("obstacle" ∈ t :: ts) = ("obstacle" ∈ ts) := by
          simp [Ne.symm hto]
        simp only [e1, e2]

/-- C25: for a bullet `bl` behind `b`, `Bullet.OnCollision(other)` returns with the bullet's
active flag equal to its old value and-ed with "other carries neither the tag enemy nor the
tag obstacle", the rest of the bullet unchanged: an active bullet is deactivated if and only
if `other` carries one of the two tags.  For an `Enemy` with health `h` the enemy's health
becomes `h - Damage`, or 0 with the enemy deactivated when `h - Damage ≤ 0`, and nothing but
the enemy and the bullet changes; for an `Obstacle` only the bullet changes; for a `Player`,
a `Bullet` or a `HealthPickup` nothing changes at all.  The call returns for all five entity
types (an object of another type that carries the tag enemy makes it panic). -/
theorem Bullet_OnCollision_spec {β : Type} (b other : Ref) (w : World β) (bl : Bullet)
    (hb : w.objects b = .bullet bl) :
    (("enemy" ∈ w.tagsOf other → ∃ en, w.objects other = .enemy en) →
      ∃ w2, Bullet.OnCollision b other w = some w2 ∧
        w2.objects b = .bullet { bl with Active := bl.Active &&
          !(decide ("enemy" ∈ w.tagsOf other ∨ "obstacle" ∈ w.tagsOf other)) }) ∧
    (∀ en, w.objects other = .enemy en →
      Bullet.OnCollision b other w = some { w with objects :=
        (Function.update
          (Function.update w.objects other
            (.enemy (if en.Health - bl.Damage ≤ 0 then { en with Health := 0, Active := false }
              else { en with Health := en.Health - bl.Damage })))
          b (.bullet { bl with Active := false })) }) ∧
    (∀ ob, w.objects other = .obstacle ob →
      Bullet.OnCollision b other w = some { w with objects :=
        (Function.update w.objects b (.bullet { bl with Active := false })) } ∧
      Function.update w.objects b (.bullet { bl with Active := false }) other = .obstacle ob) ∧
    (∀ pl, w.objects other = .player pl → Bullet.OnCollision b other w = some w) ∧
    (∀ b2, w.objects other = .bullet b2 → Bullet.OnCollision b other w = some w) ∧
    (∀ hp, w.objects other = .healthPickup hp → Bullet.OnCollision b other w = some w) := by
  refine ⟨?_, ?_, ?_, ?_, ?_, ?_⟩
  · intro hen
    exact bullet_fold b other (w.tagsOf other) w bl hb hen
  · intro en ho
    simp only [Bullet.OnCollision, World.tagsOf, ho, Entity.GetCollisionTags,
      Enemy.GetCollisionTags, List.foldlM_cons, List.foldlM_nil,
      onCollisionTag_enemy b other w bl en hb ho]
    rfl
  · intro ob ho
    have hne : other ≠ b := by
      intro h
      rw [h, hb] at ho
      exact Entity.noConfusion ho
    refine ⟨?_, by rw [Function.update_noteq hne, ho]⟩
    simp only [Bullet.OnCollision, World.tagsOf, ho, Entity.GetCollisionTags,
      Obstacle.GetCollisionTags, List.foldlM_cons, List.foldlM_nil,
      onCollisionTag_obstacle b other w bl hb]
    rfl
  · intro pl ho
    simp [Bullet.OnCollision, World.tagsOf, ho, Entity.GetCollisionTags,
      Player.GetCollisionTags, Bullet.onCollisionTag]
  · intro b2 ho
    simp [Bullet.OnCollision, World.tagsOf, ho, Entity.GetCollisionTags,
      Bullet.GetCollisionTags, Bullet.onCollisionTag]
  · intro hp ho
    simp [Bullet.OnCollision, World.tagsOf, ho, Entity.GetCollisionTags,
      HealthPickup.GetCollisionTags, Bullet.onCollisionTag]

theorem Bullet_OnCollision_spec_witness :
    Bullet.OnCollision 0 1 bulletWorld = some { bulletWorld with objects :=
      (Function.update
        (Function.update bulletWorld.objects 1
          (.enemy { NewEnemy ⟨0, 0, 0⟩ 50 2 with Health := 30 }))
        0 (.bullet { NewBullet ⟨0, 0, 0⟩ ⟨1, 0, 0⟩ 10 2 20 with Active := false })) } ∧
    Bullet.OnCollision 0 2 bulletWorld = some { bulletWorld with objects :=
      (Function.update
        (Function.update bulletWorld.objects 2
          (.enemy { NewEnemy ⟨0, 0, 0⟩ 15 2 with Health := 0, Active := false }))
        0 (.bullet { NewBullet ⟨0, 0, 0⟩ ⟨1, 0, 0⟩ 10 2 20 with Active := false })) } ∧
    Bullet.OnCollision 0 3 bulletWorld = some { bulletWorld with objects :=
      (Function.update bulletWorld.objects 0
        (.bullet { NewBullet ⟨0, 0, 0⟩ ⟨1, 0, 0⟩ 10 2 20 with Active := false })) } ∧
    Bullet.OnCollision 0 4 bulletWorld = some bulletWorld := by
  have h1 := (Bullet_OnCollision_spec 0 1 bulletWorld (NewBullet ⟨0, 0, 0⟩ ⟨1, 0, 0⟩ 10 2 20)
    rfl).2.1 (NewEnemy ⟨0, 0, 0⟩ 50 2) rfl
  have h2 := (Bullet_OnCollision_spec 0 2 bulletWorld (NewBullet ⟨0, 0, 0⟩ ⟨1, 0, 0⟩ 10 2 20)
    rfl).2.1 (NewEnemy ⟨0, 0, 0⟩ 15 2) rfl
  have h3 := ((Bullet_OnCollision_spec 0 3 bulletWorld (NewBullet ⟨0, 0, 0⟩ ⟨1, 0, 0⟩ 10 2 20)
    rfl).2.2.1 (NewBoxObstacle ⟨0, 0, 0⟩ ⟨1, 1, 1⟩ ⟨127, 106, 79, 255⟩) rfl).1
  have h4 := (Bullet_OnCollision_spec 0 4 bulletWorld (NewBullet ⟨0, 0, 0⟩ ⟨1, 0, 0⟩ 10 2 20)
    rfl).2.2.2.1 (NewPlayer 5 none) rfl
  refine ⟨?_, ?_, h3, h4⟩
  · rw [h1]
    have e : ¬ ((NewEnemy ⟨0, 0, 0⟩ 50 2).Health -
        (NewBullet ⟨0, 0, 0⟩ ⟨1, 0, 0⟩ 10 2 20).Damage ≤ 0) := by
      simp [NewEnemy, NewBullet]
      norm_num
    have e2 : (NewEnemy ⟨0, 0, 0⟩ 50 2).Health -
        (NewBullet ⟨0, 0, 0⟩ ⟨1, 0, 0⟩ 10 2 20).Damage = 30 := by
      simp [NewEnemy, NewBullet]
      norm_num
    rw [if_neg e, e2]
  · rw [h2]
    have e : (NewEnemy ⟨0, 0, 0⟩ 15 2).Health -
        (NewBullet ⟨0, 0, 0⟩ ⟨1, 0, 0⟩ 10 2 20).Damage ≤ 0 := by
      simp [NewEnemy, NewBullet]
      norm_num
    rw [if_pos e]

/-- C26: for an obstacle `ob` behind `o`, `Obstacle.OnCollision(other)` leaves every field of
the obstacle but `Active` as it is and sets `Active` to its old value and-ed with "other's tag
list does not contain player": an active obstacle becomes inactive if and only if the tag list
of `other` contains player.  Nothing but the obstacle changes, and for an `Enemy`, a `Bullet` or
an `Obstacle` as `other` nothing changes at all. -/
theorem Obstacle_OnCollision_spec {β : Type} (o other : Ref) (w : World β) (ob : Obstacle)
    (ho : w.objects o = .obstacle ob) :
    Obstacle.OnCollision o other w = { w with objects :=
      (Function.update w.objects o
        (.obstacle { ob with Active := ob.Active && !(decide ("player" ∈ w.tagsOf other)) })) } ∧
    (((World.obstacleAt o).get (Obstacle.OnCollision o other w)).Active = false ↔
      ob.Active = false ∨ "player" ∈ w.tagsOf other) ∧
    ("player" ∉ w.tagsOf other → Obstacle.OnCollision o other w = w) ∧
    (∀ x, x ≠ o → (Obstacle.OnCollision o other w).objects x = w.objects x) ∧
    (∀ pl, w.objects other = .player pl →
      (Obstacle.OnCollision o other w).objects o = .obstacle { ob with Active := false }) ∧
    ((∃ en, w.objects other = .enemy en) ∨ (∃ bl, w.objects other = .bullet bl) ∨
      (∃ o2, w.objects other = .obstacle o2) → Obstacle.OnCollision o other w = w) := by
  have hw : w = { w with objects := (Function.update w.objects o (.obstacle ob)) } := by
    rw [← ho, Function.update_eq_self]
  have hno : "player" ∉ w.tagsOf other → Obstacle.OnCollision o other w = w := by
    intro hn
    have hc : slices.Contains (w.tagsOf other) "player" = false := by
      rw [Bool.eq_false_iff]
      intro hc
      exact hn ((slices.Contains_iff _ _).mp hc)
    simp [Obstacle.OnCollision, hc]
  have heq : Obstacle.OnCollision o other w = { w with objects :=
      (Function.update w.objects o
        (.obstacle { ob with Active := ob.Active && !(decide ("player" ∈ w.tagsOf other)) })) } := by
    by_cases hp : "player" ∈ w.tagsOf other
    · have hc : slices.Contains (w.tagsOf other) "player" = true :=
        (slices.Contains_iff _ _).mpr hp
      simp [Obstacle.OnCollision, hc, hp, World.obstacleAt, ho]
    · rw [hno hp]
      simp only [hp, decide_False, Bool.not_false, Bool.and_true]
      exact hw
  refine ⟨heq, ?_, hno, ?_, ?_, ?_⟩
  · rw [heq]
    by_cases hp : "player" ∈ w.tagsOf other
    · simp [World.obstacleAt, hp]
    · simp [World.obstacleAt, hp]
  · intro x hx
    rw [heq]
    simp [Function.update_noteq hx]
  · intro pl hpl
    rw [heq]
    simp [World.tagsOf, hpl, Entity.GetCollisionTags, Player.GetCollisionTags]
  · intro h
    apply hno
    rcases h with ⟨en, h⟩ | ⟨bl, h⟩ | ⟨o2, h⟩
    · simp [World.tagsOf, h, Entity.GetCollisionTags, Enemy.GetCollisionTags]
    · simp [World.tagsOf, h, Entity.GetCollisionTags, Bullet.GetCollisionTags]
    · simp [World.tagsOf, h, Entity.GetCollisionTags, Obstacle.GetCollisionTags]

theorem Obstacle_OnCollision_spec_witness :
    (Obstacle.OnCollision 3 4 bulletWorld).objects 3 =
      .obstacle { NewBoxObstacle ⟨0, 0, 0⟩ ⟨1, 1, 1⟩ ⟨127, 106, 79, 255⟩ with Active := false } ∧
    Obstacle.OnCollision 3 1 bulletWorld = bulletWorld :=
  ⟨(Obstacle_OnCollision_spec 3 4 bulletWorld
      (NewBoxObstacle ⟨0, 0, 0⟩ ⟨1, 1, 1⟩ ⟨127, 106, 79, 255⟩) rfl).2.2.2.2.1
      (NewPlayer 5 none) rfl,
   (Obstacle_OnCollision_spec 3 1 bulletWorld
      (NewBoxObstacle ⟨0, 0, 0⟩ ⟨1, 1, 1⟩ ⟨127, 106, 79, 255⟩) rfl).2.2.2.2.2
      (Or.inl ⟨NewEnemy ⟨0, 0, 0⟩ 50 2, rfl⟩)⟩

/-! ## The cleanup pass and the scene lifecycle -/

theorem UnregisterCollidable_eq_erase (cs : CollisionSystem) (obj : Ref) :
    cs.UnregisterCollidable obj = some ⟨cs.collidables.erase obj⟩ := by
  simp [CollisionSystem.UnregisterCollidable, unregisterLoop_erase]

theorem UnregisterTrigger_eq_erase (ts : TriggerSystem) (obj : Ref) :
    ts.UnregisterTrigger obj = some ⟨ts.triggers.erase obj, ts.collidables⟩ := by
  simp [TriggerSystem.UnregisterTrigger, unregisterLoop_erase]

theorem cleanupLoop_eq {ρ : Type} (keep : Ref → Bool) (unregister : ρ → Ref → Option ρ)
    (remove : ρ → Ref → ρ) (hun : ∀ reg x, unregister reg x = some (remove reg x))
    (l : List Ref) (acc : List Ref × ρ × List Ref) :
    WorldScene.cleanupLoop keep unregister l acc =
      some (acc.1 ++ l.filter keep,
        (l.filter (fun x => !keep x)).foldl remove acc.2.1,
        acc.2.2 ++ l.filter (fun x => !keep x)) := by
  induction l generalizing acc with
  | nil => simp [WorldScene.cleanupLoop]
  | cons x xs ih =>
    unfold WorldScene.cleanupLoop
    by_cases hk : keep x = true
    · rw [if_pos hk, ih]
      simp [hk]
    · rw [if_neg hk, hun]
      simp only [ih]
      simp [hk]

theorem foldl_erase_count (log l : List Ref) (x : Ref) (hx : x ∉ log) :
    (log.foldl List.erase l).count x = l.count x := by
  induction log generalizing l with
  | nil => rfl
  | cons y ys ih =>
    rw [List.foldl_cons, ih _ (fun h => hx (List.mem_cons_of_mem _ h))]
    have hne : x ≠ y := fun h => hx (h ▸ List.mem_cons_self _ _)
    simp [List.count_erase, hne]

theorem foldl_erase_collidables (log : List Ref) (cs : CollisionSystem) :
    (log.foldl (fun reg x => (⟨reg.collidables.erase x⟩ : CollisionSystem)) cs).collidables =
      log.foldl List.erase cs.collidables := by
  induction log generalizing cs with
  | nil => rfl
  | cons y ys ih => rw [List.foldl_cons, ih, List.foldl_cons]

theorem foldl_erase_triggers (log : List Ref) (ts : TriggerSystem) :
    log.foldl (fun reg x => (⟨reg.triggers.erase x, reg.collidables⟩ : TriggerSystem)) ts =
      ⟨log.foldl List.erase ts.triggers, ts.collidables⟩ := by
  induction log generalizing ts with
  | nil => rfl
  | cons y ys ih => rw [List.foldl_cons, ih, List.foldl_cons]

/-- C27: `cleanupEntities` returns; it replaces the bullet list by its sub-list of the bullets
that are active with lifetime `> 0`, the enemy list by its sub-list of the enemies that are
alive and the pickup list by its sub-list of the active pickups, each in the original order,
and changes neither the player, the obstacles nor the heap.  `UnregisterCollidable` of the
collision system is called exactly for the removed bullets and then the removed enemies,
`UnregisterTrigger` exactly for the removed pickups, so that the registries lose one entry per
call and keep every entry of an object that was not removed (the collidables of the trigger
system are untouched); a retained pickup is never unregistered, and neither is a retained
bullet or enemy when the two lists hold bullets and enemies respectively. -/
theorem cleanupEntities_spec {β : Type} (g : SceneState β) :
    ∃ r, WorldScene.cleanupEntities g = some r ∧
      r.1.gs.bullets = g.gs.bullets.filter (fun b =>
        ((World.bulletAt b).get g.world).Active &&
          decide (0 < ((World.bulletAt b).get g.world).Lifetime)) ∧
      r.1.gs.enemies = g.gs.enemies.filter (fun e => ((World.enemyAt e).get g.world).IsAlive) ∧
      r.1.gs.healthPickups =
        g.gs.healthPickups.filter (fun h => ((World.pickupAt h).get g.world).Active) ∧
      r.1.gs.player = g.gs.player ∧ r.1.gs.obstacles = g.gs.obstacles ∧
      r.1.world = g.world ∧
      r.2.1 =
        g.gs.bullets.filter (fun b => !(((World.bulletAt b).get g.world).Active &&
          decide (0 < ((World.bulletAt b).get g.world).Lifetime))) ++
        g.gs.enemies.filter (fun e => !((World.enemyAt e).get g.world).IsAlive) ∧
      r.2.2 = g.gs.healthPickups.filter (fun h => !((World.pickupAt h).get g.world).Active) ∧
      r.1.Collision.collidables = r.2.1.foldl List.erase g.Collision.collidables ∧
      r.1.Triggers.triggers = r.2.2.foldl List.erase g.Triggers.triggers ∧
      r.1.Triggers.collidables = g.Triggers.collidables ∧
      (∀ x, x ∉ r.2.1 →
        r.1.Collision.collidables.count x = g.Collision.collidables.count x) ∧
      (∀ x, x ∉ r.2.2 → r.1.Triggers.triggers.count x = g.Triggers.triggers.count x) ∧
      (∀ x ∈ r.1.gs.healthPickups, x ∉ r.2.2) ∧
      ((∀ x ∈ g.gs.bullets, ∃ bl, g.world.objects x = .bullet bl) →
        (∀ x ∈ g.gs.enemies, ∃ en, g.world.objects x = .enemy en) →
        ∀ x ∈ r.1.gs.bullets ++ r.1.gs.enemies, x ∉ r.2.1) := by
  have hkeep : (fun b => !((World.bulletAt b).get g.world).IsExpired) =
      (fun b => ((World.bulletAt b).get g.world).Active &&
        decide (0 < ((World.bulletAt b).get g.world).Lifetime)) := by
    funext b
    by_cases h : ((World.bulletAt b).get g.world).Lifetime ≤ 0
    · simp [Bullet.IsExpired, h, not_lt.mpr h]
    · simp [Bullet.IsExpired, h, not_le.mp h]
  have hact : (fun h => ((World.pickupAt h).get g.world).IsActive) =
      (fun h => ((World.pickupAt h).get g.world).Active) := rfl
  have h1 := fun acc => cleanupLoop_eq
    (fun b => ((World.bulletAt b).get g.world).Active &&
      decide (0 < ((World.bulletAt b).get g.world).Lifetime))
    CollisionSystem.UnregisterCollidable
    (fun reg x => ⟨reg.collidables.erase x⟩) UnregisterCollidable_eq_erase g.gs.bullets acc
  have h2 := fun acc => cleanupLoop_eq
    (fun e => ((World.enemyAt e).get g.world).IsAlive) CollisionSystem.UnregisterCollidable
    (fun reg x => ⟨reg.collidables.erase x⟩) UnregisterCollidable_eq_erase g.gs.enemies acc
  have h3 := fun acc => cleanupLoop_eq
    (fun h => ((World.pickupAt h).get g.world).Active) TriggerSystem.UnregisterTrigger
    (fun reg x => ⟨reg.triggers.erase x, reg.collidables⟩) UnregisterTrigger_eq_erase
    g.gs.healthPickups acc
  have hres : WorldScene.cleanupEntities g = some
      (({ gs := { g.gs with
            bullets := g.gs.bullets.filter (fun b =>
              ((World.bulletAt b).get g.world).Active &&
                decide (0 < ((World.bulletAt b).get g.world).Lifetime)),
            enemies := g.gs.enemies.filter (fun e => ((World.enemyAt e).get g.world).IsAlive),
            healthPickups :=
              g.gs.healthPickups.filter (fun h => ((World.pickupAt h).get g.world).Active) },
          Collision := ⟨(g.gs.bullets.filter (fun b =>
              !(((World.bulletAt b).get g.world).Active &&
                decide (0 < ((World.bulletAt b).get g.world).Lifetime))) ++
            g.gs.enemies.filter (fun e => !((World.enemyAt e).get g.world).IsAlive)).foldl
              List.erase g.Collision.collidables⟩,
          Triggers := ⟨(g.gs.healthPickups.filter
              (fun h => !((World.pickupAt h).get g.world).Active)).foldl
                List.erase g.Triggers.triggers, g.Triggers.collidables⟩,
          world := g.world } : SceneState β),
        g.gs.bullets.filter (fun b => !(((World.bulletAt b).get g.world).Active &&
          decide (0 < ((World.bulletAt b).get g.world).Lifetime))) ++
        g.gs.enemies.filter (fun e => !((World.enemyAt e).get g.world).IsAlive),
        g.gs.healthPickups.filter (fun h => !((World.pickupAt h).get g.world).Active)) := by
    unfold WorldScene.cleanupEntities
    simp only [hkeep, hact, h1, h2, h3, List.nil_append, foldl_erase_triggers,
      List.foldl_append]
    have e1 : ∀ (l1 l2 : List Ref) (cs : CollisionSystem),
        l2.foldl (fun reg x => (⟨reg.collidables.erase x⟩ : CollisionSystem))
          (l1.foldl (fun reg x => (⟨reg.collidables.erase x⟩ : CollisionSystem)) cs) =
        ⟨l2.foldl List.erase (l1.foldl List.erase cs.collidables)⟩ := by
      intro l1 l2 cs
      have := foldl_erase_collidables l2
        (l1.foldl (fun reg x => (⟨reg.collidables.erase x⟩ : CollisionSystem)) cs)
      rw [foldl_erase_collidables l1 cs] at this
      rw [← this]
    rw [e1]
  refine ⟨_, hres, rfl, rfl, rfl, rfl, rfl, rfl, rfl, rfl, rfl, rfl, rfl, ?_, ?_, ?_, ?_⟩
  · intro x hx
    exact foldl_erase_count _ _ x hx
  · intro x hx
    exact foldl_erase_count _ _ x hx
  · intro x hx hx2
    simp only [List.mem_filter] at hx hx2
    simp [hx.2] at hx2
  · intro hbt het x hx hx2
    simp only [List.mem_append, List.mem_filter] at hx hx2
    rcases hx with ⟨hxb, hk⟩ | ⟨hxe, hk⟩
    · rcases hx2 with ⟨_, hk2⟩ | ⟨hxe, _⟩
      · simp [hk] at hk2
      · obtain ⟨bl, hbl⟩ := hbt x hxb
        obtain ⟨en, hen⟩ := het x hxe
        rw [hbl] at hen
        exact Entity.noConfusion hen
    · rcases hx2 with ⟨hxb, _⟩ | ⟨_, hk2⟩
      · obtain ⟨bl, hbl⟩ := hbt x hxb
        obtain ⟨en, hen⟩ := het x hxe
        rw [hbl] at hen
        exact Entity.noConfusion hen
      · simp [hk] at hk2

theorem smallScene_valid : SceneBuilder.ValidateSceneData smallScene = none := by
  simp [SceneBuilder.ValidateSceneData, SceneBuilder.firstError, SceneBuilder.validateEnemy,
    SceneBuilder.validateObstacle, SceneBuilder.validatePickup, smallScene]
  norm_num

theorem smallScene_unique : SceneBuilder.CheckIDUniqueness smallScene = none := by
  simp [SceneBuilder.CheckIDUniqueness, SceneBuilder.checkIDs, smallScene]

theorem rejectedScene_invalid :
    SceneBuilder.ValidateSceneData rejectedScene =
      some "player speed must be positive, got %f" := by
  simp [SceneBuilder.ValidateSceneData, rejectedScene]

theorem load_smallScene :
    WorldScene.InitializeFromJSON raylibPalette sceneFiles "scenes/game_scene.json"
        newSceneState =
      ({ gs := { newSceneState.gs with player := some 0, enemies := [1], obstacles := [2],
                                       healthPickups := [3] },
         Collision := ⟨[0, 1, 2]⟩, Triggers := ⟨[3], [0]⟩,
         world := (SceneBuilder.BuildHealthPickups smallScene.Entities.HealthPickups
           (SceneBuilder.BuildObstacles raylibPalette smallScene.Entities.Obstacles
             (SceneBuilder.BuildEnemies smallScene.Entities.Enemies
               (SceneBuilder.BuildPlayer smallScene.Player (some 100)
                 newSceneState.world).2).2).2).2 }, none) := by
  have hf : sceneFiles "scenes/game_scene.json" = .ok smallScene := rfl
  unfold WorldScene.InitializeFromJSON
  simp only [hf, smallScene_valid, smallScene_unique]
  rfl

theorem load_rejected {β : Type} (g : SceneState β) :
    WorldScene.InitializeFromJSON raylibPalette sceneFiles "scenes/rejected.json" g =
      ({ g with Collision := ⟨[]⟩, Triggers := ⟨[], []⟩ },
        some "player speed must be positive, got %f") := by
  have hf : sceneFiles "scenes/rejected.json" = .ok rejectedScene := rfl
  unfold WorldScene.InitializeFromJSON
  simp only [hf, rejectedScene_invalid]
  rfl

theorem load_missing {β : Type} (g : SceneState β) :
    WorldScene.InitializeFromJSON raylibPalette sceneFiles "scenes/missing.json" g =
      ({ g with Collision := ⟨[]⟩, Triggers := ⟨[], []⟩ },
        some "open: no such file or directory") := by
  have hf : sceneFiles "scenes/missing.json" = .error "open: no such file or directory" := rfl
  unfold WorldScene.InitializeFromJSON
  simp only [hf]
  rfl

/-- C28, failing inputs: `InitializeFromJSON` of a scene with one enemy, one obstacle and one
health pickup on a new `WorldScene` succeeds and leaves the live lists and the registries in
agreement (player 0, enemy 1, obstacle 2 in the collision registry, pickup 3 in the trigger
list).  From that state, `Cleanup` empties the player, enemy, obstacle and bullet fields but
leaves the three objects in the collision registry (and keeps the pickup list); and an
`InitializeFromJSON` that fails, on a scene that `ValidateSceneData` rejects or on a file that
cannot be read, returns its error after it has emptied both registries, with the player, the
enemy, the obstacle and the pickup still in the live lists.  In each case the agreement is
lost. -/
theorem registries_diverge_from_live_lists :
    ∃ g1 : SceneState Unit,
      WorldScene.InitializeFromJSON raylibPalette sceneFiles "scenes/game_scene.json"
        newSceneState = (g1, none) ∧
      WorldScene.InSync g1 ∧
      (g1.gs.player = some 0 ∧ g1.gs.enemies = [1] ∧ g1.gs.obstacles = [2] ∧
        g1.gs.bullets = [] ∧ g1.gs.healthPickups = [3] ∧
        g1.Collision.collidables = [0, 1, 2] ∧ g1.Triggers.triggers = [3]) ∧
      ((WorldScene.Cleanup g1).2 = none ∧
        (WorldScene.Cleanup g1).1.Collision.collidables = [0, 1, 2] ∧
        (WorldScene.Cleanup g1).1.Triggers.triggers = [3] ∧
        (WorldScene.Cleanup g1).1.gs.player = none ∧
        (WorldScene.Cleanup g1).1.gs.enemies = [] ∧
        (WorldScene.Cleanup g1).1.gs.obstacles = [] ∧
        (WorldScene.Cleanup g1).1.gs.bullets = [] ∧
        (WorldScene.Cleanup g1).1.gs.healthPickups = [3] ∧
        ¬ WorldScene.InSync (WorldScene.Cleanup g1).1) ∧
      (∀ jsonFile, jsonFile = "scenes/rejected.json" ∨ jsonFile = "scenes/missing.json" →
        (WorldScene.InitializeFromJSON raylibPalette sceneFiles jsonFile g1).2 ≠ none ∧
        (WorldScene.InitializeFromJSON raylibPalette sceneFiles jsonFile g1).1.Collision.collidables
          = [] ∧
        (WorldScene.InitializeFromJSON raylibPalette sceneFiles jsonFile g1).1.Triggers.triggers
          = [] ∧
        (WorldScene.InitializeFromJSON raylibPalette sceneFiles jsonFile g1).1.gs.player
          = some 0 ∧
        (WorldScene.InitializeFromJSON raylibPalette sceneFiles jsonFile g1).1.gs.enemies
          = [1] ∧
        (WorldScene.InitializeFromJSON raylibPalette sceneFiles jsonFile g1).1.gs.obstacles
          = [2] ∧
        (WorldScene.InitializeFromJSON raylibPalette sceneFiles jsonFile g1).1.gs.healthPickups
          = [3] ∧
        ¬ WorldScene.InSync
          (WorldScene.InitializeFromJSON raylibPalette sceneFiles jsonFile g1).1) := by
  refine ⟨_, load_smallScene, ⟨List.Perm.refl _, List.Perm.refl _⟩,
    ⟨rfl, rfl, rfl, rfl, rfl, rfl, rfl⟩,
    ⟨rfl, rfl, rfl, rfl, rfl, rfl, rfl, rfl, ?_⟩, ?_⟩
  · intro h
    exact absurd h.1.length_eq (by decide)
  · intro jsonFile hj
    rcases hj with rfl | rfl
    · rw [load_rejected]
      refine ⟨by simp, rfl, rfl, rfl, rfl, rfl, rfl, ?_⟩
      intro h
      exact absurd h.1.length_eq (by decide)
    · rw [load_missing]
      refine ⟨by simp, rfl, rfl, rfl, rfl, rfl, rfl, ?_⟩
      intro h
      exact absurd h.1.length_eq (by decide)

/-! ## Movement of the player -/

theorem overhang_box_player (cb : Ref → Ref → World Unit → World Unit) :
    (entityCollidable cb).GetBoundingBox overhangWorld 0 =
      ⟨⟨-1 / 2, 0, -1 / 2⟩, ⟨1 / 2, 1, 1 / 2⟩⟩ := by
  have o0 : overhangWorld.objects 0 = .player (NewPlayer 5 none) := rfl
  simp [entityCollidable, o0, Entity.GetBoundingBox, Player.GetBoundingBox, NewPlayer]
  norm_num

theorem overhang_box_obstacle (cb : Ref → Ref → World Unit → World Unit) :
    (entityCollidable cb).GetBoundingBox overhangWorld 1 =
      ⟨⟨11 / 20, 3 / 4, -1 / 2⟩, ⟨31 / 20, 1, 1 / 2⟩⟩ := by
  have o1 : overhangWorld.objects 1 =
      .obstacle (NewBoxObstacle ⟨21 / 20, 7 / 8, 0⟩ ⟨1, 1 / 4, 1⟩ ⟨127, 106, 79, 255⟩) := rfl
  simp [entityCollidable, o1, Entity.GetBoundingBox, Obstacle.GetBoundingBox, NewBoxObstacle,
    ObstacleTypeBox]
  norm_num

theorem overhang_CheckMovement (cb : Ref → Ref → World Unit → World Unit) :
    CollisionSystem.CheckMovement (entityCollidable cb) ⟨[0, 1]⟩ overhangWorld 0
      ⟨1 / 10, 0, 0⟩ = true := by
  have o0 : overhangWorld.objects 0 = .player (NewPlayer 5 none) := rfl
  have o1 : overhangWorld.objects 1 =
      .obstacle (NewBoxObstacle ⟨21 / 20, 7 / 8, 0⟩ ⟨1, 1 / 4, 1⟩ ⟨127, 106, 79, 255⟩) := rfl
  have a1 : (entityCollidable cb).IsActive overhangWorld 1 = true := by
    simp [entityCollidable, o1, Entity.IsActive, Obstacle.IsActive, NewBoxObstacle]
  unfold CollisionSystem.CheckMovement
  simp only [overhang_box_player, CollisionSystem.checkMovementLoop, overhang_box_obstacle,
    CollisionSystem.tempBox, a1]
  simp [CheckCollisionBoxes]
  norm_num

/-- C30, failing input: a new player (radius 1/2, height 1, speed 5) stands at the origin, its
box `[-1/2, 1/2] × [0, 1] × [-1/2, 1/2]`; an active box obstacle spans
`[11/20, 31/20] × [3/4, 1] × [-1/2, 1/2]`, and both are registered.  With only the right key
down and `deltaTime = 1/50`, `updateMovement` proposes `(1/10, 0, 0)`; `CheckMovement` tests the
box centred there, `[-2/5, 3/5] × [-1/2, 1/2] × [-1/2, 1/2]`, which misses the obstacle, and the
move is committed.  The box the player then occupies, `[-2/5, 3/5] × [0, 1] × [-1/2, 1/2]`,
is not the tested one and overlaps the obstacle, which the player did not overlap before the
move; the obstacle is active and eligible against the player, and `checkCollision`, the test
of the collision pass, reports the pair. -/
theorem updateMovement_commits_untested_box :
    ∀ cb : Ref → Ref → World Unit → World Unit,
      ((World.playerAt 0).get overhangWorld).Position = ⟨0, 0, 0⟩ ∧
      ((World.playerAt 0).get (Player.updateMovement (entityCollidable cb) ⟨[0, 1]⟩
        ⟨false, false, false, true⟩ 0 (1 / 50) [1] overhangWorld)).Position = ⟨1 / 10, 0, 0⟩ ∧
      CollisionSystem.tempBox ((entityCollidable cb).GetBoundingBox overhangWorld 0)
        ⟨1 / 10, 0, 0⟩ = ⟨⟨-2 / 5, -1 / 2, -1 / 2⟩, ⟨3 / 5, 1 / 2, 1 / 2⟩⟩ ∧
      (entityCollidable cb).GetBoundingBox (Player.updateMovement (entityCollidable cb) ⟨[0, 1]⟩
        ⟨false, false, false, true⟩ 0 (1 / 50) [1] overhangWorld) 0 =
          ⟨⟨-2 / 5, 0, -1 / 2⟩, ⟨3 / 5, 1, 1 / 2⟩⟩ ∧
      (entityCollidable cb).GetBoundingBox (Player.updateMovement (entityCollidable cb) ⟨[0, 1]⟩
        ⟨false, false, false, true⟩ 0 (1 / 50) [1] overhangWorld) 1 =
          ⟨⟨11 / 20, 3 / 4, -1 / 2⟩, ⟨31 / 20, 1, 1 / 2⟩⟩ ∧
      (entityCollidable cb).IsActive (Player.updateMovement (entityCollidable cb) ⟨[0, 1]⟩
        ⟨false, false, false, true⟩ 0 (1 / 50) [1] overhangWorld) 1 = true ∧
      CollisionSystem.shouldCollide (entityCollidable cb) overhangWorld 0 1 = true ∧
      CheckCollisionBoxes ((entityCollidable cb).GetBoundingBox overhangWorld 0)
        ((entityCollidable cb).GetBoundingBox overhangWorld 1) = false ∧
      CheckCollisionBoxes
        ((entityCollidable cb).GetBoundingBox (Player.updateMovement (entityCollidable cb)
          ⟨[0, 1]⟩ ⟨false, false, false, true⟩ 0 (1 / 50) [1] overhangWorld) 0)
        ((entityCollidable cb).GetBoundingBox (Player.updateMovement (entityCollidable cb)
          ⟨[0, 1]⟩ ⟨false, false, false, true⟩ 0 (1 / 50) [1] overhangWorld) 1) = true ∧
      CollisionSystem.checkCollision (entityCollidable cb)
        (Player.updateMovement (entityCollidable cb) ⟨[0, 1]⟩ ⟨false, false, false, true⟩ 0
          (1 / 50) [1] overhangWorld) 0 1 = true := by
  intro cb
  have o0 : overhangWorld.objects 0 = .player (NewPlayer 5 none) := rfl
  have o1 : overhangWorld.objects 1 =
      .obstacle (NewBoxObstacle ⟨21 / 20, 7 / 8, 0⟩ ⟨1, 1 / 4, 1⟩ ⟨127, 106, 79, 255⟩) := rfl
  have hp : (World.playerAt 0).get overhangWorld = NewPlayer 5 none := rfl
  have hmove : Player.updateMovement (entityCollidable cb) ⟨[0, 1]⟩
      ⟨false, false, false, true⟩ 0 (1 / 50) [1] overhangWorld =
      (World.playerAt 0).set { NewPlayer 5 none with Position := ⟨1 / 10, 0, 0⟩ }
        overhangWorld := by
    unfold Player.updateMovement
    simp only [hp, Bool.false_eq_true, if_false, if_true, Player.tryMove]
    have hn : (⟨(NewPlayer 5 none).Position.X + (NewPlayer 5 none).Speed * (1 / 50),
        (NewPlayer 5 none).Position.Y, (NewPlayer 5 none).Position.Z⟩ : Vector3) =
        ⟨1 / 10, 0, 0⟩ := by
      simp [NewPlayer]
      norm_num
    simp only [hn, overhang_CheckMovement, if_true]
  have n0 : ((World.playerAt 0).set { NewPlayer 5 none with Position := ⟨1 / 10, 0, 0⟩ }
      overhangWorld).objects 0 = .player { NewPlayer 5 none with Position := ⟨1 / 10, 0, 0⟩ } := by
    simp [World.playerAt]
  have n1 : ((World.playerAt 0).set { NewPlayer 5 none with Position := ⟨1 / 10, 0, 0⟩ }
      overhangWorld).objects 1 =
      .obstacle (NewBoxObstacle ⟨21 / 20, 7 / 8, 0⟩ ⟨1, 1 / 4, 1⟩ ⟨127, 106, 79, 255⟩) := by
    simp [World.playerAt, o1]
  have b0 : (entityCollidable cb).GetBoundingBox
      ((World.playerAt 0).set { NewPlayer 5 none with Position := ⟨1 / 10, 0, 0⟩ }
        overhangWorld) 0 = ⟨⟨-2 / 5, 0, -1 / 2⟩, ⟨3 / 5, 1, 1 / 2⟩⟩ := by
    simp only [entityCollidable, n0, Entity.GetBoundingBox, Player.GetBoundingBox]
    simp [NewPlayer]
    norm_num
  have b1 : (entityCollidable cb).GetBoundingBox
      ((World.playerAt 0).set { NewPlayer 5 none with Position := ⟨1 / 10, 0, 0⟩ }
        overhangWorld) 1 = ⟨⟨11 / 20, 3 / 4, -1 / 2⟩, ⟨31 / 20, 1, 1 / 2⟩⟩ := by
    simp only [entityCollidable, n1, Entity.GetBoundingBox]
    simp [Obstacle.GetBoundingBox, NewBoxObstacle, ObstacleTypeBox]
    norm_num
  rw [hmove]
  refine ⟨by rw [hp]; rfl, by simp [World.playerAt], ?_, b0, b1, ?_, ?_, ?_, ?_, ?_⟩
  · rw [overhang_box_player]
    simp [CollisionSystem.tempBox]
    norm_num
  · simp only [entityCollidable, n1, Entity.IsActive]
    rfl
  · simp [CollisionSystem.shouldCollide, entityCollidable, o0, o1, Entity.IsActive,
      Player.IsActive, Player.IsAlive, Obstacle.IsActive, NewBoxObstacle, NewPlayer,
      Entity.GetCollisionTags, Player.GetCollisionTags, Obstacle.GetCollisionTags,
      CollisionSystem.collisionRules, slices.Contains, List.lookup]
  · rw [overhang_box_player, overhang_box_obstacle]
    simp [CheckCollisionBoxes]
    norm_num
  · rw [b0, b1]
    simp [CheckCollisionBoxes]
    norm_num
  · unfold CollisionSystem.checkCollision
    rw [b0, b1]
    simp [CollisionSystem.checkCollisionBoxes, CollisionSystem.isSpherelike,
      CheckCollisionBoxes]
    norm_num

/-! ## The bullet in flight -/

theorem Bullet_Update_get {σ : Type} (b : Ptr σ Bullet) (dt : float32) (s : σ)
    (hptr : ∀ x u, b.get (b.set x u) = x) :
    b.get (Bullet.Update b dt s) =
      if (b.get s).Active = false then b.get s
      else if (b.get s).Lifetime - dt ≤ 0 then
        { b.get s with Lifetime := (b.get s).Lifetime - dt, Active := false }
      else
        { b.get s with
          Lifetime := (b.get s).Lifetime - dt,
          Position := ⟨(b.get s).Position.X + (b.get s).Velocity.X * (b.get s).Speed * dt,
            (b.get s).Position.Y,
            (b.get s).Position.Z + (b.get s).Velocity.Z * (b.get s).Speed * dt⟩ } := by
  unfold Bullet.Update
  by_cases ha : (b.get s).Active = false
  · simp [ha]
  · have ha2 : (b.get s).Active = true := by simpa using ha
    by_cases hl : (b.get s).Lifetime - dt ≤ 0
    · simp [ha2, hptr, hl]
    · simp [ha2, hptr, hl]

/-- C31, counterexample: an active bullet at the origin with velocity `(0, 1, 0)`, speed 10 and
lifetime 2 is updated with `dt = 1/2`; its lifetime falls to `3/2`, it stays active, and its
position is still the origin, although the Y component of velocity times speed times `dt`
is 5. -/
theorem Bullet_Update_ignores_Y :
    ((World.bulletAt 0).get
      (Bullet.Update (World.bulletAt 0) (1 / 2) risingBulletWorld)).Position = ⟨0, 0, 0⟩ ∧
    ((World.bulletAt 0).get
      (Bullet.Update (World.bulletAt 0) (1 / 2) risingBulletWorld)).Lifetime = 3 / 2 ∧
    ((World.bulletAt 0).get
      (Bullet.Update (World.bulletAt 0) (1 / 2) risingBulletWorld)).Active = true ∧
    ((World.bulletAt 0).get risingBulletWorld).Velocity.Y *
      ((World.bulletAt 0).get risingBulletWorld).Speed * (1 / 2) = 5 := by
  have h0 : (World.bulletAt 0).get risingBulletWorld = NewBullet ⟨0, 0, 0⟩ ⟨0, 1, 0⟩ 10 2 20 :=
    rfl
  have hg := Bullet_Update_get (World.bulletAt 0) (1 / 2) risingBulletWorld
    (fun x u => by simp [World.bulletAt])
  rw [hg, h0]
  simp [NewBullet]
  norm_num

/-- C31, amended: `Bullet.Update(dt)` on an active bullet whose lifetime exceeds `dt` adds
`Velocity.X * Speed * dt` to `Position.X` and `Velocity.Z * Speed * dt` to `Position.Z`, leaves
`Position.Y` as it is whatever `Velocity.Y` is, and reduces the lifetime by `dt`; the new
position is the old one plus velocity times speed times `dt` on every axis exactly when
`Velocity.Y * Speed * dt = 0`.  On an active bullet whose lifetime is at most `dt` it reduces
the lifetime by `dt`, deactivates the bullet and does not move it; on an inactive bullet it
changes nothing.  No other field changes. -/
theorem Bullet_Update_planar {σ : Type} (b : Ptr σ Bullet) (dt : float32) (s : σ)
    (hptr : ∀ x u, b.get (b.set x u) = x) :
    ((b.get s).Active = true → dt < (b.get s).Lifetime →
      b.get (Bullet.Update b dt s) =
        { b.get s with
          Lifetime := (b.get s).Lifetime - dt,
          Position := ⟨(b.get s).Position.X + (b.get s).Velocity.X * (b.get s).Speed * dt,
            (b.get s).Position.Y,
            (b.get s).Position.Z + (b.get s).Velocity.Z * (b.get s).Speed * dt⟩ } ∧
      ((b.get (Bullet.Update b dt s)).Position =
          ⟨(b.get s).Position.X + (b.get s).Velocity.X * (b.get s).Speed * dt,
           (b.get s).Position.Y + (b.get s).Velocity.Y * (b.get s).Speed * dt,
           (b.get s).Position.Z + (b.get s).Velocity.Z * (b.get s).Speed * dt⟩ ↔
        (b.get s).Velocity.Y * (b.get s).Speed * dt = 0)) ∧
    ((b.get s).Active = true → (b.get s).Lifetime ≤ dt →
      b.get (Bullet.Update b dt s) =
        { b.get s with Lifetime := (b.get s).Lifetime - dt, Active := false }) ∧
    ((b.get s).Active = false → Bullet.Update b dt s = s) := by
  have hg := Bullet_Update_get b dt s hptr
  refine ⟨?_, ?_, ?_⟩
  · intro ha hl
    have hl2 : ¬ ((b.get s).Lifetime - dt ≤ 0) := by linarith
    have hres : b.get (Bullet.Update b dt s) =
        { b.get s with
          Lifetime := (b.get s).Lifetime - dt,
          Position := ⟨(b.get s).Position.X + (b.get s).Velocity.X * (b.get s).Speed * dt,
            (b.get s).Position.Y,
            (b.get s).Position.Z + (b.get s).Velocity.Z * (b.get s).Speed * dt⟩ } := by
      rw [hg]
      simp [ha, hl2]
    refine ⟨hres, ?_⟩
    rw [hres]
    simp
  · intro ha hl
    have hl2 : (b.get s).Lifetime - dt ≤ 0 := by linarith
    rw [hg]
    simp [ha, hl2]
  · intro ha
    unfold Bullet.Update
    simp [ha]

theorem Bullet_Update_planar_witness :
    (World.bulletAt 0).get (Bullet.Update (World.bulletAt 0) (1 / 2) bulletWorld) =
      { NewBullet ⟨0, 0, 0⟩ ⟨1, 0, 0⟩ 10 2 20 with Lifetime := 3 / 2, Position := ⟨5, 0, 0⟩ } := by
  have h0 : (World.bulletAt 0).get bulletWorld = NewBullet ⟨0, 0, 0⟩ ⟨1, 0, 0⟩ 10 2 20 := rfl
  have h := ((Bullet_Update_planar (World.bulletAt 0) (1 / 2) bulletWorld
    (fun x u => by simp [World.bulletAt])).1 (by rw [h0]; rfl)
    (by rw [h0]; simp [NewBullet]; norm_num)).1
  rw [h, h0]
  simp [NewBullet]
  norm_num

/-! ## Penetration depth and the sphere heuristic -/

/-- C36: for valid intervals, `getPenetrationDepth(min1, max1, min2, max2)` equals
`max(0, min(max1, max2) - max(min1, min2))`, the length of the intersection of the two closed
intervals; it is 0 when the intervals are disjoint or merely touch, positive exactly when the
intersection is more than a point, never negative, and unchanged when the two intervals are
swapped. -/
theorem getPenetrationDepth_spec (min1 max1 min2 max2 : float32)
    (h1 : min1 ≤ max1) (h2 : min2 ≤ max2) :
    CollisionSystem.getPenetrationDepth min1 max1 min2 max2 =
      max 0 (min max1 max2 - max min1 min2) ∧
    0 ≤ CollisionSystem.getPenetrationDepth min1 max1 min2 max2 ∧
    (max1 ≤ min2 ∨ max2 ≤ min1 → CollisionSystem.getPenetrationDepth min1 max1 min2 max2 = 0) ∧
    (0 < CollisionSystem.getPenetrationDepth min1 max1 min2 max2 ↔
      max min1 min2 < min max1 max2) ∧
    CollisionSystem.getPenetrationDepth min1 max1 min2 max2 =
      CollisionSystem.getPenetrationDepth min2 max2 min1 max1 := by
  have heq : CollisionSystem.getPenetrationDepth min1 max1 min2 max2 =
      max 0 (min max1 max2 - max min1 min2) := by
    unfold CollisionSystem.getPenetrationDepth
    by_cases hd : min1 > max2 ∨ max1 < min2
    · rw [if_pos hd]
      symm
      apply max_eq_left
      rcases hd with hd | hd
      · have := min_le_right max1 max2
        have := le_max_left min1 min2
        linarith
      · have := min_le_left max1 max2
        have := le_max_right min1 min2
        linarith
    · rw [if_neg hd]
      push_neg at hd
      symm
      apply max_eq_right
      have : max min1 min2 ≤ min max1 max2 :=
        max_le (le_min h1 hd.1) (le_min hd.2 h2)
      simpa using this
  have hsymm : CollisionSystem.getPenetrationDepth min2 max2 min1 max1 =
      max 0 (min max2 max1 - max min2 min1) := by
    unfold CollisionSystem.getPenetrationDepth
    by_cases hd : min2 > max1 ∨ max2 < min1
    · rw [if_pos hd]
      symm
      apply max_eq_left
      rcases hd with hd | hd
      · have := min_le_right max2 max1
        have := le_max_left min2 min1
        linarith
      · have := min_le_left max2 max1
        have := le_max_right min2 min1
        linarith
    · rw [if_neg hd]
      push_neg at hd
      symm
      apply max_eq_right
      have : max min2 min1 ≤ min max2 max1 :=
        max_le (le_min h2 hd.1) (le_min hd.2 h1)
      simpa using this
  refine ⟨heq, ?_, ?_, ?_, ?_⟩
  · rw [heq]
    exact le_max_left _ _
  · intro ht
    rw [heq]
    apply max_eq_left
    rcases ht with ht | ht
    · have := min_le_left max1 max2
      have := le_max_right min1 min2
      linarith
    · have := min_le_right max1 max2
      have := le_max_left min1 min2
      linarith
  · rw [heq, lt_max_iff, sub_pos]
    simp
  · rw [heq, hsymm, min_comm max1 max2, max_comm min1 min2]

theorem getPenetrationDepth_spec_witness :
    CollisionSystem.getPenetrationDepth 0 2 1 3 = max 0 (min 2 3 - max 0 1) ∧
    CollisionSystem.getPenetrationDepth 0 2 1 3 = CollisionSystem.getPenetrationDepth 1 3 0 2 :=
  ⟨(getPenetrationDepth_spec 0 2 1 3 (by norm_num) (by norm_num)).1,
   (getPenetrationDepth_spec 0 2 1 3 (by norm_num) (by norm_num)).2.2.2.2⟩

/-- C39: for a player with `0 ≤ Health ≤ MaxHealth`, `TakeDamage(d)` with `d ≥ 0` returns and
leaves `Health = max(0, Health - d)`, and `Heal(a)` with `a ≥ 0` leaves
`Health = min(MaxHealth, Health + a)`; in both cases `0 ≤ Health ≤ MaxHealth` holds afterwards
and `MaxHealth` is unchanged.  The bus is assumed to leave the player as it is when it is
notified; for a player without bus no such assumption is needed, the health is updated in the
same way and no event is published. -/
theorem health_stays_in_range {σ : Type} (B : Subject σ) (p : Ptr σ Player) (s : σ)
    (hptr : ∀ x u, p.get (p.set x u) = x)
    (hlo : 0 ≤ (p.get s).Health) (hhi : (p.get s).Health ≤ (p.get s).MaxHealth) :
    ((∀ b e u, p.get (B.Notify b e u).1 = p.get u) → ∀ d : float32, 0 ≤ d →
      ∃ r, Player.TakeDamage B p d s = some r ∧
        p.get r.1 = { p.get s with Health := max 0 ((p.get s).Health - d) } ∧
        0 ≤ (p.get r.1).Health ∧ (p.get r.1).Health ≤ (p.get r.1).MaxHealth) ∧
    ((p.get s).eventBus = none → ∀ d : float32, 0 ≤ d →
      ∃ s2, Player.TakeDamage B p d s = some (s2, []) ∧
        p.get s2 = { p.get s with Health := max 0 ((p.get s).Health - d) } ∧
        0 ≤ (p.get s2).Health ∧ (p.get s2).Health ≤ (p.get s2).MaxHealth) ∧
    (∀ a : float32, 0 ≤ a →
      p.get (Player.Heal p a s) =
        { p.get s with Health := min (p.get s).MaxHealth ((p.get s).Health + a) } ∧
      0 ≤ (p.get (Player.Heal p a s)).Health ∧
      (p.get (Player.Heal p a s)).Health ≤ (p.get (Player.Heal p a s)).MaxHealth) := by
  have hrange : ∀ d : float32, 0 ≤ d →
      0 ≤ max 0 ((p.get s).Health - d) ∧ max 0 ((p.get s).Health - d) ≤ (p.get s).MaxHealth := by
    intro d hd
    refine ⟨le_max_left _ _, max_le (le_trans hlo hhi) (by linarith)⟩
  refine ⟨?_, ?_, ?_⟩
  · intro hquiet d hd
    obtain ⟨r, h1, h2, _⟩ := TakeDamage_quiet B p d s hptr hquiet
    refine ⟨r, h1, h2, ?_, ?_⟩
    · rw [h2]; exact (hrange d hd).1
    · rw [h2]; exact (hrange d hd).2
  · intro hbus d hd
    have hc := reduceHealth_get p d s hptr
    have hm : (if (p.get s).Health - d < 0 then (0 : float32) else (p.get s).Health - d) =
        max 0 ((p.get s).Health - d) := by
      by_cases h : (p.get s).Health - d < 0
      · rw [if_pos h, max_eq_left (le_of_lt h)]
      · rw [if_neg h, max_eq_right (not_lt.mp h)]
    rw [hm] at hc
    have hb2 : (p.get (Player.reduceHealth p d s)).eventBus = none := by
      rw [hc]; exact hbus
    refine ⟨Player.reduceHealth p d s, ?_, hc, ?_, ?_⟩
    · unfold Player.TakeDamage
      simp only [hb2]
    · rw [hc]; exact (hrange d hd).1
    · rw [hc]; exact (hrange d hd).2
  · intro a ha
    have hg := Heal_get p a s hptr
    refine ⟨hg, ?_, ?_⟩
    · rw [hg]
      exact le_min (le_trans hlo hhi) (by linarith)
    · rw [hg]
      exact min_le_left _ _

theorem health_stays_in_range_witness :
    (∃ r, Player.TakeDamage mockEventBus playerPtr 15 (playerWorld 10) = some r ∧
      playerPtr.get r.1 = { playerPtr.get (playerWorld 10) with
        Health := max 0 ((playerPtr.get (playerWorld 10)).Health - 15) } ∧
      0 ≤ (playerPtr.get r.1).Health ∧
      (playerPtr.get r.1).Health ≤ (playerPtr.get r.1).MaxHealth) ∧
    (playerPtr.get (Player.Heal playerPtr 95 (playerWorld 10))).Health ≤
      (playerPtr.get (Player.Heal playerPtr 95 (playerWorld 10))).MaxHealth := by
  have hlo : (0 : float32) ≤ (playerPtr.get (playerWorld 10)).Health := by
    simp [playerPtr, playerWorld, NewPlayer]
  have hhi : (playerPtr.get (playerWorld 10)).Health ≤
      (playerPtr.get (playerWorld 10)).MaxHealth := by
    simp [playerPtr, playerWorld, NewPlayer]
    norm_num
  have h := health_stays_in_range mockEventBus playerPtr (playerWorld 10) (fun _ _ => rfl)
    hlo hhi
  exact ⟨h.1 (fun _ _ _ => rfl) 15 (by norm_num), (h.2.2 95 (by norm_num)).2.2⟩

/-! ## The event types of the bus -/

theorem NoEmpty_types_iff (eb : EventBus) (h : eb.NoEmpty) (t : String) :
    t ∈ eb.GetEventTypes ↔ eb.GetObserverCount t > 0 := by
  unfold EventBus.GetEventTypes EventBus.GetObserverCount EventBus.observersOf
  have hk : t ∈ eb.observers.keys ↔ (eb.observers.lookup t).isSome = true :=
    AList.lookup_isSome.symm
  rw [hk]
  cases hl : eb.observers.lookup t with
  | none => simp
  | some l =>
    have hne := h t l hl
    simp [List.length_pos, hne]

theorem scriptedObserver_NoEmpty (o : Ref) (event : Event) (w : BusWorld) (h : w.bus.NoEmpty) :
    (scriptedObserver.OnNotify o event w).1.bus.NoEmpty := by
  unfold scriptedObserver
  dsimp only
  cases w.script o with
  | record => exact h
  | subscribe o2 => exact NoEmpty_Subscribe _ _ _ h
  | unsubscribeSelf => exact NoEmpty_Unsubscribe _ _ _ h
  | clear => exact NoEmpty_Clear w.bus

theorem notifyStep_NoEmpty (event : Event) (st : BusWorld × List (Ref × error) × List String)
    (o : Ref) (h : st.1.bus.NoEmpty) :
    (EventBus.notifyStep scriptedObserver event st o).1.bus.NoEmpty := by
  have h2 := scriptedObserver_NoEmpty o event st.1 h
  unfold EventBus.notifyStep
  dsimp only
  split <;> exact h2

theorem Notify_NoEmpty (eb : EventBus) (event : Event) (w : BusWorld) (h : w.bus.NoEmpty) :
    (eb.Notify scriptedObserver event w).heap.bus.NoEmpty := by
  unfold EventBus.Notify
  cases eb.observers.lookup event.Type_ with
  | none => exact h
  | some l =>
    have hf := foldl_invariant (fun st : BusWorld × List (Ref × error) × List String =>
      st.1.bus.NoEmpty) (EventBus.notifyStep scriptedObserver event) l (w, [], []) h
      (fun st o hst => notifyStep_NoEmpty event st o hst)
    dsimp only
    split <;> exact hf

theorem run_NoEmpty (calls : List BusCall) (w : BusWorld) (h : w.bus.NoEmpty) :
    (w.run calls).bus.NoEmpty := by
  induction calls generalizing w with
  | nil => exact h
  | cons c rest ih =>
    cases c with
    | subscribe t o => exact ih _ (NoEmpty_Subscribe _ _ _ h)
    | unsubscribe t o => exact ih _ (NoEmpty_Unsubscribe _ _ _ h)
    | notify ev => exact ih _ (Notify_NoEmpty _ _ _ h)
    | clear => exact ih _ (NoEmpty_Clear w.bus)

/-- C35: after any sequence of `Subscribe`, `Unsubscribe`, `Notify` and `Clear` calls on a bus
that starts as `NewEventBus`, also when the notified observers themselves subscribe,
unsubscribe or clear while `Notify` runs, no event type is stored with an empty observer list,
and a type is listed by `GetEventTypes` if and only if its `GetObserverCount` is positive. -/
theorem GetEventTypes_iff_observed (script : Ref → Script) (received : Ref → Nat)
    (calls : List BusCall) :
    ((⟨NewEventBus, script, received⟩ : BusWorld).run calls).bus.NoEmpty ∧
    ∀ t : String,
      t ∈ ((⟨NewEventBus, script, received⟩ : BusWorld).run calls).bus.GetEventTypes ↔
        ((⟨NewEventBus, script, received⟩ : BusWorld).run calls).bus.GetObserverCount t > 0 := by
  have h := run_NoEmpty calls ⟨NewEventBus, script, received⟩ NoEmpty_NewEventBus
  exact ⟨h, fun t => NoEmpty_types_iff _ h t⟩

/-! ## Bounding boxes of the entities built from scene data -/

theorem foldl_invariant_mem {α β : Type} (P : β → Prop) (f : β → α → β) (l : List α) (b : β)
    (hb : P b) (hf : ∀ b a, a ∈ l → P b → P (f b a)) : P (l.foldl f b) := by
  induction l generalizing b with
  | nil => exact hb
  | cons a l ih =>
    exact ih (f b a) (hf b a (List.mem_cons_self _ _) hb)
      (fun b2 a2 ha2 => hf b2 a2 (List.mem_cons_of_mem _ ha2))

theorem enemy_tag_iff (e : Entity) (hreal : e.isForeign = false) :
    "enemy" ∈ e.GetCollisionTags ↔ ∃ en, e = .enemy en := by
  cases e <;> simp [Entity.GetCollisionTags, Player.GetCollisionTags, Enemy.GetCollisionTags,
    Bullet.GetCollisionTags, Obstacle.GetCollisionTags, HealthPickup.GetCollisionTags,
    Entity.isForeign] at hreal ⊢

theorem player_tag_iff (e : Entity) (hreal : e.isForeign = false) :
    "player" ∈ e.GetCollisionTags ↔ ∃ pl, e = .player pl := by
  cases e <;> simp [Entity.GetCollisionTags, Player.GetCollisionTags, Enemy.GetCollisionTags,
    Bullet.GetCollisionTags, Obstacle.GetCollisionTags, HealthPickup.GetCollisionTags,
    Entity.isForeign] at hreal ⊢

theorem bullet_fold_none {β : Type} (b other : Ref) (tags : List String) (w : World β)
    (ho : ∀ en, w.objects other ≠ .enemy en) (ht : "enemy" ∈ tags) :
    tags.foldlM (Bullet.onCollisionTag b other) w = none := by
  induction tags generalizing w with
  | nil => simp at ht
  | cons t ts ih =>
    rw [List.foldlM_cons]
    by_cases hte : t = "enemy"
    · have hs : Bullet.onCollisionTag b other w t = none := by
        unfold Bullet.onCollisionTag
        rw [if_pos hte]
        cases hobj : w.objects other with
        | enemy en => exact absurd hobj (ho en)
        | player _ => rfl
        | bullet _ => rfl
        | obstacle _ => rfl
        | healthPickup _ => rfl
        | foreign _ => rfl
      rw [hs]
      rfl
    · have hts : "enemy" ∈ ts := by
        rcases List.mem_cons.mp ht with h | h
        · exact absurd h.symm hte
        · exact h
      by_cases hto : t = "obstacle"
      · have hs : Bullet.onCollisionTag b other w t =
            some (Bullet.Deactivate (World.bulletAt b) w) := by
          unfold Bullet.onCollisionTag
          rw [if_neg hte, if_pos hto]
        rw [hs]
        refine ih _ ?_ hts
        intro en
        simp only [Bullet.Deactivate, World.bulletAt]
        by_cases hob : other = b
        · rw [hob, Function.update_same]
          exact fun h => Entity.noConfusion h
        · rw [Function.update_noteq hob]
          exact ho en
      · rw [onCollisionTag_other b other w t hte hto]
        exact ih w ho hts

theorem enemy_fold_foreign {β : Type} (B : Subject (World β)) (e other : Ref) (tags : List String)
    (acc : World β × List Event) (m : MockCollidable)
    (ho : acc.1.objects other = .foreign m)
    (hc : ((World.enemyAt e).get acc.1).AttackCooldown ≤ 0) :
    tags.foldlM (Enemy.onCollisionTag B e other) acc =
      if "player" ∈ tags then none else some acc := by
  induction tags with
  | nil => simp
  | cons t ts ih =>
    rw [List.foldlM_cons]
    by_cases ht : t = "player"
    · have hs : Enemy.onCollisionTag B e other acc t = none := by
        unfold Enemy.onCollisionTag
        rw [if_pos ht, if_pos hc, ho]
      rw [hs, if_pos (by simp [ht])]
      rfl
    · have hs : Enemy.onCollisionTag B e other acc t = some acc := by
        unfold Enemy.onCollisionTag
        rw [if_neg ht]
      rw [hs]
      simp only [Option.bind_eq_bind, Option.some_bind, ih]
      have e1 : ("player" ∈ t :: ts) ↔ ("player" ∈ ts) := by
        simp [Ne.symm ht]
      by_cases hp : "player" ∈ ts
      · rw [if_pos hp, if_pos (e1.mpr hp)]
      · rw [if_neg hp, if_neg (fun h => hp (e1.mp h))]

theorem Enemy_OnCollision_objects {β : Type} (B : Subject (World β)) (e other : Ref)
    (w : World β) (en : Enemy) (he : w.objects e = .enemy en)
    (hreal : (w.objects other).isForeign = false)
    (hquiet : ∀ b ev u, (B.Notify b ev u).1.objects = u.objects) :
    ∃ r, Enemy.OnCollision B e other w = some r ∧
      ((r.1.objects = w.objects) ∨
        (∃ pl, w.objects other = .player pl ∧ en.AttackCooldown ≤ 0 ∧
          r.1.objects = Function.update
            (Function.update w.objects other
              (.player { pl with Health := max 0 (pl.Health - 10) }))
            e (.enemy { en with AttackCooldown := 1 }))) := by
  have hget : (World.enemyAt e).get w = en := by simp [World.enemyAt, he]
  by_cases hc : en.AttackCooldown ≤ 0
  · cases ho : w.objects other with
    | player pl =>
      have hne : e ≠ other := by
        intro h
        rw [h, ho] at he
        exact Entity.noConfusion he
      obtain ⟨res, h1, h2, _⟩ := TakeDamage_objects B other 10 w pl ho hquiet
      have hobj_e : res.1.objects e = .enemy en := by
        rw [h2, Function.update_noteq hne, he]
      have hget2 : (World.enemyAt e).get res.1 = en := by simp [World.enemyAt, hobj_e]
      refine ⟨((World.enemyAt e).set { en with AttackCooldown := 1 } res.1, res.2), ?_,
        Or.inr ⟨pl, rfl, hc, ?_⟩⟩
      · have hc2 : ((World.enemyAt e).get w).AttackCooldown ≤ 0 := by rw [hget]; exact hc
        simp only [Enemy.OnCollision, World.tagsOf, ho, Entity.GetCollisionTags,
          Player.GetCollisionTags, List.foldlM_cons, List.foldlM_nil, Enemy.onCollisionTag,
          if_true, hc2, h1, hget2]
        simp
      · simp [World.enemyAt, h2]
    | enemy x =>
      refine ⟨(w, []), ?_, Or.inl rfl⟩
      simp [Enemy.OnCollision, World.tagsOf, ho, Entity.GetCollisionTags,
        Enemy.GetCollisionTags, Enemy.onCollisionTag]
    | bullet x =>
      refine ⟨(w, []), ?_, Or.inl rfl⟩
      simp [Enemy.OnCollision, World.tagsOf, ho, Entity.GetCollisionTags,
        Bullet.GetCollisionTags, Enemy.onCollisionTag]
    | obstacle x =>
      refine ⟨(w, []), ?_, Or.inl rfl⟩
      simp [Enemy.OnCollision, World.tagsOf, ho, Entity.GetCollisionTags,
        Obstacle.GetCollisionTags, Enemy.onCollisionTag]
    | healthPickup x =>
      refine ⟨(w, []), ?_, Or.inl rfl⟩
      simp [Enemy.OnCollision, World.tagsOf, ho, Entity.GetCollisionTags,
        HealthPickup.GetCollisionTags, Enemy.onCollisionTag]
    | foreign x =>
      rw [ho] at hreal
      exact absurd hreal (by simp [Entity.isForeign])
  · refine ⟨(w, []), ?_, Or.inl rfl⟩
    unfold Enemy.OnCollision
    apply foldlM_some_id
    intro tag _
    unfold Enemy.onCollisionTag
    have hc2 : ¬ (((World.enemyAt e).get w).AttackCooldown ≤ 0) := by rw [hget]; exact hc
    by_cases ht : tag = "player"
    · rw [if_pos ht, if_neg hc2]
    · rw [if_neg ht]

/-- C33: with every argument of one of the five entity types, no collision or trigger callback
panics.  `Player.OnCollision`, `Obstacle.OnCollision` and `HealthPickup.OnTriggerEnter` have no
panicking statement at all: they are total functions of the heap, the first one the identity.
`Bullet.OnCollision(y)` returns for every `y` of the five types, and for a `y` of another type
it panics exactly when `y` carries the tag enemy.  `Enemy.OnCollision(y)` returns for every `y`
of the five types (the bus being assumed to leave the objects as they are), and for a `y` of
another type it panics exactly when `y` carries the tag player and the cooldown of the enemy is
`≤ 0`.  Of the five types only an `Enemy` carries the tag enemy and only a `Player` the tag
player. -/
theorem callbacks_panic_only_on_foreign {β : Type} (B : Subject (World β)) (x y : Ref)
    (w : World β) :
    (Player.OnCollision x y w = w) ∧
    ((w.objects y).isForeign = false →
      (("enemy" ∈ w.tagsOf y ↔ ∃ en, w.objects y = .enemy en) ∧
       ("player" ∈ w.tagsOf y ↔ ∃ pl, w.objects y = .player pl))) ∧
    (∀ bl, w.objects x = .bullet bl →
      ((w.objects y).isForeign = false → (Bullet.OnCollision x y w).isSome = true) ∧
      (∀ m, w.objects y = .foreign m →
        (Bullet.OnCollision x y w = none ↔ "enemy" ∈ m.CollisionTags))) ∧
    (∀ en, w.objects x = .enemy en →
      ((∀ b ev u, (B.Notify b ev u).1.objects = u.objects) →
        (w.objects y).isForeign = false → (Enemy.OnCollision B x y w).isSome = true) ∧
      (∀ m, w.objects y = .foreign m →
        (Enemy.OnCollision B x y w = none ↔
          "player" ∈ m.CollisionTags ∧ en.AttackCooldown ≤ 0))) := by
  refine ⟨rfl, ?_, ?_, ?_⟩
  · intro hreal
    exact ⟨enemy_tag_iff _ hreal, player_tag_iff _ hreal⟩
  · intro bl hb
    constructor
    · intro hreal
      obtain ⟨w2, h2, _⟩ := bullet_fold x y (w.tagsOf y) w bl hb
        (fun h => (enemy_tag_iff _ hreal).mp h)
      unfold Bullet.OnCollision
      rw [h2]
      rfl
    · intro m hm
      have htags : w.tagsOf y = m.CollisionTags := by
        simp [World.tagsOf, hm, Entity.GetCollisionTags]
      constructor
      · intro hnone
        by_contra hno
        obtain ⟨w2, h2, _⟩ := bullet_fold x y (w.tagsOf y) w bl hb
          (fun h => absurd (htags ▸ h) hno)
        unfold Bullet.OnCollision at hnone
        rw [h2] at hnone
        exact Option.noConfusion hnone
      · intro ht
        unfold Bullet.OnCollision
        apply bullet_fold_none
        · intro en2 h
          rw [hm] at h
          exact Entity.noConfusion h
        · rw [htags]; exact ht
  · intro en he
    have hget : (World.enemyAt x).get w = en := by simp [World.enemyAt, he]
    constructor
    · intro hquiet hreal
      obtain ⟨r, hr, _⟩ := Enemy_OnCollision_objects B x y w en he hreal hquiet
      rw [hr]
      rfl
    · intro m hm
      have htags : w.tagsOf y = m.CollisionTags := by
        simp [World.tagsOf, hm, Entity.GetCollisionTags]
      by_cases hc : en.AttackCooldown ≤ 0
      · have hf := enemy_fold_foreign B x y (w.tagsOf y) (w, []) m hm (by rw [hget]; exact hc)
        unfold Enemy.OnCollision
        rw [hf, htags]
        by_cases hp : "player" ∈ m.CollisionTags
        · simp [hp, hc]
        · simp [hp]
      · have hs : Enemy.OnCollision B x y w = some (w, []) := by
          unfold Enemy.OnCollision
          apply foldlM_some_id
          intro tag _
          unfold Enemy.onCollisionTag
          have hc2 : ¬ (((World.enemyAt x).get w).AttackCooldown ≤ 0) := by rw [hget]; exact hc
          by_cases ht : tag = "player"
          · rw [if_pos ht, if_neg hc2]
          · rw [if_neg ht]
        rw [hs]
        simp [hc]

/-! ## The health pickup -/

theorem Heal_objects {β : Type} (r : Ref) (a : float32) (w : World β) (pl : Player)
    (hr : w.objects r = .player pl) :
    Player.Heal (World.playerAt r) a w =
      { w with objects := (Function.update w.objects r
          (.player { pl with Health := min pl.MaxHealth (pl.Health + a) })) } := by
  unfold Player.Heal
  by_cases h : pl.Health + a > pl.MaxHealth
  · simp [World.playerAt, hr, h, min_eq_left (le_of_lt h)]
  · simp [World.playerAt, hr, h, min_eq_right (not_lt.mp h)]

theorem foldl_id {α γ : Type} (f : α → γ → α) (l : List γ) (a : α)
    (h : ∀ x ∈ l, f a x = a) : l.foldl f a = a := by
  induction l with
  | nil => rfl
  | cons x xs ih =>
    rw [List.foldl_cons, h x (List.mem_cons_self _ _)]
    exact ih (fun y hy => h y (List.mem_cons_of_mem _ hy))

theorem OnTriggerEnter_inactive {β : Type} (h other : Ref) (w : World β) (hp : HealthPickup)
    (hh : w.objects h = .healthPickup hp) (ha : hp.Active = false) :
    HealthPickup.OnTriggerEnter h other w = w := by
  have hget : (World.pickupAt h).get w = hp := by simp [World.pickupAt, hh]
  simp [HealthPickup.OnTriggerEnter, hget, ha]

theorem OnTriggerEnter_nonplayer {β : Type} (h other : Ref) (w : World β)
    (ho : (w.objects other).isPlayer = false) :
    HealthPickup.OnTriggerEnter h other w = w := by
  unfold HealthPickup.OnTriggerEnter
  split
  · rfl
  · apply foldl_id
    intro tag _
    unfold HealthPickup.onTriggerTag
    by_cases ht : tag = "player"
    · rw [if_pos ht]
      cases hobj : w.objects other with
      | player pl => rw [hobj] at ho; exact absurd ho (by simp [Entity.isPlayer])
      | enemy _ => rfl
      | bullet _ => rfl
      | obstacle _ => rfl
      | healthPickup _ => rfl
      | foreign _ => rfl
    · rw [if_neg ht]

theorem OnTriggerEnter_player {β : Type} (h other : Ref) (w : World β) (hp : HealthPickup)
    (pl : Player) (hh : w.objects h = .healthPickup hp) (ha : hp.Active = true)
    (ho : w.objects other = .player pl) :
    HealthPickup.OnTriggerEnter h other w =
      { w with objects := (Function.update
          (Function.update w.objects other
            (.player { pl with Health := min pl.MaxHealth (pl.Health + hp.HealAmount) }))
          h (.healthPickup { hp with Active := false })) } := by
  have hne : h ≠ other := by
    intro e
    rw [e, ho] at hh
    exact Entity.noConfusion hh
  have hget : (World.pickupAt h).get w = hp := by simp [World.pickupAt, hh]
  have hget2 : (World.pickupAt h).get
      ({ w with objects := (Function.update w.objects other
        (.player { pl with Health := min pl.MaxHealth (pl.Health + hp.HealAmount) })) } :
        World β) = hp := by
    simp [World.pickupAt, Function.update_noteq hne, hh]
  simp only [HealthPickup.OnTriggerEnter, hget, ha, Bool.not_true, Bool.false_eq_true,
    if_false, World.tagsOf, ho, Entity.GetCollisionTags, Player.GetCollisionTags,
    List.foldl_cons, List.foldl_nil, HealthPickup.onTriggerTag, if_true,
    Heal_objects other hp.HealAmount w pl ho, hget2]
  simp [World.pickupAt]

theorem OnTriggerEnterAll_inactive {β : Type} (h : Ref) (others : List Ref) (w : World β)
    (hp : HealthPickup) (hh : w.objects h = .healthPickup hp) (ha : hp.Active = false) :
    HealthPickup.OnTriggerEnterAll h others w = w := by
  unfold HealthPickup.OnTriggerEnterAll
  exact foldl_id _ _ _ (fun o _ => OnTriggerEnter_inactive h o w hp hh ha)

theorem OnTriggerEnterAll_first {β : Type} (h : Ref) (others : List Ref) (w : World β)
    (hp : HealthPickup) (hh : w.objects h = .healthPickup hp) (ha : hp.Active = true) :
    HealthPickup.OnTriggerEnterAll h others w =
      match others.find? (fun o => (w.objects o).isPlayer) with
      | none => w
      | some o => HealthPickup.OnTriggerEnter h o w := by
  induction others with
  | nil => rfl
  | cons o rest ih =>
    cases hk : (w.objects o).isPlayer with
    | false =>
      have h1 : HealthPickup.OnTriggerEnterAll h (o :: rest) w =
          HealthPickup.OnTriggerEnterAll h rest w := by
        simp only [HealthPickup.OnTriggerEnterAll, List.foldl_cons,
          OnTriggerEnter_nonplayer h o w hk]
      rw [h1, ih, List.find?_cons_of_neg _ (by simp [hk])]
    | true =>
      obtain ⟨pl, hpl⟩ : ∃ pl, w.objects o = .player pl := by
        cases hobj : w.objects o with
        | player pl => exact ⟨pl, rfl⟩
        | enemy _ => rw [hobj] at hk; exact absurd hk (by simp [Entity.isPlayer])
        | bullet _ => rw [hobj] at hk; exact absurd hk (by simp [Entity.isPlayer])
        | obstacle _ => rw [hobj] at hk; exact absurd hk (by simp [Entity.isPlayer])
        | healthPickup _ => rw [hobj] at hk; exact absurd hk (by simp [Entity.isPlayer])
        | foreign _ => rw [hobj] at hk; exact absurd hk (by simp [Entity.isPlayer])
      have h1 : HealthPickup.OnTriggerEnterAll h (o :: rest) w =
          HealthPickup.OnTriggerEnterAll h rest (HealthPickup.OnTriggerEnter h o w) := by
        simp only [HealthPickup.OnTriggerEnterAll, List.foldl_cons]
      rw [h1, List.find?_cons_of_pos _ (by simp [hk])]
      show HealthPickup.OnTriggerEnterAll h rest (HealthPickup.OnTriggerEnter h o w) =
        HealthPickup.OnTriggerEnter h o w
      rw [OnTriggerEnter_player h o w hp pl hh ha hpl]
      refine OnTriggerEnterAll_inactive h rest _ { hp with Active := false } ?_ rfl
      simp

theorem trigger_Update_replay {σ : Type} (T : Triggerable σ) (C : Collidable σ)
    (ts : TriggerSystem) (s : σ) :
    (TriggerSystem.Update T C ts s).1 =
      (TriggerSystem.Update T C ts s).2.foldl (fun u c => T.OnTriggerEnter c.1 c.2 u) s ∧
    ∀ c ∈ (TriggerSystem.Update T C ts s).2, c.1 ∈ ts.triggers := by
  unfold TriggerSystem.Update
  refine foldl_invariant_mem (fun st : σ × List Call =>
    st.1 = st.2.foldl (fun u c => T.OnTriggerEnter c.1 c.2 u) s ∧
      ∀ c ∈ st.2, c.1 ∈ ts.triggers) _ ts.triggers (s, []) ⟨rfl, by simp⟩ ?_
  intro st t ht hst
  unfold TriggerSystem.updateTrigger
  split
  · exact hst
  · refine foldl_invariant (fun st : σ × List Call =>
      st.1 = st.2.foldl (fun u c => T.OnTriggerEnter c.1 c.2 u) s ∧
        ∀ c ∈ st.2, c.1 ∈ ts.triggers) _ ts.collidables st hst ?_
    intro st2 c hst2
    unfold TriggerSystem.updateSense
    split
    · exact hst2
    · split
      · split
        · refine ⟨?_, ?_⟩
          · simp only [List.foldl_append, List.foldl_cons, List.foldl_nil]
            rw [← hst2.1]
          · intro x hx
            simp only [List.mem_append, List.mem_singleton] at hx
            rcases hx with hx | hx
            · exact hst2.2 x hx
            · rw [hx]; exact ht
        · exact hst2
      · exact hst2

theorem replay_single_pickup {β : Type} (h : Ref) (log : List Call) (w : World β)
    (hp : HealthPickup) (hh : w.objects h = .healthPickup hp) (hlog : ∀ c ∈ log, c.1 = h) :
    log.foldl (fun u c => entityTriggerable.OnTriggerEnter c.1 c.2 u) w =
      HealthPickup.OnTriggerEnterAll h (log.map Prod.snd) w := by
  induction log generalizing w hp with
  | nil => rfl
  | cons c rest ih =>
    have hc : c.1 = h := hlog c (List.mem_cons_self _ _)
    have hstep : entityTriggerable.OnTriggerEnter c.1 c.2 w =
        HealthPickup.OnTriggerEnter h c.2 w := by
      simp [entityTriggerable, hc, hh]
    have hkeep : ∃ hp2, (HealthPickup.OnTriggerEnter h c.2 w).objects h = .healthPickup hp2 := by
      cases hact : hp.Active with
      | false => exact ⟨hp, by rw [OnTriggerEnter_inactive h c.2 w hp hh hact]; exact hh⟩
      | true =>
        cases hobj : w.objects c.2 with
        | player pl =>
          exact ⟨{ hp with Active := false },
            by rw [OnTriggerEnter_player h c.2 w hp pl hh hact hobj]; simp⟩
        | enemy _ =>
          exact ⟨hp, by rw [OnTriggerEnter_nonplayer h c.2 w (by simp [hobj, Entity.isPlayer])]; exact hh⟩
        | bullet _ =>
          exact ⟨hp, by rw [OnTriggerEnter_nonplayer h c.2 w (by simp [hobj, Entity.isPlayer])]; exact hh⟩
        | obstacle _ =>
          exact ⟨hp, by rw [OnTriggerEnter_nonplayer h c.2 w (by simp [hobj, Entity.isPlayer])]; exact hh⟩
        | healthPickup _ =>
          exact ⟨hp, by rw [OnTriggerEnter_nonplayer h c.2 w (by simp [hobj, Entity.isPlayer])]; exact hh⟩
        | foreign _ =>
          exact ⟨hp, by rw [OnTriggerEnter_nonplayer h c.2 w (by simp [hobj, Entity.isPlayer])]; exact hh⟩
    obtain ⟨hp2, hh2⟩ := hkeep
    simp only [List.foldl_cons, List.map_cons, HealthPickup.OnTriggerEnterAll, hstep]
    exact ih _ hp2 hh2 (fun x hx => hlog x (List.mem_cons_of_mem _ hx))

/-- C34: for a health pickup `hp` behind `h`: an inactive pickup ignores every
`OnTriggerEnter`; an active one that is entered by a `Player` sets that player's health to
`min(MaxHealth, Health + HealAmount)` and itself inactive, and changes nothing else; entered by
anything that is not a `Player`, also by an object of another type that carries the tag player,
it changes nothing and stays active.  Hence any sequence of `OnTriggerEnter` calls on an active
pickup has the effect of its first call with a `Player` alone, and of none when no `Player` is
among the arguments; and a `TriggerSystem.Update` whose only trigger is the pickup, whatever
collidables are registered and however often, has the effect of the first logged call with a
`Player` alone. -/
theorem pickup_heals_at_most_once {β : Type} (h : Ref) (w : World β) (hp : HealthPickup)
    (hh : w.objects h = .healthPickup hp) :
    (hp.Active = false → ∀ others, HealthPickup.OnTriggerEnterAll h others w = w) ∧
    (∀ other, (w.objects other).isPlayer = false → HealthPickup.OnTriggerEnter h other w = w) ∧
    (hp.Active = true → ∀ other pl, w.objects other = .player pl →
      HealthPickup.OnTriggerEnter h other w =
        { w with objects := (Function.update
            (Function.update w.objects other
              (.player { pl with Health := min pl.MaxHealth (pl.Health + hp.HealAmount) }))
            h (.healthPickup { hp with Active := false })) } ∧
      ∀ others, HealthPickup.OnTriggerEnterAll h others (HealthPickup.OnTriggerEnter h other w) =
        HealthPickup.OnTriggerEnter h other w) ∧
    (hp.Active = true → ∀ others,
      HealthPickup.OnTriggerEnterAll h others w =
        match others.find? (fun o => (w.objects o).isPlayer) with
        | none => w
        | some o => HealthPickup.OnTriggerEnter h o w) ∧
    (hp.Active = true → ∀ (C : Collidable (World β)) (ts : TriggerSystem), ts.triggers = [h] →
      (TriggerSystem.Update entityTriggerable C ts w).1 =
        match ((TriggerSystem.Update entityTriggerable C ts w).2.map Prod.snd).find?
            (fun o => (w.objects o).isPlayer) with
        | none => w
        | some o => HealthPickup.OnTriggerEnter h o w) := by
  refine ⟨?_, ?_, ?_, ?_, ?_⟩
  · intro ha others
    exact OnTriggerEnterAll_inactive h others w hp hh ha
  · intro other ho
    exact OnTriggerEnter_nonplayer h other w ho
  · intro ha other pl ho
    have he := OnTriggerEnter_player h other w hp pl hh ha ho
    refine ⟨he, ?_⟩
    intro others
    rw [he]
    refine OnTriggerEnterAll_inactive h others _ { hp with Active := false } ?_ rfl
    simp
  · intro ha others
    exact OnTriggerEnterAll_first h others w hp hh ha
  · intro ha C ts hts
    obtain ⟨h1, h2⟩ := trigger_Update_replay entityTriggerable C ts w
    rw [h1, replay_single_pickup h _ w hp hh (fun c hc => by
      have := h2 c hc
      rw [hts] at this
      exact List.mem_singleton.mp this)]
    exact OnTriggerEnterAll_first h _ w hp hh ha

theorem pickup_heals_at_most_once_witness :
    HealthPickup.OnTriggerEnterAll 0 [3, 2, 1, 1] pickupWorld =
      HealthPickup.OnTriggerEnter 0 1 pickupWorld ∧
    HealthPickup.OnTriggerEnter 0 3 pickupWorld = pickupWorld ∧
    (HealthPickup.OnTriggerEnter 0 1 pickupWorld).objects 1 =
      .player { NewPlayer 5 none with Health := 75 } ∧
    (HealthPickup.OnTriggerEnter 0 1 pickupWorld).objects 0 =
      .healthPickup { NewHealthPickup ⟨0, 0, 0⟩ with Active := false } := by
  have h := pickup_heals_at_most_once 0 pickupWorld (NewHealthPickup ⟨0, 0, 0⟩) rfl
  have h3 := (h.2.2.1 rfl 1 { NewPlayer 5 none with Health := 50 } rfl).1
  refine ⟨h.2.2.2.1 rfl [3, 2, 1, 1], h.2.1 3 rfl, ?_, ?_⟩
  · rw [h3]
    simp [NewPlayer, NewHealthPickup]
    norm_num
  · rw [h3]
    simp

/-! ## One frame of the game: what the callbacks may change -/

theorem kind_bullet (e : Entity) (h : e.kind = 2) : ∃ bl, e = .bullet bl := by
  cases e <;> simp [Entity.kind] at h
  exact ⟨_, rfl⟩

theorem kind_isForeign (e1 e2 : Entity) (h : e1.kind = e2.kind) :
    e1.isForeign = e2.isForeign := by
  cases e1 <;> cases e2 <;> simp [Entity.kind] at h <;> rfl

theorem Evolves_refl {β : Type} (rs : List Ref) (w : World β) : World.Evolves rs w w := by
  refine ⟨fun _ => rfl, fun _ _ => rfl, ?_⟩
  intro r bl h ha
  rw [h]
  exact ha

theorem Evolves_of_objects {β : Type} (rs : List Ref) (w w2 : World β)
    (h : w2.objects = w.objects) : World.Evolves rs w w2 := by
  refine ⟨fun r => by rw [h], fun r _ => by rw [h], ?_⟩
  intro r bl hb ha
  rw [h, hb]
  exact ha

theorem Evolves_trans {β : Type} (rs rs2 : List Ref) (w w1 w2 : World β)
    (h1 : World.Evolves rs w w1) (h2 : World.Evolves rs2 w1 w2) :
    World.Evolves (rs ++ rs2) w w2 := by
  refine ⟨fun r => by rw [h2.1 r, h1.1 r], ?_, ?_⟩
  · intro r hr
    simp only [List.mem_append, not_or] at hr
    rw [h2.2.1 r hr.2, h1.2.1 r hr.1]
  · intro r bl hb ha
    have hk : (w1.objects r).kind = 2 := by rw [h1.1 r, hb]; rfl
    obtain ⟨bl1, hb1⟩ := kind_bullet _ hk
    have ha1 := h1.2.2 r bl hb ha
    rw [hb1] at ha1
    exact h2.2.2 r bl1 hb1 ha1

theorem Evolves_mono {β : Type} (rs rs2 : List Ref) (w w2 : World β)
    (hsub : ∀ r ∈ rs, r ∈ rs2) (h : World.Evolves rs w w2) : World.Evolves rs2 w w2 :=
  ⟨h.1, fun r hr => h.2.1 r (fun hin => hr (hsub r hin)), h.2.2⟩

theorem Evolves_update {β : Type} (w w2 : World β) (a : Ref) (e : Entity)
    (hobj : w2.objects = Function.update w.objects a e)
    (hk : e.kind = (w.objects a).kind)
    (hb : ∀ bl, w.objects a = .bullet bl → bl.Active = false → e.IsActive = false) :
    World.Evolves [a] w w2 := by
  refine ⟨?_, ?_, ?_⟩
  · intro r
    rw [hobj]
    by_cases hr : r = a
    · rw [hr, Function.update_same, hk]
    · rw [Function.update_noteq hr]
  · intro r hr
    rw [hobj, Function.update_noteq (by simpa using hr)]
  · intro r bl hbl ha
    rw [hobj]
    by_cases hr : r = a
    · rw [hr, Function.update_same]
      exact hb bl (hr ▸ hbl) ha
    · rw [Function.update_noteq hr, hbl]
      exact ha

theorem Evolves_update2 {β : Type} (w w2 : World β) (a b : Ref) (ea eb : Entity)
    (hobj : w2.objects = Function.update (Function.update w.objects a ea) b eb)
    (hab : a ≠ b)
    (hka : ea.kind = (w.objects a).kind) (hkb : eb.kind = (w.objects b).kind)
    (hba : ∀ bl, w.objects a = .bullet bl → bl.Active = false → ea.IsActive = false)
    (hbb : ∀ bl, w.objects b = .bullet bl → bl.Active = false → eb.IsActive = false) :
    World.Evolves [a, b] w w2 := by
  have h1 : World.Evolves [a] w { w with objects := (Function.update w.objects a ea) } :=
    Evolves_update w _ a ea rfl hka hba
  have h2 : World.Evolves [b] { w with objects := (Function.update w.objects a ea) } w2 := by
    refine Evolves_update _ w2 b eb hobj ?_ ?_
    · simp only [Function.update_noteq (Ne.symm hab)]
      exact hkb
    · intro bl hbl ha
      simp only [Function.update_noteq (Ne.symm hab)] at hbl
      exact hbb bl hbl ha
  exact Evolves_trans [a] [b] w _ w2 h1 h2

theorem Bullet_OnCollision_objects {β : Type} (b other : Ref) (w : World β) (bl : Bullet)
    (hb : w.objects b = .bullet bl) (hreal : (w.objects other).isForeign = false) :
    ∃ w2, Bullet.OnCollision b other w = some w2 ∧ World.Evolves [b, other] w w2 ∧
      ((∃ en, w.objects other = .enemy en) ∨ (∃ ob, w.objects other = .obstacle ob) →
        (w2.objects b).IsActive = false) := by
  cases ho : w.objects other with
  | enemy en =>
    have hne : other ≠ b := by
      intro h
      rw [h, hb] at ho
      exact Entity.noConfusion ho
    have h1 : Bullet.OnCollision b other w = some { w with objects :=
        (Function.update
          (Function.update w.objects other
            (.enemy (if en.Health - bl.Damage ≤ 0 then { en with Health := 0, Active := false }
              else { en with Health := en.Health - bl.Damage })))
          b (.bullet { bl with Active := false })) } := by
      simp only [Bullet.OnCollision, World.tagsOf, ho, Entity.GetCollisionTags,
        Enemy.GetCollisionTags, List.foldlM_cons, List.foldlM_nil,
        onCollisionTag_enemy b other w bl en hb ho]
      rfl
    refine ⟨_, h1, ?_, ?_⟩
    · refine Evolves_mono [other, b] _ _ _ (by simp) ?_
      refine Evolves_update2 w _ other b _ _ rfl hne ?_ ?_ ?_ ?_
      · rw [ho]; split <;> rfl
      · rw [hb]; rfl
      · intro bl2 h2
        rw [ho] at h2
        exact Entity.noConfusion h2
      · intro _ _ _
        rfl
    · intro _
      simp [Entity.IsActive, Bullet.IsActive]
  | obstacle ob =>
    have h1 : Bullet.OnCollision b other w = some { w with objects :=
        (Function.update w.objects b (.bullet { bl with Active := false })) } := by
      simp only [Bullet.OnCollision, World.tagsOf, ho, Entity.GetCollisionTags,
        Obstacle.GetCollisionTags, List.foldlM_cons, List.foldlM_nil,
        onCollisionTag_obstacle b other w bl hb]
      rfl
    refine ⟨_, h1, ?_, ?_⟩
    · refine Evolves_mono [b] _ _ _ (by simp) ?_
      refine Evolves_update w _ b _ rfl ?_ ?_
      · rw [hb]; rfl
      · intro _ _ _
        rfl
    · intro _
      simp [Entity.IsActive, Bullet.IsActive]
  | player pl =>
    refine ⟨w, ?_, Evolves_refl _ w, ?_⟩
    · simp [Bullet.OnCollision, World.tagsOf, ho, Entity.GetCollisionTags,
        Player.GetCollisionTags, Bullet.onCollisionTag]
    · rintro (⟨en, h⟩ | ⟨ob, h⟩) <;> exact Entity.noConfusion h
  | bullet b2 =>
    refine ⟨w, ?_, Evolves_refl _ w, ?_⟩
    · simp [Bullet.OnCollision, World.tagsOf, ho, Entity.GetCollisionTags,
        Bullet.GetCollisionTags, Bullet.onCollisionTag]
    · rintro (⟨en, h⟩ | ⟨ob, h⟩) <;> exact Entity.noConfusion h
  | healthPickup hp =>
    refine ⟨w, ?_, Evolves_refl _ w, ?_⟩
    · simp [Bullet.OnCollision, World.tagsOf, ho, Entity.GetCollisionTags,
        HealthPickup.GetCollisionTags, Bullet.onCollisionTag]
    · rintro (⟨en, h⟩ | ⟨ob, h⟩) <;> exact Entity.noConfusion h
  | foreign m =>
    rw [ho] at hreal
    exact absurd hreal (by simp [Entity.isForeign])

theorem Obstacle_OnCollision_evolves {β : Type} (o other : Ref) (w : World β) (ob : Obstacle)
    (ho : w.objects o = .obstacle ob) :
    World.Evolves [o, other] w (Obstacle.OnCollision o other w) := by
  unfold Obstacle.OnCollision
  split
  · refine Evolves_mono [o] _ _ _ (by simp) ?_
    refine Evolves_update w _ o _ rfl ?_ ?_
    · rw [ho]; rfl
    · intro bl hbl
      rw [ho] at hbl
      exact Entity.noConfusion hbl
  · exact Evolves_refl _ w

theorem Enemy_OnCollision_evolves {β : Type} (B : Subject (World β)) (e other : Ref)
    (w : World β) (en : Enemy) (he : w.objects e = .enemy en)
    (hreal : (w.objects other).isForeign = false)
    (hquiet : ∀ b ev u, (B.Notify b ev u).1.objects = u.objects) :
    ∃ r, Enemy.OnCollision B e other w = some r ∧ World.Evolves [e, other] w r.1 := by
  obtain ⟨r, hr, hobj⟩ := Enemy_OnCollision_objects B e other w en he hreal hquiet
  refine ⟨r, hr, ?_⟩
  rcases hobj with h | ⟨pl, hpl, _, h⟩
  · exact Evolves_of_objects _ w r.1 h
  · have hne : other ≠ e := by
      intro hh
      rw [hh, he] at hpl
      exact Entity.noConfusion hpl
    refine Evolves_mono [other, e] _ _ _ (by simp) ?_
    refine Evolves_update2 w r.1 other e _ _ h hne ?_ ?_ ?_ ?_
    · rw [hpl]; rfl
    · rw [he]; rfl
    · intro bl hbl
      rw [hpl] at hbl
      exact Entity.noConfusion hbl
    · intro bl hbl
      rw [he] at hbl
      exact Entity.noConfusion hbl

theorem dispatch_evolves {β : Type} (B : Subject (World β)) (a b : Ref) (w : World β)
    (hquiet : ∀ x ev u, (B.Notify x ev u).1.objects = u.objects)
    (hra : (w.objects a).isForeign = false) (hrb : (w.objects b).isForeign = false) :
    ∃ w2, World.dispatchOnCollision B a b w = some w2 ∧ World.Evolves [a, b] w w2 ∧
      (∀ bl, w.objects a = .bullet bl →
        ((∃ en, w.objects b = .enemy en) ∨ (∃ ob, w.objects b = .obstacle ob)) →
        (w2.objects a).IsActive = false) := by
  cases ha : w.objects a with
  | player pl =>
    refine ⟨w, by simp [World.dispatchOnCollision, ha, Player.OnCollision], Evolves_refl _ w, ?_⟩
    intro bl h
    exact Entity.noConfusion h
  | enemy en =>
    obtain ⟨r, hr, hev⟩ := Enemy_OnCollision_evolves B a b w en ha hrb hquiet
    refine ⟨r.1, by simp [World.dispatchOnCollision, ha, hr], hev, ?_⟩
    intro bl h
    exact Entity.noConfusion h
  | bullet bl =>
    obtain ⟨w2, h2, hev, hact⟩ := Bullet_OnCollision_objects a b w bl ha hrb
    refine ⟨w2, by simp [World.dispatchOnCollision, ha, h2], hev, ?_⟩
    intro _ _ hk
    exact hact hk
  | obstacle ob =>
    refine ⟨_, by simp [World.dispatchOnCollision, ha], Obstacle_OnCollision_evolves a b w ob ha, ?_⟩
    intro bl h
    exact Entity.noConfusion h
  | healthPickup hp =>
    refine ⟨w, by simp [World.dispatchOnCollision, ha], Evolves_refl _ w, ?_⟩
    intro bl h
    exact Entity.noConfusion h
  | foreign m =>
    rw [ha] at hra
    exact absurd hra (by simp [Entity.isForeign])

theorem getD_mem_of_lt (l : List Ref) (i : Nat) (h : i < l.length) : l.getD i 0 ∈ l := by
  rw [List.getD_eq_getElem l 0 h]
  exact List.getElem_mem h

theorem collision_Update_invariant {σ : Type} (I : Collidable σ) (cs : CollisionSystem)
    (P : σ × List Call → Prop) (s : σ) (h0 : P (s, []))
    (hstep : ∀ a b st, a ∈ cs.collidables → b ∈ cs.collidables → P st →
      CollisionSystem.shouldCollide I st.1 a b = true →
      P (I.OnCollision b a (I.OnCollision a b st.1), st.2 ++ [(a, b), (b, a)])) :
    P (CollisionSystem.Update I cs s) := by
  unfold CollisionSystem.Update
  refine foldl_invariant_mem P _ _ (s, []) h0 ?_
  intro st i hi hst
  have hil : i < cs.collidables.length := List.mem_range.mp hi
  unfold CollisionSystem.updateRow
  dsimp only
  split
  · exact hst
  · refine foldl_invariant_mem P _ _ st hst ?_
    intro st2 j hj hst2
    have hjl : j < cs.collidables.length := by
      have := (List.mem_range'_1.mp hj).2
      omega
    unfold CollisionSystem.updatePair
    split
    · exact hst2
    · split
      · rename_i hsc
        split
        · exact hstep _ _ st2 (getD_mem_of_lt _ i hil) (getD_mem_of_lt _ j hjl) hst2 hsc
        · exact hst2
      · exact hst2

theorem trigger_Update_invariant {σ : Type} (T : Triggerable σ) (C : Collidable σ)
    (ts : TriggerSystem) (P : σ × List Call → Prop) (s : σ) (h0 : P (s, []))
    (hstep : ∀ t c st, P st → C.IsActive st.1 c = true →
      P (T.OnTriggerEnter t c st.1, st.2 ++ [(t, c)])) :
    P (TriggerSystem.Update T C ts s) := by
  unfold TriggerSystem.Update
  refine foldl_invariant P _ ts.triggers (s, []) h0 ?_
  intro st t hst
  unfold TriggerSystem.updateTrigger
  split
  · exact hst
  · refine foldl_invariant P _ ts.collidables st hst ?_
    intro st2 c hst2
    unfold TriggerSystem.updateSense
    split
    · exact hst2
    · rename_i hact
      split
      · split
        · exact hstep t c st2 hst2 (by simpa using hact)
        · exact hst2
      · exact hst2

theorem kind_enemy (e : Entity) (h : e.kind = 1) : ∃ en, e = .enemy en := by
  cases e <;> simp [Entity.kind] at h
  exact ⟨_, rfl⟩

theorem Enemy_Update_evolves {β : Type} (sqrt : float32 → float32) (e : Ref) (dt : float32)
    (player : Option Ref) (w : World β) (en : Enemy) (he : w.objects e = .enemy en) :
    World.Evolves [e] w (Enemy.Update sqrt e dt player w) := by
  have hQw : ∃ en2, w.objects = Function.update w.objects e (.enemy en2) :=
    ⟨en, by rw [← he, Function.update_eq_self]⟩
  have hQset : ∀ (x : Enemy) (u : World β),
      (∃ en2, u.objects = Function.update w.objects e (.enemy en2)) →
      ∃ en2, ((World.enemyAt e).set x u).objects = Function.update w.objects e (.enemy en2) := by
    rintro x u ⟨en2, h⟩
    exact ⟨x, by simp [World.enemyAt, h]⟩
  have hobj : ∃ en2, (Enemy.Update sqrt e dt player w).objects =
      Function.update w.objects e (.enemy en2) := by
    unfold Enemy.Update
    cases player with
    | none => exact hQw
    | some p =>
      dsimp only
      repeat' split
      all_goals (repeat (first | exact hQw | apply hQset))
  obtain ⟨en2, h2⟩ := hobj
  refine Evolves_update w _ e _ h2 (by rw [he]; rfl) ?_
  intro bl hbl
  rw [he] at hbl
  exact Entity.noConfusion hbl

theorem Bullet_Update_evolves {β : Type} (b : Ref) (dt : float32) (w : World β) (bl : Bullet)
    (hb : w.objects b = .bullet bl) :
    World.Evolves [b] w (Bullet.Update (World.bulletAt b) dt w) := by
  have hget : (World.bulletAt b).get w = bl := by simp [World.bulletAt, hb]
  cases ha : bl.Active with
  | false =>
    have : Bullet.Update (World.bulletAt b) dt w = w := by
      unfold Bullet.Update
      simp [hget, ha]
    rw [this]
    exact Evolves_refl _ w
  | true =>
    have hQw : ∃ bl2, w.objects = Function.update w.objects b (.bullet bl2) :=
      ⟨bl, by rw [← hb, Function.update_eq_self]⟩
    have hQset : ∀ (x : Bullet) (u : World β),
        (∃ bl2, u.objects = Function.update w.objects b (.bullet bl2)) →
        ∃ bl2, ((World.bulletAt b).set x u).objects =
          Function.update w.objects b (.bullet bl2) := by
      rintro x u ⟨bl2, h⟩
      exact ⟨x, by simp [World.bulletAt, h]⟩
    have hobj : ∃ bl2, (Bullet.Update (World.bulletAt b) dt w).objects =
        Function.update w.objects b (.bullet bl2) := by
      unfold Bullet.Update
      dsimp only
      repeat' split
      all_goals (repeat (first | exact hQw | apply hQset))
    obtain ⟨bl2, h2⟩ := hobj
    refine Evolves_update w _ b _ h2 (by rw [hb]; rfl) ?_
    intro bl3 hbl3 ha3
    rw [hb] at hbl3
    cases hbl3
    rw [ha] at ha3
    exact absurd ha3 (by simp)

theorem OnTriggerEnter_evolves {β : Type} (h other : Ref) (w : World β) (hp : HealthPickup)
    (hh : w.objects h = .healthPickup hp) :
    World.Evolves [other, h] w (HealthPickup.OnTriggerEnter h other w) := by
  cases ha : hp.Active with
  | false =>
    rw [OnTriggerEnter_inactive h other w hp hh ha]
    exact Evolves_refl _ w
  | true =>
    cases hk : (w.objects other).isPlayer with
    | false =>
      rw [OnTriggerEnter_nonplayer h other w hk]
      exact Evolves_refl _ w
    | true =>
      obtain ⟨pl, hpl⟩ : ∃ pl, w.objects other = .player pl := by
        cases hobj : w.objects other with
        | player pl => exact ⟨pl, rfl⟩
        | enemy _ => rw [hobj] at hk; exact absurd hk (by simp [Entity.isPlayer])
        | bullet _ => rw [hobj] at hk; exact absurd hk (by simp [Entity.isPlayer])
        | obstacle _ => rw [hobj] at hk; exact absurd hk (by simp [Entity.isPlayer])
        | healthPickup _ => rw [hobj] at hk; exact absurd hk (by simp [Entity.isPlayer])
        | foreign _ => rw [hobj] at hk; exact absurd hk (by simp [Entity.isPlayer])
      have hne : other ≠ h := by
        intro e
        rw [e, hh] at hpl
        exact Entity.noConfusion hpl
      rw [OnTriggerEnter_player h other w hp pl hh ha hpl]
      refine Evolves_update2 w _ other h _ _ rfl hne ?_ ?_ ?_ ?_
      · rw [hpl]; rfl
      · rw [hh]; rfl
      · intro bl hbl
        rw [hpl] at hbl
        exact Entity.noConfusion hbl
      · intro bl hbl
        rw [hh] at hbl
        exact Entity.noConfusion hbl

theorem entityTrigger_evolves {β : Type} (t c : Ref) (w : World β) :
    World.Evolves [c, t] w (entityTriggerable.OnTriggerEnter t c w) := by
  cases ht : w.objects t with
  | healthPickup hp =>
    have : entityTriggerable.OnTriggerEnter t c w = HealthPickup.OnTriggerEnter t c w := by
      simp [entityTriggerable, ht]
    rw [this]
    exact OnTriggerEnter_evolves t c w hp ht
  | player _ =>
    have : entityTriggerable.OnTriggerEnter t c w = w := by simp [entityTriggerable, ht]
    rw [this]; exact Evolves_refl _ w
  | enemy _ =>
    have : entityTriggerable.OnTriggerEnter t c w = w := by simp [entityTriggerable, ht]
    rw [this]; exact Evolves_refl _ w
  | bullet _ =>
    have : entityTriggerable.OnTriggerEnter t c w = w := by simp [entityTriggerable, ht]
    rw [this]; exact Evolves_refl _ w
  | obstacle _ =>
    have : entityTriggerable.OnTriggerEnter t c w = w := by simp [entityTriggerable, ht]
    rw [this]; exact Evolves_refl _ w
  | foreign _ =>
    have : entityTriggerable.OnTriggerEnter t c w = w := by simp [entityTriggerable, ht]
    rw [this]; exact Evolves_refl _ w

theorem cleanupEntities_some {β : Type} (g : SceneState β) :
    ∃ r, WorldScene.cleanupEntities g = some r ∧ r.1.world = g.world ∧
      r.1.gs.player = g.gs.player := by
  have h1 := fun acc => cleanupLoop_eq
    (fun bullet => !((World.bulletAt bullet).get g.world).IsExpired)
    CollisionSystem.UnregisterCollidable
    (fun reg x => ⟨reg.collidables.erase x⟩) UnregisterCollidable_eq_erase g.gs.bullets acc
  have h2 := fun acc => cleanupLoop_eq
    (fun e => ((World.enemyAt e).get g.world).IsAlive) CollisionSystem.UnregisterCollidable
    (fun reg x => ⟨reg.collidables.erase x⟩) UnregisterCollidable_eq_erase g.gs.enemies acc
  have h3 := fun acc => cleanupLoop_eq
    (fun h => ((World.pickupAt h).get g.world).IsActive) TriggerSystem.UnregisterTrigger
    (fun reg x => ⟨reg.triggers.erase x, reg.collidables⟩) UnregisterTrigger_eq_erase
    g.gs.healthPickups acc
  unfold WorldScene.cleanupEntities
  simp only [h1, h2, h3]
  exact ⟨_, rfl, rfl, rfl⟩

/-! ## The dead player in the frame loop -/

theorem dead_player_inactive (pl : Player) (hdead : pl.Health ≤ 0) :
    (Entity.player pl).IsActive = false := by
  simp [Entity.IsActive, Player.IsActive, Player.IsAlive, hdead]

theorem collision_dead_player {β : Type} (B : Subject (World β))
    (hquiet : ∀ x ev u, (B.Notify x ev u).1.objects = u.objects)
    (cs : CollisionSystem) (w : World β) (p : Ref) (pl : Player)
    (hp : w.objects p = .player pl) (hdead : pl.Health ≤ 0)
    (hreal : ∀ r ∈ cs.collidables, (w.objects r).isForeign = false) :
    (∃ w2, (CollisionSystem.Update (gameCollidable B) cs (some w)).1 = some w2 ∧
      (∀ r, (w2.objects r).kind = (w.objects r).kind) ∧ w2.objects p = .player pl) ∧
    ∀ c ∈ (CollisionSystem.Update (gameCollidable B) cs (some w)).2, c.1 ≠ p ∧ c.2 ≠ p := by
  refine collision_Update_invariant (gameCollidable B) cs
    (fun st => (∃ w2, st.1 = some w2 ∧
      (∀ r, (w2.objects r).kind = (w.objects r).kind) ∧ w2.objects p = .player pl) ∧
      ∀ c ∈ st.2, c.1 ≠ p ∧ c.2 ≠ p) (some w) ⟨⟨w, rfl, fun _ => rfl, hp⟩, by simp⟩ ?_
  rintro a b st ha hb ⟨⟨w1, hw1, hk1, hp1⟩, hlog⟩ hsc
  obtain ⟨_, haa, hba, _⟩ := (shouldCollide_eq_true_iff _ _ _ _).mp hsc
  rw [hw1] at haa hba
  have hap : a ≠ p := by
    intro h
    rw [h] at haa
    simp only [gameCollidable] at haa
    rw [hp1, dead_player_inactive pl hdead] at haa
    exact absurd haa (by simp)
  have hbp : b ≠ p := by
    intro h
    rw [h] at hba
    simp only [gameCollidable] at hba
    rw [hp1, dead_player_inactive pl hdead] at hba
    exact absurd hba (by simp)
  have hra : (w1.objects a).isForeign = false := by
    rw [kind_isForeign _ _ (hk1 a)]; exact hreal a ha
  have hrb : (w1.objects b).isForeign = false := by
    rw [kind_isForeign _ _ (hk1 b)]; exact hreal b hb
  obtain ⟨w2, h2, hev2, _⟩ := dispatch_evolves B a b w1 hquiet hra hrb
  have hra2 : (w2.objects a).isForeign = false := by
    rw [kind_isForeign _ _ (hev2.1 a)]; exact hra
  have hrb2 : (w2.objects b).isForeign = false := by
    rw [kind_isForeign _ _ (hev2.1 b)]; exact hrb
  obtain ⟨w3, h3, hev3, _⟩ := dispatch_evolves B b a w2 hquiet hrb2 hra2
  refine ⟨⟨w3, ?_, ?_, ?_⟩, ?_⟩
  · simp only [gameCollidable, hw1, Option.some_bind, h2, h3]
  · intro r
    rw [hev3.1 r, hev2.1 r, hk1 r]
  · rw [hev3.2.1 p (by simp [Ne.symm hap, Ne.symm hbp]),
      hev2.2.1 p (by simp [Ne.symm hap, Ne.symm hbp]), hp1]
  · intro c hc
    simp only [List.mem_append, List.mem_cons, List.mem_singleton, List.not_mem_nil,
      or_false] at hc
    rcases hc with hc | hc | hc
    · exact hlog c hc
    · rw [hc]; exact ⟨hap, hbp⟩
    · rw [hc]; exact ⟨hbp, hap⟩

theorem trigger_dead_player {β : Type} (cb : Ref → Ref → World β → World β)
    (ts : TriggerSystem) (w : World β) (p : Ref) (pl : Player)
    (hp : w.objects p = .player pl) (hdead : pl.Health ≤ 0) :
    ((∀ r, ((TriggerSystem.Update entityTriggerable (entityCollidable cb) ts w).1.objects r).kind
        = (w.objects r).kind) ∧
      (TriggerSystem.Update entityTriggerable (entityCollidable cb) ts w).1.objects p
        = .player pl) ∧
    ∀ c ∈ (TriggerSystem.Update entityTriggerable (entityCollidable cb) ts w).2, c.2 ≠ p := by
  refine trigger_Update_invariant entityTriggerable (entityCollidable cb) ts
    (fun st => ((∀ r, (st.1.objects r).kind = (w.objects r).kind) ∧
      st.1.objects p = .player pl) ∧ ∀ c ∈ st.2, c.2 ≠ p) w
    ⟨⟨fun _ => rfl, hp⟩, by simp⟩ ?_
  rintro t c st ⟨⟨hk1, hp1⟩, hlog⟩ hact
  have hcp : c ≠ p := by
    intro h
    rw [h] at hact
    simp only [entityCollidable] at hact
    rw [hp1, dead_player_inactive pl hdead] at hact
    exact absurd hact (by simp)
  have hlog2 : ∀ x ∈ st.2 ++ [(t, c)], x.2 ≠ p := by
    intro x hx
    simp only [List.mem_append, List.mem_singleton] at hx
    rcases hx with hx | hx
    · exact hlog x hx
    · rw [hx]; exact hcp
  by_cases htp : t = p
  · have hid : entityTriggerable.OnTriggerEnter t c st.1 = st.1 := by
      simp [entityTriggerable, htp, hp1]
    rw [hid]
    exact ⟨⟨hk1, hp1⟩, hlog2⟩
  · have hev := entityTrigger_evolves t c st.1
    refine ⟨⟨?_, ?_⟩, hlog2⟩
    · intro r
      rw [hev.1 r, hk1 r]
    · rw [hev.2.1 p (by simp [Ne.symm hcp, Ne.symm htp]), hp1]

theorem updateEntities_dead_player {β : Type} (sqrt : float32 → float32)
    (playerUpdate : Ref → float32 → SceneState β → Option (SceneState β))
    (deltaTime : float32) (g : SceneState β) (p : Ref) (pl : Player)
    (hgp : g.gs.player = some p) (hp : g.world.objects p = .player pl) (hdead : pl.Health ≤ 0)
    (henemies : ∀ e ∈ g.gs.enemies, ∃ en, g.world.objects e = .enemy en)
    (hbullets : ∀ b ∈ g.gs.bullets, ∃ bl, g.world.objects b = .bullet bl) :
    ∃ w1, WorldScene.updateEntities sqrt playerUpdate deltaTime g = some { g with world := w1 } ∧
      (∀ r, (w1.objects r).kind = (g.world.objects r).kind) ∧ w1.objects p = .player pl := by
  have hE : (fun w1 : World β => (∀ r, (w1.objects r).kind = (g.world.objects r).kind) ∧
      w1.objects p = .player pl)
      (g.gs.enemies.foldl (fun w enemy => Enemy.Update sqrt enemy deltaTime g.gs.player w)
        g.world) := by
    refine foldl_invariant_mem (fun w1 : World β => (∀ r, (w1.objects r).kind = (g.world.objects r).kind) ∧
      w1.objects p = .player pl) _ g.gs.enemies g.world
      ⟨fun _ => rfl, hp⟩ ?_
    rintro w e he ⟨hk, hpw⟩
    obtain ⟨en, hen⟩ := henemies e he
    obtain ⟨en2, hen2⟩ := kind_enemy (w.objects e) (by rw [hk e, hen]; rfl)
    have hev := Enemy_Update_evolves sqrt e deltaTime g.gs.player w en2 hen2
    have hne : p ≠ e := by
      intro h
      rw [h, hen2] at hpw
      exact Entity.noConfusion hpw
    exact ⟨fun r => by rw [hev.1 r, hk r], by rw [hev.2.1 p (by simp [hne]), hpw]⟩
  have hB : (fun w1 : World β => (∀ r, (w1.objects r).kind = (g.world.objects r).kind) ∧
      w1.objects p = .player pl)
      (g.gs.bullets.foldl (fun w bullet => Bullet.Update (World.bulletAt bullet) deltaTime w)
        (g.gs.enemies.foldl (fun w enemy => Enemy.Update sqrt enemy deltaTime g.gs.player w)
          g.world)) := by
    refine foldl_invariant_mem (fun w1 : World β => (∀ r, (w1.objects r).kind = (g.world.objects r).kind) ∧
      w1.objects p = .player pl) _ g.gs.bullets _ hE ?_
    rintro w b hb ⟨hk, hpw⟩
    obtain ⟨bl, hbl⟩ := hbullets b hb
    obtain ⟨bl2, hbl2⟩ := kind_bullet (w.objects b) (by rw [hk b, hbl]; rfl)
    have hev := Bullet_Update_evolves b deltaTime w bl2 hbl2
    have hne : p ≠ b := by
      intro h
      rw [h, hbl2] at hpw
      exact Entity.noConfusion hpw
    exact ⟨fun r => by rw [hev.1 r, hk r], by rw [hev.2.1 p (by simp [hne]), hpw]⟩
  have hH : (fun w1 : World β => (∀ r, (w1.objects r).kind = (g.world.objects r).kind) ∧
      w1.objects p = .player pl)
      (g.gs.healthPickups.foldl (fun w pickup => HealthPickup.Update pickup deltaTime w)
        (g.gs.bullets.foldl (fun w bullet => Bullet.Update (World.bulletAt bullet) deltaTime w)
          (g.gs.enemies.foldl (fun w enemy => Enemy.Update sqrt enemy deltaTime g.gs.player w)
            g.world))) := by
    refine foldl_invariant (fun w1 : World β => (∀ r, (w1.objects r).kind = (g.world.objects r).kind) ∧
      w1.objects p = .player pl) _ g.gs.healthPickups _ hB ?_
    intro w _ hw
    exact hw
  refine ⟨_, ?_, hH⟩
  unfold WorldScene.updateEntities
  simp only [hgp]
  have hal : ((World.playerAt p).get
      (g.gs.healthPickups.foldl (fun w pickup => HealthPickup.Update pickup deltaTime w)
        (g.gs.bullets.foldl (fun w bullet => Bullet.Update (World.bulletAt bullet) deltaTime w)
          (g.gs.enemies.foldl (fun w enemy => Enemy.Update sqrt enemy deltaTime (some p) w)
            g.world)))).IsAlive = false := by
    rw [hgp] at hH
    simp [World.playerAt, hH.2, Player.IsAlive, hdead]
  rw [hal]
  simp

/-- C38: a dead player is inert in the frame loop.  Let the scene hold the player `p`, whose
health is not positive, let its list of enemies hold enemies and its list of bullets hold
bullets, let no object of another type be registered with the collision system, and let the
event bus leave the objects alone.  Then `WorldScene.Update(dt)` returns, for every `math.Sqrt`
and whatever `Player.Update` would do, and after it the player record (health, position and
all other fields) is what it was; `updateEntities` skips the player, no collision callback of
the frame has the player as receiver or as argument, and no trigger callback has it as
argument. -/
theorem dead_player_inert {β : Type} (B : Subject (World β)) (sqrt : float32 → float32)
    (playerUpdate : Ref → float32 → SceneState β → Option (SceneState β))
    (deltaTime : float32) (g : SceneState β) (p : Ref) (pl : Player)
    (hquiet : ∀ x ev u, (B.Notify x ev u).1.objects = u.objects)
    (hgp : g.gs.player = some p) (hp : g.world.objects p = .player pl) (hdead : pl.Health ≤ 0)
    (henemies : ∀ e ∈ g.gs.enemies, ∃ en, g.world.objects e = .enemy en)
    (hbullets : ∀ b ∈ g.gs.bullets, ∃ bl, g.world.objects b = .bullet bl)
    (hreal : ∀ r ∈ g.Collision.collidables, (g.world.objects r).isForeign = false) :
    (∃ g2, WorldScene.Update B sqrt playerUpdate deltaTime g = some g2 ∧
      g2.world.objects p = .player pl ∧ g2.gs.player = some p) ∧
    (g.gs.paused = false →
      ∃ w1 w2, WorldScene.updateEntities sqrt playerUpdate deltaTime g
          = some { g with world := w1 } ∧
        w1.objects p = .player pl ∧
        (CollisionSystem.Update (gameCollidable B) g.Collision (some w1)).1 = some w2 ∧
        (∀ c ∈ (CollisionSystem.Update (gameCollidable B) g.Collision (some w1)).2,
          c.1 ≠ p ∧ c.2 ≠ p) ∧
        w2.objects p = .player pl ∧
        (∀ c ∈ (TriggerSystem.Update entityTriggerable (entityCollidable (fun _ _ u => u))
          g.Triggers w2).2, c.2 ≠ p)) := by
  obtain ⟨w1, hu, hk1, hp1⟩ := updateEntities_dead_player sqrt playerUpdate deltaTime g p pl
    hgp hp hdead henemies hbullets
  obtain ⟨⟨w2, hc, hk2, hp2⟩, hclog⟩ := collision_dead_player B hquiet g.Collision w1 p pl hp1
    hdead (fun r hr => by rw [kind_isForeign _ _ (hk1 r)]; exact hreal r hr)
  obtain ⟨⟨hk3, hp3⟩, htlog⟩ := trigger_dead_player (fun _ _ u => u) g.Triggers w2 p pl hp2 hdead
  constructor
  · unfold WorldScene.Update
    cases hpa : g.gs.paused with
    | true => exact ⟨g, by simp, hp, hgp⟩
    | false =>
      obtain ⟨r, hr, hrw, hrp⟩ := cleanupEntities_some
        { g with world := (TriggerSystem.Update entityTriggerable
            (entityCollidable (fun _ _ u => u)) g.Triggers w2).1 }
      refine ⟨r.1, ?_, ?_, ?_⟩
      · simp only [hu, hc, hr]
        simp
      · rw [hrw]
        exact hp3
      · rw [hrp]
        exact hgp
  · intro _
    exact ⟨w1, w2, hu, hp1, hc, hclog, hp2, htlog⟩

theorem dead_player_inert_witness :
    ∃ g2, WorldScene.Update worldEventBus id (fun _ _ _ => none) (1 / 60) deadPlayerScene
        = some g2 ∧
      g2.world.objects 0 = .player (integrationPlayer 0) ∧ g2.gs.player = some 0 :=
  (dead_player_inert worldEventBus id (fun _ _ _ => none) (1 / 60) deadPlayerScene 0
    (integrationPlayer 0) (fun _ _ _ => rfl) rfl rfl (by simp [integrationPlayer])
    (by
      intro e he
      simp only [deadPlayerScene, List.mem_singleton] at he
      subst he
      exact ⟨_, rfl⟩)
    (by
      intro b hb
      simp [deadPlayerScene] at hb)
    (by
      intro r hr
      simp only [deadPlayerScene, List.mem_cons, List.mem_singleton, List.not_mem_nil,
        or_false] at hr
      rcases hr with rfl | rfl <;> rfl)).1

/-! ## A bullet hits once -/

theorem kind_obstacle (e : Entity) (h : e.kind = 3) : ∃ ob, e = .obstacle ob := by
  cases e <;> simp [Entity.kind] at h
  exact ⟨_, rfl⟩

theorem kind_tags (e : Entity) (h : e.kind = 1 ∨ e.kind = 3) :
    e.GetCollisionTags = ["enemy"] ∨ e.GetCollisionTags = ["obstacle"] := by
  cases e <;> simp [Entity.kind] at h <;>
    simp [Entity.GetCollisionTags, Enemy.GetCollisionTags, Obstacle.GetCollisionTags]

theorem bullet_partner (e : Entity) (hreal : e.isForeign = false)
    (h : ∃ t ∈ e.GetCollisionTags, RuleAllows "bullet" t) : e.kind = 1 ∨ e.kind = 3 := by
  obtain ⟨t, ht, hr⟩ := h
  cases e <;> simp [Entity.GetCollisionTags, Player.GetCollisionTags, Enemy.GetCollisionTags,
    Bullet.GetCollisionTags, Obstacle.GetCollisionTags, HealthPickup.GetCollisionTags,
    Entity.isForeign, Entity.kind] at hreal ht ⊢ <;>
    (subst ht; simp [RuleAllows] at hr)

theorem callsOf_append (b : Ref) (l1 l2 : List Call) :
    callsOf b (l1 ++ l2) = callsOf b l1 ++ callsOf b l2 := by
  simp [callsOf]

theorem callsOf_pair_left (b y : Ref) (h : y ≠ b) : callsOf b [(b, y), (y, b)] = [(b, y)] := by
  simp [callsOf, h]

theorem callsOf_pair_right (b x : Ref) (h : x ≠ b) : callsOf b [(x, b), (b, x)] = [(b, x)] := by
  simp [callsOf, h]

theorem callsOf_pair_none (b x y : Ref) (hx : x ≠ b) (hy : y ≠ b) :
    callsOf b [(x, y), (y, x)] = [] := by
  simp [callsOf, hx, hy]

theorem Evolves_inactive {β : Type} (rs : List Ref) (w w2 : World β) (b : Ref)
    (hev : World.Evolves rs w w2) (hk : (w.objects b).kind = 2)
    (hi : (w.objects b).IsActive = false) : (w2.objects b).IsActive = false := by
  obtain ⟨bl, hbl⟩ := kind_bullet _ hk
  refine hev.2.2 b bl hbl ?_
  rw [hbl] at hi
  exact hi

theorem collision_bullet_once {β : Type} (B : Subject (World β))
    (hquiet : ∀ x ev u, (B.Notify x ev u).1.objects = u.objects)
    (cs : CollisionSystem) (w : World β) (b : Ref) (bl : Bullet)
    (hb : w.objects b = .bullet bl)
    (hreal : ∀ r ∈ cs.collidables, (w.objects r).isForeign = false) :
    ∃ w2, (CollisionSystem.Update (gameCollidable B) cs (some w)).1 = some w2 ∧
      (∀ r, (w2.objects r).kind = (w.objects r).kind) ∧
      (∀ c ∈ callsOf b (CollisionSystem.Update (gameCollidable B) cs (some w)).2,
        (w.objects c.2).kind = 1 ∨ (w.objects c.2).kind = 3) ∧
      ((callsOf b (CollisionSystem.Update (gameCollidable B) cs (some w)).2 = [] ∧
          (bl.Active = false → (w2.objects b).IsActive = false)) ∨
        ((callsOf b (CollisionSystem.Update (gameCollidable B) cs (some w)).2).length = 1 ∧
          (w2.objects b).IsActive = false ∧ bl.Active = true)) := by
  have hkb : (w.objects b).kind = 2 := by rw [hb]; rfl
  refine collision_Update_invariant (gameCollidable B) cs
    (fun st => ∃ w2, st.1 = some w2 ∧
      (∀ r, (w2.objects r).kind = (w.objects r).kind) ∧
      (∀ c ∈ callsOf b st.2, (w.objects c.2).kind = 1 ∨ (w.objects c.2).kind = 3) ∧
      ((callsOf b st.2 = [] ∧ (bl.Active = false → (w2.objects b).IsActive = false)) ∨
        ((callsOf b st.2).length = 1 ∧ (w2.objects b).IsActive = false ∧ bl.Active = true)))
    (some w) ⟨w, rfl, fun _ => rfl, by simp [callsOf], Or.inl ⟨rfl, fun h => by rw [hb]; exact h⟩⟩
    ?_
  rintro x y st hx hy ⟨w1, hw1, hk1, hpart, hcnt⟩ hsc
  obtain ⟨hxy, hxa, hya, tx, htx, ty, hty, hrule⟩ := (shouldCollide_eq_true_iff _ _ _ _).mp hsc
  rw [hw1] at hxa hya htx hty
  simp only [gameCollidable] at hxa hya htx hty
  have hrx : (w1.objects x).isForeign = false := by
    rw [kind_isForeign _ _ (hk1 x)]; exact hreal x hx
  have hry : (w1.objects y).isForeign = false := by
    rw [kind_isForeign _ _ (hk1 y)]; exact hreal y hy
  obtain ⟨w2, h2, hev2, hbul2⟩ := dispatch_evolves B x y w1 hquiet hrx hry
  have hrx2 : (w2.objects x).isForeign = false := by
    rw [kind_isForeign _ _ (hev2.1 x)]; exact hrx
  have hry2 : (w2.objects y).isForeign = false := by
    rw [kind_isForeign _ _ (hev2.1 y)]; exact hry
  obtain ⟨w3, h3, hev3, hbul3⟩ := dispatch_evolves B y x w2 hquiet hry2 hrx2
  have hkb1 : (w1.objects b).kind = 2 := by rw [hk1 b]; exact hkb
  have hkb2 : (w2.objects b).kind = 2 := by rw [hev2.1 b]; exact hkb1
  have hk3 : ∀ r, (w3.objects r).kind = (w.objects r).kind := by
    intro r
    rw [hev3.1 r, hev2.1 r, hk1 r]
  have hkeep : (w1.objects b).IsActive = false → (w3.objects b).IsActive = false := by
    intro hi
    exact Evolves_inactive _ w2 w3 b hev3 hkb2 (Evolves_inactive _ w1 w2 b hev2 hkb1 hi)
  have hres : (gameCollidable B).OnCollision y x ((gameCollidable B).OnCollision x y st.1)
      = some w3 := by
    simp only [gameCollidable, hw1, Option.some_bind, h2, h3]
  refine ⟨w3, hres, hk3, ?_, ?_⟩
  · intro c hc
    rw [callsOf_append] at hc
    rcases List.mem_append.mp hc with hc | hc
    · exact hpart c hc
    · by_cases hxb : x = b
      · rw [hxb, callsOf_pair_left b y (fun h => hxy (hxb.trans h.symm))] at hc
        rw [List.mem_singleton] at hc
        rw [hc, ← hk1 y]
        obtain ⟨bl1, hbl1⟩ := kind_bullet _ hkb1
        rw [hxb, hbl1] at htx
        simp only [Entity.GetCollisionTags, Bullet.GetCollisionTags, List.mem_singleton] at htx
        rw [htx] at hrule
        exact bullet_partner _ hry ⟨ty, hty, hrule⟩
      · by_cases hyb : y = b
        · rw [hyb, callsOf_pair_right b x hxb] at hc
          rw [List.mem_singleton] at hc
          rw [hc, ← hk1 x]
          obtain ⟨bl1, hbl1⟩ := kind_bullet _ hkb1
          rw [hyb, hbl1] at hty
          simp only [Entity.GetCollisionTags, Bullet.GetCollisionTags, List.mem_singleton] at hty
          rw [hty] at hrule
          exact bullet_partner _ hrx ⟨tx, htx, RuleAllows_symm hrule⟩
        · rw [callsOf_pair_none b x y hxb hyb] at hc
          exact absurd hc (List.not_mem_nil _)
  · by_cases hxb : x = b
    · have hyb : y ≠ b := fun h => hxy (hxb.trans h.symm)
      have hact : (w1.objects b).IsActive = true := by rw [← hxb]; exact hxa
      rcases hcnt with ⟨h0, hin⟩ | ⟨_, hin, _⟩
      · right
        obtain ⟨bl1, hbl1⟩ := kind_bullet _ hkb1
        have hpk : (w1.objects y).kind = 1 ∨ (w1.objects y).kind = 3 := by
          rw [hxb, hbl1] at htx
          simp only [Entity.GetCollisionTags, Bullet.GetCollisionTags, List.mem_singleton] at htx
          rw [htx] at hrule
          exact bullet_partner _ hry ⟨ty, hty, hrule⟩
        have hpart2 : (∃ en, w1.objects y = .enemy en) ∨ (∃ ob, w1.objects y = .obstacle ob) :=
          hpk.elim (fun h => Or.inl (kind_enemy _ h)) (fun h => Or.inr (kind_obstacle _ h))
        have hi2 : (w2.objects b).IsActive = false := by
          have := hbul2 bl1 (by rw [hxb]; exact hbl1) hpart2
          rw [hxb] at this
          exact this
        refine ⟨?_, Evolves_inactive _ w2 w3 b hev3 hkb2 hi2, ?_⟩
        · rw [callsOf_append, h0, hxb, callsOf_pair_left b y hyb]
          rfl
        · cases ha : bl.Active with
          | true => rfl
          | false =>
            rw [hin ha] at hact
            exact absurd hact (by simp)
      · rw [hin] at hact
        exact absurd hact (by simp)
    · by_cases hyb : y = b
      · have hact : (w1.objects b).IsActive = true := by rw [← hyb]; exact hya
        rcases hcnt with ⟨h0, hin⟩ | ⟨_, hin, _⟩
        · right
          obtain ⟨bl1, hbl1⟩ := kind_bullet _ hkb1
          obtain ⟨bl2, hbl2⟩ := kind_bullet _ hkb2
          have hpk : (w1.objects x).kind = 1 ∨ (w1.objects x).kind = 3 := by
            rw [hyb, hbl1] at hty
            simp only [Entity.GetCollisionTags, Bullet.GetCollisionTags, List.mem_singleton]
              at hty
            rw [hty] at hrule
            exact bullet_partner _ hrx ⟨tx, htx, RuleAllows_symm hrule⟩
          have hpk2 : (w2.objects x).kind = 1 ∨ (w2.objects x).kind = 3 := by
            rw [hev2.1 x]; exact hpk
          have hpart2 : (∃ en, w2.objects x = .enemy en) ∨ (∃ ob, w2.objects x = .obstacle ob) :=
            hpk2.elim (fun h => Or.inl (kind_enemy _ h)) (fun h => Or.inr (kind_obstacle _ h))
          have hi3 : (w3.objects b).IsActive = false := by
            have := hbul3 bl2 (by rw [hyb]; exact hbl2) hpart2
            rw [hyb] at this
            exact this
          refine ⟨?_, hi3, ?_⟩
          · rw [callsOf_append, h0, hyb, callsOf_pair_right b x hxb]
            rfl
          · cases ha : bl.Active with
            | true => rfl
            | false =>
              rw [hin ha] at hact
              exact absurd hact (by simp)
        · rw [hin] at hact
          exact absurd hact (by simp)
      · rw [callsOf_append, callsOf_pair_none b x y hxb hyb, List.append_nil]
        rcases hcnt with ⟨h0, hin⟩ | ⟨h1, hin, ha⟩
        · exact Or.inl ⟨h0, fun h => hkeep (hin h)⟩
        · exact Or.inr ⟨h1, hkeep hin, ha⟩

theorem bulletFrames_once {β : Type} (B : Subject (World β))
    (hquiet : ∀ x ev u, (B.Notify x ev u).1.objects = u.objects) (b : Ref) :
    ∀ (frames : List (float32 × CollisionSystem)) (w : World β) (bl : Bullet),
      w.objects b = .bullet bl →
      (∀ f ∈ frames, ∀ r ∈ f.2.collidables, (w.objects r).isForeign = false) →
      ∃ w2, (bulletFrames B b frames (some w)).1 = some w2 ∧
        (∀ c ∈ callsOf b (bulletFrames B b frames (some w)).2,
          (w.objects c.2).kind = 1 ∨ (w.objects c.2).kind = 3) ∧
        (callsOf b (bulletFrames B b frames (some w)).2).length ≤ 1 ∧
        (bl.Active = false → callsOf b (bulletFrames B b frames (some w)).2 = []) := by
  intro frames
  induction frames with
  | nil =>
    intro w bl _ _
    exact ⟨w, rfl, by simp [bulletFrames, callsOf], by simp [bulletFrames, callsOf],
      fun _ => by simp [bulletFrames, callsOf]⟩
  | cons frame rest ih =>
    intro w bl hb hreal
    have hkb : (w.objects b).kind = 2 := by rw [hb]; rfl
    have hev1 := Bullet_Update_evolves b frame.1 w bl hb
    obtain ⟨bl1, hbl1⟩ := kind_bullet ((Bullet.Update (World.bulletAt b) frame.1 w).objects b)
      (by rw [hev1.1 b]; exact hkb)
    obtain ⟨w2, h2, hk2, hpart2, hcnt2⟩ := collision_bullet_once B hquiet frame.2
      (Bullet.Update (World.bulletAt b) frame.1 w) b bl1 hbl1
      (fun r hr => by
        rw [kind_isForeign _ _ (hev1.1 r)]
        exact hreal frame (List.mem_cons_self _ _) r hr)
    have hk02 : ∀ r, (w2.objects r).kind = (w.objects r).kind := by
      intro r
      rw [hk2 r, hev1.1 r]
    obtain ⟨bl2, hbl2⟩ := kind_bullet (w2.objects b) (by rw [hk02 b]; exact hkb)
    obtain ⟨w3, h3, hpart3, hlen3, hin3⟩ := ih w2 bl2 hbl2
      (fun f hf r hr => by
        rw [kind_isForeign _ _ (hk02 r)]
        exact hreal f (List.mem_cons_of_mem _ hf) r hr)
    have hin1 : bl.Active = false → bl1.Active = false := by
      intro h
      have := hev1.2.2 b bl hb h
      rw [hbl1] at this
      exact this
    have hin2 : (w2.objects b).IsActive = false → bl2.Active = false := by
      intro h
      rw [hbl2] at h
      exact h
    have hrun : bulletFrames B b (frame :: rest) (some w) =
        ((bulletFrames B b rest (some w2)).1,
          (CollisionSystem.Update (gameCollidable B) frame.2
            (some (Bullet.Update (World.bulletAt b) frame.1 w))).2 ++
          (bulletFrames B b rest (some w2)).2) := by
      simp only [bulletFrames, Option.map_some']
      rw [h2]
    rw [hrun]
    refine ⟨w3, h3, ?_, ?_, ?_⟩
    · intro c hc
      rw [callsOf_append] at hc
      rcases List.mem_append.mp hc with hc | hc
      · have := hpart2 c hc
        rw [hev1.1 c.2] at this
        exact this
      · have := hpart3 c hc
        rw [hk02 c.2] at this
        exact this
    · rw [callsOf_append, List.length_append]
      rcases hcnt2 with ⟨h0, _⟩ | ⟨h1, hi, _⟩
      · rw [h0]
        simpa using hlen3
      · rw [h1, hin3 (hin2 hi)]
        simp
    · intro hbl
      rw [callsOf_append]
      rcases hcnt2 with ⟨h0, hi⟩ | ⟨_, _, ha⟩
      · rw [h0, hin3 (hin2 (hi (hin1 hbl)))]
        rfl
      · rw [hin1 hbl] at ha
        exact absurd ha (by simp)

/-- C37: a bullet hits at most once.  Let `b` point to a bullet, let the event bus leave the
objects alone, and let every registry hold entities of the game only (no object of another
type), in any order.  Then a single `CollisionSystem.Update` returns without a panic and invokes
`b.OnCollision` at most once, and so does the whole life of the bullet, a sequence of frames
in each of which `Bullet.Update` and then `CollisionSystem.Update` run: the log of all frames
holds at most one callback with receiver `b`.  The argument of such a callback is an enemy or
an obstacle and carries exactly one tag, so that the callback calls `Enemy.TakeDamage` at most
once; once it has run the bullet is inactive, and a bullet that is inactive at the start gets
no callback at all. -/
theorem bullet_hits_at_most_once {β : Type} (B : Subject (World β)) (b : Ref)
    (cs : CollisionSystem) (frames : List (float32 × CollisionSystem)) (w : World β)
    (bl : Bullet)
    (hquiet : ∀ x ev u, (B.Notify x ev u).1.objects = u.objects)
    (hb : w.objects b = .bullet bl)
    (hcs : ∀ r ∈ cs.collidables, (w.objects r).isForeign = false)
    (hframes : ∀ f ∈ frames, ∀ r ∈ f.2.collidables, (w.objects r).isForeign = false) :
    (∃ w2, (CollisionSystem.Update (gameCollidable B) cs (some w)).1 = some w2 ∧
      (callsOf b (CollisionSystem.Update (gameCollidable B) cs (some w)).2).length ≤ 1 ∧
      (∀ c ∈ callsOf b (CollisionSystem.Update (gameCollidable B) cs (some w)).2,
        ((w.objects c.2).GetCollisionTags = ["enemy"] ∨
          (w.objects c.2).GetCollisionTags = ["obstacle"]) ∧
        (w2.objects b).IsActive = false) ∧
      (bl.Active = false →
        callsOf b (CollisionSystem.Update (gameCollidable B) cs (some w)).2 = [])) ∧
    (∃ w2, (bulletFrames B b frames (some w)).1 = some w2 ∧
      (callsOf b (bulletFrames B b frames (some w)).2).length ≤ 1 ∧
      (∀ c ∈ callsOf b (bulletFrames B b frames (some w)).2,
        (w.objects c.2).GetCollisionTags = ["enemy"] ∨
          (w.objects c.2).GetCollisionTags = ["obstacle"]) ∧
      (bl.Active = false → callsOf b (bulletFrames B b frames (some w)).2 = [])) := by
  constructor
  · obtain ⟨w2, h2, _, hpart, hcnt⟩ := collision_bullet_once B hquiet cs w b bl hb hcs
    refine ⟨w2, h2, ?_, ?_, ?_⟩
    · rcases hcnt with ⟨h0, _⟩ | ⟨h1, _, _⟩
      · rw [h0]
        simp
      · rw [h1]
    · intro c hc
      refine ⟨kind_tags _ (hpart c hc), ?_⟩
      rcases hcnt with ⟨h0, _⟩ | ⟨_, hi, _⟩
      · rw [h0] at hc
        exact absurd hc (List.not_mem_nil _)
      · exact hi
    · intro hbl
      rcases hcnt with ⟨h0, _⟩ | ⟨_, _, ha⟩
      · exact h0
      · rw [hbl] at ha
        exact absurd ha (by simp)
  · obtain ⟨w2, h2, hpart, hlen, hin⟩ := bulletFrames_once B hquiet b frames w bl hb hframes
    exact ⟨w2, h2, hlen, fun c hc => kind_tags _ (hpart c hc), hin⟩

theorem bullet_hits_at_most_once_witness :
    (callsOf 0 (CollisionSystem.Update (gameCollidable worldEventBus) ⟨[1, 0, 2]⟩
        (some volleyWorld)).2).length ≤ 1 ∧
      (callsOf 0 (bulletFrames worldEventBus 0 [(1 / 60, ⟨[0, 1, 2]⟩), (1 / 60, ⟨[2, 0]⟩)]
        (some volleyWorld)).2).length ≤ 1 :=
  have h := bullet_hits_at_most_once worldEventBus 0 ⟨[1, 0, 2]⟩
    [(1 / 60, ⟨[0, 1, 2]⟩), (1 / 60, ⟨[2, 0]⟩)] volleyWorld
    (NewBullet ⟨0, 0, 0⟩ ⟨1, 0, 0⟩ 10 2 20) (fun _ _ _ => rfl) rfl
    (by
      intro r hr
      simp only [List.mem_cons, List.mem_singleton, List.not_mem_nil, or_false] at hr
      rcases hr with rfl | rfl | rfl <;> rfl)
    (by
      intro f hf r hr
      simp only [List.mem_cons, List.mem_singleton, List.not_mem_nil, or_false] at hf
      rcases hf with rfl | rfl <;>
        simp only [List.mem_cons, List.mem_singleton, List.not_mem_nil, or_false] at hr
      · rcases hr with rfl | rfl | rfl <;> rfl
      · rcases hr with rfl | rfl <;> rfl)
  ⟨h.1.choose_spec.2.1, h.2.choose_spec.2.1⟩

/-! ## Rounding to `float32`: the nearest binary32 number -/

theorem roundHalfEven_le (x : ℚ) : (roundHalfEven x : ℚ) ≤ x + 1 / 2 := by
  have h1 := Int.floor_le x
  have h2 := Int.lt_floor_add_one x
  unfold roundHalfEven
  split_ifs with ha hb hc
  · linarith
  · push_cast; linarith
  · linarith
  · push_cast
    have : x - ⌊x⌋ = 1 / 2 := le_antisymm (not_lt.mp hb) (not_lt.mp ha)
    linarith

theorem le_roundHalfEven (x : ℚ) : x - 1 / 2 ≤ (roundHalfEven x : ℚ) := by
  have h1 := Int.floor_le x
  have h2 := Int.lt_floor_add_one x
  unfold roundHalfEven
  split_ifs with ha hb hc
  · linarith
  · push_cast; linarith
  · have : x - ⌊x⌋ = 1 / 2 := le_antisymm (not_lt.mp hb) (not_lt.mp ha)
    linarith
  · push_cast; linarith

theorem roundHalfEven_near (x : ℚ) (n : ℤ) (h : |x - n| < 1 / 2) : roundHalfEven x = n := by
  have h1 := roundHalfEven_le x
  have h2 := le_roundHalfEven x
  have h3 := abs_lt.mp h
  have h4 : ((roundHalfEven x : ℤ) : ℚ) < (n : ℚ) + 1 := by linarith [h3.1, h3.2]
  have h5 : (n : ℚ) - 1 < ((roundHalfEven x : ℤ) : ℚ) := by linarith [h3.1, h3.2]
  have h6 : roundHalfEven x < n + 1 := by exact_mod_cast h4
  have h7 : n - 1 < roundHalfEven x := by exact_mod_cast h5
  omega

theorem F32_round_zero : F32.round 0 = 0 := by
  unfold F32.round
  simp [roundHalfEven]

theorem F32_round_subnormal (q : ℚ) (n : ℤ) (h2 : |q| < (2 : ℚ) ^ (-126 : ℤ))
    (hn : |q / (2 : ℚ) ^ (-149 : ℤ) - n| < 1 / 2) :
    F32.round q = n * (2 : ℚ) ^ (-149 : ℤ) := by
  rcases eq_or_lt_of_le (abs_nonneg q) with h0 | hpos
  · have hq : q = 0 := abs_eq_zero.mp h0.symm
    subst hq
    have hn0 : n = 0 := by
      rw [zero_div, zero_sub, abs_neg] at hn
      have h1 : |(n : ℚ)| < 1 := by linarith
      have h3 : |n| < 1 := by exact_mod_cast h1
      exact Int.abs_lt_one_iff.mp h3
    rw [hn0, F32_round_zero]
    simp
  · have hu : F32.ulpExp q = -149 := by
      unfold F32.ulpExp
      have hb : Int.log 2 |q| < -126 :=
        (Int.lt_zpow_iff_log_lt (by norm_num) hpos).mp (by exact_mod_cast h2)
      rw [max_eq_right (le_of_lt hb)]
      norm_num
    unfold F32.round
    rw [hu, roundHalfEven_near _ n hn]

theorem append_spec (grow : Nat → Nat → Nat) (m : BusMemory) (s : ObserverSlice)
    (xs : List (Option Ref)) (hlen : s.len ≤ (m.arrays s.array).length)
    (hcap : s.len + xs.length ≤ s.cap → s.cap = (m.arrays s.array).length)
    (hnext : s.len + xs.length ≤ s.cap → s.array < m.next) :
    (m.append grow s xs).1.observers = m.observers ∧
    m.next ≤ (m.append grow s xs).1.next ∧
    (m.append grow s xs).2.array < (m.append grow s xs).1.next ∧
    ((s.len + xs.length ≤ s.cap ∧ (m.append grow s xs).2.array = s.array) ∨
      (¬ s.len + xs.length ≤ s.cap ∧ (m.append grow s xs).2.array = m.next)) ∧
    (m.append grow s xs).2.len = s.len + xs.length ∧
    (m.append grow s xs).2.len ≤ (m.append grow s xs).2.cap ∧
    (m.append grow s xs).2.cap =
      ((m.append grow s xs).1.arrays (m.append grow s xs).2.array).length ∧
    ((m.append grow s xs).1.arrays (m.append grow s xs).2.array).take
        (m.append grow s xs).2.len = (m.arrays s.array).take s.len ++ xs ∧
    (∀ a, a ≠ (m.append grow s xs).2.array → (m.append grow s xs).1.arrays a = m.arrays a) := by
  unfold BusMemory.append
  by_cases h : s.len + xs.length ≤ s.cap
  · have hc := hcap h
    rw [if_pos h]
    refine ⟨rfl, le_refl _, hnext h, Or.inl ⟨h, rfl⟩, rfl, h, ?_, ?_, ?_⟩
    · simp only [Function.update_same, List.length_append, List.length_take, List.length_drop]
      omega
    · simp only [Function.update_same]
      have hl : (List.take s.len (m.arrays s.array) ++ xs).length = s.len + xs.length := by
        simp only [List.length_append, List.length_take]
        omega
      rw [List.take_append_of_le_length (by rw [hl]), List.take_of_length_le (by rw [hl])]
    · intro a ha
      exact Function.update_noteq ha _ _
  · rw [if_neg h]
    refine ⟨rfl, Nat.le_succ _, Nat.lt_succ_self _, Or.inr ⟨h, rfl⟩, rfl, le_max_left _ _, ?_, ?_,
      ?_⟩
    · simp only [Function.update_same, List.length_append, List.length_take,
        List.length_replicate]
      have := le_max_left (s.len + xs.length) (grow s.cap (s.len + xs.length))
      omega
    · simp only [Function.update_same]
      have hl : (List.take s.len (m.arrays s.array) ++ xs).length = s.len + xs.length := by
        simp only [List.length_append, List.length_take]
        omega
      rw [List.take_append_of_le_length (by rw [hl]), List.take_of_length_le (by rw [hl])]
    · intro a ha
      exact Function.update_noteq ha _ _

theorem scan_some (observer : Option Ref) :
    ∀ (l : List (Option Ref)) (k i : Nat), BusMemory.scan observer k l = some i →
      ∃ pre post, l = pre ++ observer :: post ∧ observer ∉ pre ∧ i = k + pre.length := by
  intro l
  induction l with
  | nil => intro k i h; simp [BusMemory.scan] at h
  | cons x rest ih =>
    intro k i h
    unfold BusMemory.scan at h
    by_cases hx : x = observer
    · rw [if_pos hx] at h
      refine ⟨[], rest, by simp [hx], by simp, ?_⟩
      simpa using (Option.some.inj h).symm
    · rw [if_neg hx] at h
      obtain ⟨pre, post, hl, hpre, hi⟩ := ih (k + 1) i h
      refine ⟨x :: pre, post, by simp [hl], ?_, ?_⟩
      · simp [hpre, Ne.symm hx]
      · simp only [List.length_cons]
        omega

theorem scan_none (observer : Option Ref) :
    ∀ (l : List (Option Ref)) (k : Nat), BusMemory.scan observer k l = none → observer ∉ l := by
  intro l
  induction l with
  | nil => intro k _; simp
  | cons x rest ih =>
    intro k h
    unfold BusMemory.scan at h
    by_cases hx : x = observer
    · rw [if_pos hx] at h
      exact absurd h (by simp)
    · rw [if_neg hx] at h
      simp [Ne.symm hx, ih (k + 1) h]

theorem erase_split (pre post : List (Option Ref)) (o : Option Ref) (hpre : o ∉ pre) :
    (pre ++ o :: post).erase o = pre ++ post := by
  rw [List.erase_append_right _ hpre, List.erase_cons_head]

theorem store_step (m r1 : BusMemory) (t : String) (v : Option ObserverSlice)
    (lst : List (Option Ref)) (touched : Nat) (hwf : m.WF)
    (ho : r1.observers = m.observers) (hn : m.next ≤ r1.next)
    (hv : ∀ sv, v = some sv → 0 < sv.len ∧ sv.len ≤ sv.cap ∧
      sv.cap = (r1.arrays sv.array).length ∧ sv.array < r1.next ∧
      (∀ x ∈ (r1.arrays sv.array).take sv.len, x ≠ none) ∧
      (r1.arrays sv.array).take sv.len = lst ∧ sv.array = touched)
    (hvn : v = none → lst = [])
    (hframe : ∀ a, a ≠ touched → r1.arrays a = m.arrays a)
    (hother : ∀ t2 s2, t2 ≠ t → m.observers t2 = some s2 → s2.array ≠ touched)
    (hpriv : ∀ a, m.Private a → a ≠ touched) :
    m.Step { r1 with observers := (Function.update r1.observers t v) }
      (Function.update m.observersOf t lst) := by
  have hlook : ∀ t2, t2 ≠ t →
      (Function.update r1.observers t v) t2 = m.observers t2 := by
    intro t2 h2
    rw [Function.update_noteq h2, ho]
  refine ⟨⟨?_, ?_⟩, ?_, hn, ?_⟩
  · intro t2 s2 h2
    by_cases ht : t2 = t
    · subst ht
      have h3 : v = some s2 := by simpa using h2
      obtain ⟨a1, a2, a3, a4, a5, _, _⟩ := hv s2 h3
      exact ⟨a1, a2, a3, a4, a5⟩
    · have h3 : m.observers t2 = some s2 := by rw [← hlook t2 ht]; exact h2
      obtain ⟨a1, a2, a3, a4, a5⟩ := hwf.1 t2 s2 h3
      have hfr : r1.arrays s2.array = m.arrays s2.array := hframe _ (hother t2 s2 ht h3)
      refine ⟨a1, a2, ?_, lt_of_lt_of_le a4 hn, ?_⟩
      · show s2.cap = (r1.arrays s2.array).length
        rw [hfr]; exact a3
      · show ∀ x ∈ (r1.arrays s2.array).take s2.len, x ≠ none
        rw [hfr]; exact a5
  · intro t1 t2 s1 s2 h1 h2 harr
    by_cases ht1 : t1 = t
    · by_cases ht2 : t2 = t
      · rw [ht1, ht2]
      · exfalso
        subst ht1
        have hv1 : v = some s1 := by simpa using h1
        have h3 : m.observers t2 = some s2 := by rw [← hlook t2 ht2]; exact h2
        exact hother t2 s2 ht2 h3 (by rw [← harr]; exact (hv s1 hv1).2.2.2.2.2.2)
    · by_cases ht2 : t2 = t
      · exfalso
        subst ht2
        have hv2 : v = some s2 := by simpa using h2
        have h3 : m.observers t1 = some s1 := by rw [← hlook t1 ht1]; exact h1
        exact hother t1 s1 ht1 h3 (by rw [harr]; exact (hv s2 hv2).2.2.2.2.2.2)
      · have h3 : m.observers t1 = some s1 := by rw [← hlook t1 ht1]; exact h1
        have h4 : m.observers t2 = some s2 := by rw [← hlook t2 ht2]; exact h2
        exact hwf.2 t1 t2 s1 s2 h3 h4 harr
  · funext t2
    by_cases ht : t2 = t
    · subst ht
      rw [Function.update_same]
      unfold BusMemory.observersOf
      simp only [Function.update_same]
      cases hvv : v with
      | none => exact (hvn hvv).symm
      | some sv => exact (hv sv hvv).2.2.2.2.2.1
    · rw [Function.update_noteq ht]
      unfold BusMemory.observersOf
      simp only [Function.update_noteq ht, ho]
      cases h3 : m.observers t2 with
      | none => rfl
      | some s2 =>
        show (r1.arrays s2.array).take s2.len = (m.arrays s2.array).take s2.len
        rw [hframe _ (hother t2 s2 ht h3)]
  · intro a ha
    refine ⟨⟨lt_of_lt_of_le ha.1 hn, ?_⟩, hframe a (hpriv a ha)⟩
    intro t2 s2 h2
    by_cases ht : t2 = t
    · subst ht
      have h3 : v = some s2 := by simpa using h2
      rw [(hv s2 h3).2.2.2.2.2.2]
      exact Ne.symm (hpriv a ha)
    · have h3 : m.observers t2 = some s2 := by rw [← hlook t2 ht]; exact h2
      exact ha.2 t2 s2 h3

theorem append_store (grow : Nat → Nat → Nat) (m : BusMemory) (t : String) (s : ObserverSlice)
    (xs : List (Option Ref)) (hwf : m.WF)
    (hs : (∃ s0, m.observers t = some s0 ∧ s.array = s0.array ∧ s.cap = s0.cap ∧
        s.len ≤ s0.len) ∨ (m.observers t = none ∧ s.cap = 0 ∧ s.len = 0 ∧ xs ≠ []))
    (hxs : ∀ x ∈ xs, x ≠ none) :
    (0 < s.len + xs.length →
      m.Step { (m.append grow s xs).1 with
          observers := (Function.update (m.append grow s xs).1.observers t
            (some (m.append grow s xs).2)) }
        (Function.update m.observersOf t ((m.arrays s.array).take s.len ++ xs))) ∧
    (m.Step { (m.append grow s xs).1 with
          observers := (Function.update (m.append grow s xs).1.observers t none) }
        (Function.update m.observersOf t [])) := by
  have hlen : s.len ≤ (m.arrays s.array).length := by
    rcases hs with ⟨s0, h0, ha, hc, hl⟩ | ⟨_, _, hl, _⟩
    · obtain ⟨_, h2, h3, _, _⟩ := hwf.1 t s0 h0
      rw [ha, ← h3]
      omega
    · omega
  have hin : s.len + xs.length ≤ s.cap → s.cap = (m.arrays s.array).length ∧
      s.array < m.next ∧ ∃ s0, m.observers t = some s0 ∧ s.array = s0.array := by
    intro h
    rcases hs with ⟨s0, h0, ha, hc, hl⟩ | ⟨hn, hc, hl, hne⟩
    · obtain ⟨_, h2, h3, h4, _⟩ := hwf.1 t s0 h0
      exact ⟨by rw [hc, ha, h3], by rw [ha]; exact h4, s0, h0, ha⟩
    · exfalso
      have : xs.length = 0 := by omega
      exact hne (List.length_eq_zero.mp this)
  have hold : ∀ x ∈ (m.arrays s.array).take s.len, x ≠ none := by
    rcases hs with ⟨s0, h0, ha, hc, hl⟩ | ⟨_, _, hl, _⟩
    · obtain ⟨_, _, _, _, h5⟩ := hwf.1 t s0 h0
      intro x hx
      apply h5 x
      rw [ha] at hx
      have : List.take s.len (m.arrays s0.array) =
          List.take s.len (List.take s0.len (m.arrays s0.array)) := by
        rw [List.take_take, min_eq_left hl]
      rw [this] at hx
      exact List.mem_of_mem_take hx
    · rw [hl]
      intro x hx
      simp at hx
  obtain ⟨ho, hn, hrn, hwhich, hl, hlc, hcl, htake, hframe⟩ :=
    append_spec grow m s xs hlen (fun h => (hin h).1) (fun h => (hin h).2.1)
  have hother : ∀ t2 s2, t2 ≠ t → m.observers t2 = some s2 →
      s2.array ≠ (m.append grow s xs).2.array := by
    intro t2 s2 ht h2 heq
    obtain ⟨_, _, _, h4, _⟩ := hwf.1 t2 s2 h2
    rcases hwhich with ⟨hip, harr⟩ | ⟨_, harr⟩
    · obtain ⟨_, _, s0, h0, ha⟩ := hin hip
      exact ht (hwf.2 t2 t s2 s0 h2 h0 (by rw [heq, harr, ha]))
    · rw [heq, harr] at h4
      exact lt_irrefl _ h4
  have hpriv : ∀ a, m.Private a → a ≠ (m.append grow s xs).2.array := by
    intro a ha heq
    rcases hwhich with ⟨hip, harr⟩ | ⟨_, harr⟩
    · obtain ⟨_, _, s0, h0, hs0⟩ := hin hip
      exact ha.2 t s0 h0 (by rw [← hs0, ← harr, heq])
    · rw [heq, harr] at ha
      exact lt_irrefl _ ha.1
  constructor
  · intro hpos
    refine store_step m _ t _ _ (m.append grow s xs).2.array hwf ho hn ?_ (by simp)
      hframe hother hpriv
    intro sv hsv
    have hsv2 : sv = (m.append grow s xs).2 := (Option.some.inj hsv).symm
    subst hsv2
    refine ⟨by rw [hl]; exact hpos, hlc, hcl, hrn, ?_, htake, rfl⟩
    rw [htake]
    intro x hx
    rcases List.mem_append.mp hx with hx | hx
    · exact hold x hx
    · exact hxs x hx
  · exact store_step m _ t none [] (m.append grow s xs).2.array hwf ho hn (by simp)
      (fun _ => rfl) hframe hother hpriv

theorem Step_refl (m : BusMemory) (hwf : m.WF) : m.Step m m.observersOf :=
  ⟨hwf, rfl, le_refl _, fun _ ha => ⟨ha, rfl⟩⟩

theorem Step_trans (m m2 m3 : BusMemory) (l2 l3 : String → List (Option Ref))
    (h1 : m.Step m2 l2) (h2 : m2.Step m3 l3) : m.Step m3 l3 := by
  refine ⟨h2.1, h2.2.1, le_trans h1.2.2.1 h2.2.2.1, ?_⟩
  intro a ha
  obtain ⟨p2, e2⟩ := h1.2.2.2 a ha
  obtain ⟨p3, e3⟩ := h2.2.2.2 a p2
  exact ⟨p3, by rw [e3, e2]⟩

theorem update_self_eq (f : String → List (Option Ref)) (t : String) :
    Function.update f t (f t) = f := Function.update_eq_self t f

theorem subscribeLocked_step (grow : Nat → Nat → Nat) (m : BusMemory) (t : String)
    (observer : Option Ref) (hwf : m.WF) :
    m.Step (m.subscribeLocked grow t observer).1
      ((BusAction.subscribe t observer).effect m.observersOf) := by
  cases observer with
  | none => exact Step_refl m hwf
  | some o =>
    have hs : (∃ s0, m.observers t = some s0 ∧
          ((m.observers t).getD BusMemory.nilSlice).array = s0.array ∧
          ((m.observers t).getD BusMemory.nilSlice).cap = s0.cap ∧
          ((m.observers t).getD BusMemory.nilSlice).len ≤ s0.len) ∨
        (m.observers t = none ∧ ((m.observers t).getD BusMemory.nilSlice).cap = 0 ∧
          ((m.observers t).getD BusMemory.nilSlice).len = 0 ∧ [some o] ≠ []) := by
      cases h : m.observers t with
      | none => exact Or.inr ⟨rfl, rfl, rfl, by simp⟩
      | some s0 => exact Or.inl ⟨s0, rfl, rfl, rfl, le_refl _⟩
    have h := (append_store grow m t ((m.observers t).getD BusMemory.nilSlice) [some o] hwf hs
      (by simp)).1 (by simp)
    have hl : (m.arrays ((m.observers t).getD BusMemory.nilSlice).array).take
        ((m.observers t).getD BusMemory.nilSlice).len = m.observersOf t := by
      unfold BusMemory.observersOf
      cases h0 : m.observers t with
      | none => simp [BusMemory.nilSlice]
      | some s0 => simp
    rw [hl] at h
    simpa [BusMemory.subscribeLocked, BusAction.effect] using h

theorem unsubscribeLocked_step (grow : Nat → Nat → Nat) (m : BusMemory) (t : String)
    (observer : Option Ref) (hwf : m.WF) :
    m.Step (m.unsubscribeLocked grow t observer).1
      ((BusAction.unsubscribe t observer).effect m.observersOf) := by
  have heff : (BusAction.unsubscribe t observer).effect m.observersOf =
      Function.update m.observersOf t ((m.observersOf t).erase observer) := rfl
  rw [heff]
  cases h0 : m.observers t with
  | none =>
    have he : m.observersOf t = [] := by simp [BusMemory.observersOf, h0]
    have hdef : (m.unsubscribeLocked grow t observer).1 = m := by
      simp [BusMemory.unsubscribeLocked, h0]
    have hk : (m.observersOf t).erase observer = m.observersOf t := by
      rw [he]; rfl
    rw [hdef, hk, update_self_eq]
    exact Step_refl m hwf
  | some s0 =>
    obtain ⟨w1, w2, w3, w4, w5⟩ := hwf.1 t s0 h0
    have he : m.observersOf t = (m.arrays s0.array).take s0.len := by
      simp [BusMemory.observersOf, h0]
    cases hsc : BusMemory.scan observer 0 ((m.arrays s0.array).take s0.len) with
    | none =>
      have hno := scan_none observer _ 0 hsc
      have hdef : (m.unsubscribeLocked grow t observer).1 = m := by
        have hlen : s0.len ≠ 0 := by omega
        simp [BusMemory.unsubscribeLocked, h0, hsc, BusMemory.dropEmpty, hlen]
      have hk : (m.observersOf t).erase observer = m.observersOf t := by
        rw [he]; exact List.erase_of_not_mem hno
      rw [hdef, hk, update_self_eq]
      exact Step_refl m hwf
    | some i =>
      obtain ⟨pre, post, hsplit, hpre, hi⟩ := scan_some observer _ 0 i hsc
      have hi2 : i = pre.length := by omega
      have hlen0 : s0.len = pre.length + 1 + post.length := by
        have := congrArg List.length hsplit
        simp only [List.length_take, List.length_append, List.length_cons] at this
        omega
      have hdrop : ((m.arrays s0.array).take s0.len).drop (i + 1) = post := by
        rw [hsplit, hi2]
        simp
      have htk : (m.arrays s0.array).take i = pre := by
        have : (m.arrays s0.array).take i = ((m.arrays s0.array).take s0.len).take i := by
          rw [List.take_take, min_eq_left (by omega)]
        rw [this, hsplit, hi2]
        simp
      have hpost : ∀ x ∈ post, x ≠ none := by
        intro x hx
        apply w5 x
        rw [hsplit]
        simp [hx]
      have hs : (∃ s1, m.observers t = some s1 ∧
          ({ s0 with len := i } : ObserverSlice).array = s1.array ∧
          ({ s0 with len := i } : ObserverSlice).cap = s1.cap ∧
          ({ s0 with len := i } : ObserverSlice).len ≤ s1.len) ∨
          (m.observers t = none ∧ ({ s0 with len := i } : ObserverSlice).cap = 0 ∧
            ({ s0 with len := i } : ObserverSlice).len = 0 ∧ post ≠ []) :=
        Or.inl ⟨s0, h0, rfl, rfl, by show i ≤ s0.len; omega⟩
      have hst := append_store grow m t { s0 with len := i } post hwf hs hpost
      have hl : (m.append grow { s0 with len := i } post).2.len = i + post.length :=
        (append_spec grow m { s0 with len := i } post
          (by show i ≤ (m.arrays s0.array).length; omega)
          (fun _ => by show s0.cap = _; exact w3) (fun _ => w4)).2.2.2.2.1
      have herase : (m.observersOf t).erase observer = pre ++ post := by
        rw [he, hsplit]
        exact erase_split pre post observer hpre
      rw [herase]
      have hrem : BusMemory.removeAt grow m t s0 i =
          { (m.append grow { s0 with len := i } post).1 with
            observers := (Function.update (m.append grow { s0 with len := i } post).1.observers
              t (some (m.append grow { s0 with len := i } post).2)) } := by
        unfold BusMemory.removeAt
        rw [hdrop]
      have hdef : (m.unsubscribeLocked grow t observer).1 =
          BusMemory.dropEmpty (BusMemory.removeAt grow m t s0 i) t := by
        simp [BusMemory.unsubscribeLocked, h0, hsc]
      rw [hdef, hrem]
      by_cases hz : i + post.length = 0
      · have hp0 : pre = [] := List.length_eq_zero.mp (by omega)
        have hq0 : post = [] := List.length_eq_zero.mp (by omega)
        have h2 := hst.2
        have hd : BusMemory.dropEmpty
            { (m.append grow { s0 with len := i } post).1 with
              observers := (Function.update (m.append grow { s0 with len := i } post).1.observers
                t (some (m.append grow { s0 with len := i } post).2)) } t =
            { (m.append grow { s0 with len := i } post).1 with
              observers := (Function.update (m.append grow { s0 with len := i } post).1.observers
                t none) } := by
          unfold BusMemory.dropEmpty
          simp only [Function.update_same, Option.getD_some, hl, hz, if_true,
            Function.update_idem]
        have hnil : pre ++ post = [] := by rw [hp0, hq0]; rfl
        rw [hd, hnil]
        exact h2
      · have hd : BusMemory.dropEmpty
            { (m.append grow { s0 with len := i } post).1 with
              observers := (Function.update (m.append grow { s0 with len := i } post).1.observers
                t (some (m.append grow { s0 with len := i } post).2)) } t =
            { (m.append grow { s0 with len := i } post).1 with
              observers := (Function.update (m.append grow { s0 with len := i } post).1.observers
                t (some (m.append grow { s0 with len := i } post).2)) } := by
          unfold BusMemory.dropEmpty
          simp only [Function.update_same, Option.getD_some, hl, hz, if_false]
        rw [hd]
        have h1 := hst.1 (by show 0 < i + post.length; omega)
        have : (m.arrays ({ s0 with len := i } : ObserverSlice).array).take
            ({ s0 with len := i } : ObserverSlice).len = pre := htk
        rw [this] at h1
        exact h1

theorem clearLocked_step (m : BusMemory) :
    m.Step m.clearLocked (BusAction.clear.effect m.observersOf) := by
  refine ⟨⟨?_, ?_⟩, ?_, le_refl _, ?_⟩
  · intro t s h
    simp [BusMemory.clearLocked] at h
  · intro t1 t2 s1 s2 h
    simp [BusMemory.clearLocked] at h
  · funext t
    simp [BusMemory.clearLocked, BusMemory.observersOf, BusAction.effect]
  · intro a ha
    refine ⟨⟨ha.1, ?_⟩, rfl⟩
    intro t s h
    simp [BusMemory.clearLocked] at h

theorem act_spec (grow : Nat → Nat → Nat) (w : MemWorld) (a : BusAction)
    (hf : w.bus.mutex = ⟨0, false⟩) (hwf : w.bus.mem.WF) :
    ∃ w2, w.act grow a = some w2 ∧ w2.bus.mutex = ⟨0, false⟩ ∧
      w.bus.mem.Step w2.bus.mem (a.effect w.bus.mem.observersOf) ∧
      w2.script = w.script ∧ w2.fails = w.fails := by
  cases a with
  | subscribe t o =>
    refine ⟨{ w with bus := ⟨(w.bus.mem.subscribeLocked grow t o).1, ⟨0, false⟩⟩ }, ?_, rfl,
      subscribeLocked_step grow w.bus.mem t o hwf, rfl, rfl⟩
    simp [MemWorld.act, LockedBus.Subscribe, RWMutex.Lock, RWMutex.Unlock, hf]
  | unsubscribe t o =>
    refine ⟨{ w with bus := ⟨(w.bus.mem.unsubscribeLocked grow t o).1, ⟨0, false⟩⟩ }, ?_, rfl,
      unsubscribeLocked_step grow w.bus.mem t o hwf, rfl, rfl⟩
    simp [MemWorld.act, LockedBus.Unsubscribe, RWMutex.Lock, RWMutex.Unlock, hf]
  | clear =>
    refine ⟨{ w with bus := ⟨w.bus.mem.clearLocked, ⟨0, false⟩⟩ }, ?_, rfl,
      clearLocked_step w.bus.mem, rfl, rfl⟩
    simp [MemWorld.act, LockedBus.Clear, RWMutex.Lock, RWMutex.Unlock, hf]

theorem script_spec (grow : Nat → Nat → Nat) :
    ∀ (as : List BusAction) (w : MemWorld), w.bus.mutex = ⟨0, false⟩ → w.bus.mem.WF →
      ∃ w2, as.foldlM (MemWorld.act grow) w = some w2 ∧ w2.bus.mutex = ⟨0, false⟩ ∧
        w.bus.mem.Step w2.bus.mem (as.foldl (fun f a => a.effect f) w.bus.mem.observersOf) ∧
        w2.script = w.script ∧ w2.fails = w.fails := by
  intro as
  induction as with
  | nil =>
    intro w hf hwf
    exact ⟨w, rfl, hf, Step_refl _ hwf, rfl, rfl⟩
  | cons a rest ih =>
    intro w hf hwf
    obtain ⟨w1, h1, hf1, hs1, hsc1, hfl1⟩ := act_spec grow w a hf hwf
    obtain ⟨w2, h2, hf2, hs2, hsc2, hfl2⟩ := ih w1 hf1 hs1.1
    refine ⟨w2, ?_, hf2, ?_, by rw [hsc2, hsc1], by rw [hfl2, hfl1]⟩
    · rw [List.foldlM_cons, h1]
      exact h2
    · rw [hs1.2.1] at hs2
      exact Step_trans _ _ _ _ _ hs1 hs2

theorem OnNotify_spec (grow : Nat → Nat → Nat) (o : Ref) (event : Event) (w : MemWorld)
    (hf : w.bus.mutex = ⟨0, false⟩) (hwf : w.bus.mem.WF) :
    ∃ r, MemWorld.OnNotify grow o event w = some r ∧ r.1.bus.mutex = ⟨0, false⟩ ∧
      w.bus.mem.Step r.1.bus.mem
        ((w.script o).foldl (fun f a => a.effect f) w.bus.mem.observersOf) ∧
      r.1.script = w.script ∧ r.1.fails = w.fails ∧
      r.2 = (if w.fails o then some "observer error" else none) := by
  obtain ⟨w2, h2, hf2, hs2, hsc2, hfl2⟩ := script_spec grow (w.script o)
    { w with received := Function.update w.received o (w.received o ++ [event]) } hf hwf
  refine ⟨(w2, if w.fails o then some "observer error" else none), ?_, hf2, hs2, hsc2, hfl2,
    rfl⟩
  unfold MemWorld.OnNotify
  rw [h2]
  rfl

theorem deliver_loop (grow : Nat → Nat → Nat) (event : Event) (c : ObserverSlice)
    (snap : List (Option Ref)) :
    ∀ (rest : List Ref) (k : Nat) (st : MemWorld × List (Ref × error) × List String),
      st.1.bus.mutex = ⟨0, false⟩ → st.1.bus.mem.WF → st.1.bus.mem.Private c.array →
      st.1.bus.mem.arrays c.array = snap → snap.drop k = rest.map some →
      ∃ r, (List.range' k rest.length).foldlM (MemWorld.deliverStep grow event c) st = some r ∧
        r.1.bus.mutex = ⟨0, false⟩ ∧ r.1.bus.mem.WF ∧ r.1.bus.mem.Private c.array ∧
        r.1.bus.mem.arrays c.array = snap ∧
        r.2.1.map Prod.fst = st.2.1.map Prod.fst ++ rest ∧
        (∀ d ∈ r.2.1, d ∈ st.2.1 ∨
          d.2 = (if st.1.fails d.1 then some "observer error" else none)) ∧
        r.1.bus.mem.observersOf =
          (rest.flatMap st.1.script).foldl (fun f a => a.effect f) st.1.bus.mem.observersOf ∧
        r.1.script = st.1.script ∧ r.1.fails = st.1.fails := by
  intro rest
  induction rest with
  | nil =>
    intro k st hf hwf hp ha _
    exact ⟨st, rfl, hf, hwf, hp, ha, by simp, fun d hd => Or.inl hd, rfl, rfl, rfl⟩
  | cons o rest ih =>
    intro k st hf hwf hp ha hdrop
    have hget : (st.1.bus.mem.arrays c.array).getD k none = some o := by
      rw [ha]
      have h1 : snap.getD k none = (snap.drop k).getD 0 none := by
        simp [List.getD_eq_getElem?_getD]
      rw [h1, hdrop]
      rfl
    have hdrop2 : snap.drop (k + 1) = rest.map some := by
      have : snap.drop (k + 1) = (snap.drop k).drop 1 := by
        rw [List.drop_drop, Nat.add_comm]
      rw [this, hdrop]
      rfl
    obtain ⟨r1, h1, hf1, hs1, hsc1, hfl1, herr1⟩ := OnNotify_spec grow o event st.1 hf hwf
    obtain ⟨hp1, ha1⟩ := hs1.2.2.2 c.array hp
    have hstep : ∃ st1, MemWorld.deliverStep grow event c st k = some st1 ∧ st1.1 = r1.1 ∧
        st1.2.1 = st.2.1 ++ [(o, r1.2)] := by
      unfold MemWorld.deliverStep
      rw [hget]
      simp only [h1]
      cases hr : r1.2 with
      | none => exact ⟨_, rfl, rfl, rfl⟩
      | some err => exact ⟨_, rfl, rfl, rfl⟩
    obtain ⟨st1, hst1, hw1, hd1⟩ := hstep
    obtain ⟨r, hr, hfr, hwfr, hpr, har, hdel, herr, hobs, hscr, hflr⟩ := ih (k + 1) st1
      (by rw [hw1]; exact hf1) (by rw [hw1]; exact hs1.1) (by rw [hw1]; exact hp1)
      (by rw [hw1, ha1]; exact ha) hdrop2
    refine ⟨r, ?_, hfr, hwfr, hpr, har, ?_, ?_, ?_, ?_, ?_⟩
    · rw [List.length_cons, List.range'_succ, List.foldlM_cons, hst1]
      exact hr
    · rw [hdel, hd1]
      simp
    · intro d hd
      rcases herr d hd with h | h
      · rw [hd1] at h
        rcases List.mem_append.mp h with h | h
        · exact Or.inl h
        · right
          rw [List.mem_singleton] at h
          rw [h]
          exact herr1
      · right
        rw [h, hw1, hfl1]
    · rw [hobs, hw1, hs1.2.1, hsc1]
      simp [List.flatMap_cons, List.foldl_append]
    · rw [hscr, hw1, hsc1]
    · rw [hflr, hw1, hfl1]

theorem somes_of_no_none : ∀ (l : List (Option Ref)), (∀ x ∈ l, x ≠ none) →
    ∃ refs : List Ref, l = refs.map some := by
  intro l
  induction l with
  | nil => intro _; exact ⟨[], rfl⟩
  | cons x rest ih =>
    intro h
    obtain ⟨refs, hrefs⟩ := ih (fun y hy => h y (List.mem_cons_of_mem _ hy))
    cases hx : x with
    | none => exact absurd hx (h x (List.mem_cons_self _ _))
    | some o => exact ⟨o :: refs, by rw [hrefs]; rfl⟩

theorem alloc_private (m : BusMemory) (content : List (Option Ref)) (hwf : m.WF) :
    ({ m with arrays := (Function.update m.arrays m.next content),
              next := m.next + 1 } : BusMemory).WF ∧
    ({ m with arrays := (Function.update m.arrays m.next content),
              next := m.next + 1 } : BusMemory).Private m.next ∧
    ({ m with arrays := (Function.update m.arrays m.next content),
              next := m.next + 1 } : BusMemory).observersOf = m.observersOf := by
  have hne : ∀ t s, m.observers t = some s → s.array ≠ m.next := by
    intro t s h heq
    have := (hwf.1 t s h).2.2.2.1
    rw [heq] at this
    exact lt_irrefl _ this
  refine ⟨⟨?_, ?_⟩, ⟨Nat.lt_succ_self _, hne⟩, ?_⟩
  · intro t s h
    obtain ⟨a1, a2, a3, a4, a5⟩ := hwf.1 t s h
    have hu : Function.update m.arrays m.next content s.array = m.arrays s.array :=
      Function.update_noteq (hne t s h) _ _
    refine ⟨a1, a2, ?_, Nat.lt_succ_of_lt a4, ?_⟩
    · show s.cap = (Function.update m.arrays m.next content s.array).length
      rw [hu]; exact a3
    · show ∀ x ∈ (Function.update m.arrays m.next content s.array).take s.len, x ≠ none
      rw [hu]; exact a5
  · exact hwf.2
  · funext t
    unfold BusMemory.observersOf
    cases h : m.observers t with
    | none => simp [h]
    | some s =>
      simp only [h]
      show (Function.update m.arrays m.next content s.array).take s.len = _
      rw [Function.update_noteq (hne t s h)]

theorem Notify_core (grow : Nat → Nat → Nat) (event : Event) (w : MemWorld)
    (hfree : w.bus.mutex = ⟨0, false⟩) (hwf : w.bus.mem.WF) :
    ∃ r, MemWorld.Notify grow event w = some r ∧
      r.2.1.map (fun d => some d.1) = w.bus.mem.observersOf event.Type_ ∧
      (∀ d ∈ r.2.1, d.2 = (if w.fails d.1 then some "observer error" else none)) ∧
      r.1.bus.mem.observersOf =
        ((r.2.1.map Prod.fst).flatMap w.script).foldl (fun f a => a.effect f)
          w.bus.mem.observersOf ∧
      r.1.bus.mutex = ⟨0, false⟩ ∧ r.1.bus.mem.WF ∧ r.1.script = w.script ∧
      r.1.fails = w.fails := by
  cases hlook : w.bus.mem.observers event.Type_ with
  | none =>
    refine ⟨({ w with bus := { w.bus with mutex := ⟨0, false⟩ } }, [], none), ?_, ?_, ?_, rfl,
      rfl, hwf, rfl, rfl⟩
    · simp [MemWorld.Notify, RWMutex.RLock, RWMutex.RUnlock, hfree, hlook]
    · simp [BusMemory.observersOf, hlook]
    · simp
  | some s =>
    obtain ⟨a1, a2, a3, a4, a5⟩ := hwf.1 _ s hlook
    obtain ⟨refs, hrefs⟩ := somes_of_no_none _ a5
    have hlen : refs.length = s.len := by
      have := congrArg List.length hrefs
      simp only [List.length_take, List.length_map] at this
      omega
    have hcopy : MemWorld.goCopy (List.replicate s.len none)
        ((w.bus.mem.arrays s.array).take s.len) = refs.map some := by
      unfold MemWorld.goCopy
      rw [hrefs]
      simp [hlen]
    obtain ⟨hwf1, hp1, hobs1⟩ := alloc_private w.bus.mem (refs.map some) hwf
    obtain ⟨r, hr, hfr, hwfr, _, _, hdel, herr, hobs, hscr, hflr⟩ :=
      deliver_loop grow event ⟨w.bus.mem.next, s.len, s.len⟩ (refs.map some) refs 0
        ({ w with bus := ⟨{ w.bus.mem with
            arrays := (Function.update w.bus.mem.arrays w.bus.mem.next (refs.map some)),
            next := w.bus.mem.next + 1 }, ⟨0, false⟩⟩ }, [], [])
        rfl hwf1 hp1 (by simp) (by simp)
    have hdel2 : r.2.1.map Prod.fst = refs := by simpa using hdel
    have hsnap : w.bus.mem.observersOf event.Type_ = refs.map some := by
      simp [BusMemory.observersOf, hlook, hrefs]
    have hrun : MemWorld.Notify grow event w =
        some (r.1, r.2.1, if r.2.2.length > 0 then
          some ("notification errors occurred: [" ++ " ".intercalate r.2.2 ++ "]")
          else none) := by
      unfold MemWorld.Notify
      simp only [RWMutex.RLock, RWMutex.RUnlock, hfree, hlook, hcopy]
      rw [← hlen] at hr ⊢
      rw [List.range_eq_range']
      simp only [Bool.false_eq_true, if_false, Nat.zero_add, Nat.lt_add_one, if_true,
        Nat.add_sub_cancel]
      simp only [hr]
      split <;> rfl
    refine ⟨_, hrun, ?_, ?_, ?_, hfr, hwfr, hscr, hflr⟩
    · rw [hsnap, ← hdel2]
      simp
    · intro d hd
      rcases herr d hd with h | h
      · simp at h
      · exact h
    · rw [hobs, hobs1, hdel2]

/-- C17: `Notify` delivers to a snapshot, in the memory of the bus.  Let the bus be unlocked and
its memory well formed, as they are for a new bus and after every call that returns, and let
every observer, while it handles the event, make any calls of `Subscribe`, `Unsubscribe` and
`Clear`, for any event type and any observer.  Then `Notify(event)` returns, so that none of
these calls meets a lock that is held; the observers it calls are exactly the elements of the
slice of `event.Type` when the call started, each once and in order, although `Unsubscribe` and
`Subscribe` write into the array of that slice while the delivery runs; and afterwards the
lists of the bus are what the calls of the notified observers, taken in order, make of the
lists at the start, which is what a later `Notify` delivers to. -/
theorem Notify_delivers_to_snapshot (grow : Nat → Nat → Nat) (event : Event) (w : MemWorld)
    (hfree : w.bus.mutex = ⟨0, false⟩) (hwf : w.bus.mem.WF) :
    (∃ r, MemWorld.Notify grow event w = some r ∧
      r.2.1.map (fun d => some d.1) = w.bus.mem.observersOf event.Type_ ∧
      (∀ d ∈ r.2.1, d.2 = (if w.fails d.1 then some "observer error" else none)) ∧
      r.1.bus.mem.observersOf =
        ((r.2.1.map Prod.fst).flatMap w.script).foldl (fun f a => a.effect f)
          w.bus.mem.observersOf ∧
      r.1.bus.mutex = ⟨0, false⟩ ∧ r.1.bus.mem.WF ∧
      ∃ r2, MemWorld.Notify grow event r.1 = some r2 ∧
        r2.2.1.map (fun d => some d.1) =
          ((r.2.1.map Prod.fst).flatMap w.script).foldl (fun f a => a.effect f)
            w.bus.mem.observersOf event.Type_) ∧
    (LockedBus.New.mutex = ⟨0, false⟩ ∧ LockedBus.New.mem.WF) ∧
    (∀ a : BusAction, ∃ w2, w.act grow a = some w2 ∧ w2.bus.mutex = ⟨0, false⟩ ∧
      w2.bus.mem.WF ∧ w2.bus.mem.observersOf = a.effect w.bus.mem.observersOf) := by
  refine ⟨?_, ⟨rfl, ?_⟩, ?_⟩
  · obtain ⟨r, hr, h1, h2, h3, h4, h5, _, _⟩ := Notify_core grow event w hfree hwf
    obtain ⟨r2, hr2, k1, _⟩ := Notify_core grow event r.1 h4 h5
    refine ⟨r, hr, h1, h2, h3, h4, h5, r2, hr2, ?_⟩
    rw [k1, h3]
  · constructor
    · intro t s h
      simp [LockedBus.New] at h
    · intro t1 t2 s1 s2 h
      simp [LockedBus.New] at h
  · intro a
    obtain ⟨w2, h1, h2, h3, _, _⟩ := act_spec grow w a hfree hwf
    exact ⟨w2, h1, h2, h3.1, h3.2.1⟩

theorem New_WF : LockedBus.New.mem.WF := by
  constructor
  · intro t s h
    simp [LockedBus.New] at h
  · intro t1 t2 s1 s2 h
    simp [LockedBus.New] at h

theorem reentrantMemory_WF : reentrantMemory.bus.mem.WF :=
  (subscribeLocked_step doubling _ "test_event" (some 2)
    (subscribeLocked_step doubling _ "test_event" (some 1)
      (subscribeLocked_step doubling _ "test_event" (some 0) New_WF).1).1).1

theorem Notify_delivers_to_snapshot_witness :
    ∃ r, MemWorld.Notify doubling testEvent reentrantMemory = some r ∧
      reentrantMemory.bus.mem.observersOf "test_event" = [some 0, some 1, some 2] ∧
      reentrantMemory.bus.mem.observers "test_event" = some ⟨2, 3, 4⟩ ∧
      r.2.1.map Prod.fst = [0, 1, 2] ∧
      r.1.bus.mem.arrays 2 = [some 2, some 7, some 7, none] ∧
      r.1.bus.mem.observersOf "test_event" = [some 2, some 7] ∧
      ∃ r2, MemWorld.Notify doubling testEvent r.1 = some r2 ∧
        r2.2.1.map (fun d => some d.1) = [some 2, some 7] := by
  obtain ⟨r, hr, h1, _, h3, _, _, r2, hr2, h8⟩ :=
    (Notify_delivers_to_snapshot doubling testEvent reentrantMemory rfl reentrantMemory_WF).1
  have hsnap : reentrantMemory.bus.mem.observersOf "test_event" = [some 0, some 1, some 2] := by
    decide
  have heval : (MemWorld.Notify doubling testEvent reentrantMemory).map
      (fun r => (r.2.1.map Prod.fst, r.1.bus.mem.arrays 2)) =
      some ([0, 1, 2], [some 2, some 7, some 7, none]) := by
    decide
  rw [hr] at heval
  have hd : r.2.1.map Prod.fst = [0, 1, 2] := congrArg Prod.fst (Option.some.inj heval)
  have ha : r.1.bus.mem.arrays 2 = [some 2, some 7, some 7, none] :=
    congrArg Prod.snd (Option.some.inj heval)
  have hfin : ((r.2.1.map Prod.fst).flatMap reentrantMemory.script).foldl
      (fun f a => a.effect f) reentrantMemory.bus.mem.observersOf "test_event" =
      [some 2, some 7] := by
    rw [hd]
    decide
  refine ⟨r, hr, hsnap, by decide, hd, ha, ?_, r2, hr2, ?_⟩
  · rw [h3]
    exact hfin
  · rw [h8]
    exact hfin

end Arpg
